import Mathlib

/-!
# Armature evaluation core: `source/blender/blenkernel/intern/armature.c`

Shallow embedding of the rest-pose propagator, the roll-to-matrix solver, the
parent-transform composer and the pose solver, with the properties the
specification states about them.

Conventions.
* A C array `float m[3][3]` / `float m[4][4]` is a `Matrix` indexed in the same
  order as in C: `m i j` is `m[i][j]`, so `m i` is the i-th axis vector of the
  transform and `m 3` (for 4x4) is its translation.
* `float` is an arbitrary linearly ordered field `R`; the libm functions the
  source calls (`sqrtf`, `sinf`, `cosf`, `atan2f`) are the fields of a
  `FloatMath R` record.  The exact model `FloatMath.Exact` takes `R = ℝ` and the
  real functions.
* The vector and matrix primitives of the BLI math library are not part of the
  sources at hand; they are modelled as the operations the specification names
  (product, inverse, normalization, rotation about an axis).
* A bone tree is an inductive tree (`childbase`); a pose is the list `chanbase`, a
  pointer to a channel being the name of that channel.  A function that would
  dereference a NULL pointer returns `none`.
* The constraint solver, the IK solvers, the rotation conversions and the pose
  rebuild are parameters (`PoseExternals`).
-/

namespace Armature

/-! ## Scalars, vectors, matrices -/

/-- The libm functions called by the armature code. -/
structure FloatMath (R : Type) where
  sqrtf : R → R
  sinf : R → R
  cosf : R → R
  atan2f : R → R → R

/-- Floats modelled as reals: every libm function is the real function
(`atan2f y x` is the argument of `x + i y`, in `(-π, π]`, and `0` at the origin). -/
def FloatMath.Exact (fm : FloatMath ℝ) : Prop :=
  (∀ x, fm.sqrtf x = Real.sqrt x) ∧ (∀ x, fm.sinf x = Real.sin x) ∧
  (∀ x, fm.cosf x = Real.cos x) ∧ (∀ y x, fm.atan2f y x = Complex.arg ⟨x, y⟩)

abbrev V3 (R : Type) := Fin 3 → R
abbrev M3 (R : Type) := Matrix (Fin 3) (Fin 3) R
abbrev M4 (R : Type) := Matrix (Fin 4) (Fin 4) R

section Primitives

variable {R : Type} [LinearOrderedField R]

/-- Modelled from the spec: `dot_v3v3` of the geometry primitives (BLI math library,
not part of the sources at hand): the scalar product. -/
def dot_v3v3 (a b : V3 R) : R := a 0 * b 0 + a 1 * b 1 + a 2 * b 2

/-- Modelled from the spec: `len_v3` of the geometry primitives: the Euclidean length. -/
def len_v3 (fm : FloatMath R) (a : V3 R) : R := fm.sqrtf (dot_v3v3 a a)

/-- Modelled from the spec: `normalize_v3_v3` of the geometry primitives: the vector
divided by its length ("the normalized direction"). -/
def normalize_v3_v3 (fm : FloatMath R) (a : V3 R) : V3 R :=
  fun i => a i / fm.sqrtf (dot_v3v3 a a)

/-- Modelled from the spec: `sub_v3_v3v3` of the geometry primitives. -/
def sub_v3_v3v3 (a b : V3 R) : V3 R := fun i => a i - b i

/-- Modelled from the spec: `add_v3_v3v3` of the geometry primitives. -/
def add_v3_v3v3 (a b : V3 R) : V3 R := fun i => a i + b i

/-- Modelled from the spec: `mul_v3_fl` of the geometry primitives (scaling). -/
def mul_v3_fl (a : V3 R) (f : R) : V3 R := fun i => a i * f

/-- Modelled from the spec: `unit_m3`, the identity. -/
def unit_m3 : M3 R := 1

/-- Modelled from the spec: `unit_m4`, the identity. -/
def unit_m4 : M4 R := 1

/-- Modelled from the spec: `mul_m3_m3m3(r, a, b)` of the geometry primitives, the
matrix product "a times b" of the transforms: on the C arrays
`r[i][j] = sum_k b[i][k] * a[k][j]`. -/
def mul_m3_m3m3 (a b : M3 R) : M3 R := b * a

/-- Modelled from the spec: `mul_m4_m4m4(r, a, b)` of the geometry primitives, the
matrix product "a times b" of the transforms: on the C arrays
`r[i][j] = sum_k b[i][k] * a[k][j]`. -/
def mul_m4_m4m4 (a b : M4 R) : M4 R := b * a

/-- Modelled from the spec: `invert_m3_m3` of the geometry primitives: the inverse
matrix, adjugate over determinant. -/
def invert_m3_m3 (m : M3 R) : M3 R := m.det⁻¹ • m.adjugate

/-- Modelled from the spec: `invert_m4_m4` of the geometry primitives: the inverse
matrix, adjugate over determinant. -/
def invert_m4_m4 (m : M4 R) : M4 R := m.det⁻¹ • m.adjugate

/-- Modelled from the spec: `copy_m4_m3` of the geometry primitives: the 3x3 part is
copied, the rest is that of the identity. -/
def copy_m4_m3 (m : M3 R) : M4 R :=
  !![m 0 0, m 0 1, m 0 2, 0;
     m 1 0, m 1 1, m 1 2, 0;
     m 2 0, m 2 1, m 2 2, 0;
     0, 0, 0, 1]

/-- Modelled from the spec: `copy_m3_m4` of the geometry primitives: the upper-left
3x3 part. -/
def copy_m3_m4 (m : M4 R) : M3 R :=
  !![m 0 0, m 0 1, m 0 2;
     m 1 0, m 1 1, m 1 2;
     m 2 0, m 2 1, m 2 2]

/-- The xyz part of an axis `m[i]` of a 4x4 matrix, as read by `copy_v3_v3(v, m[i])`. -/
def m4_axis (m : M4 R) (i : Fin 4) : V3 R := ![m i 0, m i 1, m i 2]

/-- The write `copy_v3_v3(m[3], v)`: the xyz translation is replaced, `m[3][3]` kept. -/
def m4_set_loc (m : M4 R) (v : V3 R) : M4 R :=
  !![m 0 0, m 0 1, m 0 2, m 0 3;
     m 1 0, m 1 1, m 1 2, m 1 3;
     m 2 0, m 2 1, m 2 2, m 2 3;
     v 0, v 1, v 2, m 3 3]

/-- Modelled from the spec: `mul_v3_m4v3(r, m, v)` of the geometry primitives: the
4x4 transform applied to `v` as a point. -/
def mul_v3_m4v3 (m : M4 R) (v : V3 R) : V3 R :=
  fun j => v 0 * m 0 (Fin.castSucc j) + v 1 * m 1 (Fin.castSucc j)
    + v 2 * m 2 (Fin.castSucc j) + m 3 (Fin.castSucc j)

/-- Modelled from the spec: `axis_angle_normalized_to_mat3` of the geometry primitives:
the rotation by `angle` about the unit vector `axis` (Rodrigues formula). -/
def axis_angle_normalized_to_mat3 (fm : FloatMath R) (axis : V3 R) (angle : R) : M3 R :=
  let angle_sin := fm.sinf angle
  let angle_cos := fm.cosf angle
  let ico := 1 - angle_cos
  let nsi : V3 R := fun i => axis i * angle_sin
  let n_00 := (axis 0 * axis 0) * ico
  let n_01 := (axis 0 * axis 1) * ico
  let n_11 := (axis 1 * axis 1) * ico
  let n_02 := (axis 0 * axis 2) * ico
  let n_12 := (axis 1 * axis 2) * ico
  let n_22 := (axis 2 * axis 2) * ico
  !![n_00 + angle_cos, n_01 + nsi 2, n_02 - nsi 1;
     n_01 - nsi 2, n_11 + angle_cos, n_12 + nsi 0;
     n_02 + nsi 1, n_12 - nsi 0, n_22 + angle_cos]

end Primitives

/-! ## Roll-to-matrix solver -/

section Roll

variable {R : Type} [LinearOrderedField R]

/-- The constant `THETA_THRESHOLD_NEGY` (`1.0e-9f`). -/
def THETA_THRESHOLD_NEGY : R := 1 / 10 ^ 9

/-- The constant `THETA_THRESHOLD_NEGY_CLOSE` (`1.0e-5f`). -/
def THETA_THRESHOLD_NEGY_CLOSE : R := 1 / 10 ^ 5

/-- The local `bMatrix` of `vec_roll_to_mat3_normalized`: the roll-free basis for
the unit vector `nor`, in the three branches of the source. -/
def vec_roll_bMatrix (nor : V3 R) : M3 R :=
  let theta := 1 + nor 1
  if theta > THETA_THRESHOLD_NEGY_CLOSE ∨
      ((nor 0 ≠ 0 ∨ nor 2 ≠ 0) ∧ theta > THETA_THRESHOLD_NEGY) then
    if theta > THETA_THRESHOLD_NEGY_CLOSE then
      !![1 - nor 0 * nor 0 / theta, -nor 0, -nor 0 * nor 2 / theta;
         nor 0, nor 1, nor 2;
         -nor 0 * nor 2 / theta, -nor 2, 1 - nor 2 * nor 2 / theta]
    else
      let theta2 := nor 0 * nor 0 + nor 2 * nor 2
      let b00 := (nor 0 + nor 2) * (nor 0 - nor 2) / -theta2
      !![b00, -nor 0, 2 * nor 0 * nor 2 / theta2;
         nor 0, nor 1, nor 2;
         2 * nor 0 * nor 2 / theta2, -nor 2, -b00]
  else
    !![-1, 0, 0;
       0, -1, 0;
       0, 0, 1]

/-- The function `vec_roll_to_mat3_normalized`. -/
def vec_roll_to_mat3_normalized (fm : FloatMath R) (nor : V3 R) (roll : R) : M3 R :=
  let bMatrix := vec_roll_bMatrix nor
  let rMatrix := axis_angle_normalized_to_mat3 fm nor roll
  mul_m3_m3m3 rMatrix bMatrix

/-- The function `vec_roll_to_mat3`. -/
def vec_roll_to_mat3 (fm : FloatMath R) (vec : V3 R) (roll : R) : M3 R :=
  let nor := normalize_v3_v3 fm vec
  vec_roll_to_mat3_normalized fm nor roll

/-- The function `mat3_vec_to_roll`. -/
def mat3_vec_to_roll (fm : FloatMath R) (mat : M3 R) (vec : V3 R) : R :=
  let vecmat := vec_roll_to_mat3 fm vec 0
  let vecmatinv := invert_m3_m3 vecmat
  let rollmat := mul_m3_m3m3 vecmatinv mat
  fm.atan2f (rollmat 2 0) (rollmat 2 2)

/-- The function `mat3_to_vec_roll`, called with both output pointers:
the pair `(r_vec, r_roll)`. -/
def mat3_to_vec_roll (fm : FloatMath R) (mat : M3 R) : V3 R × R :=
  (mat 1, mat3_vec_to_roll fm mat (mat 1))

end Roll

/-- The determinant of the 3x3 matrix with rows `u`, `v`, `w`. -/
def det3 {R : Type} [LinearOrderedField R] (u v w : V3 R) : R :=
  u 0 * v 1 * w 2 + u 1 * v 2 * w 0 + u 2 * v 0 * w 1
    - u 2 * v 1 * w 0 - u 1 * v 0 * w 2 - u 0 * v 2 * w 1

/-- Orthonormality of a 3x3 basis: the three axes `m[0]`, `m[1]`, `m[2]` (the columns
of the transform) have unit length and are mutually perpendicular, and the
determinant is 1. -/
def IsOrthonormalM3 {R : Type} [LinearOrderedField R] (m : M3 R) : Prop :=
  (∀ i, dot_v3v3 (m i) (m i) = 1) ∧ (∀ i j, i ≠ j → dot_v3v3 (m i) (m j) = 0) ∧ m.det = 1

/-! ## Flags and enum values (DNA headers) -/

/-- Bone flag `BONE_CONNECTED` (`1 << 4`). -/
def BONE_CONNECTED : Nat := 16
/-- Bone flag `BONE_HINGE` (`1 << 9`). -/
def BONE_HINGE : Nat := 512
/-- Bone flag `BONE_NO_SCALE` (`1 << 15`). -/
def BONE_NO_SCALE : Nat := 32768
/-- Bone flag `BONE_NO_CYCLICOFFSET` (`1 << 18`). -/
def BONE_NO_CYCLICOFFSET : Nat := 262144
/-- Bone flag `BONE_NO_LOCAL_LOCATION` (`1 << 22`). -/
def BONE_NO_LOCAL_LOCATION : Nat := 4194304
/-- Pose flag `POSE_RECALC` (`1 << 0`). -/
def POSE_RECALC : Nat := 1
/-- Pose channel flag `POSE_CHAIN` (`1 << 9`). -/
def POSE_CHAIN : Nat := 512
/-- Pose channel flag `POSE_DONE` (`1 << 10`). -/
def POSE_DONE : Nat := 1024
/-- Pose channel flag `POSE_IKTREE` (`1 << 13`). -/
def POSE_IKTREE : Nat := 8192
/-- Pose channel flag `POSE_IKSPLINE` (`1 << 15`). -/
def POSE_IKSPLINE : Nat := 32768
/-- Armature flag `ARM_RESTPOS` (`1 << 0`). -/
def ARM_RESTPOS : Nat := 1
/-- Object type `OB_ARMATURE`. -/
def OB_ARMATURE : Nat := 25
/-- Rotation mode `ROT_MODE_AXISANGLE`. -/
def ROT_MODE_AXISANGLE : Int := -1
/-- Bone flag `BONE_MULT_VG_ENV` (`1 << 11`). -/
def BONE_MULT_VG_ENV : Nat := 2048
/-- Bone flag `BONE_NO_DEFORM` (`1 << 12`). -/
def BONE_NO_DEFORM : Nat := 4096
/-- Deform flag `ARM_DEF_VGROUP` (`1 << 0`). -/
def ARM_DEF_VGROUP : Nat := 1
/-- Deform flag `ARM_DEF_ENVELOPE` (`1 << 1`). -/
def ARM_DEF_ENVELOPE : Nat := 2
/-- Deform flag `ARM_DEF_QUATERNION` (`1 << 2`). -/
def ARM_DEF_QUATERNION : Nat := 4
/-- Deform flag `ARM_DEF_INVERT_VGROUP` (`1 << 4`). -/
def ARM_DEF_INVERT_VGROUP : Nat := 16
/-- Object type `OB_MESH`. -/
def OB_MESH : Nat := 1
/-- Object type `OB_LATTICE`. -/
def OB_LATTICE : Nat := 22
/-- Object type `OB_GPENCIL`. -/
def OB_GPENCIL : Nat := 26

/-- The C test `flag & mask` (non-zero is true). -/
def has_flag (flag mask : Nat) : Bool := flag &&& mask != 0

/-- The C update `flag &= ~mask`. -/
def clear_flag (flag mask : Nat) : Nat := flag - (flag &&& mask)

/-! ## Rest-pose data -/

/-- The fields of `struct Bone` used by the evaluation core, without the links. -/
structure BoneData (R : Type) where
  name : String
  flag : Nat
  head : V3 R
  tail : V3 R
  roll : R
  length : R
  xwidth : R
  zwidth : R
  segments : Nat
  bone_mat : M3 R
  arm_mat : M4 R
  arm_head : V3 R
  arm_tail : V3 R
  rad_head : R
  rad_tail : R
  dist : R
  weight : R

/-- A bone with its `childbase` list; the `parent` link of a child is the bone
that holds it. -/
inductive Bone (R : Type) where
  | mk (d : BoneData R) (childbase : List (Bone R)) : Bone R

/-- The fields of a bone. -/
def Bone.data {R : Type} : Bone R → BoneData R
  | .mk d _ => d

/-- The children of a bone. -/
def Bone.childbase {R : Type} : Bone R → List (Bone R)
  | .mk _ cs => cs

/-- The fields of `struct bArmature` used by the evaluation core; `edbo` is true when
the edit-bone list pointer is set. -/
structure bArmature (R : Type) where
  bonebase : List (Bone R)
  flag : Nat
  edbo : Bool

section Rest

variable {R : Type} [LinearOrderedField R]

/-- The function `BKE_bone_offset_matrix_get`; `parent` is `bone->parent`. -/
def BKE_bone_offset_matrix_get (bone parent : BoneData R) : M4 R :=
  let offs_bone := copy_m4_m3 bone.bone_mat
  let offs_bone := m4_set_loc offs_bone bone.head
  m4_set_loc offs_bone ![offs_bone 3 0, offs_bone 3 1 + parent.length, offs_bone 3 2]

/-- The body of `BKE_armature_where_is_bone` before the loop over the children:
the new fields of `bone`, given `prevbone`. -/
def where_is_bone_data (fm : FloatMath R) (bone : BoneData R) (prevbone : Option (BoneData R)) :
    BoneData R :=
  let vec := sub_v3_v3v3 bone.tail bone.head
  let bone := { bone with length := len_v3 fm vec }
  let bone := { bone with bone_mat := vec_roll_to_mat3 fm vec bone.roll }
  let bone :=
    if bone.xwidth = 0 then { bone with xwidth := 1 / 10, zwidth := 1 / 10, segments := 1 }
    else bone
  match prevbone with
  | some prev =>
    let offs_bone := BKE_bone_offset_matrix_get bone prev
    { bone with arm_mat := mul_m4_m4m4 prev.arm_mat offs_bone }
  | none =>
    let bone := { bone with arm_mat := copy_m4_m3 bone.bone_mat }
    { bone with arm_mat := m4_set_loc bone.arm_mat bone.head }

mutual
/-- The function `BKE_armature_where_is_bone`. -/
def BKE_armature_where_is_bone (fm : FloatMath R) :
    Bone R → Option (BoneData R) → Bool → Bone R
  | .mk d cs, prevbone, use_recursion =>
    let d' := where_is_bone_data fm d prevbone
    if use_recursion then .mk d' (where_is_bone_children fm cs d')
    else .mk d' cs
/-- The loop of `BKE_armature_where_is_bone` over `childbase` (with recursion). -/
def where_is_bone_children (fm : FloatMath R) : List (Bone R) → BoneData R → List (Bone R)
  | [], _ => []
  | b :: bs, prevbone =>
    BKE_armature_where_is_bone fm b (some prevbone) true :: where_is_bone_children fm bs prevbone
end

/-- The function `BKE_armature_where_is`. -/
def BKE_armature_where_is (fm : FloatMath R) (arm : bArmature R) : bArmature R :=
  { arm with bonebase := arm.bonebase.map (fun bone => BKE_armature_where_is_bone fm bone none true) }

/-- The offset matrix as the spec describes it: rotation `bone_mat`, translation
`head + (0, parent.length, 0)`. -/
def offsetMatrix (bone_mat : M3 R) (head : V3 R) (parent_length : R) : M4 R :=
  !![bone_mat 0 0, bone_mat 0 1, bone_mat 0 2, 0;
     bone_mat 1 0, bone_mat 1 1, bone_mat 1 2, 0;
     bone_mat 2 0, bone_mat 2 1, bone_mat 2 2, 0;
     head 0, head 1 + parent_length, head 2, 1]

/-- The rest matrix of a root bone as the spec describes it: `bone_mat` as a 4x4
matrix, translated to `head`. -/
def rootMatrix (bone_mat : M3 R) (head : V3 R) : M4 R :=
  !![bone_mat 0 0, bone_mat 0 1, bone_mat 0 2, 0;
     bone_mat 1 0, bone_mat 1 1, bone_mat 1 2, 0;
     bone_mat 2 0, bone_mat 2 1, bone_mat 2 2, 0;
     head 0, head 1, head 2, 1]

mutual
/-- The rest-pose relations of the spec for a bone whose parent (if any) has the
fields `parent`, and for all bones below it. -/
def RestOK (fm : FloatMath R) : Option (BoneData R) → Bone R → Prop
  | parent, .mk d cs =>
    d.length = fm.sqrtf (dot_v3v3 (sub_v3_v3v3 d.tail d.head) (sub_v3_v3v3 d.tail d.head)) ∧
    d.bone_mat = vec_roll_to_mat3 fm (sub_v3_v3v3 d.tail d.head) d.roll ∧
    (match parent with
      | none => d.arm_mat = rootMatrix d.bone_mat d.head
      | some p => d.arm_mat = mul_m4_m4m4 p.arm_mat (offsetMatrix d.bone_mat d.head p.length)) ∧
    RestOKList fm d cs
/-- The relation `RestOK` for every child in a list, with the same parent. -/
def RestOKList (fm : FloatMath R) : BoneData R → List (Bone R) → Prop
  | _, [] => True
  | p, b :: bs => RestOK fm (some p) b ∧ RestOKList fm p bs
end

mutual
/-- Two bone trees have the same shape and the same editable geometry
(name, flag, head, tail, roll) at every bone. -/
def SameGeometry : Bone R → Bone R → Prop
  | .mk d cs, .mk d' cs' =>
    d.name = d'.name ∧ d.flag = d'.flag ∧ d.head = d'.head ∧ d.tail = d'.tail ∧ d.roll = d'.roll ∧
    SameGeometryList cs cs'
/-- The relation `SameGeometry` on lists of bones, position by position. -/
def SameGeometryList : List (Bone R) → List (Bone R) → Prop
  | [], [] => True
  | b :: bs, b' :: bs' => SameGeometry b b' ∧ SameGeometryList bs bs'
  | _, _ => False
end

mutual
/-- Two bone trees of the same shape carry the same rest matrices
(length, bone_mat, arm_mat) at every bone. -/
def SameRest : Bone R → Bone R → Prop
  | .mk d cs, .mk d' cs' =>
    d.length = d'.length ∧ d.bone_mat = d'.bone_mat ∧ d.arm_mat = d'.arm_mat ∧
    SameRestList cs cs'
/-- The relation `SameRest` on lists of bones, position by position. -/
def SameRestList : List (Bone R) → List (Bone R) → Prop
  | [], [] => True
  | b :: bs, b' :: bs' => SameRest b b' ∧ SameRestList bs bs'
  | _, _ => False
end

end Rest

/-! ## Parent-transform composer -/

/-- The structure `BoneParentTransform`. -/
structure BoneParentTransform (R : Type) where
  rotscale_mat : M4 R
  loc_mat : M4 R

section Composer

variable {R : Type} [LinearOrderedField R]

/-- Modelled from the spec: `mat4_to_size` of the geometry primitives: the lengths
of the three axes. -/
def mat4_to_size (fm : FloatMath R) (m : M4 R) : V3 R :=
  fun i => len_v3 fm (m4_axis m (Fin.castSucc i))

/-- Modelled from the spec: `size_to_mat4` of the geometry primitives: the scale matrix. -/
def size_to_mat4 (size : V3 R) : M4 R :=
  !![size 0, 0, 0, 0;
     0, size 1, 0, 0;
     0, 0, size 2, 0;
     0, 0, 0, 1]

/-- Modelled from the spec: `size_to_mat3` of the geometry primitives: the scale matrix. -/
def size_to_mat3 (size : V3 R) : M3 R :=
  !![size 0, 0, 0;
     0, size 1, 0;
     0, 0, size 2]

/-- Modelled from the spec: `normalize_m4` of the geometry primitives: each of the
three axes is divided by its length (scale removed), the translation is kept. -/
def normalize_m4 (fm : FloatMath R) (m : M4 R) : M4 R :=
  fun i j =>
    if i = 3 then m i j
    else
      let len := len_v3 fm (m4_axis m i)
      if j = 3 then (if len ≠ 0 then m i j / len else m i j)
      else m i j / len

/-- The function `BKE_bone_parent_transform_calc_from_matrices`; `parent` is the
pair `(parent_arm_mat, parent_pose_mat)`, `none` when the pointers are NULL. -/
def BKE_bone_parent_transform_calc_from_matrices (fm : FloatMath R) (bone_flag : Nat)
    (offs_bone : M4 R) (parent : Option (M4 R × M4 R)) : BoneParentTransform R :=
  match parent with
  | some (parent_arm_mat, parent_pose_mat) =>
    let rotscale_mat : M4 R :=
      if has_flag bone_flag BONE_HINGE && has_flag bone_flag BONE_NO_SCALE then
        mul_m4_m4m4 parent_arm_mat offs_bone
      else if has_flag bone_flag BONE_HINGE then
        let tscale := mat4_to_size fm parent_pose_mat
        let tmat := size_to_mat4 tscale
        let tmat := mul_m4_m4m4 tmat parent_arm_mat
        mul_m4_m4m4 tmat offs_bone
      else if has_flag bone_flag BONE_NO_SCALE then
        let tmat := parent_pose_mat
        let tmat := normalize_m4 fm tmat
        mul_m4_m4m4 tmat offs_bone
      else
        mul_m4_m4m4 parent_pose_mat offs_bone
    let loc_mat : M4 R :=
      if has_flag bone_flag BONE_NO_LOCAL_LOCATION then
        let bone_loc : M4 R := unit_m4
        let bone_loc := m4_set_loc bone_loc (mul_v3_m4v3 parent_pose_mat (m4_axis offs_bone 3))
        let bone_rotscale : M3 R := unit_m3
        let tmat3 := copy_m3_m4 parent_pose_mat
        let bone_rotscale := mul_m3_m3m3 tmat3 bone_rotscale
        let tmat4 := copy_m4_m3 bone_rotscale
        mul_m4_m4m4 bone_loc tmat4
      else if has_flag bone_flag (BONE_HINGE ||| BONE_NO_SCALE) then
        mul_m4_m4m4 parent_pose_mat offs_bone
      else
        rotscale_mat
    { rotscale_mat := rotscale_mat, loc_mat := loc_mat }
  | none =>
    let rotscale_mat := offs_bone
    let loc_mat : M4 R :=
      if has_flag bone_flag BONE_NO_LOCAL_LOCATION then
        m4_set_loc unit_m4 (m4_axis offs_bone 3)
      else
        rotscale_mat
    { rotscale_mat := rotscale_mat, loc_mat := loc_mat }

/-- The function `BKE_bone_parent_transform_invert`. -/
def BKE_bone_parent_transform_invert (bpt : BoneParentTransform R) : BoneParentTransform R :=
  { rotscale_mat := invert_m4_m4 bpt.rotscale_mat, loc_mat := invert_m4_m4 bpt.loc_mat }

/-- The function `BKE_bone_parent_transform_apply`. -/
def BKE_bone_parent_transform_apply (bpt : BoneParentTransform R) (inmat : M4 R) : M4 R :=
  let tmploc := m4_axis inmat 3
  let outmat := mul_m4_m4m4 bpt.rotscale_mat inmat
  m4_set_loc outmat (mul_v3_m4v3 bpt.loc_mat tmploc)

/-- A 4x4 matrix is affine: the fourth component of each axis is 0 and that of the
translation is 1. -/
def IsAffine (m : M4 R) : Prop := m 0 3 = 0 ∧ m 1 3 = 0 ∧ m 2 3 = 0 ∧ m 3 3 = 1

end Composer

/-! ## Pose data -/

/-- The fields of `struct bPoseChannel` used by the pose solver.  `bone` is
`pchan->bone` and `bone_parent` is `pchan->bone->parent` (`none` for NULL);
`parent` is the pointer `pchan->parent`, held as the name of the channel it points
to; `has_constraints` says that `pchan->constraints.first` is set. -/
structure bPoseChannel (R : Type) where
  name : String
  bone : Option (BoneData R)
  bone_parent : Option (BoneData R)
  parent : Option String
  flag : Nat
  loc : V3 R
  size : V3 R
  eul : V3 R
  quat : Fin 4 → R
  rotAxis : V3 R
  rotAngle : R
  rotmode : Int
  has_constraints : Bool
  chan_mat : M4 R
  pose_mat : M4 R
  pose_head : V3 R
  pose_tail : V3 R

/-- The fields of `struct bPose` used by the pose solver. -/
structure bPose (R : Type) where
  chanbase : List (bPoseChannel R)
  flag : Nat
  cyclic_offset : V3 R

/-- Modelled from the spec: `struct DualQuat` of the math library, a rotation
quaternion, its dual part, and an optional scale matrix with its weight. -/
structure DualQuat (R : Type) where
  quat : Fin 4 → R
  trans : Fin 4 → R
  scale : M4 R
  scale_weight : R

/-- The `struct bPoseChanDeform`: per channel, the B-Bone deform matrices
(`Mat4 *b_bone_mats`), the dual quaternion of the channel and those of the B-Bone
segments; `none` is a NULL pointer, an array is the function of its index. -/
structure bPoseChanDeform (R : Type) where
  b_bone_mats : Option (Nat → M4 R)
  dual_quat : Option (DualQuat R)
  b_bone_dual_quats : Option (Nat → DualQuat R)

/-- The `struct ObjectBBoneDeform`, the deformation cache of an armature object. -/
structure ObjectBBoneDeform (R : Type) where
  pdef_info_array : Option (Nat → bPoseChanDeform R)
  num_pchan : Nat

/-- The fields of `struct Object` used by the pose solver and, for the armature
object, by the deformation (`type` is `ob_type`; `cached_bbone_deformation` is
`runtime.cached_bbone_deformation`). -/
structure Object (R : Type) where
  ob_type : Nat
  data : Option (bArmature R)
  pose : Option (bPose R)
  obmat : M4 R
  imat : M4 R
  cached_bbone_deformation : Option (ObjectBBoneDeform R)

/-- The scene, of which only the current frame is read. -/
structure Scene (R : Type) where
  cfra : R

/-- The external collaborators of the pose solver, all opaque: the rotation
conversions of the math library, the constraint solver (the pose matrix it leaves in
the channel), the IK and spline-IK solvers, the pose rebuild and the scene frame. -/
structure PoseExternals (R : Type) where
  eulO_to_mat3 : V3 R → Int → M3 R
  axis_angle_to_mat3 : V3 R → R → M3 R
  normalize_qt_qt : (Fin 4 → R) → (Fin 4 → R)
  quat_to_mat3 : (Fin 4 → R) → M3 R
  constraints_solve : Object R → bPoseChannel R → R → M4 R
  BKE_pose_rebuild : Object R → bArmature R → Object R
  BKE_scene_frame_get : Scene R → R
  BIK_initialize_tree : Scene R → Object R → R → Object R
  BKE_pose_splineik_init_tree : Scene R → Object R → R → Object R
  BIK_execute_tree : Scene R → Object R → String → R → Object R
  BKE_splineik_execute_tree : Scene R → Object R → String → R → Object R
  BIK_release_tree : Scene R → Object R → R → Object R

section Pose

variable {R : Type} [LinearOrderedField R]

/-- The function `BKE_pose_channel_find_name`: the first channel with that name. -/
def BKE_pose_channel_find_name (pose : bPose R) (name : String) : Option (bPoseChannel R) :=
  pose.chanbase.find? (fun pchan => pchan.name == name)

/-- The function `BKE_bone_parent_transform_calc_from_pchan`; `pose` holds the channel
that `pchan->parent` points to.  The result is `none` when a NULL (or dangling)
pointer would be dereferenced. -/
def BKE_bone_parent_transform_calc_from_pchan (fm : FloatMath R) (pose : bPose R)
    (pchan : bPoseChannel R) : Option (BoneParentTransform R) :=
  match pchan.bone with
  | none => none
  | some bone =>
    match pchan.parent with
    | some parname =>
      match BKE_pose_channel_find_name pose parname, pchan.bone_parent with
      | some parchan, some parbone =>
        let offs_bone := BKE_bone_offset_matrix_get bone parbone
        some (BKE_bone_parent_transform_calc_from_matrices fm bone.flag offs_bone
          (some (parbone.arm_mat, parchan.pose_mat)))
      | _, _ => none
    | none =>
      some (BKE_bone_parent_transform_calc_from_matrices fm bone.flag bone.arm_mat none)

/-- The function `BKE_armature_mat_pose_to_bone`. -/
def BKE_armature_mat_pose_to_bone (fm : FloatMath R) (pose : bPose R) (pchan : bPoseChannel R)
    (inmat : M4 R) : Option (M4 R) :=
  match BKE_bone_parent_transform_calc_from_pchan fm pose pchan with
  | none => none
  | some bpt =>
    let bpt := BKE_bone_parent_transform_invert bpt
    some (BKE_bone_parent_transform_apply bpt inmat)

/-- The function `BKE_armature_mat_bone_to_pose`. -/
def BKE_armature_mat_bone_to_pose (fm : FloatMath R) (pose : bPose R) (pchan : bPoseChannel R)
    (inmat : M4 R) : Option (M4 R) :=
  match BKE_bone_parent_transform_calc_from_pchan fm pose pchan with
  | none => none
  | some bpt => some (BKE_bone_parent_transform_apply bpt inmat)

/-- The function `BKE_pchan_to_mat4`. -/
def BKE_pchan_to_mat4 (ext : PoseExternals R) (pchan : bPoseChannel R) : M4 R :=
  let smat := size_to_mat3 pchan.size
  let rmat : M3 R :=
    if pchan.rotmode > 0 then ext.eulO_to_mat3 pchan.eul pchan.rotmode
    else if pchan.rotmode = ROT_MODE_AXISANGLE then
      ext.axis_angle_to_mat3 pchan.rotAxis pchan.rotAngle
    else
      let quat := ext.normalize_qt_qt pchan.quat
      ext.quat_to_mat3 quat
  let tmat := mul_m3_m3m3 rmat smat
  let chan_mat := copy_m4_m3 tmat
  match pchan.bone with
  | none => m4_set_loc chan_mat pchan.loc
  | some bone =>
    if !(has_flag bone.flag BONE_CONNECTED) then m4_set_loc chan_mat pchan.loc
    else chan_mat

/-- The function `BKE_pchan_calc_mat`. -/
def BKE_pchan_calc_mat (ext : PoseExternals R) (pchan : bPoseChannel R) : bPoseChannel R :=
  { pchan with chan_mat := BKE_pchan_to_mat4 ext pchan }

/-- The function `BKE_pose_where_is_bone_tail`; `none` when `pchan->bone` is NULL. -/
def BKE_pose_where_is_bone_tail (pchan : bPoseChannel R) : Option (bPoseChannel R) :=
  match pchan.bone with
  | none => none
  | some bone =>
    let vec := m4_axis pchan.pose_mat 1
    let vec := mul_v3_fl vec bone.length
    some { pchan with pose_tail := add_v3_v3v3 pchan.pose_head vec }

/-- The first step of `BKE_pose_where_is_bone`: "This gives a chan_mat with actions
(ipos) results". -/
def pose_where_is_bone_chan_mat (ext : PoseExternals R) (pchan : bPoseChannel R)
    (do_extra : Bool) : bPoseChannel R :=
  if do_extra then BKE_pchan_calc_mat ext pchan
  else { pchan with chan_mat := unit_m4 }

/-- The step of `BKE_pose_where_is_bone` that adds the cyclic offset: "Only rootbones
get the cyclic offset (unless user doesn't want that)". -/
def pose_where_is_bone_cyclic_offset (pose : bPose R) (bone : BoneData R)
    (pchan : bPoseChannel R) : bPoseChannel R :=
  if pchan.parent.isNone then
    if !(has_flag bone.flag BONE_NO_CYCLICOFFSET) then
      let loc := add_v3_v3v3 (m4_axis pchan.pose_mat 3) pose.cyclic_offset
      { pchan with pose_mat := m4_set_loc pchan.pose_mat loc }
    else pchan
  else pchan

/-- The step "Do constraints" of `BKE_pose_where_is_bone`, run when `do_extra` is
set; the three calls that prepare, solve and clean up are the external
`constraints_solve`. -/
def pose_where_is_bone_constraints (ext : PoseExternals R) (ob : Object R) (bone : BoneData R)
    (ctime : R) (pchan : bPoseChannel R) : bPoseChannel R :=
  if pchan.has_constraints then
    let vec := m4_axis pchan.pose_mat 3
    let pchan := { pchan with pose_mat := ext.constraints_solve ob pchan ctime }
    if has_flag bone.flag BONE_CONNECTED then
      { pchan with pose_mat := m4_set_loc pchan.pose_mat vec }
    else pchan
  else pchan

/-- The function `BKE_pose_where_is_bone`: the solved channel, or `none` when a NULL
pointer would be dereferenced. -/
def BKE_pose_where_is_bone (fm : FloatMath R) (ext : PoseExternals R) (ob : Object R)
    (pchan : bPoseChannel R) (ctime : R) (do_extra : Bool) : Option (bPoseChannel R) :=
  match ob.pose, pchan.bone with
  | some pose, some bone =>
    let pchan := pose_where_is_bone_chan_mat ext pchan do_extra
    match BKE_armature_mat_bone_to_pose fm pose pchan pchan.chan_mat with
    | none => none
    | some pose_mat =>
      let pchan := { pchan with pose_mat := pose_mat }
      let pchan := pose_where_is_bone_cyclic_offset pose bone pchan
      let pchan :=
        if do_extra then pose_where_is_bone_constraints ext ob bone ctime pchan
        else pchan
      let pchan := { pchan with pose_head := m4_axis pchan.pose_mat 3 }
      BKE_pose_where_is_bone_tail pchan
  | _, _ => none

/-- The write of a solved channel back into the list, at position `i`. -/
def set_chan (ob : Object R) (i : Nat) (pchan : bPoseChannel R) : Object R :=
  match ob.pose with
  | none => ob
  | some pose => { ob with pose := some { pose with chanbase := pose.chanbase.set i pchan } }

/-- One pass of the main loop of `BKE_pose_where_is` (steps 4a, 4b, 5) for the
channel at position `i`. -/
def pose_where_is_step (fm : FloatMath R) (ext : PoseExternals R) (scene : Scene R) (ctime : R)
    (ob : Object R) (i : Nat) : Option (Object R) :=
  match ob.pose with
  | none => none
  | some pose =>
    match pose.chanbase.get? i with
    | none => none
    | some pchan =>
      if has_flag pchan.flag POSE_IKTREE then
        some (ext.BIK_execute_tree scene ob pchan.name ctime)
      else if has_flag pchan.flag POSE_IKSPLINE then
        some (ext.BKE_splineik_execute_tree scene ob pchan.name ctime)
      else if !(has_flag pchan.flag POSE_DONE) then
        match BKE_pose_where_is_bone fm ext ob pchan ctime true with
        | none => none
        | some pchan' => some (set_chan ob i pchan')
      else some ob

/-- The branch of `BKE_pose_where_is` for edit mode or rest position: the pose is
read from the bones. -/
def pose_where_is_restpos (ob : Object R) : Option (Object R) :=
  match ob.pose with
  | none => none
  | some pose =>
    let chanbase := pose.chanbase.map (fun pchan =>
      match pchan.bone with
      | some bone =>
        { pchan with pose_mat := bone.arm_mat, pose_head := bone.arm_head,
                     pose_tail := bone.arm_tail }
      | none => pchan)
    some { ob with pose := some { pose with chanbase := chanbase } }

/-- The branch of `BKE_pose_where_is` that solves the pose (steps 1 to 6). -/
def pose_where_is_solve (fm : FloatMath R) (ext : PoseExternals R) (scene : Scene R) (ctime : R)
    (ob : Object R) : Option (Object R) :=
  let ob := { ob with imat := invert_m4_m4 ob.obmat }
  match ob.pose with
  | none => none
  | some pose =>
    let mask := POSE_DONE ||| POSE_CHAIN ||| POSE_IKTREE ||| POSE_IKSPLINE
    let chanbase := pose.chanbase.map (fun pchan =>
      { pchan with flag := clear_flag pchan.flag mask })
    let pose := { pose with chanbase := chanbase }
    let ob := { ob with pose := some pose }
    let ob := ext.BIK_initialize_tree scene ob ctime
    let ob := ext.BKE_pose_splineik_init_tree scene ob ctime
    match ob.pose with
    | none => none
    | some pose =>
      match (List.range pose.chanbase.length).foldlM (pose_where_is_step fm ext scene ctime) ob with
      | none => none
      | some ob => some (ext.BIK_release_tree scene ob ctime)

/-- The last loop of `BKE_pose_where_is`, "calculating deform matrices". -/
def pose_where_is_deform_mats (ob : Object R) : Option (Object R) :=
  match ob.pose with
  | none => none
  | some pose =>
    let chanbase := pose.chanbase.map (fun pchan =>
      match pchan.bone with
      | some bone =>
        let imat := invert_m4_m4 bone.arm_mat
        { pchan with chan_mat := mul_m4_m4m4 pchan.pose_mat imat }
      | none => pchan)
    some { ob with pose := some { pose with chanbase := chanbase } }

/-- The function `BKE_pose_where_is`; `scene` is `none` for a NULL scene.  The result
is the object after the call, `none` when a NULL pointer would be dereferenced. -/
def BKE_pose_where_is (fm : FloatMath R) (ext : PoseExternals R) (scene : Option (Scene R))
    (ob : Object R) : Option (Object R) :=
  if ob.ob_type ≠ OB_ARMATURE then some ob
  else
    match ob.data, scene with
    | some arm, some scene =>
      let ob :=
        match ob.pose with
        | none => ext.BKE_pose_rebuild ob arm
        | some pose =>
          if has_flag pose.flag POSE_RECALC then ext.BKE_pose_rebuild ob arm else ob
      let ctime := ext.BKE_scene_frame_get scene
      let solved :=
        if arm.edbo || has_flag arm.flag ARM_RESTPOS then pose_where_is_restpos ob
        else pose_where_is_solve fm ext scene ctime ob
      match solved with
      | none => none
      | some ob => pose_where_is_deform_mats ob
    | _, _ => some ob

end Pose

/-! ## Envelope falloff -/

section Envelope

variable {R : Type} [LinearOrderedField R]

/-- Modelled from the spec: `len_squared_v3v3` of the geometry primitives, the squared
distance of two points. -/
def len_squared_v3v3 (a b : V3 R) : R :=
  dot_v3v3 (sub_v3_v3v3 b a) (sub_v3_v3v3 b a)

/-- The function `distfactor_to_bone`: the envelope weight of the point `vec` for the
bone segment from `b1` to `b2` with radii `rad1`, `rad2` and falloff distance `rdist`.
`normalize_v3(bdelta)` returns the length `l` and leaves the unit axis in `bdelta`.
The float operations are the operations of the field `R`, without rounding;
`distfactor_to_bone_rounded` is the same function with every operation rounded. -/
def distfactor_to_bone (fm : FloatMath R) (vec b1 b2 : V3 R) (rad1 rad2 rdist : R) : R :=
  let bdelta := sub_v3_v3v3 b2 b1
  let l := len_v3 fm bdelta
  let bdelta := normalize_v3_v3 fm bdelta
  let pdelta := sub_v3_v3v3 vec b1
  let a := dot_v3v3 bdelta pdelta
  let hsqr := dot_v3v3 pdelta pdelta
  let dist_sq : R :=
    if a < 0 then len_squared_v3v3 b1 vec
    else if a > l then len_squared_v3v3 b2 vec
    else hsqr - a * a
  let rad : R :=
    if a < 0 then rad1
    else if a > l then rad2
    else if l ≠ 0 then (a / l) * rad2 + (1 - a / l) * rad1
    else rad1
  if dist_sq < rad * rad then 1
  else if rdist = 0 ∨ dist_sq ≥ (rad + rdist) * (rad + rdist) then 0
  else 1 - ((fm.sqrtf dist_sq - rad) * (fm.sqrtf dist_sq - rad)) / (rdist * rdist)

end Envelope

section EnvelopeSpec

variable {R : Type} [LinearOrderedField R]

/-- The falloff profile `F(d, rad)` in the words of the specification: 1 inside the
inner radius, 0 without a falloff distance or beyond `rad + rdist`, and
`1 - (d - rad)² / rdist²` in between. -/
def envelope_falloff_spec (d rad rdist : R) : R :=
  if d < rad then 1
  else if rdist = 0 ∨ d ≥ rad + rdist then 0
  else 1 - (d - rad) ^ 2 / rdist ^ 2

/-- The distance `d` and the inner radius `rad` of a point to the capsule of a bone, in
the words of the specification: with `t` the projection of `vec - b1` on the unit
axis and `l = |b2 - b1|`, the distance to `b1` before the head, to `b2` past the tail,
and the perpendicular distance to the axis with the interpolated radius in between. -/
def envelope_distance_spec (fm : FloatMath R) (vec b1 b2 : V3 R) (rad1 rad2 : R) : R × R :=
  let l := len_v3 fm (sub_v3_v3v3 b2 b1)
  let u : V3 R := fun k => (b2 k - b1 k) / l
  let t := dot_v3v3 u (sub_v3_v3v3 vec b1)
  if t < 0 then (len_v3 fm (sub_v3_v3v3 vec b1), rad1)
  else if t > l then (len_v3 fm (sub_v3_v3v3 vec b2), rad2)
  else (len_v3 fm (fun k => (vec k - b1 k) - t * u k), rad1 + (t / l) * (rad2 - rad1))

end EnvelopeSpec

/-! ## Deformation data -/

/-- One `MDeformWeight`: the number of a vertex group and the weight in it. -/
structure MDeformWeight (R : Type) where
  def_nr : Int
  weight : R

/-- One `MDeformVert`: the array `dw` of `totweight` entries, as a list. -/
structure MDeformVert (R : Type) where
  dw : List (MDeformWeight R)

/-- The fields of `struct Mesh` read by the deformation; `dvert` is `none` for a NULL
array, an array is the function of its index. -/
structure Mesh (R : Type) where
  dvert : Option (Nat → MDeformVert R)
  totvert : Nat

/-- The fields of `struct Lattice` read by the deformation. -/
structure Lattice (R : Type) where
  dvert : Option (Nat → MDeformVert R)
  pntsu : Nat
  pntsv : Nat
  pntsw : Nat

/-- The fields of `struct bGPDstroke` read by the deformation. -/
structure bGPDstroke (R : Type) where
  dvert : Option (Nat → MDeformVert R)
  totpoints : Nat

/-- The fields of the deformed object `target` (a `struct Object`): `defbase` holds
the names of its vertex groups in order; `target->data` is read as a `Mesh` (field
`me`) or as a `Lattice` (field `lt`) according to `ob_type`. -/
structure TargetObject (R : Type) where
  ob_type : Nat
  obmat : M4 R
  defbase : List String
  me : Mesh R
  lt : Lattice R

/-- The arrays handed to `armature_deform_verts`: `vertexCos`, and the optional
`defMats` and `prevCos` (`none` for NULL); an array is the function of its index. -/
structure DeformArrays (R : Type) where
  vertexCos : Nat → V3 R
  defMats : Option (Nat → M3 R)
  prevCos : Option (Nat → V3 R)

/-- The elements with index `i` of the three arrays, the only ones that iteration `i`
of the vertex loop reads or writes; `defMat` and `prevCo` are not read when the array
is NULL. -/
structure VertexSlot (R : Type) where
  vertexCo : V3 R
  defMat : M3 R
  prevCo : V3 R

/-- The two `CLOG_ERROR` calls of `armature_deform_verts`. -/
inductive DeformError where
  | pose_recalc
  | no_bbone_cache
deriving DecidableEq

/-- What a call of `armature_deform_verts` leaves: the arrays and the errors logged. -/
structure DeformResult (R : Type) where
  arrays : DeformArrays R
  errors : List DeformError

/-- The value of the pointer `dvert` in one iteration of the vertex loop: NULL, an
element of a weight array, or `mesh->dvert + i` formed from a NULL array with
`i > 0`, which is neither NULL nor an element. -/
inductive DVertPtr (R : Type) where
  | null : DVertPtr R
  | valid (dv : MDeformVert R) : DVertPtr R
  | invalid : DVertPtr R

/-- The per-vertex accumulators `sumvec`, `sumdq` and `summat`. -/
structure DeformSums (R : Type) where
  vec : V3 R
  dq : DualQuat R
  mat : M3 R

/-- The state of the loop over the weights of one vertex. -/
structure VGroupState (R : Type) where
  sums : DeformSums R
  contrib : R
  deformed : Bool
  acum_weight : R

/-- The locals of `armature_deform_verts` that are set before the vertex loop, with
the list `armOb->pose->chanbase` that the envelope loops walk.  `defnrToPC` holds, per
vertex group, the channel and its index in `chanbase` (`defnrToPCIndex`), `none` for
NULL. -/
structure DeformSetup (R : Type) where
  chanbase : List (bPoseChannel R)
  premat : M4 R
  postmat : M4 R
  pdef_info_array : Nat → bPoseChanDeform R
  armature_def_nr : Int
  dverts : Option (Nat → MDeformVert R)
  target_totvert : Nat
  defbase_tot : Nat
  use_dverts : Bool
  defnrToPC : List (Option (bPoseChannel R × Nat))
  target_type : Nat
  mesh : Option (Mesh R)

/-! ## Deformation engine -/

section Deform

variable {R : Type} [LinearOrderedField R]

/-- Modelled from the spec: `mul_m3_v3` of the geometry primitives, the 3x3 transform
applied to a vector. -/
def mul_m3_v3 (m : M3 R) (v : V3 R) : V3 R :=
  fun j => v 0 * m 0 j + v 1 * m 1 j + v 2 * m 2 j

/-- Modelled from the spec: `mul_m3_series(r, m1, m2, m3, m4)` of the geometry
primitives, three calls of `mul_m3_m3m3`. -/
def mul_m3_series (m1 m2 m3 m4 : M3 R) : M3 R :=
  mul_m3_m3m3 (mul_m3_m3m3 (mul_m3_m3m3 m1 m2) m3) m4

/-- Modelled from the spec: `dot_qtqt` of the geometry primitives. -/
def dot_qtqt (a b : Fin 4 → R) : R := a 0 * b 0 + a 1 * b 1 + a 2 * b 2 + a 3 * b 3

/-- The zeroed `DualQuat` (`memset(&sumdq, 0, sizeof(DualQuat))`). -/
def zero_dq : DualQuat R := ⟨fun _ => 0, fun _ => 0, 0, 0⟩

/-- Modelled from the spec: `add_weighted_dq_dq(dqsum, dq, weight)` of the geometry
primitives, the weighted sum of dual quaternions: the weight is negated when the
rotation lies in the other half space, and the scale is summed only where there is
one. -/
def add_weighted_dq_dq (dqsum dq : DualQuat R) (weight : R) : DualQuat R :=
  let flipped := decide (dot_qtqt dq.quat dqsum.quat < 0)
  let wq := if flipped then -weight else weight
  let quat : Fin 4 → R := fun k => dqsum.quat k + wq * dq.quat k
  let trans : Fin 4 → R := fun k => dqsum.trans k + wq * dq.trans k
  if dq.scale_weight ≠ 0 then
    ⟨quat, trans, dqsum.scale + weight • dq.scale, dqsum.scale_weight + weight⟩
  else ⟨quat, trans, dqsum.scale, dqsum.scale_weight⟩

/-- Modelled from the spec: `normalize_dq(dq, totweight)` of the geometry primitives,
the sum divided by the total weight ("normalized by total contribution before
application"); the sums that came without scale count as the identity scale. -/
def normalize_dq (dq : DualQuat R) (totweight : R) : DualQuat R :=
  let scale := 1 / totweight
  let quat : Fin 4 → R := fun k => dq.quat k * scale
  let trans : Fin 4 → R := fun k => dq.trans k * scale
  if dq.scale_weight ≠ 0 then
    let addweight := totweight - dq.scale_weight
    let smat : M4 R := if addweight ≠ 0 then dq.scale + addweight • (1 : M4 R) else dq.scale
    ⟨quat, trans, scale • smat, 1⟩
  else ⟨quat, trans, dq.scale, dq.scale_weight⟩

/-- Modelled from the spec: `mul_v3m3_dq(co, mat, dq)` of the geometry primitives, the
dual quaternion applied to the point `co`; the second component is the matrix left in
`mat`. -/
def mul_v3m3_dq (co : V3 R) (dq : DualQuat R) : V3 R × M3 R :=
  let w := dq.quat 0
  let x := dq.quat 1
  let y := dq.quat 2
  let z := dq.quat 3
  let t0 := dq.trans 0
  let t1 := dq.trans 1
  let t2 := dq.trans 2
  let t3 := dq.trans 3
  let M : M3 R :=
    !![w * w + x * x - y * y - z * z, 2 * (x * y + w * z), 2 * (x * z - w * y);
       2 * (x * y - w * z), w * w + y * y - x * x - z * z, 2 * (y * z + w * x);
       2 * (x * z + w * y), 2 * (y * z - w * x), w * w + z * z - x * x - y * y]
  let len2 := dot_qtqt dq.quat dq.quat
  let len2 := if len2 > 0 then 1 / len2 else len2
  let t : V3 R :=
    ![2 * (-t0 * x + w * t1 - t2 * z + y * t3),
      2 * (-t0 * y + t1 * z - x * t3 + w * t2),
      2 * (-t0 * z + x * t2 + w * t3 - t1 * y)]
  let co := if dq.scale_weight ≠ 0 then mul_v3_m4v3 dq.scale co else co
  let co := mul_m3_v3 M co
  let co : V3 R := fun k => (co k + t k) * len2
  let mat := if dq.scale_weight ≠ 0 then mul_m3_m3m3 M (copy_m3_m4 dq.scale) else M
  (co, len2 • mat)

/-- Modelled from the spec: `defgroup_name_index`, the position of the vertex group
with that name in `target->defbase`, or -1 (also for a NULL name). -/
def defgroup_name_index (target : TargetObject R) (name : Option String) : Int :=
  match name with
  | none => -1
  | some n =>
    match target.defbase.findIdx? (fun g => g == n) with
    | some k => (k : Int)
    | none => -1

/-- Modelled from the spec: `defvert_find_weight`, the weight of the first entry of
the vertex for that group, or 0. -/
def defvert_find_weight (dvert : MDeformVert R) (defgroup : Int) : R :=
  if defgroup ≥ 0 then
    match dvert.dw.find? (fun dw => dw.def_nr == defgroup) with
    | some dw => dw.weight
    | none => 0
  else 0

/-- The segment index `a` of `b_bone_deform`, after `CLAMP(a, 0, bone->segments - 1)`;
`to_int` is the C conversion `(int)` of a float. -/
def b_bone_deform_segment (to_int : R → Int) (b_bone : Nat → M4 R) (bone : BoneData R)
    (co : V3 R) : Nat :=
  let mat := b_bone 0
  let y := mat 0 1 * co 0 + mat 1 1 * co 1 + mat 2 1 * co 2 + mat 3 1
  let segment := bone.length / (bone.segments : R)
  let a : Int := to_int (y / segment)
  let a : Int := if a < 0 then 0 else if a > (bone.segments : Int) - 1 then (bone.segments : Int) - 1 else a
  a.toNat

/-- The function `b_bone_deform` called with `dq == NULL`: the deformed `co`, and the
matrix written to `defmat`.  The result is `none` when `b_bone_mats` is NULL. -/
def b_bone_deform_mat (to_int : R → Int) (pdef_info : bPoseChanDeform R) (bone : BoneData R)
    (co : V3 R) : Option (V3 R × M3 R) :=
  match pdef_info.b_bone_mats with
  | none => none
  | some b_bone =>
    let a := b_bone_deform_segment to_int b_bone bone co
    some (mul_v3_m4v3 (b_bone (a + 1)) co, copy_m3_m4 (b_bone (a + 1)))

/-- The function `b_bone_deform` called with `dq` set: the dual quaternion copied to
`dq`.  The result is `none` when one of the two arrays is NULL. -/
def b_bone_deform_dq (to_int : R → Int) (pdef_info : bPoseChanDeform R) (bone : BoneData R)
    (co : V3 R) : Option (DualQuat R) :=
  match pdef_info.b_bone_mats, pdef_info.b_bone_dual_quats with
  | some b_bone, some dqs => some (dqs (b_bone_deform_segment to_int b_bone bone co))
  | _, _ => none

/-- The function `pchan_deform_mat_add`; `bbonemat` is `none` while the local of the
caller has not been written. -/
def pchan_deform_mat_add (pchan : bPoseChannel R) (bone : BoneData R) (weight : R)
    (bbonemat : Option (M3 R)) (mat : M3 R) : Option (M3 R) :=
  let wmat : Option (M3 R) :=
    if bone.segments > 1 then bbonemat else some (copy_m3_m4 pchan.chan_mat)
  wmat.map (fun wmat => mat + weight • wmat)

/-- The common end of `pchan_bone_deform` and `dist_bone_deform` in the branch with
`vec`: the delta of the deformed point is added with its weight, and so is the
matrix when `mat` is set. -/
def deform_add_vec (pchan : bPoseChannel R) (bone : BoneData R) (weight : R) (has_mat : Bool)
    (sums : DeformSums R) (co cop : V3 R) (bbonemat : Option (M3 R)) : Option (DeformSums R) :=
  let vec : V3 R := fun k => sums.vec k + (cop k - co k) * weight
  if has_mat then
    (pchan_deform_mat_add pchan bone weight bbonemat sums.mat).map
      (fun mat => { sums with vec := vec, mat := mat })
  else some { sums with vec := vec }

/-- The point that `pchan_bone_deform` leaves in `cop` when `vec` is set, with the
matrix written to `bbonemat` (`none` when it is not written): through the B-Bone
segment for a bone of more than one segment, else through `chan_mat`. -/
def pchan_deform_point (to_int : R → Int) (pchan : bPoseChannel R)
    (pdef_info : bPoseChanDeform R) (bone : BoneData R) (co : V3 R) :
    Option (V3 R × Option (M3 R)) :=
  if bone.segments > 1 then
    (b_bone_deform_mat to_int pdef_info bone co).map (fun p => (p.1, some p.2))
  else some (mul_v3_m4v3 pchan.chan_mat co, none)

/-- The dual quaternion that `pchan_bone_deform` adds when `dq` is set: that of the
B-Bone segment for a bone of more than one segment, else `pdef_info->dual_quat`. -/
def pchan_deform_dq (to_int : R → Int) (pdef_info : bPoseChanDeform R) (bone : BoneData R)
    (co : V3 R) : Option (DualQuat R) :=
  if bone.segments > 1 then b_bone_deform_dq to_int pdef_info bone co
  else pdef_info.dual_quat

/-- The function `pchan_bone_deform`; `has_vec` and `has_mat` say that the pointers
`vec` and `mat` are set (`dq` is set when `vec` is not).  The result is the sums and
`*contrib`, `none` when a NULL pointer would be dereferenced. -/
def pchan_bone_deform (to_int : R → Int) (pchan : bPoseChannel R) (pdef_info : bPoseChanDeform R)
    (weight : R) (has_vec has_mat : Bool) (sums : DeformSums R) (co : V3 R) (contrib : R) :
    Option (DeformSums R × R) :=
  if weight = 0 then some (sums, contrib)
  else
    match pchan.bone with
    | none => none
    | some bone =>
      if has_vec then
        match pchan_deform_point to_int pchan pdef_info bone co with
        | none => none
        | some (cop, bbonemat) =>
          (deform_add_vec pchan bone weight has_mat sums co cop bbonemat).map
            (fun s => (s, contrib + weight))
      else
        (pchan_deform_dq to_int pdef_info bone co).map
          (fun d => ({ sums with dq := add_weighted_dq_dq sums.dq d weight }, contrib + weight))

/-- The function `dist_bone_deform`: the sums and the returned `contrib`, `none` when
a NULL pointer would be dereferenced. -/
def dist_bone_deform (fm : FloatMath R) (to_int : R → Int) (pchan : bPoseChannel R)
    (pdef_info : bPoseChanDeform R) (has_vec has_mat : Bool) (sums : DeformSums R) (co : V3 R) :
    Option (DeformSums R × R) :=
  match pchan.bone with
  | none => some (sums, 0)
  | some bone =>
    let fac := distfactor_to_bone fm co bone.arm_head bone.arm_tail bone.rad_head
      bone.rad_tail bone.dist
    if fac > 0 then
      let fac := fac * bone.weight
      let contrib := fac
      if contrib > 0 then
        if has_vec then
          let r : Option (V3 R × Option (M3 R)) :=
            if bone.segments > 1 ∧ pdef_info.b_bone_mats.isSome then
              (b_bone_deform_mat to_int pdef_info bone co).map (fun p => (p.1, some p.2))
            else some (mul_v3_m4v3 pchan.chan_mat co, none)
          match r with
          | none => none
          | some (cop, bbonemat) =>
            (deform_add_vec pchan bone fac has_mat sums co cop bbonemat).map
              (fun s => (s, contrib))
        else
          let r : Option (DualQuat R) :=
            if bone.segments > 1 ∧ pdef_info.b_bone_mats.isSome then
              b_bone_deform_dq to_int pdef_info bone co
            else pdef_info.dual_quat
          r.map (fun d => ({ sums with dq := add_weighted_dq_dq sums.dq d fac }, contrib))
      else some (sums, contrib)
    else some (sums, 0)

/-- The loop over `armOb->pose->chanbase` that adds the envelope contributions of the
channels whose bone lacks `BONE_NO_DEFORM`; `idx` is the position of `pdef_info`. -/
def envelope_loop (fm : FloatMath R) (to_int : R → Int) (pdef_info_array : Nat → bPoseChanDeform R)
    (has_vec has_mat : Bool) (co : V3 R) :
    List (bPoseChannel R) → Nat → DeformSums R → R → Option (DeformSums R × R)
  | [], _, sums, contrib => some (sums, contrib)
  | pchan :: rest, idx, sums, contrib =>
    match pchan.bone with
    | none => none
    | some bone =>
      if has_flag bone.flag BONE_NO_DEFORM then
        envelope_loop fm to_int pdef_info_array has_vec has_mat co rest (idx + 1) sums contrib
      else
        match dist_bone_deform fm to_int pchan (pdef_info_array idx) has_vec has_mat sums co with
        | none => none
        | some (sums, c) =>
          envelope_loop fm to_int pdef_info_array has_vec has_mat co rest (idx + 1) sums
            (contrib + c)

/-- The weight of one entry after the optional multiplication by the envelope
(`BONE_MULT_VG_ENV`). -/
def vgroup_weight (fm : FloatMath R) (pchan : bPoseChannel R) (weight : R) (co : V3 R) : R :=
  match pchan.bone with
  | some bone =>
    if has_flag bone.flag BONE_MULT_VG_ENV then
      weight * distfactor_to_bone fm co bone.arm_head bone.arm_tail bone.rad_head
        bone.rad_tail bone.dist
    else weight
  | none => weight

/-- The test `index >= 0 && index < defbase_tot && (pchan = defnrToPC[index])` on one
weight entry: the channel and its index, `none` when the test fails. -/
def resolve_entry (cx : DeformSetup R) (dw : MDeformWeight R) : Option (bPoseChannel R × Nat) :=
  if dw.def_nr ≥ 0 ∧ dw.def_nr < (cx.defbase_tot : Int) then
    cx.defnrToPC.getD dw.def_nr.toNat none
  else none

/-- The loop over the weights `dvert->dw` of one vertex ("use weight groups"). -/
def vgroup_loop (fm : FloatMath R) (to_int : R → Int) (cx : DeformSetup R)
    (has_vec has_mat : Bool) (co : V3 R) :
    List (MDeformWeight R) → VGroupState R → Option (VGroupState R)
  | [], st => some st
  | dw :: rest, st =>
    match resolve_entry cx dw with
    | none => vgroup_loop fm to_int cx has_vec has_mat co rest st
    | some (pchan, pc_index) =>
      let pdef_info := cx.pdef_info_array pc_index
      let weight := vgroup_weight fm pchan dw.weight co
      let weight :=
        if cx.target_type = OB_GPENCIL ∧ st.acum_weight + weight ≥ 1 then 1 - st.acum_weight
        else weight
      let acum_weight :=
        if cx.target_type = OB_GPENCIL then st.acum_weight + weight else st.acum_weight
      match pchan_bone_deform to_int pchan pdef_info weight has_vec has_mat st.sums co
          st.contrib with
      | none => none
      | some (sums, contrib) =>
        let st : VGroupState R := ⟨sums, contrib, true, acum_weight⟩
        if cx.target_type = OB_GPENCIL ∧ acum_weight ≥ 1 then some st
        else vgroup_loop fm to_int cx has_vec has_mat co rest st

end Deform

section DeformVerts

variable {R : Type} [LinearOrderedField R]

/-- The pointer `dvert` of iteration `i` of the vertex loop. -/
def vertex_dvert (cx : DeformSetup R) (i : Nat) : DVertPtr R :=
  if cx.use_dverts ∨ cx.armature_def_nr ≠ -1 then
    match cx.mesh with
    | some mesh =>
      match mesh.dvert with
      | some dv => DVertPtr.valid (dv i)
      | none => if i = 0 then DVertPtr.null else DVertPtr.invalid
    | none =>
      match cx.dverts with
      | some dv => if i < cx.target_totvert then DVertPtr.valid (dv i) else DVertPtr.null
      | none => DVertPtr.null
  else DVertPtr.null

/-- The pair `armature_weight`, `prevco_weight` of one vertex; `none` when `dvert`
points nowhere and is read. -/
def vertex_weights (cx : DeformSetup R) (invert_vgroup has_prevCos : Bool) (dvert : DVertPtr R) :
    Option (R × R) :=
  if cx.armature_def_nr ≠ -1 then
    match dvert with
    | DVertPtr.null => some (1, 1)
    | DVertPtr.invalid => none
    | DVertPtr.valid dv =>
      let armature_weight := defvert_find_weight dv cx.armature_def_nr
      let armature_weight := if invert_vgroup then 1 - armature_weight else armature_weight
      if has_prevCos then some (1, armature_weight) else some (armature_weight, 1)
  else some (1, 1)

/-- The accumulation of one vertex: the loop over its weights and the envelope loops;
the result is the sums and `contrib`. -/
def vertex_accumulate (fm : FloatMath R) (to_int : R → Int) (cx : DeformSetup R)
    (use_envelope has_vec has_mat : Bool) (dvert : DVertPtr R) (co : V3 R) :
    Option (DeformSums R × R) :=
  let sums : DeformSums R := ⟨fun _ => 0, zero_dq, 0⟩
  let envelope : Option (DeformSums R × R) :=
    if use_envelope then
      envelope_loop fm to_int cx.pdef_info_array has_vec has_mat co cx.chanbase 0 sums 0
    else some (sums, 0)
  if cx.use_dverts then
    match dvert with
    | DVertPtr.null => envelope
    | DVertPtr.invalid => none
    | DVertPtr.valid dv =>
      if dv.dw.length ≠ 0 then
        match vgroup_loop fm to_int cx has_vec has_mat co dv.dw ⟨sums, 0, false, 0⟩ with
        | none => none
        | some st =>
          if st.deformed = false ∧ use_envelope then
            envelope_loop fm to_int cx.pdef_info_array has_vec has_mat co cx.chanbase 0
              st.sums st.contrib
          else some (st.sums, st.contrib)
      else envelope
  else envelope

/-- The block `if (contrib > 0.0001f)` of the vertex loop: the deformed `co` and the
new `defMats[i]`. -/
def vertex_apply (cx : DeformSetup R) (use_quaternion has_defMats : Bool)
    (armature_weight contrib : R) (sums : DeformSums R) (co : V3 R) (defMat : M3 R) :
    V3 R × M3 R :=
  if contrib > 1 / 10000 then
    let r : V3 R × M3 R :=
      if use_quaternion then
        let dq := normalize_dq sums.dq contrib
        let d := mul_v3m3_dq co dq
        if armature_weight ≠ 1 then
          let dco := sub_v3_v3v3 d.1 co
          let dco := mul_v3_fl dco armature_weight
          (add_v3_v3v3 co dco, d.2)
        else d
      else
        let vec := mul_v3_fl sums.vec (armature_weight / contrib)
        (add_v3_v3v3 vec co, sums.mat)
    if has_defMats then
      let pre := copy_m3_m4 cx.premat
      let post := copy_m3_m4 cx.postmat
      let tmpmat := defMat
      let smat := if !use_quaternion then (armature_weight / contrib) • r.2 else r.2
      (r.1, mul_m3_series post smat pre tmpmat)
    else (r.1, defMat)
  else (co, defMat)

/-- One iteration of the vertex loop of `armature_deform_verts`, on the elements with
index `i`; `none` when a pointer that is NULL or points nowhere would be read. -/
def deform_vertex (fm : FloatMath R) (to_int : R → Int) (cx : DeformSetup R)
    (use_envelope use_quaternion invert_vgroup has_defMats has_prevCos : Bool)
    (i : Nat) (s : VertexSlot R) : Option (VertexSlot R) :=
  let has_vec := !use_quaternion
  let has_mat := !use_quaternion && has_defMats
  let dvert := vertex_dvert cx i
  match vertex_weights cx invert_vgroup has_prevCos dvert with
  | none => none
  | some (armature_weight, prevco_weight) =>
    if armature_weight = 0 then some s
    else
      let co := if has_prevCos then s.prevCo else s.vertexCo
      let co := mul_v3_m4v3 cx.premat co
      match vertex_accumulate fm to_int cx use_envelope has_vec has_mat dvert co with
      | none => none
      | some (sums, contrib) =>
        let r := vertex_apply cx use_quaternion has_defMats armature_weight contrib sums co
          s.defMat
        let co := mul_v3_m4v3 cx.postmat r.1
        if has_prevCos then
          let mw := 1 - prevco_weight
          some ⟨fun k => prevco_weight * s.vertexCo k + mw * co k, r.2, co⟩
        else some ⟨co, r.2, s.prevCo⟩

/-- The elements with index `i` of the arrays. -/
def get_slot (arrays : DeformArrays R) (i : Nat) : VertexSlot R :=
  ⟨arrays.vertexCos i, (arrays.defMats.map (fun f => f i)).getD 0,
    (arrays.prevCos.map (fun f => f i)).getD 0⟩

/-- The write of the elements with index `i` into the arrays that are not NULL. -/
def set_slot (arrays : DeformArrays R) (i : Nat) (s : VertexSlot R) : DeformArrays R :=
  ⟨Function.update arrays.vertexCos i s.vertexCo,
    arrays.defMats.map (fun f => Function.update f i s.defMat),
    arrays.prevCos.map (fun f => Function.update f i s.prevCo)⟩

/-- The vertex loop `for (i = 0; i < numVerts; i++)`, over the list of its indices. -/
def deform_loop (body : Nat → VertexSlot R → Option (VertexSlot R)) :
    List Nat → DeformArrays R → Option (DeformArrays R)
  | [], arrays => some arrays
  | i :: rest, arrays =>
    match body i (get_slot arrays i) with
    | none => none
    | some s => deform_loop body rest (set_slot arrays i s)

/-- The entry of `defnrToPC` and `defnrToPCIndex` for the vertex group `name`: the
channel of that name unless its bone has `BONE_NO_DEFORM`; the outer `none` stands
for the read of a NULL `bone`. -/
def defnrToPC_entry (pose : bPose R) (name : String) : Option (Option (bPoseChannel R × Nat)) :=
  match BKE_pose_channel_find_name pose name with
  | none => some none
  | some pchan =>
    match pchan.bone with
    | none => none
    | some bone =>
      if has_flag bone.flag BONE_NO_DEFORM then some none
      else some (some (pchan, pose.chanbase.findIdx (fun p => p.name == name)))

/-- The loop over `target->defbase` that fills `defnrToPC` and `defnrToPCIndex`. -/
def defnrToPC_table (pose : bPose R) : List String → Option (List (Option (bPoseChannel R × Nat)))
  | [] => some []
  | name :: rest =>
    match defnrToPC_entry pose name with
    | none => none
    | some entry => (defnrToPC_table pose rest).map (fun table => entry :: table)

/-- The weight array `dverts` of the target and its length `target_totvert`; `none`
when `gps` is NULL and read. -/
def target_dverts (target : TargetObject R) (gps : Option (bGPDstroke R)) :
    Option (Option (Nat → MDeformVert R) × Nat) :=
  if target.ob_type = OB_MESH then
    some (target.me.dvert, if target.me.dvert.isSome then target.me.totvert else 0)
  else if target.ob_type = OB_LATTICE then
    some (target.lt.dvert,
      if target.lt.dvert.isSome then target.lt.pntsu * target.lt.pntsv * target.lt.pntsw else 0)
  else if target.ob_type = OB_GPENCIL then
    match gps with
    | none => none
    | some gps => some (gps.dvert, if gps.dvert.isSome then gps.totpoints else 0)
  else some (none, 0)

/-- The part of `armature_deform_verts` between the cache test and the vertex loop:
`armature_def_nr`, the weight array of the target, `use_dverts` and the table
`defnrToPC`.  The result is `none` when a NULL pointer would be read. -/
def deform_setup (pose : bPose R) (premat postmat : M4 R)
    (pdef_info_array : Nat → bPoseChanDeform R) (target : TargetObject R)
    (mesh : Option (Mesh R)) (deformflag : Nat) (defgrp_name : Option String)
    (gps : Option (bGPDstroke R)) : Option (DeformSetup R) :=
  let armature_def_nr := defgroup_name_index target defgrp_name
  let is_elem := target.ob_type = OB_MESH ∨ target.ob_type = OB_LATTICE
    ∨ target.ob_type = OB_GPENCIL
  match target_dverts target gps with
  | none => none
  | some (dverts, target_totvert) =>
    let defbase_tot := if is_elem then target.defbase.length else 0
    let use_dverts : Bool :=
      if has_flag deformflag ARM_DEF_VGROUP ∧ is_elem then
        match mesh with
        | some mesh => mesh.dvert.isSome
        | none => dverts.isSome
      else false
    let table : Option (List (Option (bPoseChannel R × Nat))) :=
      if use_dverts then defnrToPC_table pose target.defbase else some []
    match table with
    | none => none
    | some defnrToPC =>
      some ⟨pose.chanbase, premat, postmat, pdef_info_array, armature_def_nr, dverts,
        target_totvert, defbase_tot, use_dverts, defnrToPC, target.ob_type, mesh⟩

/-- The function `armature_deform_verts`.  The result is `none` when a pointer that is
NULL or points nowhere would be read.  `CLOG_ERROR` adds to the errors; `BLI_assert`
is compiled out (release build), so that the statement after it is the next one. -/
def armature_deform_verts (fm : FloatMath R) (to_int : R → Int) (armOb : Object R)
    (target : TargetObject R) (mesh : Option (Mesh R)) (arrays : DeformArrays R)
    (numVerts : Nat) (deformflag : Nat) (defgrp_name : Option String)
    (gps : Option (bGPDstroke R)) : Option (DeformResult R) :=
  let use_envelope := has_flag deformflag ARM_DEF_ENVELOPE
  let use_quaternion := has_flag deformflag ARM_DEF_QUATERNION
  let invert_vgroup := has_flag deformflag ARM_DEF_INVERT_VGROUP
  match armOb.data with
  | none => none
  | some arm =>
    if arm.edbo then some ⟨arrays, []⟩
    else
      match armOb.pose with
      | none => some ⟨arrays, []⟩
      | some pose =>
        let errors : List DeformError :=
          if has_flag pose.flag POSE_RECALC then [DeformError.pose_recalc] else []
        let obinv := invert_m4_m4 target.obmat
        let postmat := mul_m4_m4m4 obinv armOb.obmat
        let premat := invert_m4_m4 postmat
        match armOb.cached_bbone_deformation.bind (fun c => c.pdef_info_array) with
        | none => some ⟨arrays, errors ++ [DeformError.no_bbone_cache]⟩
        | some pdef_info_array =>
          match deform_setup pose premat postmat pdef_info_array target mesh deformflag
              defgrp_name gps with
          | none => none
          | some cx =>
            (deform_loop
              (deform_vertex fm to_int cx use_envelope use_quaternion invert_vgroup
                arrays.defMats.isSome arrays.prevCos.isSome)
              (List.range numVerts) arrays).map (fun a => ⟨a, errors⟩)

end DeformVerts

/-! ## Deformation: the blend in the words of the specification -/

section DeformSpec

variable {R : Type} [LinearOrderedField R]

/-- The group weights of a vertex that fall on deforming bones: for each entry that
the table resolves, the weight `w_i` and the deform matrix `M_i` (the `chan_mat` of
the channel). -/
def resolved_weights (cx : DeformSetup R) (dw : List (MDeformWeight R)) : List (R × M4 R) :=
  dw.filterMap (fun e => (resolve_entry cx e).map (fun p => (e.weight, p.1.chan_mat)))

/-- The total `W`, the sum of the weights `w_i`. -/
def total_weight (ws : List (R × M4 R)) : R := (ws.map (fun e => e.1)).sum

/-- The linear blend in the words of the specification:
`postmat·(p + (a/W)·Σ w_i·(M_i·p − p))`. -/
def linear_blend_spec (postmat : M4 R) (a : R) (ws : List (R × M4 R)) (p : V3 R) : V3 R :=
  mul_v3_m4v3 postmat
    (fun k => p k + (a / total_weight ws)
      * (ws.map (fun e => e.1 * (mul_v3_m4v3 e.2 p k - p k))).sum)

/-- The arrays `out` hold the slot `s` at index `i`, and are NULL where `arrays` are. -/
def SlotWritten (arrays out : DeformArrays R) (i : Nat) (s : VertexSlot R) : Prop :=
  out.vertexCos i = s.vertexCo ∧
  (∀ f, out.defMats = some f → f i = s.defMat) ∧
  (∀ f, out.prevCos = some f → f i = s.prevCo) ∧
  out.defMats.isSome = arrays.defMats.isSome ∧ out.prevCos.isSome = arrays.prevCos.isSome

end DeformSpec

/-! ## Deformation: a single influence in the words of the specification -/

section SingleInfluence

variable {R : Type} [LinearOrderedField R]

end SingleInfluence

/-! ## Example data -/

/-- Externals that do nothing: no constraints, no IK, every rotation conversion gives
the identity, the rebuild leaves the object as it is. -/
def noExternals (R : Type) [LinearOrderedField R] : PoseExternals R where
  eulO_to_mat3 := fun _ _ => 1
  axis_angle_to_mat3 := fun _ _ => 1
  normalize_qt_qt := fun q => q
  quat_to_mat3 := fun _ => 1
  constraints_solve := fun _ pchan _ => pchan.pose_mat
  BKE_pose_rebuild := fun ob _ => ob
  BKE_scene_frame_get := fun scene => scene.cfra
  BIK_initialize_tree := fun _ ob _ => ob
  BKE_pose_splineik_init_tree := fun _ ob _ => ob
  BIK_execute_tree := fun _ ob _ _ => ob
  BKE_splineik_execute_tree := fun _ ob _ _ => ob
  BIK_release_tree := fun _ ob _ => ob

/-- An executable `FloatMath` over the rationals for the concrete examples: exact on
rational squares, and on the angle 0 (the examples use zero roll). -/
def ratMath : FloatMath ℚ := ⟨Rat.sqrt, fun _ => 0, fun _ => 1, fun _ _ => 0⟩

/-- Example data: a root bone from (1,2,3) to (1,3,3), zero roll, with its rest
matrices, flagged `BONE_NO_LOCAL_LOCATION`. -/
def exampleBone : BoneData ℚ where
  name := "Root"
  flag := BONE_NO_LOCAL_LOCATION
  head := ![1, 2, 3]
  tail := ![1, 3, 3]
  roll := 0
  length := 1
  xwidth := 1 / 10
  zwidth := 1 / 10
  segments := 1
  bone_mat := 1
  arm_mat := !![1, 0, 0, 0; 0, 1, 0, 0; 0, 0, 1, 0; 1, 2, 3, 1]
  arm_head := ![1, 2, 3]
  arm_tail := ![1, 3, 3]
  rad_head := 1 / 10
  rad_tail := 1 / 20
  dist := 1 / 4
  weight := 1

/-- Example data: the pose channel of `exampleBone`, at rest. -/
def exampleChannel : bPoseChannel ℚ where
  name := "Root"
  bone := some exampleBone
  bone_parent := none
  parent := none
  flag := 0
  loc := ![0, 0, 0]
  size := ![1, 1, 1]
  eul := ![0, 0, 0]
  quat := ![1, 0, 0, 0]
  rotAxis := ![0, 1, 0]
  rotAngle := 0
  rotmode := 0
  has_constraints := false
  chan_mat := 1
  pose_mat := 1
  pose_head := ![0, 0, 0]
  pose_tail := ![0, 0, 0]

/-- Example data: an armature object with the one bone and its channel. -/
def exampleObject : Object ℚ where
  ob_type := OB_ARMATURE
  data := some { bonebase := [Bone.mk exampleBone []], flag := 0, edbo := false }
  pose := some { chanbase := [exampleChannel], flag := 0, cyclic_offset := ![0, 0, 0] }
  obmat := 1
  imat := 1
  cached_bbone_deformation := none

/-! ### Example data for the deformation -/

section DeformExamples

variable (R : Type) [LinearOrderedField R]

/-- Example data: bone A, the root from (0,0,0) to (0,2,0), at rest. -/
def exampleBoneA : BoneData R where
  name := "A"
  flag := 0
  head := ![0, 0, 0]
  tail := ![0, 2, 0]
  roll := 0
  length := 2
  xwidth := 1 / 10
  zwidth := 1 / 10
  segments := 1
  bone_mat := 1
  arm_mat := 1
  arm_head := ![0, 0, 0]
  arm_tail := ![0, 2, 0]
  rad_head := 1 / 2
  rad_tail := 1 / 2
  dist := 1
  weight := 1

/-- Example data: bone B, the child of A from (0,2,0) to (0,4,0), at rest. -/
def exampleBoneB : BoneData R where
  name := "B"
  flag := BONE_CONNECTED
  head := ![0, 0, 0]
  tail := ![0, 2, 0]
  roll := 0
  length := 2
  xwidth := 1 / 10
  zwidth := 1 / 10
  segments := 1
  bone_mat := 1
  arm_mat := !![1, 0, 0, 0; 0, 1, 0, 0; 0, 0, 1, 0; 0, 2, 0, 1]
  arm_head := ![0, 2, 0]
  arm_tail := ![0, 4, 0]
  rad_head := 1 / 2
  rad_tail := 1 / 2
  dist := 1
  weight := 1

/-- Example data: the channel of bone A, at rest. -/
def exampleChanA : bPoseChannel R where
  name := "A"
  bone := some (exampleBoneA R)
  bone_parent := none
  parent := none
  flag := 0
  loc := ![0, 0, 0]
  size := ![1, 1, 1]
  eul := ![0, 0, 0]
  quat := ![1, 0, 0, 0]
  rotAxis := ![0, 1, 0]
  rotAngle := 0
  rotmode := 0
  has_constraints := false
  chan_mat := 1
  pose_mat := 1
  pose_head := ![0, 0, 0]
  pose_tail := ![0, 2, 0]

/-- Example data: the channel of bone B, rotated by 90 degrees about X at its head:
the Y axis of `pose_mat` is (0,0,1), and `chan_mat` is `pose_mat · inverse(arm_mat)`. -/
def exampleChanB : bPoseChannel R where
  name := "B"
  bone := some (exampleBoneB R)
  bone_parent := some (exampleBoneA R)
  parent := some "A"
  flag := 0
  loc := ![0, 0, 0]
  size := ![1, 1, 1]
  eul := ![0, 0, 0]
  quat := ![1, 0, 0, 0]
  rotAxis := ![1, 0, 0]
  rotAngle := 0
  rotmode := 0
  has_constraints := false
  chan_mat := !![1, 0, 0, 0; 0, 0, 1, 0; 0, -1, 0, 0; 0, 2, -2, 1]
  pose_mat := !![1, 0, 0, 0; 0, 0, 1, 0; 0, -1, 0, 0; 0, 2, 0, 1]
  pose_head := ![0, 2, 0]
  pose_tail := ![0, 2, 2]

/-- Example data: a deformation cache without B-Bone arrays and dual quaternions. -/
def examplePdef : Nat → bPoseChanDeform R := fun _ => ⟨none, none, none⟩

/-- Example data: the pose of bones A and B with the pose flag `flag`. -/
def examplePose (flag : Nat) : bPose R :=
  ⟨[exampleChanA R, exampleChanB R], flag, ![0, 0, 0]⟩

/-- Example data: the armature object of bones A and B, posed, with its cache, the
pose flag `flag` and the object matrix `obmat`. -/
def exampleArmatureObject (flag : Nat) (obmat : M4 R) : Object R where
  ob_type := OB_ARMATURE
  data := some ⟨[Bone.mk (exampleBoneA R) [Bone.mk (exampleBoneB R) []]], 0, false⟩
  pose := some (examplePose R flag)
  obmat := obmat
  imat := 1
  cached_bbone_deformation := some ⟨some (examplePdef R), 2⟩

/-- Example data: the weights of a mesh with three vertex groups "A", "B", "Mask":
vertex 0 is bound to B alone, vertex 1 half to A and half to B and with weight 1/4
in "Mask", the others have no entry. -/
def exampleWeights : Nat → MDeformVert R :=
  fun i => if i = 0 then ⟨[⟨1, 1⟩]⟩
    else if i = 1 then ⟨[⟨0, 1 / 2⟩, ⟨1, 1 / 2⟩, ⟨2, 1 / 4⟩]⟩ else ⟨[]⟩

/-- Example data: a mesh object with the vertex groups "A", "B" and "Mask". -/
def exampleTarget : TargetObject R where
  ob_type := OB_MESH
  obmat := 1
  defbase := ["A", "B", "Mask"]
  me := ⟨some (exampleWeights R), 3⟩
  lt := ⟨none, 0, 0, 0⟩

/-- Example data: vertices at the point `v`, without `defMats` and `prevCos`. -/
def exampleArrays (v : V3 R) : DeformArrays R := ⟨fun _ => v, none, none⟩

/-- Example data: the locals of `armature_deform_verts` for the example objects in
vertex-group mode, with the armature group number `armature_def_nr`. -/
def exampleSetup (flag : Nat) (obmat : M4 R) (armature_def_nr : Int) : DeformSetup R where
  chanbase := (examplePose R flag).chanbase
  premat := invert_m4_m4 (mul_m4_m4m4 (invert_m4_m4 (exampleTarget R).obmat) obmat)
  postmat := mul_m4_m4m4 (invert_m4_m4 (exampleTarget R).obmat) obmat
  pdef_info_array := examplePdef R
  armature_def_nr := armature_def_nr
  dverts := some (exampleWeights R)
  target_totvert := 3
  defbase_tot := 3
  use_dverts := true
  defnrToPC := [some (exampleChanA R, 0), some (exampleChanB R, 1), none]
  target_type := OB_MESH
  mesh := none

/-- Example data: bone E, from the origin to (0,1,0), with an envelope of radius 1/2. -/
def exampleBoneE : BoneData R where
  name := "E"
  flag := 0
  head := ![0, 0, 0]
  tail := ![0, 1, 0]
  roll := 0
  length := 1
  xwidth := 1 / 10
  zwidth := 1 / 10
  segments := 1
  bone_mat := 1
  arm_mat := 1
  arm_head := ![0, 0, 0]
  arm_tail := ![0, 1, 0]
  rad_head := 1 / 2
  rad_tail := 1 / 2
  dist := 1
  weight := 1

/-- Example data: the channel of bone E, moved by (1,0,0). -/
def exampleChanE : bPoseChannel R where
  name := "E"
  bone := some (exampleBoneE R)
  bone_parent := none
  parent := none
  flag := 0
  loc := ![1, 0, 0]
  size := ![1, 1, 1]
  eul := ![0, 0, 0]
  quat := ![1, 0, 0, 0]
  rotAxis := ![0, 1, 0]
  rotAngle := 0
  rotmode := 0
  has_constraints := false
  chan_mat := !![1, 0, 0, 0; 0, 1, 0, 0; 0, 0, 1, 0; 1, 0, 0, 1]
  pose_mat := !![1, 0, 0, 0; 0, 1, 0, 0; 0, 0, 1, 0; 1, 0, 0, 1]
  pose_head := ![1, 0, 0]
  pose_tail := ![1, 1, 0]

/-- Example data: the dual quaternion of the translation by (1,0,0). -/
def exampleDualQuatE : DualQuat R := ⟨![1, 0, 0, 0], ![0, 1 / 2, 0, 0], 0, 0⟩

/-- Example data: the armature object of bone E with its cache, which holds the dual
quaternion of the channel. -/
def exampleArmatureE : Object R where
  ob_type := OB_ARMATURE
  data := some ⟨[Bone.mk (exampleBoneE R) []], 0, false⟩
  pose := some ⟨[exampleChanE R], 0, ![0, 0, 0]⟩
  obmat := 1
  imat := 1
  cached_bbone_deformation := some ⟨some (fun _ => ⟨none, some (exampleDualQuatE R), none⟩), 1⟩

/-- Example data: a mesh object with the vertex group "E"; vertex 0 has an entry of
weight 0 in it, the others one of weight 1/2. -/
def exampleTargetE : TargetObject R where
  ob_type := OB_MESH
  obmat := 1
  defbase := ["E"]
  me := ⟨some (fun i => if i = 0 then ⟨[⟨0, 0⟩]⟩ else ⟨[⟨0, 1 / 2⟩]⟩), 2⟩
  lt := ⟨none, 0, 0, 0⟩

/-- Example data: the locals of `armature_deform_verts` for bone E, with or without
the vertex groups. -/
def exampleSetupE (use_dverts : Bool) : DeformSetup R where
  chanbase := [exampleChanE R]
  premat := invert_m4_m4 (mul_m4_m4m4 (invert_m4_m4 (exampleTargetE R).obmat) 1)
  postmat := mul_m4_m4m4 (invert_m4_m4 (exampleTargetE R).obmat) 1
  pdef_info_array := fun _ => ⟨none, some (exampleDualQuatE R), none⟩
  armature_def_nr := -1
  dverts := (exampleTargetE R).me.dvert
  target_totvert := 2
  defbase_tot := 1
  use_dverts := use_dverts
  defnrToPC := if use_dverts then [some (exampleChanE R, 0)] else []
  target_type := OB_MESH
  mesh := none

end DeformExamples

/-! ## IK chain root -/

section IKRoot

variable {α : Type}

/-- The loop of `BKE_armature_ik_solver_find_root`: `while (rootchan->parent)` with the
counter `segcount`; `parent` is the field `pchan->parent` (`none` for NULL) and `fuel`
bounds the number of iterations, the result being `none` when it runs out. -/
def ik_solver_find_root_loop (parent : α → Option α) (rootbone : Int) :
    Nat → α → Int → Option α
  | 0, _, _ => none
  | fuel + 1, rootchan, segcount =>
    match parent rootchan with
    | none => some rootchan
    | some p =>
      if segcount + 1 = rootbone then some rootchan
      else ik_solver_find_root_loop parent rootbone fuel p (segcount + 1)

/-- The function `BKE_armature_ik_solver_find_root`; `ik_tip` is the test
`data->flag & CONSTRAINT_IK_TIP` and `rootbone` the field `data->rootbone`.  The outer
`none` is a loop that has not ended within `fuel` iterations, the inner `none` the
NULL pointer returned when the tip is excluded and has no parent. -/
def BKE_armature_ik_solver_find_root (parent : α → Option α) (fuel : Nat) (pchan : α)
    (ik_tip : Bool) (rootbone : Int) : Option (Option α) :=
  let rootchan : Option α := if !ik_tip then parent pchan else some pchan
  match rootchan with
  | none => some none
  | some r => (ik_solver_find_root_loop parent rootbone fuel r 0).map some

/-- The ancestor `k` levels above a channel, in the words of the specification: the
channel itself for `k = 0`, and `none` above the top of the hierarchy. -/
def ancestor_spec (parent : α → Option α) : Nat → α → Option α
  | 0, x => some x
  | k + 1, x => (parent x).bind (ancestor_spec parent k)

end IKRoot

/-! ## Space conversions -/

section SpaceConversion

variable {R : Type} [LinearOrderedField R]

/-- The function `BKE_armature_mat_world_to_pose`: the matrix left in `outmat`, which
is not written when `ob` is NULL. -/
def BKE_armature_mat_world_to_pose (ob : Option (Object R)) (inmat outmat : M4 R) : M4 R :=
  match ob with
  | none => outmat
  | some ob =>
    let obmat := invert_m4_m4 ob.obmat
    mul_m4_m4m4 inmat obmat

/-- The function `BKE_armature_loc_world_to_pose`: the location left in `outloc`;
`nLocMat` is the content of the local matrix of that name before the call. -/
def BKE_armature_loc_world_to_pose (ob : Option (Object R)) (inloc : V3 R) (nLocMat : M4 R) :
    V3 R :=
  let xLocMat : M4 R := m4_set_loc unit_m4 inloc
  let nLocMat := BKE_armature_mat_world_to_pose ob xLocMat nLocMat
  m4_axis nLocMat 3

end SpaceConversion

/-- Example data: the channel of `exampleBone` scaled by 2 along X. -/
def exampleScaledChannel : bPoseChannel ℚ := { exampleChannel with size := ![2, 1, 1] }

/-- Example data: the pose with the scaled channel alone. -/
def exampleScaledPose : bPose ℚ := ⟨[exampleScaledChannel], 0, ![0, 0, 0]⟩

/-- Example data: the example object with the scaled channel. -/
def exampleScaledObject : Object ℚ := { exampleObject with pose := some exampleScaledPose }

/-- Example data: the root of the two-bone chain, from the origin to (0,1,0), before
rest propagation. -/
def exampleChainRoot : BoneData ℚ := { exampleBoneA ℚ with tail := ![0, 1, 0] }

/-- Example data: the child of the two-bone chain, from the tail of the root to
(0,1,0) further, before rest propagation. -/
def exampleChainChild : BoneData ℚ := { exampleBoneB ℚ with tail := ![0, 1, 0] }

/-- Example data: the armature of the two-bone chain. -/
def exampleChainArmature : bArmature ℚ :=
  ⟨[Bone.mk exampleChainRoot [Bone.mk exampleChainChild []]], 0, false⟩

/-- Example data: the object of the two-bone chain after rest propagation, with the
channels of its two bones at the identity. -/
def exampleChainObject : Object ℚ where
  ob_type := OB_ARMATURE
  data := some (BKE_armature_where_is ratMath exampleChainArmature)
  pose := some ⟨[{ exampleChanA ℚ with bone := some (where_is_bone_data ratMath exampleChainRoot none) },
    { exampleChanB ℚ with
      bone := some (where_is_bone_data ratMath exampleChainChild
        (some (where_is_bone_data ratMath exampleChainRoot none))),
      bone_parent := some (where_is_bone_data ratMath exampleChainRoot none) }], 0, ![0, 0, 0]⟩
  obmat := 1
  imat := 1
  cached_bbone_deformation := none

/-! ## B-Bone spline -/

/-- Modelled from the spec: the fixed maximum of the B-Bone segment count
(`MAX_BBONE_SUBDIV`, 32 in `BKE_armature.h`). -/
def MAX_BBONE_SUBDIV : Nat := 32
/-- Handle type `BBONE_HANDLE_AUTO`. -/
def BBONE_HANDLE_AUTO : Int := 0
/-- Handle type `BBONE_HANDLE_ABSOLUTE`. -/
def BBONE_HANDLE_ABSOLUTE : Int := 1
/-- Handle type `BBONE_HANDLE_RELATIVE`. -/
def BBONE_HANDLE_RELATIVE : Int := 2
/-- Handle type `BBONE_HANDLE_TANGENT`. -/
def BBONE_HANDLE_TANGENT : Int := 3
/-- Bone flag `BONE_ADD_PARENT_END_ROLL` (`1 << 24`). -/
def BONE_ADD_PARENT_END_ROLL : Nat := 16777216

/-- The `struct BBoneSplineParameters`. -/
structure BBoneSplineParameters (R : Type) where
  segments : Nat
  length : R
  do_scale : Bool
  scale : V3 R
  use_prev : Bool
  prev_bbone : Bool
  use_next : Bool
  next_bbone : Bool
  prev_h : V3 R
  next_h : V3 R
  prev_mat : M4 R
  next_mat : M4 R
  ease1 : R
  ease2 : R
  roll1 : R
  roll2 : R
  scaleIn : R
  scaleOut : R
  curveInX : R
  curveInY : R
  curveOutX : R
  curveOutY : R

/-- A `struct Bone` with its B-Bone fields: `bone` holds the fields of `BoneData`
(`flag`, `segments`, `length`, `arm_mat`, `arm_head`, `arm_tail`). -/
structure BBoneBone (R : Type) where
  bone : BoneData R
  bbone_prev_type : Int
  bbone_next_type : Int
  ease1 : R
  ease2 : R
  roll1 : R
  roll2 : R
  scaleIn : R
  scaleOut : R
  curveInX : R
  curveInY : R
  curveOutX : R
  curveOutY : R

/-- The fields that `BKE_pchan_bbone_spline_params_get` reads of the channel a handle
refers to (`prev` or `next`); `bone` is `none` for a NULL pointer. -/
structure BBoneHandleChannel (R : Type) where
  bone : Option (BBoneBone R)
  pose_mat : M4 R
  pose_head : V3 R
  pose_tail : V3 R
  roll2 : R

/-- The fields of `struct bPoseChannel` read by the B-Bone spline code; `parent`,
`child`, `bbone_prev` and `bbone_next` are the channels those pointers refer to. -/
structure BBoneChannel (R : Type) where
  bone : Option (BBoneBone R)
  pose_mat : M4 R
  pose_head : V3 R
  pose_tail : V3 R
  ease1 : R
  ease2 : R
  roll1 : R
  roll2 : R
  scaleIn : R
  scaleOut : R
  curveInX : R
  curveInY : R
  curveOutX : R
  curveOutY : R
  parent : Option (BBoneHandleChannel R)
  child : Option (BBoneHandleChannel R)
  bbone_prev : Option (BBoneHandleChannel R)
  bbone_next : Option (BBoneHandleChannel R)

/-- The four outputs of `BKE_pchan_bbone_handles_compute`. -/
structure BBoneHandles (R : Type) where
  h1 : V3 R
  roll1 : R
  h2 : V3 R
  roll2 : R

section BBone

variable {R : Type} [LinearOrderedField R]

/-- Modelled from the spec: `len_v3v3` of the geometry primitives, the distance of two
points. -/
def len_v3v3 (fm : FloatMath R) (a b : V3 R) : R := len_v3 fm (sub_v3_v3v3 b a)

/-- The xyz part of a four-component point of the B-Bone sample array. -/
def qt_xyz (q : Fin 4 → R) : V3 R := ![q 0, q 1, q 2]

/-- The array `pdist` of `equalize_bbone_bezier`: `pdist[0] = 0` and
`pdist[a + 1] = pdist[a] + len_v3v3(fp, fp + 4)`. -/
def equalize_pdist (fm : FloatMath R) (data : Nat → Fin 4 → R) : Nat → R
  | 0 => 0
  | a + 1 => equalize_pdist fm data a + len_v3v3 fm (qt_xyz (data a)) (qt_xyz (data (a + 1)))

/-- The loop `while ((nr < MAX_BBONE_SUBDIV) && (dist >= pdist[nr])) nr++;` of
`equalize_bbone_bezier`: the value of `nr` after it. -/
def equalize_search (pdist : Nat → R) (dist : R) (nr : Nat) : Nat :=
  if h : nr < MAX_BBONE_SUBDIV ∧ dist ≥ pdist nr then equalize_search pdist dist (nr + 1)
  else nr
termination_by MAX_BBONE_SUBDIV - nr
decreasing_by
  have := h.1
  omega

/-- The loop `for (a = 1; a < desired; a++)` of `equalize_bbone_bezier` after its
iterations `1 .. n`: the value of `nr` and the array `data`. -/
def equalize_loop (pdist : Nat → R) (temp : Nat → Fin 4 → R) (ddist : R)
    (data : Nat → Fin 4 → R) : Nat → Nat × (Nat → Fin 4 → R)
  | 0 => (1, data)
  | n + 1 =>
    let st := equalize_loop pdist temp ddist data n
    let a := n + 1
    let dist := (a : R) * ddist
    let nr := equalize_search pdist dist st.1
    let fac1 := pdist nr - pdist (nr - 1)
    let fac2 := pdist nr - dist
    let fac1 := fac2 / fac1
    let fac2 := 1 - fac1
    (nr, Function.update st.2 a (fun k => fac1 * temp (nr - 1) k + fac2 * temp nr k))

/-- The function `equalize_bbone_bezier`: the array `data` after the call. -/
def equalize_bbone_bezier (fm : FloatMath R) (data : Nat → Fin 4 → R) (desired : Nat) :
    Nat → Fin 4 → R :=
  let temp := data
  let pdist := equalize_pdist fm data
  let totdist := pdist MAX_BBONE_SUBDIV
  let ddist := totdist / (desired : R)
  let st := equalize_loop pdist temp ddist data (desired - 1)
  Function.update st.2 (max desired 1) (temp MAX_BBONE_SUBDIV)

/-- The function `BKE_pchan_bbone_handles_get`: the pair `(prev, next)`. -/
def BKE_pchan_bbone_handles_get (pchan : BBoneChannel R) (bone : BBoneBone R) :
    Option (BBoneHandleChannel R) × Option (BBoneHandleChannel R) :=
  let prev :=
    if bone.bbone_prev_type = BBONE_HANDLE_AUTO then
      if has_flag bone.bone.flag BONE_CONNECTED then pchan.parent else none
    else pchan.bbone_prev
  let next :=
    if bone.bbone_next_type = BBONE_HANDLE_AUTO then pchan.child
    else pchan.bbone_next
  (prev, next)

/-- The first part of the block `if (prev)` of `BKE_pchan_bbone_spline_params_get`,
"Transform previous point inside this bone space": the record and the local `h1`,
which is `none` where the source sets `done`.  The result is `none` when `prev->bone`
is NULL where it is dereferenced. -/
def spline_params_prev_handle (bone : BBoneBone R) (pchan : BBoneChannel R) (rest : Bool)
    (prev : BBoneHandleChannel R) (param : BBoneSplineParameters R) :
    Option (BBoneSplineParameters R × Option (V3 R)) :=
  let param := { param with use_prev := true }
  if bone.bbone_prev_type = BBONE_HANDLE_RELATIVE then
    if rest then some ({ param with prev_h := fun _ => 0 }, none)
    else
      match prev.bone with
      | none => none
      | some pb =>
        let delta := sub_v3_v3v3 prev.pose_head pb.bone.arm_head
        some (param, some (sub_v3_v3v3 pchan.pose_head delta))
  else if bone.bbone_prev_type = BBONE_HANDLE_TANGENT then
    if rest then
      match prev.bone with
      | none => none
      | some pb =>
        let delta := sub_v3_v3v3 pb.bone.arm_tail pb.bone.arm_head
        some (param, some (sub_v3_v3v3 bone.bone.arm_head delta))
    else
      let delta := sub_v3_v3v3 prev.pose_tail prev.pose_head
      some (param, some (sub_v3_v3v3 pchan.pose_head delta))
  else
    match prev.bone with
    | none => none
    | some pb =>
      some ({ param with prev_bbone := decide (pb.bone.segments > 1) },
        some (if rest then pb.bone.arm_head else prev.pose_head))

/-- The second part of the block `if (prev)`: `if (!done)` and
`if (!param->prev_bbone)`. -/
def spline_params_prev_finish (rest : Bool) (imat : M4 R) (prev : BBoneHandleChannel R)
    (param : BBoneSplineParameters R) (h1 : Option (V3 R)) : Option (BBoneSplineParameters R) :=
  let param :=
    match h1 with
    | some h1 => { param with prev_h := mul_v3_m4v3 imat h1 }
    | none => param
  if !param.prev_bbone then
    if rest then
      match prev.bone with
      | none => none
      | some pb => some { param with prev_mat := mul_m4_m4m4 imat pb.bone.arm_mat }
    else some { param with prev_mat := mul_m4_m4m4 imat prev.pose_mat }
  else some param

/-- The block `if (prev)` of `BKE_pchan_bbone_spline_params_get`. -/
def spline_params_prev (bone : BBoneBone R) (pchan : BBoneChannel R) (rest : Bool) (imat : M4 R)
    (prev : BBoneHandleChannel R) (param : BBoneSplineParameters R) :
    Option (BBoneSplineParameters R) :=
  match spline_params_prev_handle bone pchan rest prev param with
  | none => none
  | some (param, h1) => spline_params_prev_finish rest imat prev param h1

/-- The first part of the block `if (next)` of `BKE_pchan_bbone_spline_params_get`,
"Transform next point inside this bone space": the record and the local `h2`, which
is `none` where the source sets `done`.  The result is `none` when `next->bone` is
NULL where it is dereferenced. -/
def spline_params_next_handle (bone : BBoneBone R) (pchan : BBoneChannel R) (rest : Bool)
    (next : BBoneHandleChannel R) (param : BBoneSplineParameters R) :
    Option (BBoneSplineParameters R × Option (V3 R)) :=
  let param := { param with use_next := true }
  if bone.bbone_next_type = BBONE_HANDLE_RELATIVE then
    if rest then some ({ param with next_h := ![0, param.length, 0] }, none)
    else
      match next.bone with
      | none => none
      | some nb =>
        let delta := sub_v3_v3v3 next.pose_head nb.bone.arm_head
        some (param, some (add_v3_v3v3 pchan.pose_tail delta))
  else if bone.bbone_next_type = BBONE_HANDLE_TANGENT then
    if rest then
      match next.bone with
      | none => none
      | some nb =>
        let delta := sub_v3_v3v3 nb.bone.arm_tail nb.bone.arm_head
        some (param, some (add_v3_v3v3 bone.bone.arm_tail delta))
    else
      let delta := sub_v3_v3v3 next.pose_tail next.pose_head
      some (param, some (add_v3_v3v3 pchan.pose_tail delta))
  else
    match next.bone with
    | none => none
    | some nb =>
      some ({ param with next_bbone := decide (nb.bone.segments > 1) },
        some (if rest then nb.bone.arm_tail else next.pose_tail))

/-- The second part of the block `if (next)`: `if (!done)` and "Find the next roll to
interpolate as well". -/
def spline_params_next_finish (rest : Bool) (imat : M4 R) (next : BBoneHandleChannel R)
    (param : BBoneSplineParameters R) (h2 : Option (V3 R)) : Option (BBoneSplineParameters R) :=
  let param :=
    match h2 with
    | some h2 => { param with next_h := mul_v3_m4v3 imat h2 }
    | none => param
  if rest then
    match next.bone with
    | none => none
    | some nb => some { param with next_mat := mul_m4_m4m4 imat nb.bone.arm_mat }
  else some { param with next_mat := mul_m4_m4m4 imat next.pose_mat }

/-- The block `if (next)` of `BKE_pchan_bbone_spline_params_get`. -/
def spline_params_next (bone : BBoneBone R) (pchan : BBoneChannel R) (rest : Bool) (imat : M4 R)
    (next : BBoneHandleChannel R) (param : BBoneSplineParameters R) :
    Option (BBoneSplineParameters R) :=
  match spline_params_next_handle bone pchan rest next param with
  | none => none
  | some (param, h2) => spline_params_next_finish rest imat next param h2

/-- The last block of `BKE_pchan_bbone_spline_params_get`: "Add effects from bbone
properties over the top". -/
def spline_params_offsets (bone : BBoneBone R) (pchan : BBoneChannel R) (rest : Bool)
    (prev : Option (BBoneHandleChannel R)) (param : BBoneSplineParameters R) :
    BBoneSplineParameters R :=
  let roll1 := bone.roll1 + (if !rest then pchan.roll1 else 0)
  let roll1 :=
    if has_flag bone.bone.flag BONE_ADD_PARENT_END_ROLL then
      match prev with
      | some prev =>
        let roll1 :=
          match prev.bone with
          | some pb => roll1 + pb.roll2
          | none => roll1
        if !rest then roll1 + prev.roll2 else roll1
      | none => roll1
    else roll1
  { param with
    ease1 := bone.ease1 + (if !rest then pchan.ease1 else 0),
    ease2 := bone.ease2 + (if !rest then pchan.ease2 else 0),
    roll1 := roll1,
    roll2 := bone.roll2 + (if !rest then pchan.roll2 else 0),
    scaleIn := bone.scaleIn * (if !rest then pchan.scaleIn else 1),
    scaleOut := bone.scaleOut * (if !rest then pchan.scaleOut else 1),
    curveInX := bone.curveInX + (if !rest then pchan.curveInX else 0),
    curveInY := bone.curveInY + (if !rest then pchan.curveInY else 0),
    curveOutX := bone.curveOutX + (if !rest then pchan.curveOutX else 0),
    curveOutY := bone.curveOutY + (if !rest then pchan.curveOutY else 0) }

/-- The start of `BKE_pchan_bbone_spline_params_get`: the record after `memset`, the
copy of `segments` and `length`, and the check "if we need to take non-uniform bone
scaling into account". -/
def spline_params_init (fm : FloatMath R) (bone : BBoneBone R) (pchan : BBoneChannel R)
    (rest : Bool) : BBoneSplineParameters R :=
  let param : BBoneSplineParameters R :=
    ⟨0, 0, false, fun _ => 0, false, false, false, false, fun _ => 0, fun _ => 0, 0, 0,
      0, 0, 0, 0, 0, 0, 0, 0, 0, 0⟩
  let param := { param with segments := bone.bone.segments, length := bone.bone.length }
  if !rest then
    let scale := mat4_to_size fm pchan.pose_mat
    if |scale 0 - scale 1| > 1 / 10 ^ 6 ∨ |scale 1 - scale 2| > 1 / 10 ^ 6 then
      { param with do_scale := true, scale := scale }
    else param
  else param

/-- The local `imat` of `BKE_pchan_bbone_spline_params_get`. -/
def spline_params_imat (fm : FloatMath R) (bone : BBoneBone R) (pchan : BBoneChannel R)
    (rest : Bool) (param : BBoneSplineParameters R) : M4 R :=
  if rest then invert_m4_m4 bone.bone.arm_mat
  else if param.do_scale then invert_m4_m4 (normalize_m4 fm pchan.pose_mat)
  else invert_m4_m4 pchan.pose_mat

/-- The function `BKE_pchan_bbone_spline_params_get`: the record `param` after the
call, `none` when a NULL pointer would be dereferenced. -/
def BKE_pchan_bbone_spline_params_get (fm : FloatMath R) (pchan : BBoneChannel R) (rest : Bool) :
    Option (BBoneSplineParameters R) :=
  match pchan.bone with
  | none => none
  | some bone =>
    let param := spline_params_init fm bone pchan rest
    let handles := BKE_pchan_bbone_handles_get pchan bone
    let prev := handles.1
    let next := handles.2
    let imat := spline_params_imat fm bone pchan rest param
    let param : Option (BBoneSplineParameters R) :=
      match prev with
      | some prev => spline_params_prev bone pchan rest imat prev param
      | none => some param
    let param : Option (BBoneSplineParameters R) :=
      match param with
      | none => none
      | some param =>
        match next with
        | some next => spline_params_next bone pchan rest imat next param
        | none => some param
    param.map (spline_params_offsets bone pchan rest prev)

/-- The function `BKE_pchan_bbone_handles_compute`; `cubic_tangent_factor_circle_v3` is
the function of that name of the math library (not in this file). -/
def BKE_pchan_bbone_handles_compute (fm : FloatMath R)
    (cubic_tangent_factor_circle_v3 : V3 R → V3 R → R) (param : BBoneSplineParameters R)
    (ease offsets : Bool) : BBoneHandles R :=
  let length := if param.do_scale then param.length * param.scale 1 else param.length
  let r_roll1 : R := 0
  let r_roll2 : R := 0
  let prev : V3 R × R :=
    if param.use_prev then
      let h1 := param.prev_h
      let h1 : V3 R := if param.prev_bbone then ![h1 0, h1 1 - length, h1 2] else h1
      let h1 := normalize_v3_v3 fm h1
      let h1 : V3 R := fun k => -h1 k
      if !param.prev_bbone then (h1, mat3_vec_to_roll fm (copy_m3_m4 param.prev_mat) h1)
      else (h1, r_roll1)
    else (![0, 1, 0], r_roll1)
  let next : V3 R × R :=
    if param.use_next then
      let h2 := param.next_h
      let h2 : V3 R := if param.next_bbone then h2 else ![h2 0, h2 1 - length, h2 2]
      let h2 := normalize_v3_v3 fm h2
      (h2, mat3_vec_to_roll fm (copy_m3_m4 param.next_mat) h2)
    else (![0, 1, 0], r_roll2)
  let h1 := prev.1
  let r_roll1 := prev.2
  let h2 := next.1
  let r_roll2 := next.2
  let eased : V3 R × V3 R :=
    if ease then
      let circle_factor := length * (cubic_tangent_factor_circle_v3 h1 h2 / (3 / 4))
      let hlength1 := param.ease1 * circle_factor
      let hlength2 := param.ease2 * circle_factor
      (mul_v3_fl h1 hlength1, mul_v3_fl h2 (-hlength2))
    else (h1, h2)
  let h1 := eased.1
  let h2 := eased.2
  if offsets then
    let r_roll1 := r_roll1 + param.roll1
    let r_roll2 := r_roll2 + param.roll2
    let xscale_correction := if param.do_scale then param.scale 0 else 1
    let yscale_correction := if param.do_scale then param.scale 2 else 1
    { h1 := ![h1 0 + param.curveInX * xscale_correction, h1 1,
              h1 2 + param.curveInY * yscale_correction],
      roll1 := r_roll1,
      h2 := ![h2 0 + param.curveOutX * xscale_correction, h2 1,
              h2 2 + param.curveOutY * yscale_correction],
      roll2 := r_roll2 }
  else { h1 := h1, roll1 := r_roll1, h2 := h2, roll2 := r_roll2 }

/-- One step of the forward differencing of `BKE_curve_forward_diff_bezier`:
`q0 += q1; q1 += q2; q2 += q3`. -/
def forward_diff_step (q : R × R × R × R) : R × R × R × R :=
  (q.1 + q.2.1, q.2.1 + q.2.2.1, q.2.2.1 + q.2.2.2, q.2.2.2)

/-- Modelled from the spec: `BKE_curve_forward_diff_bezier` of the curve code (not in
this file), which "forward-differences" the cubic Bezier polynomial with the control
values `q0 .. q3` into `it + 1` points; the result is the array of the points. -/
def BKE_curve_forward_diff_bezier (q0 q1 q2 q3 : R) (it : Nat) : Nat → R :=
  let f : R := (it : R)
  let rt0 := q0
  let rt1 := 3 * (q1 - q0) / f
  let f := f * f
  let rt2 := 3 * (q0 - 2 * q1 + q2) / f
  let f := f * (it : R)
  let rt3 := (q3 - q0 + 3 * (q1 - q2)) / f
  let q0 := rt0
  let q1 := rt1 + rt2 + rt3
  let q2 := 2 * rt2 + 6 * rt3
  let q3 := 6 * rt3
  fun a => (forward_diff_step^[a] (q0, q1, q2, q3)).1

/-- The Y coordinate of the sample `a` of the straight bone of length `L`, in closed
form: the cubic Bezier polynomial with the control values `0, 0, L, L` at `a / 32`. -/
def straight_sample (L : R) (a : Nat) : R := L * (96 * (a : R) ^ 2 - 2 * (a : R) ^ 3) / 32768

/-- The factor `scalefac` of the block "BBone scale..." of
`BKE_pchan_bbone_spline_compute` for the segment `a`. -/
def bbone_scalefac (param : BBoneSplineParameters R) (a : Nat) : R :=
  let num_segments := param.segments
  let scaleIn := param.scaleIn
  let scaleFactorIn :=
    1 + (scaleIn - 1) * ((((num_segments : Int) - (a : Int) : Int) : R) / (num_segments : R))
  let scaleOut := param.scaleOut
  let scaleFactorOut := 1 + (scaleOut - 1) * (((a + 1 : Nat) : R) / (num_segments : R))
  scaleFactorIn * scaleFactorOut

/-- The body of the loop of `BKE_pchan_bbone_spline_compute` that makes the matrix of
the segment `a` from the equalized points `data`. -/
def bbone_segment_mat (fm : FloatMath R) (param : BBoneSplineParameters R)
    (scalemat iscalemat : M4 R) (data : Nat → Fin 4 → R) (a : Nat) : M4 R :=
  let h1 := sub_v3_v3v3 (qt_xyz (data (a + 1))) (qt_xyz (data a))
  let mat3 := vec_roll_to_mat3 fm h1 (data a 3)
  let mat := copy_m4_m3 mat3
  let mat := m4_set_loc mat (qt_xyz (data a))
  let mat :=
    if param.do_scale then mul_m4_m4m4 (mul_m4_m4m4 iscalemat mat) scalemat
    else mat
  let scalefac := bbone_scalefac param a
  let bscale : V3 R := ![scalefac, 1, scalefac]
  let bscalemat := size_to_mat4 bscale
  mul_m4_m4m4 mat bscalemat

/-- The function `BKE_pchan_bbone_spline_compute`: the record `param` after the call
(its `segments` is clamped), the array `result_array` after the call, and the
returned segment count.  `scalemat` and `iscalemat` are only set and read when
`do_scale` holds. -/
def BKE_pchan_bbone_spline_compute (fm : FloatMath R)
    (cubic_tangent_factor_circle_v3 : V3 R → V3 R → R) (param : BBoneSplineParameters R)
    (result_array : Nat → M4 R) : BBoneSplineParameters R × (Nat → M4 R) × Nat :=
  let scalemat := size_to_mat4 param.scale
  let iscalemat := invert_m4_m4 scalemat
  let length := if param.do_scale then param.length * param.scale 1 else param.length
  let hd := BKE_pchan_bbone_handles_compute fm cubic_tangent_factor_circle_v3 param true true
  let h1 := hd.h1
  let roll1 := hd.roll1
  let h2 := hd.h2
  let roll2 := hd.roll2
  let param := { param with segments := min param.segments MAX_BBONE_SUBDIV }
  let dx := BKE_curve_forward_diff_bezier 0 (h1 0) (h2 0) 0 MAX_BBONE_SUBDIV
  let dy := BKE_curve_forward_diff_bezier 0 (h1 1) (length + h2 1) length MAX_BBONE_SUBDIV
  let dz := BKE_curve_forward_diff_bezier 0 (h1 2) (h2 2) 0 MAX_BBONE_SUBDIV
  let dr := BKE_curve_forward_diff_bezier roll1 (roll1 + 390464 / 1000000 * (roll2 - roll1))
    (roll2 - 390464 / 1000000 * (roll2 - roll1)) roll2 MAX_BBONE_SUBDIV
  let data : Nat → Fin 4 → R := fun a => ![dx a, dy a, dz a, dr a]
  let data := equalize_bbone_bezier fm data param.segments
  let result : Nat → M4 R := fun a =>
    if a < param.segments then bbone_segment_mat fm param scalemat iscalemat data a
    else result_array a
  (param, result, param.segments)

end BBone

/-- Example data: bone A as a B-Bone with `segs` segments, automatic handles, no ease,
roll or curve offsets, and unit scale factors. -/
def exampleBBoneBone (segs : Nat) : BBoneBone ℚ where
  bone := { exampleBoneA ℚ with segments := segs }
  bbone_prev_type := BBONE_HANDLE_AUTO
  bbone_next_type := BBONE_HANDLE_AUTO
  ease1 := 0
  ease2 := 0
  roll1 := 0
  roll2 := 0
  scaleIn := 1
  scaleOut := 1
  curveInX := 0
  curveInY := 0
  curveOutX := 0
  curveOutY := 0

/-- Example data: the channel of `exampleBBoneBone segs` at rest, without neighbours. -/
def exampleBBoneChannel (segs : Nat) : BBoneChannel ℚ where
  bone := some (exampleBBoneBone segs)
  pose_mat := 1
  pose_head := ![0, 0, 0]
  pose_tail := ![0, 2, 0]
  ease1 := 0
  ease2 := 0
  roll1 := 0
  roll2 := 0
  scaleIn := 1
  scaleOut := 1
  curveInX := 0
  curveInY := 0
  curveOutX := 0
  curveOutY := 0
  parent := none
  child := none
  bbone_prev := none
  bbone_next := none

/-- Example data: spline parameters of a straight bone of length 2 with `segs`
segments and the scale factors `scaleIn`, `scaleOut`, without handles. -/
def exampleSplineParams (segs : Nat) (scaleIn scaleOut : ℚ) : BBoneSplineParameters ℚ where
  segments := segs
  length := 2
  do_scale := false
  scale := ![0, 0, 0]
  use_prev := false
  prev_bbone := false
  use_next := false
  next_bbone := false
  prev_h := ![0, 0, 0]
  next_h := ![0, 0, 0]
  prev_mat := 0
  next_mat := 0
  ease1 := 0
  ease2 := 0
  roll1 := 0
  roll2 := 0
  scaleIn := scaleIn
  scaleOut := scaleOut
  curveInX := 0
  curveInY := 0
  curveOutX := 0
  curveOutY := 0

/-- Example data: spline parameters of a bone of length 2 whose next handle is in use,
with a neighbour that is a B-Bone itself, whose matrix in the space of the bone is a
quarter turn about Y at the tail. -/
def exampleNextParams (R : Type) [LinearOrderedField R] : BBoneSplineParameters R where
  segments := 4
  length := 2
  do_scale := false
  scale := ![0, 0, 0]
  use_prev := false
  prev_bbone := false
  use_next := true
  next_bbone := true
  prev_h := ![0, 0, 0]
  next_h := ![0, 1, 0]
  prev_mat := 0
  next_mat := !![0, 0, -1, 0; 0, 1, 0, 0; 1, 0, 0, 0; 0, 2, 0, 1]
  ease1 := 0
  ease2 := 0
  roll1 := 0
  roll2 := 0
  scaleIn := 1
  scaleOut := 1
  curveInX := 0
  curveInY := 0
  curveOutX := 0
  curveOutY := 0

/-! ## Pose rebuild -/

section PoseRebuild

variable {R : Type} [LinearOrderedField R]

/-- Modelled from the spec: the channel that `BKE_pose_channel_verify` adds for a name
the pose does not have yet: a channel of that name at the identity, without bone. -/
def new_pose_channel (name : String) : bPoseChannel R where
  name := name
  bone := none
  bone_parent := none
  parent := none
  flag := 0
  loc := ![0, 0, 0]
  size := ![1, 1, 1]
  eul := ![0, 0, 0]
  quat := ![1, 0, 0, 0]
  rotAxis := ![0, 1, 0]
  rotAngle := 0
  rotmode := 0
  has_constraints := false
  chan_mat := 1
  pose_mat := 1
  pose_head := ![0, 0, 0]
  pose_tail := ![0, 0, 0]

/-- Modelled from the spec: `BKE_pose_channel_verify` (not in this file; "verify checks
and/or adds"): the position of the first channel with that name, the list being left
as it is, or else the list with a new channel added at its tail and the position of
that channel. -/
def BKE_pose_channel_verify (chanbase : List (bPoseChannel R)) (name : String) :
    List (bPoseChannel R) × Nat :=
  match chanbase.findIdx? (fun pchan => pchan.name == name) with
  | some i => (chanbase, i)
  | none => (chanbase ++ [new_pose_channel name], chanbase.length)

/-- The first three statements of `rebuild_pose_bone`: the channel of the bone is
verified and gets its `bone` and `parent` links; `parchan` is the name of the channel
`parchan` and `parbone` the fields of `bone->parent`. -/
def rebuild_pose_bone_link (chanbase : List (bPoseChannel R)) (bone : BoneData R)
    (parchan : Option String) (parbone : Option (BoneData R)) : List (bPoseChannel R) :=
  let v := BKE_pose_channel_verify chanbase bone.name
  v.1.modify (fun pchan => { pchan with bone := some bone, bone_parent := parbone, parent := parchan })
    v.2

mutual
/-- The function `rebuild_pose_bone` on the list `pose->chanbase`; the link `child` of
a channel and the counter are not part of the model. -/
def rebuild_pose_bone (chanbase : List (bPoseChannel R)) :
    Bone R → Option String → Option (BoneData R) → List (bPoseChannel R)
  | .mk d cs, parchan, parbone =>
    rebuild_pose_children (rebuild_pose_bone_link chanbase d parchan parbone) cs d
/-- The loop of `rebuild_pose_bone` over `childbase`. -/
def rebuild_pose_children (chanbase : List (bPoseChannel R)) :
    List (Bone R) → BoneData R → List (bPoseChannel R)
  | [], _ => chanbase
  | b :: bs, d =>
    rebuild_pose_children (rebuild_pose_bone chanbase b (some d.name) (some d)) bs d
end

/-- The list `pose->chanbase` after `BKE_pose_rebuild`: the pointers are cleared
(`BKE_pose_clear_pointers`), every root bone is rebuilt with its children, and the
channels left without a bone are removed.  The steps after that do not change the
list or its order. -/
def BKE_pose_rebuild_chanbase (arm : bArmature R) (chanbase : List (bPoseChannel R)) :
    List (bPoseChannel R) :=
  let chanbase := chanbase.map (fun pchan => { pchan with bone := none })
  let chanbase := arm.bonebase.foldl (fun cb bone => rebuild_pose_bone cb bone none none) chanbase
  chanbase.filter (fun pchan => pchan.bone.isSome)

end PoseRebuild

/-! ## Binary32 arithmetic -/

/-- The halvings of `n` down to 1, at most `fuel` of them. -/
def nlog2_go : Nat → Nat → Nat
  | 0, _ => 0
  | fuel + 1, n => if 2 ≤ n then nlog2_go fuel (n / 2) + 1 else 0

/-- The floor of the base 2 logarithm of the positive integer `n`. -/
def nlog2 (n : Nat) : Nat := nlog2_go n n

/-- The floor of the base 2 logarithm of the positive rational `n / d`. -/
def ilog2 (n d : Nat) : Int :=
  let e0 : Int := (nlog2 n : Int) - (nlog2 d : Int)
  let above : Bool :=
    if e0 ≥ 0 then decide (d * 2 ^ e0.toNat ≤ n) else decide (d ≤ n * 2 ^ (-e0).toNat)
  if above then e0 else e0 - 1

/-- The integer nearest to `num / den`, the even one of the two when `num / den` lies
half way. -/
def round_half_even (num den : Nat) : Nat :=
  let f := num / den
  let r := num % den
  if 2 * r < den then f else if den < 2 * r then f + 1 else if f % 2 = 0 then f else f + 1

/-- The rounding of a real result to the `float` format (IEEE 754 binary32, round to
nearest, ties to even): 24 significant bits, and the fixed spacing `2^-149` below
`2^-126`.  The exponent is not bounded above: a result beyond the largest finite
`float` is rounded like the others and not turned into an infinity. -/
def binary32 (q : ℚ) : ℚ :=
  if q = 0 then 0
  else
    let n := q.num.natAbs
    let d := q.den
    let e : Int := max (ilog2 n d) (-126)
    let k : Int := e - 23
    let m : Nat :=
      if k ≥ 0 then round_half_even n (d * 2 ^ k.toNat)
      else round_half_even (n * 2 ^ (-k).toNat) d
    let v : ℚ :=
      if k ≥ 0 then ((m * 2 ^ k.toNat : Nat) : ℚ) else (m : ℚ) / ((2 ^ (-k).toNat : Nat) : ℚ)
    if q < 0 then -v else v

/-- The bits of the integer square root below bit `k`, from the top down. -/
def isqrt_go : Nat → Nat → Nat → Nat
  | 0, _, acc => acc
  | k + 1, n, acc =>
    isqrt_go k n (if (acc + 2 ^ k) * (acc + 2 ^ k) ≤ n then acc + 2 ^ k else acc)

/-- The integer square root: the largest `t` with `t * t ≤ n`. -/
def isqrt (n : Nat) : Nat := isqrt_go (nlog2 n / 2 + 1) n 0

/-- The function `sqrtf` of the `float` format: the square root rounded to binary32
(the root is taken with 64 bits more than its integer part and, when it is not exact,
moved to the middle of the last unit, which does not change the rounding); 0 for a
negative argument, where the C function returns a NaN. -/
def sqrtf32 (q : ℚ) : ℚ :=
  if 0 < q then
    let n := q.num.natAbs
    let d := q.den
    let p : Nat := (64 - ilog2 n d / 2).toNat
    let t := isqrt (n * 4 ^ p / d)
    if t * t * d = n * 4 ^ p then binary32 ((t : ℚ) / ((2 ^ p : Nat) : ℚ))
    else binary32 (((2 * t + 1 : Nat) : ℚ) / ((2 ^ (p + 1) : Nat) : ℚ))
  else 0

/-! ## Envelope falloff in rounded arithmetic -/

section EnvelopeRounded

variable {R : Type} [LinearOrderedField R]

/-- Modelled from the spec: `sub_v3_v3v3` with every float operation rounded by `rnd`. -/
def sub_v3_v3v3_rounded (rnd : R → R) (a b : V3 R) : V3 R := fun i => rnd (a i - b i)

/-- Modelled from the spec: `dot_v3v3` (and `len_squared_v3`, the same expression on
one vector) with every float operation rounded by `rnd`:
`a[0] * b[0] + a[1] * b[1] + a[2] * b[2]`, the sums from the left. -/
def dot_v3v3_rounded (rnd : R → R) (a b : V3 R) : R :=
  rnd (rnd (rnd (a 0 * b 0) + rnd (a 1 * b 1)) + rnd (a 2 * b 2))

/-- Modelled from the spec: `len_squared_v3v3` with every float operation rounded by
`rnd`. -/
def len_squared_v3v3_rounded (rnd : R → R) (a b : V3 R) : R :=
  dot_v3v3_rounded rnd (sub_v3_v3v3_rounded rnd b a) (sub_v3_v3v3_rounded rnd b a)

/-- Modelled from the spec: `normalize_v3` with every float operation rounded by `rnd`:
above the threshold `1.0e-35f` on the squared length `d`, the vector is multiplied by
`1.0f / sqrtf(d)` and the length `sqrtf(d)` is returned; else the vector is zeroed and
0 is returned. -/
def normalize_v3_rounded (rnd sqrtf : R → R) (n : V3 R) : V3 R × R :=
  let d := dot_v3v3_rounded rnd n n
  if d > rnd (1 / 10 ^ 35) then
    let d := sqrtf d
    (fun i => rnd (n i * rnd (1 / d)), d)
  else (fun _ => 0, 0)

/-- The first half of `distfactor_to_bone` with every float operation rounded by `rnd`
(`sqrtf` is the square root of the float format): the locals `dist_sq` and `rad` at
the line `a = rad * rad`. -/
def distfactor_dist_rounded (rnd sqrtf : R → R) (vec b1 b2 : V3 R) (rad1 rad2 : R) : R × R :=
  let bdelta := sub_v3_v3v3_rounded rnd b2 b1
  let l := (normalize_v3_rounded rnd sqrtf bdelta).2
  let bdelta := (normalize_v3_rounded rnd sqrtf bdelta).1
  let pdelta := sub_v3_v3v3_rounded rnd vec b1
  let a := dot_v3v3_rounded rnd bdelta pdelta
  let hsqr := dot_v3v3_rounded rnd pdelta pdelta
  if a < 0 then (len_squared_v3v3_rounded rnd b1 vec, rad1)
  else if a > l then (len_squared_v3v3_rounded rnd b2 vec, rad2)
  else
    (rnd (hsqr - rnd (a * a)),
      if l ≠ 0 then
        let rad := rnd (a / l)
        rnd (rnd (rad * rad2) + rnd (rnd (1 - rad) * rad1))
      else rad1)

/-- The function `distfactor_to_bone` with every float operation rounded by `rnd`
(`sqrtf` is the square root of the float format).  With `rnd` the identity this is
the arithmetic of `distfactor_to_bone` above. -/
def distfactor_to_bone_rounded (rnd sqrtf : R → R) (vec b1 b2 : V3 R) (rad1 rad2 rdist : R) :
    R :=
  let dist_sq := (distfactor_dist_rounded rnd sqrtf vec b1 b2 rad1 rad2).1
  let rad := (distfactor_dist_rounded rnd sqrtf vec b1 b2 rad1 rad2).2
  let a := rnd (rad * rad)
  if dist_sq < a then 1
  else
    let l := rnd (rad + rdist)
    let l := rnd (l * l)
    if rdist = 0 ∨ dist_sq ≥ l then 0
    else
      let a := rnd (sqrtf dist_sq - rad)
      rnd (1 - rnd (rnd (a * a) / rnd (rdist * rdist)))

end EnvelopeRounded

/-! ## Dual quaternion of a matrix, and the deformation cache -/

section DualQuatConversion

variable {R : Type} [LinearOrderedField R]

end DualQuatConversion

section QuatProducts

variable {R : Type} [LinearOrderedField R]

end QuatProducts

section QuaternionExamples

variable (R : Type) [LinearOrderedField R]

end QuaternionExamples

/-! ## Theorems: roll-to-matrix solver -/

section RollTheorems

variable {R : Type} [LinearOrderedField R]

theorem m3_mul_transpose_apply (a b : M3 R) (i j : Fin 3) :
    (a * b.transpose) i j = a i 0 * b j 0 + a i 1 * b j 1 + a i 2 * b j 2 := by
  simp [Matrix.mul_apply, Fin.sum_univ_three, Matrix.transpose_apply]

theorem m3_mul_apply (a b : M3 R) (i j : Fin 3) :
    (a * b) i j = a i 0 * b 0 j + a i 1 * b 1 j + a i 2 * b 2 j := by
  simp [Matrix.mul_apply, Fin.sum_univ_three]

theorem det_eq_det3 (m : M3 R) : m.det = det3 (m 0) (m 1) (m 2) := by
  rw [Matrix.det_fin_three]; simp only [det3]; ring

theorem axis_angle_orthonormal (fm : FloatMath R) (v : V3 R) (a : R)
    (hv : dot_v3v3 v v = 1) (hsc : fm.sinf a * fm.sinf a + fm.cosf a * fm.cosf a = 1) :
    axis_angle_normalized_to_mat3 fm v a * (axis_angle_normalized_to_mat3 fm v a).transpose = 1 := by
  simp only [dot_v3v3] at hv
  ext i j
  rw [m3_mul_transpose_apply]
  simp only [axis_angle_normalized_to_mat3]
  fin_cases i <;> fin_cases j <;> simp
  · linear_combination (fm.sinf a ^ 2 + (1 - fm.cosf a) ^ 2 * (v 0 * v 0)) * hv + (1 - v 0 * v 0) * hsc
  · linear_combination ((1 - fm.cosf a) ^ 2 * (v 0 * v 1)) * hv + (- v 0 * v 1) * hsc
  · linear_combination ((1 - fm.cosf a) ^ 2 * (v 0 * v 2)) * hv + (- v 0 * v 2) * hsc
  · linear_combination ((1 - fm.cosf a) ^ 2 * (v 0 * v 1)) * hv + (- v 0 * v 1) * hsc
  · linear_combination (fm.sinf a ^ 2 + (1 - fm.cosf a) ^ 2 * (v 1 * v 1)) * hv + (1 - v 1 * v 1) * hsc
  · linear_combination ((1 - fm.cosf a) ^ 2 * (v 1 * v 2)) * hv + (- v 1 * v 2) * hsc
  · linear_combination ((1 - fm.cosf a) ^ 2 * (v 0 * v 2)) * hv + (- v 0 * v 2) * hsc
  · linear_combination ((1 - fm.cosf a) ^ 2 * (v 1 * v 2)) * hv + (- v 1 * v 2) * hsc
  · linear_combination (fm.sinf a ^ 2 + (1 - fm.cosf a) ^ 2 * (v 2 * v 2)) * hv + (1 - v 2 * v 2) * hsc

theorem axis_angle_det (fm : FloatMath R) (v : V3 R) (a : R)
    (hv : dot_v3v3 v v = 1) (hsc : fm.sinf a * fm.sinf a + fm.cosf a * fm.cosf a = 1) :
    (axis_angle_normalized_to_mat3 fm v a).det = 1 := by
  simp only [dot_v3v3] at hv
  rw [Matrix.det_fin_three]
  simp only [axis_angle_normalized_to_mat3]
  simp
  linear_combination (fm.cosf a * fm.sinf a ^ 2 + fm.cosf a ^ 2 * (1 - fm.cosf a)
    + (1 - fm.cosf a) * fm.sinf a ^ 2 * (v 0 * v 0 + v 1 * v 1 + v 2 * v 2 + 1)) * hv + hsc

theorem axis_angle_conj_apply (fm : FloatMath R) (v : V3 R) (a : R) (b : M3 R) (i j : Fin 3) :
    (b * axis_angle_normalized_to_mat3 fm v a * b.transpose) i j =
      fm.cosf a * dot_v3v3 (b i) (b j) + fm.sinf a * det3 (b j) v (b i)
        + (1 - fm.cosf a) * dot_v3v3 v (b i) * dot_v3v3 v (b j) := by
  rw [m3_mul_transpose_apply, m3_mul_apply, m3_mul_apply, m3_mul_apply]
  simp only [axis_angle_normalized_to_mat3, dot_v3v3, det3]
  simp
  ring

theorem axis_angle_mul_axis (fm : FloatMath R) (v : V3 R) (a : R) (b : M3 R) (i : Fin 3) (j : Fin 3) :
    (b * axis_angle_normalized_to_mat3 fm v a) i j =
      fm.cosf a * b i j + fm.sinf a * (if j = 0 then v 1 * b i 2 - v 2 * b i 1 else if j = 1 then v 2 * b i 0 - v 0 * b i 2 else v 0 * b i 1 - v 1 * b i 0)
        + (1 - fm.cosf a) * dot_v3v3 v (b i) * v j := by
  rw [m3_mul_apply]
  simp only [axis_angle_normalized_to_mat3, dot_v3v3]
  fin_cases j <;> simp <;> ring

theorem axis_angle_zero (fm : FloatMath R) (v : V3 R) (a : R) (hs : fm.sinf a = 0) (hc : fm.cosf a = 1) :
    axis_angle_normalized_to_mat3 fm v a = 1 := by
  ext i j
  simp only [axis_angle_normalized_to_mat3, hs, hc]
  fin_cases i <;> fin_cases j <;> simp [Matrix.vecHead, Matrix.vecTail]
theorem bMatrix_general (nor : V3 R) (h : THETA_THRESHOLD_NEGY_CLOSE < 1 + nor 1) :
    vec_roll_bMatrix nor =
      !![1 - nor 0 * nor 0 / (1 + nor 1), -nor 0, -nor 0 * nor 2 / (1 + nor 1);
         nor 0, nor 1, nor 2;
         -nor 0 * nor 2 / (1 + nor 1), -nor 2, 1 - nor 2 * nor 2 / (1 + nor 1)] := by
  simp only [vec_roll_bMatrix, gt_iff_lt]
  rw [if_pos (Or.inl h), if_pos h]

theorem bMatrix_general_orthonormal (nor : V3 R) (h : THETA_THRESHOLD_NEGY_CLOSE < 1 + nor 1)
    (hn : dot_v3v3 nor nor = 1) :
    vec_roll_bMatrix nor * (vec_roll_bMatrix nor).transpose = 1 := by
  have hpos : (0:R) < 1 + nor 1 := lt_trans (by norm_num [THETA_THRESHOLD_NEGY_CLOSE]) h
  have hne : (1 + nor 1) ≠ 0 := ne_of_gt hpos
  rw [bMatrix_general nor h]
  simp only [dot_v3v3] at hn
  ext i j
  rw [m3_mul_transpose_apply]
  fin_cases i <;> fin_cases j <;> simp <;> (try field_simp)
  · linear_combination (nor 0 * nor 0) * hn
  · linear_combination (-(nor 0)) * hn
  · linear_combination (nor 0 * nor 2) * hn
  · linear_combination (-(nor 0)) * hn
  · linear_combination hn
  · linear_combination (-(nor 2)) * hn
  · linear_combination (nor 0 * nor 2) * hn
  · linear_combination (-(nor 2)) * hn
  · linear_combination (nor 2 * nor 2) * hn

theorem bMatrix_general_det (nor : V3 R) (h : THETA_THRESHOLD_NEGY_CLOSE < 1 + nor 1)
    (hn : dot_v3v3 nor nor = 1) :
    (vec_roll_bMatrix nor).det = 1 := by
  have hpos : (0:R) < 1 + nor 1 := lt_trans (by norm_num [THETA_THRESHOLD_NEGY_CLOSE]) h
  have hne : (1 + nor 1) ≠ 0 := ne_of_gt hpos
  rw [bMatrix_general nor h, Matrix.det_fin_three]
  simp only [dot_v3v3] at hn
  simp
  field_simp
  linear_combination (1 + nor 1)^7 * hn

theorem bMatrix_negY (nor : V3 R) (h : 1 + nor 1 ≤ THETA_THRESHOLD_NEGY) :
    vec_roll_bMatrix nor = !![-1, 0, 0; 0, -1, 0; 0, 0, 1] := by
  have hlt : (THETA_THRESHOLD_NEGY : R) < THETA_THRESHOLD_NEGY_CLOSE := by
    norm_num [THETA_THRESHOLD_NEGY, THETA_THRESHOLD_NEGY_CLOSE]
  simp only [vec_roll_bMatrix, gt_iff_lt]
  rw [if_neg]
  rintro (h1 | ⟨_, h2⟩)
  · exact absurd (lt_of_lt_of_le (lt_trans hlt h1) h) (lt_irrefl _)
  · exact absurd (lt_of_lt_of_le h2 h) (lt_irrefl _)

theorem bMatrix_axis1 (nor : V3 R) (hn : dot_v3v3 nor nor = 1)
    (h : THETA_THRESHOLD_NEGY < 1 + nor 1 ∨ nor = ![0, -1, 0]) :
    vec_roll_bMatrix nor 1 = nor := by
  have hpos : (0 : R) < THETA_THRESHOLD_NEGY := by norm_num [THETA_THRESHOLD_NEGY]
  simp only [vec_roll_bMatrix, gt_iff_lt]
  split_ifs with h1 h2
  · ext j; fin_cases j <;> simp
  · ext j; fin_cases j <;> simp
  · rcases h with h | h
    · exfalso
      have hxz : nor 0 = 0 ∧ nor 2 = 0 := by
        by_contra hc
        apply h1
        right
        refine ⟨?_, h⟩
        by_contra hc2
        push_neg at hc2
        exact hc hc2
      simp only [dot_v3v3, hxz.1, hxz.2] at hn
      have hy : (nor 1 - 1) * (nor 1 + 1) = 0 := by linear_combination hn
      rcases mul_eq_zero.mp hy with hy | hy
      · apply h1; left
        have : nor 1 = 1 := by linear_combination hy
        rw [this]; norm_num [THETA_THRESHOLD_NEGY_CLOSE]
      · have : 1 + nor 1 = 0 := by linear_combination hy
        rw [this] at h
        exact absurd (lt_trans hpos h) (lt_irrefl _)
    · rw [h]; ext j; fin_cases j <;> simp

theorem normalize_unit (fm : FloatMath R) (d : V3 R)
    (hs : fm.sqrtf (dot_v3v3 d d) * fm.sqrtf (dot_v3v3 d d) = dot_v3v3 d d)
    (hd : dot_v3v3 d d ≠ 0) :
    dot_v3v3 (normalize_v3_v3 fm d) (normalize_v3_v3 fm d) = 1 := by
  have hne : fm.sqrtf (dot_v3v3 d d) ≠ 0 := by
    intro h0; rw [h0] at hs; exact hd (by rw [← hs]; ring)
  have : dot_v3v3 (normalize_v3_v3 fm d) (normalize_v3_v3 fm d)
      = dot_v3v3 d d / (fm.sqrtf (dot_v3v3 d d) * fm.sqrtf (dot_v3v3 d d)) := by
    simp only [dot_v3v3, normalize_v3_v3]; field_simp
  rw [this, hs]; exact div_self hd

theorem dot_self_ne_zero (d : V3 R) (hd : d ≠ 0) : dot_v3v3 d d ≠ 0 := by
  intro h
  apply hd
  simp only [dot_v3v3] at h
  have h0 : d 0 = 0 := by nlinarith [mul_self_nonneg (d 0), mul_self_nonneg (d 1), mul_self_nonneg (d 2)]
  have h1 : d 1 = 0 := by nlinarith [mul_self_nonneg (d 0), mul_self_nonneg (d 1), mul_self_nonneg (d 2)]
  have h2 : d 2 = 0 := by nlinarith [mul_self_nonneg (d 0), mul_self_nonneg (d 1), mul_self_nonneg (d 2)]
  ext j; fin_cases j <;> simp [h0, h1, h2]

theorem exact_normalize_unit (fm : FloatMath ℝ) (hfm : fm.Exact) (d : V3 ℝ) (hd : d ≠ 0) :
    dot_v3v3 (normalize_v3_v3 fm d) (normalize_v3_v3 fm d) = 1 := by
  apply normalize_unit fm d _ (dot_self_ne_zero d hd)
  rw [hfm.1]
  apply Real.mul_self_sqrt
  simp only [dot_v3v3]
  nlinarith [mul_self_nonneg (d 0), mul_self_nonneg (d 1), mul_self_nonneg (d 2)]

theorem exact_sin_cos (fm : FloatMath ℝ) (hfm : fm.Exact) (a : ℝ) :
    fm.sinf a * fm.sinf a + fm.cosf a * fm.cosf a = 1 := by
  rw [hfm.2.1, hfm.2.2.1]
  have := Real.sin_sq_add_cos_sq a
  nlinarith [this]

theorem isOrthonormalM3_of_mul_transpose (m : M3 R) (h : m * m.transpose = 1) (hdet : m.det = 1) :
    IsOrthonormalM3 m := by
  have key : ∀ i j, dot_v3v3 (m i) (m j) = (1 : M3 R) i j := by
    intro i j
    rw [← h, m3_mul_transpose_apply]; rfl
  refine ⟨fun i => ?_, fun i j hij => ?_, hdet⟩
  · rw [key]; simp
  · rw [key]; simp [hij]

theorem vec_roll_normalized_orthonormal (fm : FloatMath R) (nor : V3 R) (r : R)
    (hn : dot_v3v3 nor nor = 1) (hsc : fm.sinf r * fm.sinf r + fm.cosf r * fm.cosf r = 1)
    (hb : vec_roll_bMatrix nor * (vec_roll_bMatrix nor).transpose = 1)
    (hbd : (vec_roll_bMatrix nor).det = 1) :
    IsOrthonormalM3 (vec_roll_to_mat3_normalized fm nor r) := by
  apply isOrthonormalM3_of_mul_transpose
  · simp only [vec_roll_to_mat3_normalized, mul_m3_m3m3]
    rw [Matrix.transpose_mul, Matrix.mul_assoc, ← Matrix.mul_assoc _ _ (Matrix.transpose _),
      axis_angle_orthonormal fm nor r hn hsc, Matrix.one_mul, hb]
  · simp only [vec_roll_to_mat3_normalized, mul_m3_m3m3]
    rw [Matrix.det_mul, hbd, axis_angle_det fm nor r hn hsc, one_mul]

theorem bMatrix_negY_orthonormal :
    (!![-1, 0, 0; 0, -1, 0; 0, 0, 1] : M3 R) * (!![-1, 0, 0; 0, -1, 0; 0, 0, 1] : M3 R).transpose = 1
      ∧ (!![-1, 0, 0; 0, -1, 0; 0, 0, 1] : M3 R).det = 1 := by
  constructor
  · ext i j
    rw [m3_mul_transpose_apply]
    fin_cases i <;> fin_cases j <;> simp [Matrix.vecHead, Matrix.vecTail]
  · rw [Matrix.det_fin_three]; simp

theorem bMatrix_near (nor : V3 R) (h1 : ¬ THETA_THRESHOLD_NEGY_CLOSE < 1 + nor 1)
    (h2 : (nor 0 ≠ 0 ∨ nor 2 ≠ 0) ∧ THETA_THRESHOLD_NEGY < 1 + nor 1) :
    vec_roll_bMatrix nor =
      !![(nor 0 + nor 2) * (nor 0 - nor 2) / -(nor 0 * nor 0 + nor 2 * nor 2), -nor 0,
           2 * nor 0 * nor 2 / (nor 0 * nor 0 + nor 2 * nor 2);
         nor 0, nor 1, nor 2;
         2 * nor 0 * nor 2 / (nor 0 * nor 0 + nor 2 * nor 2), -nor 2,
           -((nor 0 + nor 2) * (nor 0 - nor 2) / -(nor 0 * nor 0 + nor 2 * nor 2))] := by
  simp only [vec_roll_bMatrix, gt_iff_lt]
  rw [if_pos (Or.inr h2), if_neg h1]

theorem vec_roll_normalized_axis1 (fm : FloatMath R) (nor : V3 R) (r : R)
    (hn : dot_v3v3 nor nor = 1)
    (hbr : THETA_THRESHOLD_NEGY < 1 + nor 1 ∨ nor = ![0, -1, 0]) :
    vec_roll_to_mat3_normalized fm nor r 1 = nor := by
  simp only [vec_roll_to_mat3_normalized, mul_m3_m3m3]
  ext j
  rw [axis_angle_mul_axis, bMatrix_axis1 _ hn hbr, hn]
  fin_cases j <;> simp <;> ring

theorem invert_m3_of_orthonormal (m : M3 R) (h : m * m.transpose = 1) (hdet : m.det = 1) :
    invert_m3_m3 m = m.transpose := by
  have h1 : m.adjugate = m.transpose := by
    calc m.adjugate = m.adjugate * (m * m.transpose) := by rw [h, Matrix.mul_one]
      _ = (m.adjugate * m) * m.transpose := by rw [Matrix.mul_assoc]
      _ = m.transpose := by rw [Matrix.adjugate_mul, hdet, one_smul, Matrix.one_mul]
  simp only [invert_m3_m3, hdet, h1, inv_one, one_smul]

theorem normalize_of_unit (fm : FloatMath R) (v : V3 R) (hv : dot_v3v3 v v = 1)
    (hs : fm.sqrtf 1 = 1) : normalize_v3_v3 fm v = v := by
  ext i; simp [normalize_v3_v3, hv, hs]

/-- Round trip in the general branch, before `atan2f` is evaluated. -/
theorem roundtrip_general (fm : FloatMath R) (v : V3 R) (r : R)
    (hs : fm.sqrtf 1 = 1) (hs0 : fm.sinf 0 = 0) (hc0 : fm.cosf 0 = 1)
    (hv : dot_v3v3 v v = 1) (hθ : THETA_THRESHOLD_NEGY_CLOSE < 1 + v 1) :
    mat3_to_vec_roll fm (vec_roll_to_mat3 fm v r) = (v, fm.atan2f (fm.sinf r) (fm.cosf r)) := by
  have hlt : (THETA_THRESHOLD_NEGY : R) < THETA_THRESHOLD_NEGY_CLOSE := by
    norm_num [THETA_THRESHOLD_NEGY, THETA_THRESHOLD_NEGY_CLOSE]
  have hb := bMatrix_general_orthonormal v hθ hv
  have hbd := bMatrix_general_det v hθ hv
  have hb1 : vec_roll_bMatrix v 1 = v := bMatrix_axis1 v hv (Or.inl (lt_trans hlt hθ))
  have hM1 : vec_roll_to_mat3 fm v r 1 = v := by
    simp only [vec_roll_to_mat3, normalize_of_unit fm v hv hs]
    exact vec_roll_normalized_axis1 fm v r hv (Or.inl (lt_trans hlt hθ))
  have hdot : ∀ i j, dot_v3v3 (vec_roll_bMatrix v i) (vec_roll_bMatrix v j) = (1 : M3 R) i j := by
    intro i j
    rw [← hb, m3_mul_transpose_apply]; rfl
  have hvec0 : vec_roll_to_mat3 fm v 0 = vec_roll_bMatrix v := by
    simp only [vec_roll_to_mat3, normalize_of_unit fm v hv hs, vec_roll_to_mat3_normalized,
      mul_m3_m3m3, axis_angle_zero fm v 0 hs0 hc0, Matrix.mul_one]
  have hroll : mul_m3_m3m3 (invert_m3_m3 (vec_roll_to_mat3 fm v 0)) (vec_roll_to_mat3 fm v r)
      = vec_roll_bMatrix v * axis_angle_normalized_to_mat3 fm v r * (vec_roll_bMatrix v).transpose := by
    rw [hvec0, invert_m3_of_orthonormal _ hb hbd]
    simp only [vec_roll_to_mat3, normalize_of_unit fm v hv hs, vec_roll_to_mat3_normalized,
      mul_m3_m3m3]
  have hdet3 : det3 (vec_roll_bMatrix v 0) v (vec_roll_bMatrix v 2) = 1 := by
    rw [← hbd, det_eq_det3, hb1]
  have hv0 : dot_v3v3 v (vec_roll_bMatrix v 0) = 0 := by
    have := hdot 1 0; rw [hb1] at this; simpa using this
  have hv2 : dot_v3v3 v (vec_roll_bMatrix v 2) = 0 := by
    have := hdot 1 2; rw [hb1] at this; simpa using this
  have h20 : dot_v3v3 (vec_roll_bMatrix v 2) (vec_roll_bMatrix v 0) = 0 := by
    have := hdot 2 0; simpa using this
  have h22 : dot_v3v3 (vec_roll_bMatrix v 2) (vec_roll_bMatrix v 2) = 1 := by
    have := hdot 2 2; simpa using this
  simp only [mat3_to_vec_roll, hM1, mat3_vec_to_roll, hroll, axis_angle_conj_apply,
    hdet3, hv0, hv2, h20, h22]
  have hz : det3 (vec_roll_bMatrix v 2) v (vec_roll_bMatrix v 2) = 0 := by
    simp only [det3]; ring
  simp [hz]

theorem exact_atan2_sin_cos (fm : FloatMath ℝ) (hfm : fm.Exact) (r : ℝ)
    (h1 : -Real.pi < r) (h2 : r ≤ Real.pi) : fm.atan2f (fm.sinf r) (fm.cosf r) = r := by
  rw [hfm.2.2.2, hfm.2.1, hfm.2.2.1]
  have h := @Complex.arg_cos_add_sin_mul_I r ⟨h1, h2⟩
  have e : (⟨Real.cos r, Real.sin r⟩ : ℂ) = Complex.cos r + Complex.sin r * Complex.I := by
    apply Complex.ext <;> simp [Complex.cos_ofReal_re, Complex.sin_ofReal_re]
  rw [e, h]

theorem exact_consts (fm : FloatMath ℝ) (hfm : fm.Exact) :
    fm.sqrtf 1 = 1 ∧ fm.sinf 0 = 0 ∧ fm.cosf 0 = 1 := by
  rw [hfm.1, hfm.2.1, hfm.2.2.1]; simp

theorem exact_mk :
    (FloatMath.mk Real.sqrt Real.sin Real.cos (fun y x => Complex.arg ⟨x, y⟩)).Exact :=
  ⟨fun _ => rfl, fun _ => rfl, fun _ => rfl, fun _ _ => rfl⟩

/-- A unit vector with `1 + y = 2/10000000001`, below `THETA_THRESHOLD_NEGY`: the
matrix built with roll 0 is the fixed symmetry matrix. -/
theorem vec_roll_below_negY (fm : FloatMath ℝ) (hfm : fm.Exact) :
    vec_roll_to_mat3 fm ![200000 / 10000000001, -9999999999 / 10000000001, 0] 0
      = !![-1, 0, 0; 0, -1, 0; 0, 0, 1] := by
  obtain ⟨hs, hs0, hc0⟩ := exact_consts fm hfm
  have hd : dot_v3v3 (![200000 / 10000000001, -9999999999 / 10000000001, 0] : V3 ℝ)
      ![200000 / 10000000001, -9999999999 / 10000000001, 0] = 1 := by
    simp [dot_v3v3]; norm_num
  simp only [vec_roll_to_mat3, normalize_of_unit fm _ hd hs, vec_roll_to_mat3_normalized,
    mul_m3_m3m3, axis_angle_zero fm _ 0 hs0 hc0, Matrix.mul_one]
  apply bMatrix_negY
  simp [THETA_THRESHOLD_NEGY]; norm_num

/-- A unit vector with `1 + y = 2/1000001`, between the two thresholds: the matrix
built with roll 0 is the near-branch `bMatrix`. -/
theorem vec_roll_near_negY (fm : FloatMath ℝ) (hfm : fm.Exact) :
    vec_roll_to_mat3 fm ![2000 / 1000001, -999999 / 1000001, 0] 0
      = !![-1, -(2000 / 1000001), 0; 2000 / 1000001, -999999 / 1000001, 0; 0, 0, 1] := by
  obtain ⟨hs, hs0, hc0⟩ := exact_consts fm hfm
  have hd : dot_v3v3 (![2000 / 1000001, -999999 / 1000001, 0] : V3 ℝ)
      ![2000 / 1000001, -999999 / 1000001, 0] = 1 := by
    simp [dot_v3v3]; norm_num
  simp only [vec_roll_to_mat3, normalize_of_unit fm _ hd hs, vec_roll_to_mat3_normalized,
    mul_m3_m3m3, axis_angle_zero fm _ 0 hs0 hc0, Matrix.mul_one]
  rw [bMatrix_near]
  · ext i j; fin_cases i <;> fin_cases j <;> simp
  · simp [THETA_THRESHOLD_NEGY_CLOSE]; norm_num
  · constructor
    · left; simp
    · simp [THETA_THRESHOLD_NEGY]; norm_num

theorem near_rollmat (fm : FloatMath ℝ) (a : ℝ) :
    let b : M3 ℝ := !![-1, -(2000 / 1000001), 0; 2000 / 1000001, -999999 / 1000001, 0; 0, 0, 1]
    let m := b * axis_angle_normalized_to_mat3 fm ![2000 / 1000001, -999999 / 1000001, 0] a
    mul_m3_m3m3 (invert_m3_m3 b) m 2 0 = fm.sinf a * (1000002000001 / 1000003999999)
      ∧ mul_m3_m3m3 (invert_m3_m3 b) m 2 2 = fm.cosf a := by
  intro b m
  have hdet : b.det = 1000003999999 / 1000002000001 := by
    simp only [b]; rw [Matrix.det_fin_three]; simp; norm_num
  have hadj0 : b.adjugate 0 0 = -999999 / 1000001 ∧ b.adjugate 1 0 = - (2000 / 1000001)
      ∧ b.adjugate 2 0 = 0 ∧ b.adjugate 0 2 = 0 ∧ b.adjugate 1 2 = 0 ∧ b.adjugate 2 2 = b.det := by
    rw [hdet]
    simp only [b]; rw [Matrix.adjugate_fin_three]; simp; norm_num
  obtain ⟨h00, h10, h20, h02, h12, h22⟩ := hadj0
  have hm2 : m 2 = ![fm.sinf a * (-999999 / 1000001), - (fm.sinf a * (2000 / 1000001)), fm.cosf a] := by
    ext j
    simp only [m, b]
    rw [m3_mul_apply]
    simp only [axis_angle_normalized_to_mat3]
    fin_cases j <;> simp <;> ring
  simp only [mul_m3_m3m3, invert_m3_m3]
  rw [m3_mul_apply, m3_mul_apply, hm2]
  simp only [Matrix.smul_apply, smul_eq_mul, h00, h10, h20, h02, h12, h22]
  constructor
  · rw [hdet]; simp; ring
  · rw [hdet]; simp

/-! ### Claims C1 to C3 -/

/-- C1 (amended): with floats modelled as reals, for every unit-length direction `v`
in the general branch (`1 + v.y > 1e-5`) and every roll `r` with `-π < r <= π`,
`mat3_to_vec_roll` applied to `vec_roll_to_mat3(v, r)` returns exactly `(v, r)`. -/
theorem C1_roundtrip (fm : FloatMath ℝ) (hfm : fm.Exact) (v : V3 ℝ) (r : ℝ)
    (hv : dot_v3v3 v v = 1) (hθ : THETA_THRESHOLD_NEGY_CLOSE < 1 + v 1)
    (hr1 : -Real.pi < r) (hr2 : r ≤ Real.pi) :
    mat3_to_vec_roll fm (vec_roll_to_mat3 fm v r) = (v, r) := by
  obtain ⟨hs, hs0, hc0⟩ := exact_consts fm hfm
  rw [roundtrip_general fm v r hs hs0 hc0 hv hθ, exact_atan2_sin_cos fm hfm r hr1 hr2]

/-- C1, witness: the direction (3/5, 0, 4/5) with roll 1 is recovered exactly. -/
theorem C1_roundtrip_witness :
    mat3_to_vec_roll (FloatMath.mk Real.sqrt Real.sin Real.cos (fun y x => Complex.arg ⟨x, y⟩))
        (vec_roll_to_mat3 (FloatMath.mk Real.sqrt Real.sin Real.cos (fun y x => Complex.arg ⟨x, y⟩))
          ![3 / 5, 0, 4 / 5] 1)
      = (![3 / 5, 0, 4 / 5], 1) :=
  C1_roundtrip _ exact_mk ![3 / 5, 0, 4 / 5] 1
    (by simp [dot_v3v3]; norm_num)
    (by simp [THETA_THRESHOLD_NEGY_CLOSE]; norm_num)
    (by linarith [Real.pi_pos])
    (by linarith [Real.pi_gt_three])

/-- C1, counterexample: the round trip fails (a) for the roll `-π` at the direction
+Y, where the roll `π` comes back; (b) for a unit direction with
`1 + y = 2/10000000001`, which is not (0,-1,0) but is treated as such, where another
direction comes back; (c) for a unit direction with `1 + y = 2/1000001`, in the
near branch, where the roll `π/4` does not come back. -/
theorem C1_roundtrip_counterexample :
    mat3_to_vec_roll (FloatMath.mk Real.sqrt Real.sin Real.cos (fun y x => Complex.arg ⟨x, y⟩))
        (vec_roll_to_mat3 (FloatMath.mk Real.sqrt Real.sin Real.cos (fun y x => Complex.arg ⟨x, y⟩))
          ![0, 1, 0] (-Real.pi))
      ≠ (![0, 1, 0], -Real.pi)
    ∧ (mat3_to_vec_roll (FloatMath.mk Real.sqrt Real.sin Real.cos (fun y x => Complex.arg ⟨x, y⟩))
        (vec_roll_to_mat3 (FloatMath.mk Real.sqrt Real.sin Real.cos (fun y x => Complex.arg ⟨x, y⟩))
          ![200000 / 10000000001, -9999999999 / 10000000001, 0] 0)).1
      ≠ ![200000 / 10000000001, -9999999999 / 10000000001, 0]
    ∧ (mat3_to_vec_roll (FloatMath.mk Real.sqrt Real.sin Real.cos (fun y x => Complex.arg ⟨x, y⟩))
        (vec_roll_to_mat3 (FloatMath.mk Real.sqrt Real.sin Real.cos (fun y x => Complex.arg ⟨x, y⟩))
          ![2000 / 1000001, -999999 / 1000001, 0] (Real.pi / 4))).2
      ≠ Real.pi / 4 := by
  obtain ⟨hs, hs0, hc0⟩ := exact_consts _ exact_mk
  refine ⟨?_, ?_, ?_⟩
  · rw [roundtrip_general _ _ _ hs hs0 hc0 (by simp [dot_v3v3])
      (by simp [THETA_THRESHOLD_NEGY_CLOSE]; norm_num)]
    intro h
    have h2 := congrArg Prod.snd h
    simp only [Real.sin_neg, Real.sin_pi, Real.cos_neg, Real.cos_pi, neg_zero] at h2
    have e : (⟨-1, 0⟩ : ℂ) = -1 := by apply Complex.ext <;> simp
    rw [e, Complex.arg_neg_one] at h2
    linarith [Real.pi_pos]
  · simp only [mat3_to_vec_roll]
    rw [vec_roll_below_negY _ exact_mk]
    intro h
    have h0 := congrFun h 0
    norm_num at h0
  · have hd : dot_v3v3 (![2000 / 1000001, -999999 / 1000001, 0] : V3 ℝ)
        ![2000 / 1000001, -999999 / 1000001, 0] = 1 := by
      simp [dot_v3v3]; norm_num
    have hbr : (THETA_THRESHOLD_NEGY : ℝ) < 1 + (![2000 / 1000001, -999999 / 1000001, 0] : V3 ℝ) 1 := by
      simp [THETA_THRESHOLD_NEGY]; norm_num
    have hB : vec_roll_bMatrix (![2000 / 1000001, -999999 / 1000001, 0] : V3 ℝ)
        = !![-1, -(2000 / 1000001), 0; 2000 / 1000001, -999999 / 1000001, 0; 0, 0, 1] := by
      have := vec_roll_near_negY _ exact_mk
      simpa only [vec_roll_to_mat3, normalize_of_unit _ _ hd hs, vec_roll_to_mat3_normalized,
        mul_m3_m3m3, axis_angle_zero _ _ 0 hs0 hc0, Matrix.mul_one] using this
    have hM1 : vec_roll_to_mat3 (FloatMath.mk Real.sqrt Real.sin Real.cos (fun y x => Complex.arg ⟨x, y⟩))
        ![2000 / 1000001, -999999 / 1000001, 0] (Real.pi / 4) 1
        = ![2000 / 1000001, -999999 / 1000001, 0] := by
      simp only [vec_roll_to_mat3, normalize_of_unit _ _ hd hs]
      exact vec_roll_normalized_axis1 _ _ _ hd (Or.inl hbr)
    have hM : vec_roll_to_mat3 (FloatMath.mk Real.sqrt Real.sin Real.cos (fun y x => Complex.arg ⟨x, y⟩))
        ![2000 / 1000001, -999999 / 1000001, 0] (Real.pi / 4)
        = (!![-1, -(2000 / 1000001), 0; 2000 / 1000001, -999999 / 1000001, 0; 0, 0, 1] : M3 ℝ)
          * axis_angle_normalized_to_mat3
            (FloatMath.mk Real.sqrt Real.sin Real.cos (fun y x => Complex.arg ⟨x, y⟩))
            ![2000 / 1000001, -999999 / 1000001, 0] (Real.pi / 4) := by
      simp only [vec_roll_to_mat3, normalize_of_unit _ _ hd hs, vec_roll_to_mat3_normalized,
        mul_m3_m3m3, hB]
    have hr := near_rollmat (FloatMath.mk Real.sqrt Real.sin Real.cos (fun y x => Complex.arg ⟨x, y⟩))
      (Real.pi / 4)
    simp only at hr
    simp only [mat3_to_vec_roll, hM1, mat3_vec_to_roll]
    rw [vec_roll_near_negY _ exact_mk, hM, hr.1, hr.2]
    intro h
    have ht := Complex.tan_arg (⟨Real.cos (Real.pi / 4), Real.sin (Real.pi / 4) * (1000002000001 / 1000003999999)⟩ : ℂ)
    rw [h, Real.tan_pi_div_four] at ht
    simp only [Real.cos_pi_div_four, Real.sin_pi_div_four] at ht
    have h2 : (Real.sqrt 2 / 2) ≠ 0 := by positivity
    field_simp at ht
    have h3 : Real.sqrt 2 = 0 := by linarith
    have h4 : (0 : ℝ) < Real.sqrt 2 := by positivity
    linarith

/-- C2 (amended): with floats modelled as reals, for every non-zero direction `d`
whose normalized form `n` is in the general branch (`1 + n.y > 1e-5`) or is treated
as -Y (`1 + n.y <= 1e-9`, which holds for `d` exactly along (0,-1,0)), and every
roll `r`, the matrix `vec_roll_to_mat3(d, r)` is orthonormal with determinant 1. -/
theorem C2_orthonormal (fm : FloatMath ℝ) (hfm : fm.Exact) (d : V3 ℝ) (r : ℝ)
    (hd : d ≠ 0)
    (hbr : THETA_THRESHOLD_NEGY_CLOSE < 1 + normalize_v3_v3 fm d 1 ∨
      1 + normalize_v3_v3 fm d 1 ≤ THETA_THRESHOLD_NEGY) :
    IsOrthonormalM3 (vec_roll_to_mat3 fm d r) := by
  have hn := exact_normalize_unit fm hfm d hd
  have hsc := exact_sin_cos fm hfm r
  simp only [vec_roll_to_mat3]
  rcases hbr with h | h
  · exact vec_roll_normalized_orthonormal fm _ r hn hsc
      (bMatrix_general_orthonormal _ h hn) (bMatrix_general_det _ h hn)
  · apply vec_roll_normalized_orthonormal fm _ r hn hsc
    · rw [bMatrix_negY _ h]; exact bMatrix_negY_orthonormal.1
    · rw [bMatrix_negY _ h]; exact bMatrix_negY_orthonormal.2

/-- C2, witness: the direction exactly (0,-1,0), with roll 2. -/
theorem C2_orthonormal_witness :
    IsOrthonormalM3
      (vec_roll_to_mat3 (FloatMath.mk Real.sqrt Real.sin Real.cos (fun y x => Complex.arg ⟨x, y⟩))
        ![0, -1, 0] 2) :=
  C2_orthonormal _ exact_mk ![0, -1, 0] 2
    (by intro h; have h1 := congrFun h 1; simp at h1)
    (Or.inr (by simp [normalize_v3_v3, dot_v3v3, THETA_THRESHOLD_NEGY]))

/-- C2, counterexample: for the unit direction (2000/1000001, -999999/1000001, 0),
which has `1 + y = 2/1000001` (near branch), and roll 0, the matrix is not
orthonormal: its X axis is (-1, -2000/1000001, 0), of length above 1. -/
theorem C2_orthonormal_counterexample :
    ¬ IsOrthonormalM3
      (vec_roll_to_mat3 (FloatMath.mk Real.sqrt Real.sin Real.cos (fun y x => Complex.arg ⟨x, y⟩))
        ![2000 / 1000001, -999999 / 1000001, 0] 0) := by
  rw [vec_roll_near_negY _ exact_mk]
  intro h
  have h0 := h.1 0
  simp [dot_v3v3] at h0

/-- C3 (amended): with floats modelled as reals, for every non-zero direction `d`
whose normalized form `n` has `1 + n.y > 1e-9` or is exactly (0,-1,0), and every
roll `r`, the Y axis `mat[1]` of `vec_roll_to_mat3(d, r)` equals `n`. -/
theorem C3_y_axis (fm : FloatMath ℝ) (hfm : fm.Exact) (d : V3 ℝ) (r : ℝ)
    (hd : d ≠ 0)
    (hbr : THETA_THRESHOLD_NEGY < 1 + normalize_v3_v3 fm d 1 ∨
      normalize_v3_v3 fm d = ![0, -1, 0]) :
    vec_roll_to_mat3 fm d r 1 = normalize_v3_v3 fm d := by
  have hn := exact_normalize_unit fm hfm d hd
  simp only [vec_roll_to_mat3]
  exact vec_roll_normalized_axis1 fm _ r hn hbr

/-- C3, witness: the direction (0, 0, 1), with roll 1. -/
theorem C3_y_axis_witness :
    vec_roll_to_mat3 (FloatMath.mk Real.sqrt Real.sin Real.cos (fun y x => Complex.arg ⟨x, y⟩))
        ![0, 0, 1] 1 1
      = normalize_v3_v3 (FloatMath.mk Real.sqrt Real.sin Real.cos (fun y x => Complex.arg ⟨x, y⟩))
        ![0, 0, 1] :=
  C3_y_axis _ exact_mk ![0, 0, 1] 1
    (by intro h; have h2 := congrFun h 2; simp at h2)
    (Or.inl (by simp [normalize_v3_v3, dot_v3v3, THETA_THRESHOLD_NEGY]; norm_num))

/-- C3, counterexample: for the unit direction
(200000/10000000001, -9999999999/10000000001, 0), which has `1 + y = 2/10000000001`,
and roll 0, the Y axis of the matrix is (0,-1,0), not the direction. -/
theorem C3_y_axis_counterexample :
    vec_roll_to_mat3 (FloatMath.mk Real.sqrt Real.sin Real.cos (fun y x => Complex.arg ⟨x, y⟩))
        ![200000 / 10000000001, -9999999999 / 10000000001, 0] 0 1
      ≠ normalize_v3_v3 (FloatMath.mk Real.sqrt Real.sin Real.cos (fun y x => Complex.arg ⟨x, y⟩))
        ![200000 / 10000000001, -9999999999 / 10000000001, 0] := by
  have hd : dot_v3v3 (![200000 / 10000000001, -9999999999 / 10000000001, 0] : V3 ℝ)
      ![200000 / 10000000001, -9999999999 / 10000000001, 0] = 1 := by
    simp [dot_v3v3]; norm_num
  rw [vec_roll_below_negY _ exact_mk, normalize_of_unit _ _ hd (exact_consts _ exact_mk).1]
  intro h
  have h0 := congrFun h 0
  norm_num at h0

end RollTheorems

/-! ## Theorems: rest-pose propagator -/

section RestTheorems

variable {R : Type} [LinearOrderedField R]

theorem offset_matrix_eq (bone parent : BoneData R) :
    BKE_bone_offset_matrix_get bone parent = offsetMatrix bone.bone_mat bone.head parent.length := by
  ext i j
  fin_cases i <;> fin_cases j <;> simp [BKE_bone_offset_matrix_get, offsetMatrix, m4_set_loc, copy_m4_m3]

theorem root_matrix_eq (bm : M3 R) (head : V3 R) :
    m4_set_loc (copy_m4_m3 bm) head = rootMatrix bm head := by
  ext i j
  fin_cases i <;> fin_cases j <;> simp [rootMatrix, m4_set_loc, copy_m4_m3]

theorem where_is_bone_data_geometry (fm : FloatMath R) (d : BoneData R) (prev : Option (BoneData R)) :
    (where_is_bone_data fm d prev).name = d.name ∧ (where_is_bone_data fm d prev).flag = d.flag ∧
    (where_is_bone_data fm d prev).head = d.head ∧ (where_is_bone_data fm d prev).tail = d.tail ∧
    (where_is_bone_data fm d prev).roll = d.roll := by
  cases prev <;> simp only [where_is_bone_data] <;> split_ifs <;> simp

theorem where_is_bone_data_length (fm : FloatMath R) (d : BoneData R) (prev : Option (BoneData R)) :
    (where_is_bone_data fm d prev).length = len_v3 fm (sub_v3_v3v3 d.tail d.head) := by
  cases prev <;> simp only [where_is_bone_data] <;> split_ifs <;> simp

theorem where_is_bone_data_bone_mat (fm : FloatMath R) (d : BoneData R) (prev : Option (BoneData R)) :
    (where_is_bone_data fm d prev).bone_mat = vec_roll_to_mat3 fm (sub_v3_v3v3 d.tail d.head) d.roll := by
  cases prev <;> simp only [where_is_bone_data] <;> split_ifs <;> simp

theorem where_is_bone_data_arm_mat_root (fm : FloatMath R) (d : BoneData R) :
    (where_is_bone_data fm d none).arm_mat
      = rootMatrix (where_is_bone_data fm d none).bone_mat (where_is_bone_data fm d none).head := by
  rw [← root_matrix_eq]
  simp only [where_is_bone_data]

theorem where_is_bone_data_arm_mat_child (fm : FloatMath R) (d p : BoneData R) :
    (where_is_bone_data fm d (some p)).arm_mat
      = mul_m4_m4m4 p.arm_mat (offsetMatrix (where_is_bone_data fm d (some p)).bone_mat
          (where_is_bone_data fm d (some p)).head p.length) := by
  rw [← offset_matrix_eq (where_is_bone_data fm d (some p)) p]
  simp only [where_is_bone_data]; split_ifs <;> simp [BKE_bone_offset_matrix_get]

mutual
theorem restOK_where_is_bone (fm : FloatMath R) :
    ∀ (b : Bone R) (prev : Option (BoneData R)),
      RestOK fm prev (BKE_armature_where_is_bone fm b prev true)
  | .mk d cs, prev => by
    have hg := where_is_bone_data_geometry fm d prev
    simp only [BKE_armature_where_is_bone, if_true, RestOK]
    refine ⟨?_, ?_, ?_, restOK_where_is_children fm cs _⟩
    · rw [where_is_bone_data_length, hg.2.2.1, hg.2.2.2.1]; rfl
    · rw [where_is_bone_data_bone_mat, hg.2.2.1, hg.2.2.2.1, hg.2.2.2.2]
    · cases prev with
      | none => exact where_is_bone_data_arm_mat_root fm d
      | some p => exact where_is_bone_data_arm_mat_child fm d p
theorem restOK_where_is_children (fm : FloatMath R) :
    ∀ (cs : List (Bone R)) (p : BoneData R), RestOKList fm p (where_is_bone_children fm cs p)
  | [], p => by simp [where_is_bone_children, RestOKList]
  | b :: bs, p => by
    simp only [where_is_bone_children, RestOKList]
    exact ⟨restOK_where_is_bone fm b (some p), restOK_where_is_children fm bs p⟩
end

mutual
theorem sameGeometry_where_is_bone (fm : FloatMath R) :
    ∀ (b : Bone R) (prev : Option (BoneData R)),
      SameGeometry b (BKE_armature_where_is_bone fm b prev true)
  | .mk d cs, prev => by
    have hg := where_is_bone_data_geometry fm d prev
    simp only [BKE_armature_where_is_bone, if_true, SameGeometry]
    exact ⟨hg.1.symm, hg.2.1.symm, hg.2.2.1.symm, hg.2.2.2.1.symm, hg.2.2.2.2.symm,
      sameGeometry_where_is_children fm cs _⟩
theorem sameGeometry_where_is_children (fm : FloatMath R) :
    ∀ (cs : List (Bone R)) (p : BoneData R), SameGeometryList cs (where_is_bone_children fm cs p)
  | [], p => by simp [where_is_bone_children, SameGeometryList]
  | b :: bs, p => by
    simp only [where_is_bone_children, SameGeometryList]
    exact ⟨sameGeometry_where_is_bone fm b (some p), sameGeometry_where_is_children fm bs p⟩
end

theorem sameGeometryList_map (fm : FloatMath R) :
    ∀ (bs : List (Bone R)),
      SameGeometryList bs (bs.map (fun bone => BKE_armature_where_is_bone fm bone none true))
  | [] => by simp [SameGeometryList]
  | b :: bs => by
    simp only [List.map, SameGeometryList]
    exact ⟨sameGeometry_where_is_bone fm b none, sameGeometryList_map fm bs⟩

theorem where_is_bone_data_congr (fm : FloatMath R) (d d' : BoneData R)
    (hh : d.head = d'.head) (ht : d.tail = d'.tail) (hr : d.roll = d'.roll) :
    (where_is_bone_data fm d none).arm_mat = (where_is_bone_data fm d' none).arm_mat ∧
    ∀ p p' : BoneData R, p.arm_mat = p'.arm_mat → p.length = p'.length →
      (where_is_bone_data fm d (some p)).arm_mat = (where_is_bone_data fm d' (some p')).arm_mat := by
  constructor
  · rw [where_is_bone_data_arm_mat_root, where_is_bone_data_arm_mat_root,
      where_is_bone_data_bone_mat, where_is_bone_data_bone_mat,
      (where_is_bone_data_geometry fm d none).2.2.1, (where_is_bone_data_geometry fm d' none).2.2.1,
      hh, ht, hr]
  · intro p p' hpa hpl
    rw [where_is_bone_data_arm_mat_child, where_is_bone_data_arm_mat_child,
      where_is_bone_data_bone_mat, where_is_bone_data_bone_mat,
      (where_is_bone_data_geometry fm d _).2.2.1, (where_is_bone_data_geometry fm d' _).2.2.1,
      hh, ht, hr, hpa, hpl]

mutual
theorem sameRest_where_is_bone (fm : FloatMath R) :
    ∀ (b b' : Bone R) (prev prev' : Option (BoneData R)), SameGeometry b b' →
      (where_is_bone_data fm b.data prev).arm_mat = (where_is_bone_data fm b'.data prev').arm_mat →
      SameRest (BKE_armature_where_is_bone fm b prev true)
        (BKE_armature_where_is_bone fm b' prev' true)
  | .mk d cs, .mk d' cs', prev, prev', hg, ha => by
    simp only [SameGeometry] at hg
    obtain ⟨_, _, hh, ht, hr, hcs⟩ := hg
    simp only [BKE_armature_where_is_bone, if_true, SameRest]
    have hl : (where_is_bone_data fm d prev).length = (where_is_bone_data fm d' prev').length := by
      rw [where_is_bone_data_length, where_is_bone_data_length, hh, ht]
    refine ⟨hl, ?_, ha, sameRest_where_is_children fm cs cs' _ _ hcs ha hl⟩
    rw [where_is_bone_data_bone_mat, where_is_bone_data_bone_mat, hh, ht, hr]
theorem sameRest_where_is_children (fm : FloatMath R) :
    ∀ (cs cs' : List (Bone R)) (p p' : BoneData R), SameGeometryList cs cs' →
      p.arm_mat = p'.arm_mat → p.length = p'.length →
      SameRestList (where_is_bone_children fm cs p) (where_is_bone_children fm cs' p')
  | [], [], _, _, _, _, _ => by simp [where_is_bone_children, SameRestList]
  | [], _ :: _, _, _, h, _, _ => by simp [SameGeometryList] at h
  | _ :: _, [], _, _, h, _, _ => by simp [SameGeometryList] at h
  | b :: bs, b' :: bs', p, p', h, hpa, hpl => by
    simp only [SameGeometryList] at h
    simp only [where_is_bone_children, SameRestList]
    refine ⟨sameRest_where_is_bone fm b b' (some p) (some p') h.1 ?_,
      sameRest_where_is_children fm bs bs' p p' h.2 hpa hpl⟩
    cases b with
    | mk d cs =>
      cases b' with
      | mk d' cs' =>
        simp only [SameGeometry] at h
        exact (where_is_bone_data_congr fm d d' h.1.2.2.1 h.1.2.2.2.1 h.1.2.2.2.2.1).2 p p' hpa hpl
end

theorem sameRestList_map (fm : FloatMath R) :
    ∀ (bs bs' : List (Bone R)), SameGeometryList bs bs' →
      SameRestList (bs.map (fun bone => BKE_armature_where_is_bone fm bone none true))
        (bs'.map (fun bone => BKE_armature_where_is_bone fm bone none true))
  | [], [], _ => by simp [SameRestList]
  | [], _ :: _, h => by simp [SameGeometryList] at h
  | _ :: _, [], h => by simp [SameGeometryList] at h
  | b :: bs, b' :: bs', h => by
    simp only [SameGeometryList] at h
    simp only [List.map, SameRestList]
    refine ⟨sameRest_where_is_bone fm b b' none none h.1 ?_, sameRestList_map fm bs bs' h.2⟩
    cases b with
    | mk d cs =>
      cases b' with
      | mk d' cs' =>
        simp only [SameGeometry] at h
        exact (where_is_bone_data_congr fm d d' h.1.2.2.1 h.1.2.2.2.1 h.1.2.2.2.2.1).1

theorem where_is_bone_data_idem (fm : FloatMath R) (d : BoneData R) (prev : Option (BoneData R)) :
    where_is_bone_data fm (where_is_bone_data fm d prev) prev = where_is_bone_data fm d prev := by
  have h10 : (1 / 10 : R) ≠ 0 := by norm_num
  cases prev <;> simp only [where_is_bone_data] <;> split_ifs <;>
    simp_all [BKE_bone_offset_matrix_get]

mutual
theorem where_is_bone_idem (fm : FloatMath R) :
    ∀ (b : Bone R) (prev : Option (BoneData R)),
      BKE_armature_where_is_bone fm (BKE_armature_where_is_bone fm b prev true) prev true
        = BKE_armature_where_is_bone fm b prev true
  | .mk d cs, prev => by
    simp only [BKE_armature_where_is_bone, if_true, where_is_bone_data_idem]
    rw [where_is_children_idem fm cs]
theorem where_is_children_idem (fm : FloatMath R) :
    ∀ (cs : List (Bone R)) (p : BoneData R),
      where_is_bone_children fm (where_is_bone_children fm cs p) p = where_is_bone_children fm cs p
  | [], p => by simp [where_is_bone_children]
  | b :: bs, p => by
    simp only [where_is_bone_children]
    rw [where_is_bone_idem fm b (some p), where_is_children_idem fm bs p]
end

/-! ### Claims C4 and C5 -/

/-- C4: after `BKE_armature_where_is` the tree has the same bones with the same
head, tail, roll (first part), and every bone has `length = |tail - head|`,
`bone_mat = vec_roll_to_mat3(tail - head, roll)`, `arm_mat` equal to `bone_mat` as
a 4x4 matrix translated to `head` for a root bone, and to `parent.arm_mat · offs`
for a bone with a parent, where `offs` has rotation `bone_mat` and translation
`head + (0, parent.length, 0)` and `parent.arm_mat`, `parent.length` are the values
of this run (second part).  The parent is computed before its children: the result
does not depend on the rest matrices stored before the call, only on the geometry
(third part). -/
theorem C4_rest_pose (fm : FloatMath R) (arm : bArmature R) :
    SameGeometryList arm.bonebase (BKE_armature_where_is fm arm).bonebase ∧
    (∀ b ∈ (BKE_armature_where_is fm arm).bonebase, RestOK fm none b) ∧
    (∀ arm2 : bArmature R, SameGeometryList arm.bonebase arm2.bonebase →
      SameRestList (BKE_armature_where_is fm arm).bonebase
        (BKE_armature_where_is fm arm2).bonebase) := by
  refine ⟨sameGeometryList_map fm arm.bonebase, ?_, ?_⟩
  · intro b hb
    simp only [BKE_armature_where_is, List.mem_map] at hb
    obtain ⟨b0, _, rfl⟩ := hb
    exact restOK_where_is_bone fm b0 none
  · intro arm2 h
    exact sameRestList_map fm _ _ h

/-- C5: rest-pose propagation is idempotent: running `BKE_armature_where_is` on its
own result changes nothing, so every bone keeps exactly the same `arm_mat`,
`length` and `bone_mat`. -/
theorem C5_rest_pose_idempotent (fm : FloatMath R) (arm : bArmature R) :
    BKE_armature_where_is fm (BKE_armature_where_is fm arm) = BKE_armature_where_is fm arm := by
  simp only [BKE_armature_where_is, List.map_map]
  congr 1
  apply List.map_congr_left
  intro b _
  exact where_is_bone_idem fm b none

end RestTheorems

/-! ## Theorems: parent-transform composer -/

section MatrixAccess

variable {R : Type}

theorem m4_set_loc_row (m : M4 R) (v : V3 R) (i j : Fin 4) (hi : i ≠ 3) :
    m4_set_loc m v i j = m i j := by
  fin_cases i <;> fin_cases j <;> simp [m4_set_loc] at hi ⊢

theorem m4_set_loc_33 (m : M4 R) (v : V3 R) : m4_set_loc m v 3 3 = m 3 3 := by
  simp [m4_set_loc]

theorem m4_set_loc_axis (m : M4 R) (v : V3 R) : m4_axis (m4_set_loc m v) 3 = v := by
  ext j; fin_cases j <;> simp [m4_set_loc, m4_axis]

end MatrixAccess

section ComposerTheorems

variable {R : Type} [LinearOrderedField R]

theorem m4_mul_apply (a b : M4 R) (i j : Fin 4) :
    (a * b) i j = a i 0 * b 0 j + a i 1 * b 1 j + a i 2 * b 2 j + a i 3 * b 3 j := by
  simp [Matrix.mul_apply, Fin.sum_univ_four]

theorem mul_v3_m4v3_eq (m : M4 R) (v : V3 R) :
    mul_v3_m4v3 m v = ![v 0 * m 0 0 + v 1 * m 1 0 + v 2 * m 2 0 + m 3 0,
                        v 0 * m 0 1 + v 1 * m 1 1 + v 2 * m 2 1 + m 3 1,
                        v 0 * m 0 2 + v 1 * m 1 2 + v 2 * m 2 2 + m 3 2] := by
  ext j
  fin_cases j
  · simp [mul_v3_m4v3]
  · simp [mul_v3_m4v3]
  · simp [mul_v3_m4v3]; rfl

theorem invert_m4_mul_cancel (a : M4 R) (h : a.det ≠ 0) :
    a * invert_m4_m4 a = 1 ∧ invert_m4_m4 a * a = 1 := by
  simp only [invert_m4_m4]
  constructor
  · rw [Matrix.mul_smul, Matrix.mul_adjugate, smul_smul, inv_mul_cancel₀ h, one_smul]
  · rw [Matrix.smul_mul, Matrix.adjugate_mul, smul_smul, inv_mul_cancel₀ h, one_smul]

theorem isAffine_of_mul_eq_one (a b : M4 R) (ha : IsAffine a) (hab : b * a = 1) : IsAffine b := by
  -- column 3 of `a` is the unit vector, hence so is column 3 of its inverse
  obtain ⟨h0, h1, h2, h3⟩ := ha
  have key : ∀ i, b i 3 = (b * a) i 3 := by
    intro i
    rw [m4_mul_apply, h0, h1, h2, h3]; ring
  rw [hab] at key
  exact ⟨by rw [key]; simp, by rw [key]; simp, by rw [key]; simp, by rw [key]; simp⟩

theorem apply_affine (r l m : M4 R) (hr : IsAffine r) (hl : IsAffine l) (hm : IsAffine m) :
    BKE_bone_parent_transform_apply ⟨r, l⟩ m = (fun i j => if i = 3 then (m * l) i j else (m * r) i j)
      ∧ IsAffine (BKE_bone_parent_transform_apply ⟨r, l⟩ m) := by
  obtain ⟨r0, r1, r2, r3⟩ := hr
  obtain ⟨l0, l1, l2, l3⟩ := hl
  obtain ⟨m0, m1, m2, m3⟩ := hm
  have e : BKE_bone_parent_transform_apply ⟨r, l⟩ m
      = (fun i j => if i = 3 then (m * l) i j else (m * r) i j) := by
    ext i j
    by_cases hi : i = 3
    · subst hi
      simp only [BKE_bone_parent_transform_apply, mul_v3_m4v3_eq, if_true]
      fin_cases j <;>
        simp [m4_set_loc, m4_axis, mul_m4_m4m4, m4_mul_apply, m3, r0, r1, r2, r3, l0, l1, l2, l3]
    · simp only [BKE_bone_parent_transform_apply, m4_set_loc_row _ _ i j hi, if_neg hi, mul_m4_m4m4]
  refine ⟨e, ?_⟩
  rw [e]
  simp only [IsAffine, m4_mul_apply, r0, r1, r2, r3, l0, l1, l2, l3, m0, m1, m2, m3]
  simp

theorem apply_apply_cancel (r l ri li m : M4 R) (hr : IsAffine r) (hl : IsAffine l)
    (hri : IsAffine ri) (hli : IsAffine li) (hm : IsAffine m)
    (h1 : r * ri = 1) (h2 : l * li = 1) :
    BKE_bone_parent_transform_apply ⟨ri, li⟩ (BKE_bone_parent_transform_apply ⟨r, l⟩ m) = m := by
  obtain ⟨e1, a1⟩ := apply_affine r l m hr hl hm
  obtain ⟨e2, _⟩ := apply_affine ri li _ hri hli a1
  rw [e2]
  ext i j
  by_cases hi : i = 3
  · subst hi
    simp only [if_true]
    have : ∀ k, BKE_bone_parent_transform_apply ⟨r, l⟩ m 3 k = (m * l) 3 k := by
      intro k; rw [e1]; simp
    rw [Matrix.mul_apply]
    simp only [this]
    rw [← Matrix.mul_apply, Matrix.mul_assoc, h2, Matrix.mul_one]
  · simp only [if_neg hi]
    have : ∀ k, BKE_bone_parent_transform_apply ⟨r, l⟩ m i k = (m * r) i k := by
      intro k; rw [e1]; simp [hi]
    rw [Matrix.mul_apply]
    simp only [this]
    rw [← Matrix.mul_apply, Matrix.mul_assoc, h1, Matrix.mul_one]

theorem example_arm_mat_det : exampleBone.arm_mat.det ≠ 0 := by
  have h : exampleBone.arm_mat.det = 1 := by
    simp [exampleBone, Matrix.det_succ_row_zero, Fin.sum_univ_succ, Matrix.submatrix,
      Fin.succAbove]
  rw [h]; norm_num

/-! ### Claims C6 to C8 -/

/-- C6: `BKE_bone_parent_transform_apply(bpt, m)` is the product `rotscale_mat · m`
on the three axes and on `[3][3]`, its xyz translation is `loc_mat` applied to the
translation of `m` as a point, and when `loc_mat = rotscale_mat` and `m[3][3] = 1`
it is exactly `rotscale_mat · m`. -/
theorem C6_parent_transform_apply (bpt : BoneParentTransform R) (m : M4 R) :
    (∀ i j : Fin 4, i ≠ 3 → BKE_bone_parent_transform_apply bpt m i j
        = mul_m4_m4m4 bpt.rotscale_mat m i j) ∧
    BKE_bone_parent_transform_apply bpt m 3 3 = mul_m4_m4m4 bpt.rotscale_mat m 3 3 ∧
    m4_axis (BKE_bone_parent_transform_apply bpt m) 3
      = ![m 3 0 * bpt.loc_mat 0 0 + m 3 1 * bpt.loc_mat 1 0 + m 3 2 * bpt.loc_mat 2 0
            + bpt.loc_mat 3 0,
          m 3 0 * bpt.loc_mat 0 1 + m 3 1 * bpt.loc_mat 1 1 + m 3 2 * bpt.loc_mat 2 1
            + bpt.loc_mat 3 1,
          m 3 0 * bpt.loc_mat 0 2 + m 3 1 * bpt.loc_mat 1 2 + m 3 2 * bpt.loc_mat 2 2
            + bpt.loc_mat 3 2] ∧
    (bpt.loc_mat = bpt.rotscale_mat → m 3 3 = 1 →
      BKE_bone_parent_transform_apply bpt m = mul_m4_m4m4 bpt.rotscale_mat m) := by
  refine ⟨?_, ?_, ?_, ?_⟩
  · intro i j hi
    simp only [BKE_bone_parent_transform_apply, m4_set_loc_row _ _ i j hi]
  · simp only [BKE_bone_parent_transform_apply, m4_set_loc_33]
  · simp only [BKE_bone_parent_transform_apply, m4_set_loc_axis, mul_v3_m4v3_eq]
    simp [m4_axis]
  · intro hl h33
    ext i j
    by_cases hi : i = 3
    · subst hi
      simp only [BKE_bone_parent_transform_apply, hl, mul_v3_m4v3_eq]
      fin_cases j <;> simp [m4_set_loc, m4_axis, mul_m4_m4m4, m4_mul_apply, h33]
    · simp only [BKE_bone_parent_transform_apply, m4_set_loc_row _ _ i j hi]

/-- C6, witness: with the same matrix for rotation/scale and location and the
example rest matrix as input, the result is the plain product. -/
theorem C6_parent_transform_apply_witness :
    BKE_bone_parent_transform_apply
        (BoneParentTransform.mk exampleBone.arm_mat exampleBone.arm_mat) exampleBone.arm_mat
      = mul_m4_m4m4 exampleBone.arm_mat exampleBone.arm_mat :=
  (C6_parent_transform_apply
    (BoneParentTransform.mk exampleBone.arm_mat exampleBone.arm_mat) exampleBone.arm_mat).2.2.2
    rfl (by simp [exampleBone])

/-- C7: for a bone without a parent, whatever its flags, the parent transform has
`rotscale_mat` equal to the bone's own rest matrix `arm_mat`; `loc_mat` equals
`rotscale_mat` unless `BONE_NO_LOCAL_LOCATION` is set, and then it is the identity
rotation with the translation of `arm_mat`. -/
theorem C7_root_parent_transform (fm : FloatMath R) (pose : bPose R) (pchan : bPoseChannel R)
    (bone : BoneData R) (hb : pchan.bone = some bone) (hp : pchan.parent = none) :
    ∃ bpt, BKE_bone_parent_transform_calc_from_pchan fm pose pchan = some bpt ∧
      bpt = BKE_bone_parent_transform_calc_from_matrices fm bone.flag bone.arm_mat none ∧
      bpt.rotscale_mat = bone.arm_mat ∧
      (has_flag bone.flag BONE_NO_LOCAL_LOCATION = false → bpt.loc_mat = bpt.rotscale_mat) ∧
      (has_flag bone.flag BONE_NO_LOCAL_LOCATION = true →
        bpt.loc_mat = !![1, 0, 0, 0; 0, 1, 0, 0; 0, 0, 1, 0;
                         bone.arm_mat 3 0, bone.arm_mat 3 1, bone.arm_mat 3 2, 1]) := by
  refine ⟨_, ?_, rfl, ?_, ?_, ?_⟩
  · simp only [BKE_bone_parent_transform_calc_from_pchan, hb, hp]
  · simp [BKE_bone_parent_transform_calc_from_matrices]
  · intro h
    simp [BKE_bone_parent_transform_calc_from_matrices, h]
  · intro h
    simp only [BKE_bone_parent_transform_calc_from_matrices, h, if_true]
    ext i j
    fin_cases i <;> fin_cases j <;> simp [m4_set_loc, unit_m4, m4_axis]

/-- C7, witness: the example root channel, whose bone has `BONE_NO_LOCAL_LOCATION`. -/
theorem C7_root_parent_transform_witness :
    ∃ bpt, BKE_bone_parent_transform_calc_from_pchan ratMath
        (bPose.mk [exampleChannel] 0 ![0, 0, 0]) exampleChannel = some bpt ∧
      bpt = BKE_bone_parent_transform_calc_from_matrices ratMath exampleBone.flag
        exampleBone.arm_mat none ∧
      bpt.rotscale_mat = exampleBone.arm_mat ∧
      (has_flag exampleBone.flag BONE_NO_LOCAL_LOCATION = false →
        bpt.loc_mat = bpt.rotscale_mat) ∧
      (has_flag exampleBone.flag BONE_NO_LOCAL_LOCATION = true →
        bpt.loc_mat = !![1, 0, 0, 0; 0, 1, 0, 0; 0, 0, 1, 0;
          exampleBone.arm_mat 3 0, exampleBone.arm_mat 3 1, exampleBone.arm_mat 3 2, 1]) :=
  C7_root_parent_transform ratMath (bPose.mk [exampleChannel] 0 ![0, 0, 0]) exampleChannel
    exampleBone rfl rfl

/-- C8: for every pose channel whose parent transform has invertible affine
`rotscale_mat` and `loc_mat` (whatever the HINGE, NO_SCALE and NO_LOCAL_LOCATION
flags of its bone) and every affine matrix `m`, converting `m` from bone space to
pose space and back gives `m`, and so does converting from pose space to bone space
and back. -/
theorem C8_pose_bone_roundtrip (fm : FloatMath R) (pose : bPose R) (pchan : bPoseChannel R)
    (bpt : BoneParentTransform R) (m : M4 R)
    (hbpt : BKE_bone_parent_transform_calc_from_pchan fm pose pchan = some bpt)
    (hr : IsAffine bpt.rotscale_mat) (hrd : bpt.rotscale_mat.det ≠ 0)
    (hl : IsAffine bpt.loc_mat) (hld : bpt.loc_mat.det ≠ 0) (hm : IsAffine m) :
    (BKE_armature_mat_bone_to_pose fm pose pchan m).bind
        (BKE_armature_mat_pose_to_bone fm pose pchan) = some m ∧
    (BKE_armature_mat_pose_to_bone fm pose pchan m).bind
        (BKE_armature_mat_bone_to_pose fm pose pchan) = some m := by
  obtain ⟨r1, r2⟩ := invert_m4_mul_cancel _ hrd
  obtain ⟨l1, l2⟩ := invert_m4_mul_cancel _ hld
  have hri := isAffine_of_mul_eq_one _ _ hr r2
  have hli := isAffine_of_mul_eq_one _ _ hl l2
  cases bpt with
  | mk r l =>
    simp only [BKE_armature_mat_bone_to_pose, BKE_armature_mat_pose_to_bone, hbpt,
      Option.some_bind, BKE_bone_parent_transform_invert]
    exact ⟨by rw [apply_apply_cancel r l _ _ m hr hl hri hli hm r1 l1],
      by rw [apply_apply_cancel _ _ r l m hri hli hr hl hm r2 l2]⟩

/-- C8, witness: the example root channel (flag `BONE_NO_LOCAL_LOCATION`, rest
matrix a translation) and the matrix `size_to_mat4 (2, 3, 4)`. -/
theorem C8_pose_bone_roundtrip_witness :
    (BKE_armature_mat_bone_to_pose ratMath (bPose.mk [exampleChannel] 0 ![0, 0, 0])
        exampleChannel (size_to_mat4 ![2, 3, 4])).bind
        (BKE_armature_mat_pose_to_bone ratMath (bPose.mk [exampleChannel] 0 ![0, 0, 0])
          exampleChannel) = some (size_to_mat4 ![2, 3, 4]) ∧
    (BKE_armature_mat_pose_to_bone ratMath (bPose.mk [exampleChannel] 0 ![0, 0, 0])
        exampleChannel (size_to_mat4 ![2, 3, 4])).bind
        (BKE_armature_mat_bone_to_pose ratMath (bPose.mk [exampleChannel] 0 ![0, 0, 0])
          exampleChannel) = some (size_to_mat4 ![2, 3, 4]) :=
  C8_pose_bone_roundtrip ratMath (bPose.mk [exampleChannel] 0 ![0, 0, 0]) exampleChannel
    (BKE_bone_parent_transform_calc_from_matrices ratMath exampleBone.flag
      exampleBone.arm_mat none)
    (size_to_mat4 ![2, 3, 4]) rfl
    (by simp [BKE_bone_parent_transform_calc_from_matrices, IsAffine, exampleBone])
    (by simpa [BKE_bone_parent_transform_calc_from_matrices] using example_arm_mat_det)
    (by
      have h : has_flag exampleBone.flag BONE_NO_LOCAL_LOCATION = true := by decide
      simp [BKE_bone_parent_transform_calc_from_matrices, h, IsAffine, m4_set_loc, unit_m4])
    (by
      have h : has_flag exampleBone.flag BONE_NO_LOCAL_LOCATION = true := by decide
      have e : m4_set_loc (unit_m4 : M4 ℚ) (m4_axis exampleBone.arm_mat 3)
          = exampleBone.arm_mat := by
        ext i j; fin_cases i <;> fin_cases j <;> simp [m4_set_loc, unit_m4, m4_axis, exampleBone]
      simpa [BKE_bone_parent_transform_calc_from_matrices, h, e] using example_arm_mat_det)
    (by simp [IsAffine, size_to_mat4])

end ComposerTheorems

/-! ## Theorems: pose solver -/

section ConstraintStep

variable {R : Type}

theorem constraints_step_links (ext : PoseExternals R) (ob : Object R) (bone : BoneData R)
    (ctime : R) (pchan : bPoseChannel R) :
    (pose_where_is_bone_constraints ext ob bone ctime pchan).bone = pchan.bone := by
  simp only [pose_where_is_bone_constraints]
  split_ifs <;> rfl

end ConstraintStep

section PoseTheorems

variable {R : Type} [LinearOrderedField R]

theorem deform_mats_spec (ob ob' : Object R) (h : pose_where_is_deform_mats ob = some ob') :
    ∃ pose', ob'.pose = some pose' ∧ ∀ pchan ∈ pose'.chanbase, ∀ bone, pchan.bone = some bone →
      pchan.chan_mat = mul_m4_m4m4 pchan.pose_mat (invert_m4_m4 bone.arm_mat) := by
  simp only [pose_where_is_deform_mats] at h
  cases hp : ob.pose with
  | none => rw [hp] at h; simp at h
  | some pose =>
    rw [hp] at h
    simp only [Option.some.injEq] at h
    subst h
    refine ⟨_, rfl, ?_⟩
    intro pchan hmem bone hb
    simp only [List.mem_map] at hmem
    obtain ⟨p0, _, rfl⟩ := hmem
    cases hb0 : p0.bone with
    | none => simp [hb0] at hb
    | some b0 =>
      simp only [hb0, Option.some.injEq] at hb ⊢
      subst hb
      rfl

theorem where_is_bone_tail_spec (p r : bPoseChannel R) (h : BKE_pose_where_is_bone_tail p = some r) :
    r.pose_head = p.pose_head ∧ r.pose_mat = p.pose_mat ∧ r.bone = p.bone ∧
    ∃ bone, p.bone = some bone ∧
      r.pose_tail = add_v3_v3v3 p.pose_head (mul_v3_fl (m4_axis p.pose_mat 1) bone.length) := by
  simp only [BKE_pose_where_is_bone_tail] at h
  cases hb : p.bone with
  | none => rw [hb] at h; simp at h
  | some bone =>
    rw [hb] at h
    simp only [Option.some.injEq] at h
    subst h
    exact ⟨rfl, rfl, rfl, bone, rfl, rfl⟩

theorem chan_mat_step_links (ext : PoseExternals R) (pchan : bPoseChannel R) (do_extra : Bool) :
    (pose_where_is_bone_chan_mat ext pchan do_extra).bone = pchan.bone ∧
    (pose_where_is_bone_chan_mat ext pchan do_extra).parent = pchan.parent ∧
    (pose_where_is_bone_chan_mat ext pchan do_extra).bone_parent = pchan.bone_parent := by
  cases do_extra <;> simp [pose_where_is_bone_chan_mat, BKE_pchan_calc_mat]

theorem cyclic_offset_step_links (pose : bPose R) (bone : BoneData R) (pchan : bPoseChannel R) :
    (pose_where_is_bone_cyclic_offset pose bone pchan).bone = pchan.bone := by
  simp only [pose_where_is_bone_cyclic_offset]
  split_ifs <;> rfl

/-! ### Claims C9 and C10 -/

/-- C9: when `BKE_pose_where_is` runs to its end on an armature object (with its
armature data and a scene), every pose channel that has a bone ends with
`chan_mat = pose_mat · inverse(arm_mat)`, the pose matrix times the inverse rest
matrix in that order: on the arrays,
`chan_mat[i][j] = sum_k inverse(arm_mat)[i][k] * pose_mat[k][j]`. -/
theorem C9_chan_mat (fm : FloatMath R) (ext : PoseExternals R) (scene : Scene R)
    (ob : Object R) (arm : bArmature R)
    (htype : ob.ob_type = OB_ARMATURE) (harm : ob.data = some arm)
    (h : (BKE_pose_where_is fm ext (some scene) ob).isSome = true) :
    ∃ ob' pose', BKE_pose_where_is fm ext (some scene) ob = some ob' ∧
      ob'.pose = some pose' ∧
      ∀ pchan ∈ pose'.chanbase, ∀ bone, pchan.bone = some bone →
        pchan.chan_mat = mul_m4_m4m4 pchan.pose_mat (invert_m4_m4 bone.arm_mat) ∧
        ∀ i j, pchan.chan_mat i j
          = invert_m4_m4 bone.arm_mat i 0 * pchan.pose_mat 0 j
            + invert_m4_m4 bone.arm_mat i 1 * pchan.pose_mat 1 j
            + invert_m4_m4 bone.arm_mat i 2 * pchan.pose_mat 2 j
            + invert_m4_m4 bone.arm_mat i 3 * pchan.pose_mat 3 j := by
  obtain ⟨ob', hob⟩ := Option.isSome_iff_exists.mp h
  have h2 := hob
  simp only [BKE_pose_where_is, htype, ne_eq, not_true_eq_false, if_false, harm] at h2
  split at h2
  · simp at h2
  · obtain ⟨pose', hp, hall⟩ := deform_mats_spec _ _ h2
    refine ⟨ob', pose', hob, hp, ?_⟩
    intro pchan hmem bone hb
    have hc := hall pchan hmem bone hb
    refine ⟨hc, ?_⟩
    intro i j
    rw [hc]
    simp only [mul_m4_m4m4, m4_mul_apply]

/-- C9, witness: the example object (one root bone, channel at rest, no IK, no
constraints). -/
theorem C9_chan_mat_witness :
    ∃ ob' pose', BKE_pose_where_is ratMath (noExternals ℚ) (some (Scene.mk 1)) exampleObject
        = some ob' ∧
      ob'.pose = some pose' ∧
      ∀ pchan ∈ pose'.chanbase, ∀ bone, pchan.bone = some bone →
        pchan.chan_mat = mul_m4_m4m4 pchan.pose_mat (invert_m4_m4 bone.arm_mat) ∧
        ∀ i j, pchan.chan_mat i j
          = invert_m4_m4 bone.arm_mat i 0 * pchan.pose_mat 0 j
            + invert_m4_m4 bone.arm_mat i 1 * pchan.pose_mat 1 j
            + invert_m4_m4 bone.arm_mat i 2 * pchan.pose_mat 2 j
            + invert_m4_m4 bone.arm_mat i 3 * pchan.pose_mat 3 j :=
  C9_chan_mat ratMath (noExternals ℚ) (Scene.mk 1) exampleObject
    (bArmature.mk [Bone.mk exampleBone []] 0 false) rfl rfl rfl

/-- C10: every channel that `BKE_pose_where_is_bone` returns has `pose_head` equal
to the translation of `pose_mat` and `pose_tail = pose_head + length · (Y axis of
pose_mat)`, with `length` that of its bone; and the function does return a channel
whenever the pose, the bone and (for a child) the parent channel and parent bone
are there. -/
theorem C10_head_tail (fm : FloatMath R) (ext : PoseExternals R) (ob : Object R)
    (pchan : bPoseChannel R) (ctime : R) (do_extra : Bool) :
    (∀ r, BKE_pose_where_is_bone fm ext ob pchan ctime do_extra = some r →
      r.pose_head = m4_axis r.pose_mat 3 ∧
      ∃ bone, pchan.bone = some bone ∧ r.bone = some bone ∧
        r.pose_tail = add_v3_v3v3 r.pose_head (mul_v3_fl (m4_axis r.pose_mat 1) bone.length)) ∧
    (∀ pose bone, ob.pose = some pose → pchan.bone = some bone →
      (pchan.parent = none ∨ ∃ n parchan parbone, pchan.parent = some n ∧
        BKE_pose_channel_find_name pose n = some parchan ∧ pchan.bone_parent = some parbone) →
      (BKE_pose_where_is_bone fm ext ob pchan ctime do_extra).isSome = true) := by
  constructor
  · intro r h
    simp only [BKE_pose_where_is_bone] at h
    split at h
    · rename_i pose bone hpose hbone
      split at h
      · simp at h
      · rename_i pose_mat hpm
        obtain ⟨h1, h2, h3, b, h4, h5⟩ := where_is_bone_tail_spec _ _ h
        have hb : r.bone = some bone := by
          rw [h3, ← hbone]
          cases do_extra
          · simp only [Bool.false_eq_true, if_false, cyclic_offset_step_links]
            exact (chan_mat_step_links ext pchan false).1
          · simp only [if_true, constraints_step_links, cyclic_offset_step_links]
            exact (chan_mat_step_links ext pchan true).1
        have hbb : b = bone := by
          have : some b = some bone := by rw [← h4, ← h3, hb]
          exact Option.some.inj this
        refine ⟨?_, bone, hbone, hb, ?_⟩
        · rw [h1, h2]
        · rw [h5, h1, h2, hbb]
    · simp at h
  · intro pose bone hpose hbone hpar
    have hl := chan_mat_step_links ext pchan do_extra
    have hcalc : ∃ bpt, BKE_bone_parent_transform_calc_from_pchan fm pose
        (pose_where_is_bone_chan_mat ext pchan do_extra) = some bpt := by
      simp only [BKE_bone_parent_transform_calc_from_pchan, hl.1, hl.2.1, hl.2.2, hbone]
      rcases hpar with hp | ⟨n, parchan, parbone, hp, hf, hbp⟩
      · simp [hp]
      · simp [hp, hf, hbp]
    obtain ⟨bpt, hbpt⟩ := hcalc
    simp only [BKE_pose_where_is_bone, hpose, hbone, BKE_armature_mat_bone_to_pose, hbpt,
      BKE_pose_where_is_bone_tail]
    cases do_extra
    · simp only [Bool.false_eq_true, if_false, cyclic_offset_step_links, hl.1, hbone]
      rfl
    · simp only [if_true, constraints_step_links, cyclic_offset_step_links, hl.1, hbone]
      rfl

end PoseTheorems

/-! ## Theorems: envelope falloff -/

section EnvelopeTheorems

theorem falloff_code_eq_spec (s rad rdist : ℝ) (hs : 0 ≤ s) (hr : 0 ≤ rad) (hd : 0 ≤ rdist) :
    (if s < rad * rad then (1 : ℝ)
      else if rdist = 0 ∨ s ≥ (rad + rdist) * (rad + rdist) then 0
      else 1 - ((Real.sqrt s - rad) * (Real.sqrt s - rad)) / (rdist * rdist))
    = envelope_falloff_spec (Real.sqrt s) rad rdist := by
  have e1 : s < rad * rad ↔ Real.sqrt s < rad := by
    rw [← Real.sqrt_lt_sqrt_iff hs, Real.sqrt_mul_self hr]
  have e2 : s ≥ (rad + rdist) * (rad + rdist) ↔ Real.sqrt s ≥ rad + rdist := by
    have h0 : 0 ≤ rad + rdist := by linarith
    rw [ge_iff_le, ge_iff_le, ← Real.sqrt_le_sqrt_iff hs, Real.sqrt_mul_self h0]
  simp only [envelope_falloff_spec, e1, e2, pow_two]

theorem dot_self_nonneg (d : V3 ℝ) : 0 ≤ dot_v3v3 d d := by
  simp only [dot_v3v3]
  nlinarith [mul_self_nonneg (d 0), mul_self_nonneg (d 1), mul_self_nonneg (d 2)]

/-! ### Claim C20 -/

/-- C20 (amended): with the float operations read as exact real arithmetic and `sqrtf`
as the exact square root, for `b1 ≠ b2` and non-negative radii and falloff distance,
`distfactor_to_bone` is the falloff profile `F(d, rad)` of the specification at the
capsule distance and radius of the specification. -/
theorem C20_distfactor (fm : FloatMath ℝ) (hfm : fm.Exact) (vec b1 b2 : V3 ℝ)
    (rad1 rad2 rdist : ℝ) (hb : b1 ≠ b2) (h1 : 0 ≤ rad1) (h2 : 0 ≤ rad2) (hd : 0 ≤ rdist) :
    distfactor_to_bone fm vec b1 b2 rad1 rad2 rdist
      = envelope_falloff_spec (envelope_distance_spec fm vec b1 b2 rad1 rad2).1
          (envelope_distance_spec fm vec b1 b2 rad1 rad2).2 rdist := by
  have hne : sub_v3_v3v3 b2 b1 ≠ 0 := by
    intro h
    apply hb
    ext k
    have := congrFun h k
    simp only [sub_v3_v3v3, Pi.zero_apply] at this
    linarith
  have hpos : 0 < dot_v3v3 (sub_v3_v3v3 b2 b1) (sub_v3_v3v3 b2 b1) :=
    lt_of_le_of_ne (dot_self_nonneg _) (Ne.symm (dot_self_ne_zero _ hne))
  have hl : 0 < Real.sqrt (dot_v3v3 (sub_v3_v3v3 b2 b1) (sub_v3_v3v3 b2 b1)) :=
    Real.sqrt_pos.mpr hpos
  have hunit := exact_normalize_unit fm hfm _ hne
  simp only [distfactor_to_bone, envelope_distance_spec, len_v3, hfm.1, len_squared_v3v3]
  have hu : (fun k => (b2 k - b1 k) / Real.sqrt (dot_v3v3 (sub_v3_v3v3 b2 b1) (sub_v3_v3v3 b2 b1)))
      = normalize_v3_v3 fm (sub_v3_v3v3 b2 b1) := by
    ext k; simp [normalize_v3_v3, hfm.1, sub_v3_v3v3]
  rw [hu]
  generalize hlen : Real.sqrt (dot_v3v3 (sub_v3_v3v3 b2 b1) (sub_v3_v3v3 b2 b1)) = l at hl ⊢
  generalize hU : normalize_v3_v3 fm (sub_v3_v3v3 b2 b1) = u at hunit ⊢
  have huk : ∀ k, (b2 k - b1 k) / l = u k := by
    intro k; rw [← hU]; simp [normalize_v3_v3, hfm.1, sub_v3_v3v3, hlen]
  simp only [huk]
  generalize hP : sub_v3_v3v3 vec b1 = p
  generalize ht : dot_v3v3 u p = t
  by_cases c1 : t < 0
  · simp only [c1, if_true]
    exact falloff_code_eq_spec _ _ _ (dot_self_nonneg _) h1 hd
  · simp only [c1, if_false]
    by_cases c2 : t > l
    · simp only [c2, if_true]
      exact falloff_code_eq_spec _ _ _ (dot_self_nonneg _) h2 hd
    · simp only [c2, if_false, if_pos (ne_of_gt hl)]
      have hperp : dot_v3v3 (fun k => (vec k - b1 k) - t * u k) (fun k => (vec k - b1 k) - t * u k)
          = dot_v3v3 p p - t * t := by
        have hp : ∀ k, vec k - b1 k = p k := by
          intro k; rw [← hP]; rfl
        simp only [hp]
        simp only [dot_v3v3] at hunit ht ⊢
        linear_combination (t * t) * hunit - 2 * t * ht
      have hrad : t / l * rad2 + (1 - t / l) * rad1 = rad1 + t / l * (rad2 - rad1) := by ring
      have ht0 : 0 ≤ t / l := div_nonneg (not_lt.mp c1) hl.le
      have ht1 : t / l ≤ 1 := (div_le_one hl).mpr (not_lt.mp c2)
      have hrad0 : 0 ≤ rad1 + t / l * (rad2 - rad1) := by nlinarith
      rw [hperp, hrad]
      exact falloff_code_eq_spec _ _ _ (by rw [← hperp]; exact dot_self_nonneg _) hrad0 hd


/-- C20, witness: the point (1, 1/2, 0) beside the bone from the origin to (0, 1, 0),
radii 1/2, falloff distance 1. -/
theorem C20_distfactor_witness :
    distfactor_to_bone (FloatMath.mk Real.sqrt Real.sin Real.cos (fun y x => Complex.arg ⟨x, y⟩))
        ![1, 1 / 2, 0] ![0, 0, 0] ![0, 1, 0] (1 / 2) (1 / 2) 1
      = envelope_falloff_spec
          (envelope_distance_spec
            (FloatMath.mk Real.sqrt Real.sin Real.cos (fun y x => Complex.arg ⟨x, y⟩))
            ![1, 1 / 2, 0] ![0, 0, 0] ![0, 1, 0] (1 / 2) (1 / 2)).1
          (envelope_distance_spec
            (FloatMath.mk Real.sqrt Real.sin Real.cos (fun y x => Complex.arg ⟨x, y⟩))
            ![1, 1 / 2, 0] ![0, 0, 0] ![0, 1, 0] (1 / 2) (1 / 2)).2 1 :=
  C20_distfactor _ exact_mk ![1, 1 / 2, 0] ![0, 0, 0] ![0, 1, 0] (1 / 2) (1 / 2) 1
    (by intro h; have h1 := congrFun h 1; simp at h1) (by norm_num) (by norm_num) (by norm_num)

end EnvelopeTheorems

/-! ## Theorems: deformation engine -/

section SlotAccess

variable {R : Type}

theorem set_slot_written (arrays : DeformArrays R) (i : Nat) (s : VertexSlot R) :
    SlotWritten arrays (set_slot arrays i s) i s := by
  cases hd : arrays.defMats <;> cases hp : arrays.prevCos <;>
    simp [SlotWritten, set_slot, hd, hp]

end SlotAccess

section DeformLoop

variable {R : Type} [LinearOrderedField R]

theorem get_set_slot_ne (arrays : DeformArrays R) (i j : Nat) (s : VertexSlot R) (h : j ≠ i) :
    get_slot (set_slot arrays i s) j = get_slot arrays j := by
  cases hd : arrays.defMats <;> cases hp : arrays.prevCos <;>
    simp [get_slot, set_slot, hd, hp, Function.update_noteq h]

theorem slot_written_transfer (arrays a out : DeformArrays R) (i : Nat) (s : VertexSlot R)
    (hg : get_slot out i = get_slot a i)
    (hd : out.defMats.isSome = a.defMats.isSome) (hp : out.prevCos.isSome = a.prevCos.isSome)
    (hw : SlotWritten arrays a i s) : SlotWritten arrays out i s := by
  obtain ⟨w1, w2, w3, w4, w5⟩ := hw
  have g1 : out.vertexCos i = a.vertexCos i := congrArg VertexSlot.vertexCo hg
  have g2 := congrArg VertexSlot.defMat hg
  have g3 := congrArg VertexSlot.prevCo hg
  simp only [get_slot] at g2 g3
  refine ⟨g1.trans w1, ?_, ?_, hd.trans w4, hp.trans w5⟩
  · intro f hf
    cases ha : a.defMats with
    | none => rw [hf, ha] at hd; simp at hd
    | some g =>
      rw [hf, ha] at g2
      simp only [Option.map_some', Option.getD_some] at g2
      rw [g2]; exact w2 g ha
  · intro f hf
    cases ha : a.prevCos with
    | none => rw [hf, ha] at hp; simp at hp
    | some g =>
      rw [hf, ha] at g3
      simp only [Option.map_some', Option.getD_some] at g3
      rw [g3]; exact w3 g ha

theorem deform_loop_spec (body : Nat → VertexSlot R → Option (VertexSlot R)) :
    ∀ (l : List Nat) (arrays : DeformArrays R), l.Nodup →
      (∀ j ∈ l, (body j (get_slot arrays j)).isSome = true) →
      ∃ out, deform_loop body l arrays = some out ∧
        (∀ j ∈ l, ∀ s, body j (get_slot arrays j) = some s → SlotWritten arrays out j s) ∧
        (∀ j, j ∉ l → get_slot out j = get_slot arrays j) ∧
        out.defMats.isSome = arrays.defMats.isSome ∧
        out.prevCos.isSome = arrays.prevCos.isSome := by
  intro l
  induction l with
  | nil =>
    intro arrays _ _
    exact ⟨arrays, rfl, by simp, fun _ _ => rfl, rfl, rfl⟩
  | cons i rest ih =>
    intro arrays hnd hall
    have hi := hall i (List.mem_cons_self _ _)
    obtain ⟨s, hs⟩ := Option.isSome_iff_exists.mp hi
    have hnd2 := List.nodup_cons.mp hnd
    have hne : ∀ j ∈ rest, j ≠ i := fun j hj h => hnd2.1 (h ▸ hj)
    have hall2 : ∀ j ∈ rest, (body j (get_slot (set_slot arrays i s) j)).isSome = true := by
      intro j hj
      rw [get_set_slot_ne _ _ _ _ (hne j hj)]
      exact hall j (List.mem_cons_of_mem _ hj)
    obtain ⟨out, ho, h1, h2, h3, h4⟩ := ih (set_slot arrays i s) hnd2.2 hall2
    have hw := set_slot_written arrays i s
    refine ⟨out, ?_, ?_, ?_, h3.trans hw.2.2.2.1, h4.trans hw.2.2.2.2⟩
    · simp only [deform_loop, hs, ho]
    · intro j hj s' hs'
      rcases List.mem_cons.mp hj with hji | hjr
      · subst hji
        rw [hs] at hs'
        have e : s = s' := Option.some.inj hs'
        subst e
        exact slot_written_transfer arrays _ out j s (h2 j hnd2.1) h3 h4 hw
      · have hs2 : body j (get_slot (set_slot arrays i s) j) = some s' := by
          rw [get_set_slot_ne _ _ _ _ (hne j hjr)]; exact hs'
        obtain ⟨a1, a2, a3, a4, a5⟩ := h1 j hjr s' hs2
        exact ⟨a1, a2, a3, a4.trans hw.2.2.2.1, a5.trans hw.2.2.2.2⟩
    · intro j hj
      have hji : j ≠ i := fun h => hj (h ▸ List.mem_cons_self _ _)
      have hjr : j ∉ rest := fun h => hj (List.mem_cons_of_mem _ h)
      rw [h2 j hjr, get_set_slot_ne _ _ _ _ hji]

/-- The call of `armature_deform_verts` that reaches the vertex loop: what it leaves
at index `i`. -/
theorem deform_verts_at (fm : FloatMath R) (to_int : R → Int) (armOb : Object R)
    (target : TargetObject R) (mesh : Option (Mesh R)) (arrays : DeformArrays R)
    (numVerts : Nat) (deformflag : Nat) (defgrp_name : Option String)
    (gps : Option (bGPDstroke R)) (arm : bArmature R) (pose : bPose R)
    (cache : ObjectBBoneDeform R) (pdef : Nat → bPoseChanDeform R) (cx : DeformSetup R)
    (harm : armOb.data = some arm) (hedbo : arm.edbo = false) (hpose : armOb.pose = some pose)
    (hcache : armOb.cached_bbone_deformation = some cache)
    (hpdef : cache.pdef_info_array = some pdef)
    (hsetup : deform_setup pose
      (invert_m4_m4 (mul_m4_m4m4 (invert_m4_m4 target.obmat) armOb.obmat))
      (mul_m4_m4m4 (invert_m4_m4 target.obmat) armOb.obmat) pdef target mesh deformflag
      defgrp_name gps = some cx)
    (i : Nat) (hi : i < numVerts) (s : VertexSlot R)
    (hs : deform_vertex fm to_int cx (has_flag deformflag ARM_DEF_ENVELOPE)
      (has_flag deformflag ARM_DEF_QUATERNION) (has_flag deformflag ARM_DEF_INVERT_VGROUP)
      arrays.defMats.isSome arrays.prevCos.isSome i (get_slot arrays i) = some s)
    (hrest : ∀ j, j < numVerts → j ≠ i →
      (deform_vertex fm to_int cx (has_flag deformflag ARM_DEF_ENVELOPE)
        (has_flag deformflag ARM_DEF_QUATERNION) (has_flag deformflag ARM_DEF_INVERT_VGROUP)
        arrays.defMats.isSome arrays.prevCos.isSome j (get_slot arrays j)).isSome = true) :
    ∃ out, armature_deform_verts fm to_int armOb target mesh arrays numVerts deformflag
        defgrp_name gps = some out ∧ SlotWritten arrays out.arrays i s ∧
      out.errors = if has_flag pose.flag POSE_RECALC then [DeformError.pose_recalc] else [] := by
  have hall : ∀ j ∈ List.range numVerts,
      (deform_vertex fm to_int cx (has_flag deformflag ARM_DEF_ENVELOPE)
        (has_flag deformflag ARM_DEF_QUATERNION) (has_flag deformflag ARM_DEF_INVERT_VGROUP)
        arrays.defMats.isSome arrays.prevCos.isSome j (get_slot arrays j)).isSome = true := by
    intro j hj
    by_cases hji : j = i
    · subst hji; rw [hs]; rfl
    · exact hrest j (List.mem_range.mp hj) hji
  obtain ⟨out, ho, h1, _, _, _⟩ := deform_loop_spec _ (List.range numVerts) arrays
    (List.nodup_range numVerts) hall
  refine ⟨⟨out, if has_flag pose.flag POSE_RECALC then [DeformError.pose_recalc] else []⟩, ?_,
    h1 i (List.mem_range.mpr hi) s hs, rfl⟩
  simp only [armature_deform_verts, harm, hedbo, hpose, hcache, hpdef, Option.some_bind, hsetup,
    ho, Option.map_some', Bool.false_eq_true, if_false]

end DeformLoop

section SetupAccess

variable {R : Type}

theorem resolved_weights_nil (cx : DeformSetup R) (dw : List (MDeformWeight R))
    (h : ∀ e ∈ dw, resolve_entry cx e = none) : resolved_weights cx dw = [] := by
  simp only [resolved_weights, List.filterMap_eq_nil_iff]
  intro e he
  simp [h e he]

theorem resolved_weights_cons_none (cx : DeformSetup R) (e : MDeformWeight R)
    (rest : List (MDeformWeight R)) (h : resolve_entry cx e = none) :
    resolved_weights cx (e :: rest) = resolved_weights cx rest := by
  simp [resolved_weights, List.filterMap_cons, h]

theorem resolved_weights_cons_some (cx : DeformSetup R) (e : MDeformWeight R)
    (rest : List (MDeformWeight R)) (pchan : bPoseChannel R) (idx : Nat)
    (h : resolve_entry cx e = some (pchan, idx)) :
    resolved_weights cx (e :: rest) = (e.weight, pchan.chan_mat) :: resolved_weights cx rest := by
  simp [resolved_weights, List.filterMap_cons, h]

theorem deform_setup_fields (pose : bPose R) (premat postmat : M4 R)
    (pdef : Nat → bPoseChanDeform R) (target : TargetObject R) (mesh : Option (Mesh R))
    (deformflag : Nat) (defgrp_name : Option String) (gps : Option (bGPDstroke R))
    (cx : DeformSetup R)
    (h : deform_setup pose premat postmat pdef target mesh deformflag defgrp_name gps = some cx) :
    cx.chanbase = pose.chanbase ∧ cx.premat = premat ∧ cx.postmat = postmat ∧
    cx.pdef_info_array = pdef ∧
    cx.armature_def_nr = defgroup_name_index target defgrp_name ∧
    cx.target_type = target.ob_type ∧ cx.mesh = mesh := by
  simp only [deform_setup] at h
  split at h
  · simp at h
  · split at h
    · simp at h
    · simp only [Option.some.injEq] at h
      subst h
      exact ⟨rfl, rfl, rfl, rfl, rfl, rfl, rfl⟩

end SetupAccess

section VGroupLoop

variable {R : Type} [LinearOrderedField R]

theorem vgroup_loop_unresolved (fm : FloatMath R) (to_int : R → Int) (cx : DeformSetup R)
    (has_vec has_mat : Bool) (co : V3 R) :
    ∀ (dw : List (MDeformWeight R)) (st : VGroupState R),
      (∀ e ∈ dw, resolve_entry cx e = none) →
      vgroup_loop fm to_int cx has_vec has_mat co dw st = some st := by
  intro dw
  induction dw with
  | nil => intro st _; rfl
  | cons e rest ih =>
    intro st h
    simp only [vgroup_loop, h e (List.mem_cons_self _ _)]
    exact ih st (fun x hx => h x (List.mem_cons_of_mem _ hx))

/-- One call of `pchan_bone_deform` for a single-segment bone, with `vec` set. -/
theorem pchan_bone_deform_linear (to_int : R → Int) (pchan : bPoseChannel R)
    (pdef : bPoseChanDeform R) (w : R) (has_mat : Bool) (sums : DeformSums R) (co : V3 R)
    (contrib : R) (bone : BoneData R) (hb : pchan.bone = some bone) (hseg : bone.segments ≤ 1) :
    ∃ sums', pchan_bone_deform to_int pchan pdef w true has_mat sums co contrib
        = some (sums', contrib + w) ∧
      (∀ k, sums'.vec k = sums.vec k + w * (mul_v3_m4v3 pchan.chan_mat co k - co k)) ∧
      sums'.dq = sums.dq := by
  have hs : ¬ bone.segments > 1 := by omega
  by_cases hw : w = 0
  · subst hw
    exact ⟨sums, by simp [pchan_bone_deform], by intro k; simp, rfl⟩
  · cases has_mat
    · refine ⟨⟨fun k => sums.vec k + (mul_v3_m4v3 pchan.chan_mat co k - co k) * w, sums.dq,
        sums.mat⟩, ?_, ?_, rfl⟩
      · simp [pchan_bone_deform, pchan_deform_point, hw, hb, hs, deform_add_vec]
      · intro k; simp only; ring
    · refine ⟨⟨fun k => sums.vec k + (mul_v3_m4v3 pchan.chan_mat co k - co k) * w, sums.dq,
        sums.mat + w • copy_m3_m4 pchan.chan_mat⟩, ?_, ?_, rfl⟩
      · simp [pchan_bone_deform, pchan_deform_point, hw, hb, hs, deform_add_vec, pchan_deform_mat_add]
      · intro k; simp only; ring

/-- The loop over the weights of a mesh or lattice vertex, with `vec` set, when every
entry that resolves falls on a single-segment bone without `BONE_MULT_VG_ENV`. -/
theorem vgroup_loop_linear (fm : FloatMath R) (to_int : R → Int) (cx : DeformSetup R)
    (has_mat : Bool) (co : V3 R) (hgp : cx.target_type ≠ OB_GPENCIL) :
    ∀ (dw : List (MDeformWeight R)) (st : VGroupState R),
      (∀ e ∈ dw, ∀ pchan idx, resolve_entry cx e = some (pchan, idx) →
        ∃ bone, pchan.bone = some bone ∧ bone.segments ≤ 1 ∧
          has_flag bone.flag BONE_MULT_VG_ENV = false) →
      ∃ st', vgroup_loop fm to_int cx true has_mat co dw st = some st' ∧
        (∀ k, st'.sums.vec k = st.sums.vec k
          + ((resolved_weights cx dw).map (fun e => e.1 * (mul_v3_m4v3 e.2 co k - co k))).sum) ∧
        st'.contrib = st.contrib + total_weight (resolved_weights cx dw) ∧
        (resolved_weights cx dw ≠ [] → st'.deformed = true) ∧
        (resolved_weights cx dw = [] → st' = st) := by
  intro dw
  induction dw with
  | nil =>
    intro st _
    exact ⟨st, rfl, by intro k; simp [resolved_weights], by simp [resolved_weights, total_weight],
      by simp [resolved_weights], fun _ => rfl⟩
  | cons e rest ih =>
    intro st h
    have hrest : ∀ e ∈ rest, ∀ pchan idx, resolve_entry cx e = some (pchan, idx) →
        ∃ bone, pchan.bone = some bone ∧ bone.segments ≤ 1 ∧
          has_flag bone.flag BONE_MULT_VG_ENV = false :=
      fun x hx => h x (List.mem_cons_of_mem _ hx)
    cases hr : resolve_entry cx e with
    | none =>
      obtain ⟨st', h1, h2, h3, h4, h5⟩ := ih st hrest
      refine ⟨st', ?_, ?_, ?_, ?_, ?_⟩
      · simp only [vgroup_loop, hr]; exact h1
      · rw [resolved_weights_cons_none cx e rest hr]; exact h2
      · rw [resolved_weights_cons_none cx e rest hr]; exact h3
      · rw [resolved_weights_cons_none cx e rest hr]; exact h4
      · rw [resolved_weights_cons_none cx e rest hr]; exact h5
    | some p =>
      obtain ⟨pchan, idx⟩ := p
      obtain ⟨bone, hb, hseg, hmult⟩ := h e (List.mem_cons_self _ _) pchan idx hr
      have hw : vgroup_weight fm pchan e.weight co = e.weight := by
        simp [vgroup_weight, hb, hmult]
      obtain ⟨sums', hs1, hs2, _⟩ := pchan_bone_deform_linear to_int pchan
        (cx.pdef_info_array idx) e.weight has_mat st.sums co st.contrib bone hb hseg
      obtain ⟨st', h1, h2, h3, h4, h5⟩ := ih ⟨sums', st.contrib + e.weight, true, st.acum_weight⟩ hrest
      refine ⟨st', ?_, ?_, ?_, ?_, ?_⟩
      · simp only [vgroup_loop, hr, hw, hgp, false_and, if_false, hs1]
        exact h1
      · intro k
        rw [resolved_weights_cons_some cx e rest pchan idx hr, h2 k]
        simp only [List.map_cons, List.sum_cons]
        rw [hs2 k]; ring
      · rw [resolved_weights_cons_some cx e rest pchan idx hr, h3]
        simp only [total_weight, List.map_cons, List.sum_cons]; ring
      · intro _
        by_cases hn : resolved_weights cx rest = []
        · rw [h5 hn]
        · exact h4 hn
      · intro hnil
        rw [resolved_weights_cons_some cx e rest pchan idx hr] at hnil
        simp at hnil

end VGroupLoop

section DeformVertex

variable {R : Type} [LinearOrderedField R]

/-- The accumulation of a mesh or lattice vertex with weight data, in linear mode, when
every entry that resolves falls on a single-segment bone without `BONE_MULT_VG_ENV`
and the total is positive. -/
theorem vertex_accumulate_linear (fm : FloatMath R) (to_int : R → Int) (cx : DeformSetup R)
    (use_envelope has_mat : Bool) (dv : MDeformVert R) (co : V3 R)
    (hgp : cx.target_type ≠ OB_GPENCIL) (hud : cx.use_dverts = true)
    (hres : ∀ e ∈ dv.dw, ∀ pchan idx, resolve_entry cx e = some (pchan, idx) →
      ∃ bone, pchan.bone = some bone ∧ bone.segments ≤ 1 ∧
        has_flag bone.flag BONE_MULT_VG_ENV = false)
    (hW : total_weight (resolved_weights cx dv.dw) ≠ 0) :
    ∃ sums, vertex_accumulate fm to_int cx use_envelope true has_mat (DVertPtr.valid dv) co
        = some (sums, total_weight (resolved_weights cx dv.dw)) ∧
      ∀ k, sums.vec k
        = ((resolved_weights cx dv.dw).map (fun e => e.1 * (mul_v3_m4v3 e.2 co k - co k))).sum := by
  have hne : resolved_weights cx dv.dw ≠ [] := by
    intro h; apply hW; rw [h]; simp [total_weight]
  have hlen : dv.dw.length ≠ 0 := by
    intro h
    apply hne
    have : dv.dw = [] := List.length_eq_zero.mp h
    rw [this]; rfl
  obtain ⟨st', h1, h2, h3, h4, _⟩ := vgroup_loop_linear fm to_int cx has_mat co hgp dv.dw
    ⟨⟨fun _ => 0, zero_dq, 0⟩, 0, false, 0⟩ hres
  refine ⟨st'.sums, ?_, ?_⟩
  · simp only [vertex_accumulate, hud, if_true, hlen, ne_eq, not_false_eq_true, h1, h4 hne,
      Bool.true_eq_false, false_and, if_false]
    rw [h3]; simp
  · intro k; rw [h2 k]; simp

end DeformVertex

section DeformVertexLinear

variable {R : Type} [LinearOrderedField R]

/-- One iteration of the vertex loop, once the weights and the accumulation are known. -/
theorem deform_vertex_eq (fm : FloatMath R) (to_int : R → Int) (cx : DeformSetup R)
    (use_envelope use_quaternion invert_vgroup has_defMats has_prevCos : Bool) (i : Nat)
    (s : VertexSlot R) (aw pw contrib : R) (sums : DeformSums R)
    (hw : vertex_weights cx invert_vgroup has_prevCos (vertex_dvert cx i) = some (aw, pw))
    (h0 : aw ≠ 0)
    (hacc : vertex_accumulate fm to_int cx use_envelope (!use_quaternion)
      (!use_quaternion && has_defMats) (vertex_dvert cx i)
      (mul_v3_m4v3 cx.premat (if has_prevCos then s.prevCo else s.vertexCo))
        = some (sums, contrib)) :
    deform_vertex fm to_int cx use_envelope use_quaternion invert_vgroup has_defMats has_prevCos
        i s
      = some (if has_prevCos then
          ⟨fun k => pw * s.vertexCo k + (1 - pw) * mul_v3_m4v3 cx.postmat
              (vertex_apply cx use_quaternion has_defMats aw contrib sums
                (mul_v3_m4v3 cx.premat s.prevCo) s.defMat).1 k,
            (vertex_apply cx use_quaternion has_defMats aw contrib sums
                (mul_v3_m4v3 cx.premat s.prevCo) s.defMat).2,
            mul_v3_m4v3 cx.postmat (vertex_apply cx use_quaternion has_defMats aw contrib sums
                (mul_v3_m4v3 cx.premat s.prevCo) s.defMat).1⟩
        else
          ⟨mul_v3_m4v3 cx.postmat (vertex_apply cx use_quaternion has_defMats aw contrib sums
                (mul_v3_m4v3 cx.premat s.vertexCo) s.defMat).1,
            (vertex_apply cx use_quaternion has_defMats aw contrib sums
                (mul_v3_m4v3 cx.premat s.vertexCo) s.defMat).2, s.prevCo⟩) := by
  cases has_prevCos
  · simp only [Bool.false_eq_true, if_false] at hacc ⊢
    simp only [deform_vertex, hw, h0, if_false, Bool.false_eq_true, hacc]
  · simp only [if_true] at hacc ⊢
    simp only [deform_vertex, hw, h0, if_false, if_true, hacc]

theorem deform_vertex_skip (fm : FloatMath R) (to_int : R → Int) (cx : DeformSetup R)
    (use_envelope use_quaternion invert_vgroup has_defMats has_prevCos : Bool) (i : Nat)
    (s : VertexSlot R) (pw : R)
    (hw : vertex_weights cx invert_vgroup has_prevCos (vertex_dvert cx i) = some (0, pw)) :
    deform_vertex fm to_int cx use_envelope use_quaternion invert_vgroup has_defMats has_prevCos
        i s = some s := by
  simp [deform_vertex, hw]

/-- The block `if (contrib > 0.0001f)` in linear mode: the position. -/
theorem vertex_apply_linear (cx : DeformSetup R) (has_defMats : Bool) (aw contrib : R)
    (sums : DeformSums R) (co : V3 R) (defMat : M3 R) (hc : contrib > 1 / 10000) :
    (vertex_apply cx false has_defMats aw contrib sums co defMat).1
      = fun k => co k + (aw / contrib) * sums.vec k := by
  cases has_defMats <;>
    (simp only [vertex_apply, hc, if_true, Bool.false_eq_true, if_false]
     ext k
     simp only [add_v3_v3v3, mul_v3_fl]
     ring)

/-- The block `if (contrib > 0.0001f)` when the test fails: nothing changes. -/
theorem vertex_apply_small (cx : DeformSetup R) (use_quaternion has_defMats : Bool)
    (aw contrib : R) (sums : DeformSums R) (co : V3 R) (defMat : M3 R)
    (hc : contrib ≤ 1 / 10000) :
    vertex_apply cx use_quaternion has_defMats aw contrib sums co defMat = (co, defMat) := by
  have h : ¬ contrib > 1 / 10000 := not_lt.mpr hc
  simp only [vertex_apply, if_neg h]

/-- One iteration of the vertex loop in linear mode without `prevCos`, for a mesh or
lattice vertex with weight data whose entries fall on single-segment bones. -/
theorem deform_vertex_linear (fm : FloatMath R) (to_int : R → Int) (cx : DeformSetup R)
    (use_envelope invert_vgroup has_defMats : Bool) (i : Nat) (s : VertexSlot R)
    (dv : MDeformVert R) (a pw : R)
    (hgp : cx.target_type ≠ OB_GPENCIL) (hud : cx.use_dverts = true)
    (hdv : vertex_dvert cx i = DVertPtr.valid dv)
    (hres : ∀ e ∈ dv.dw, ∀ pchan idx, resolve_entry cx e = some (pchan, idx) →
      ∃ bone, pchan.bone = some bone ∧ bone.segments ≤ 1 ∧
        has_flag bone.flag BONE_MULT_VG_ENV = false)
    (ha : vertex_weights cx invert_vgroup false (DVertPtr.valid dv) = some (a, pw))
    (hW : total_weight (resolved_weights cx dv.dw) > 1 / 10000) :
    ∃ s', deform_vertex fm to_int cx use_envelope false invert_vgroup has_defMats false i s
        = some s' ∧
      s'.vertexCo = (if a = 0 then s.vertexCo
        else linear_blend_spec cx.postmat a (resolved_weights cx dv.dw)
          (mul_v3_m4v3 cx.premat s.vertexCo)) := by
  by_cases h0 : a = 0
  · subst h0
    rw [← hdv] at ha
    exact ⟨s, deform_vertex_skip fm to_int cx _ _ _ _ _ i s pw ha, by simp⟩
  · have hWne : total_weight (resolved_weights cx dv.dw) ≠ 0 := by
      intro h; rw [h] at hW; norm_num at hW
    obtain ⟨sums, hacc, hvec⟩ := vertex_accumulate_linear fm to_int cx use_envelope
      (!false && has_defMats) dv (mul_v3_m4v3 cx.premat s.vertexCo) hgp hud hres hWne
    rw [← hdv] at ha hacc
    have e := deform_vertex_eq fm to_int cx use_envelope false invert_vgroup has_defMats false
      i s a pw _ sums ha h0 hacc
    refine ⟨_, e, ?_⟩
    simp only [Bool.false_eq_true, if_false, if_neg h0, vertex_apply_linear cx _ _ _ _ _ _ hW,
      linear_blend_spec]
    ext k
    simp only [hvec]

end DeformVertexLinear

section DeformExamplesLemmas

variable {R : Type} [LinearOrderedField R]

theorem invert_m4_m4_one : invert_m4_m4 (1 : M4 R) = 1 := by
  simp [invert_m4_m4]

theorem mul_v3_m4v3_one (v : V3 R) : mul_v3_m4v3 (1 : M4 R) v = v := by
  rw [mul_v3_m4v3_eq]
  ext k
  fin_cases k <;> simp

theorem example_mats_one : mul_m4_m4m4 (invert_m4_m4 (1 : M4 R)) 1 = 1 ∧
    invert_m4_m4 (mul_m4_m4m4 (invert_m4_m4 (1 : M4 R)) 1) = 1 := by
  simp [invert_m4_m4_one, mul_m4_m4m4]

theorem example_table (flag : Nat) :
    defnrToPC_table (examplePose R flag) ["A", "B", "Mask"]
      = some [some (exampleChanA R, 0), some (exampleChanB R, 1), none] := by
  have e1 : defnrToPC_entry (examplePose R flag) "A" = some (some (exampleChanA R, 0)) := by
    have h1 : BKE_pose_channel_find_name (examplePose R flag) "A" = some (exampleChanA R) := rfl
    have h2 : (exampleChanA R).bone = some (exampleBoneA R) := rfl
    have h3 : has_flag (exampleBoneA R).flag BONE_NO_DEFORM = false := by
      simp [exampleBoneA, has_flag, BONE_NO_DEFORM]
    have h4 : (examplePose R flag).chanbase.findIdx (fun p => p.name == "A") = 0 := rfl
    simp only [defnrToPC_entry, h1, h2, h3, h4]; rfl
  have e2 : defnrToPC_entry (examplePose R flag) "B" = some (some (exampleChanB R, 1)) := by
    have h1 : BKE_pose_channel_find_name (examplePose R flag) "B" = some (exampleChanB R) := rfl
    have h2 : (exampleChanB R).bone = some (exampleBoneB R) := rfl
    have h3 : has_flag (exampleBoneB R).flag BONE_NO_DEFORM = false := by
      simp [exampleBoneB, has_flag, BONE_NO_DEFORM, BONE_CONNECTED]
      decide
    have h4 : (examplePose R flag).chanbase.findIdx (fun p => p.name == "B") = 1 := rfl
    simp only [defnrToPC_entry, h1, h2, h3, h4]; rfl
  have e3 : defnrToPC_entry (examplePose R flag) "Mask" = some none := rfl
  simp only [defnrToPC_table, e1, e2, e3, Option.map_some']

/-- The example objects reach the vertex loop with the locals `exampleSetup`. -/
theorem example_setup (flag : Nat) (obmat : M4 R) (deformflag : Nat)
    (defgrp_name : Option String) (nr : Int)
    (hvg : has_flag deformflag ARM_DEF_VGROUP = true)
    (hnr : defgroup_name_index (exampleTarget R) defgrp_name = nr) :
    deform_setup (examplePose R flag)
      (invert_m4_m4 (mul_m4_m4m4 (invert_m4_m4 (exampleTarget R).obmat) obmat))
      (mul_m4_m4m4 (invert_m4_m4 (exampleTarget R).obmat) obmat) (examplePdef R)
      (exampleTarget R) none deformflag defgrp_name none = some (exampleSetup R flag obmat nr) := by
  have h1 : target_dverts (exampleTarget R) none = some (some (exampleWeights R), 3) := rfl
  have h2 : (exampleTarget R).ob_type = OB_MESH := rfl
  have h3 : (exampleTarget R).defbase = ["A", "B", "Mask"] := rfl
  simp only [deform_setup, h1, hvg, h2, h3, true_or, and_self, if_true, Option.isSome_some,
    example_table, hnr, List.length_cons, List.length_nil]
  rfl

end DeformExamplesLemmas

section DeformExamplesVertices

variable {R : Type} [LinearOrderedField R]

theorem example_resolve_cases (flag : Nat) (obmat : M4 R) (nr : Int) (e : MDeformWeight R)
    (pchan : bPoseChannel R) (idx : Nat)
    (h : resolve_entry (exampleSetup R flag obmat nr) e = some (pchan, idx)) :
    pchan = exampleChanA R ∨ pchan = exampleChanB R := by
  simp only [resolve_entry, exampleSetup] at h
  split at h
  · generalize e.def_nr.toNat = n at h
    rcases n with _ | _ | _ | n
    · simp at h; exact Or.inl h.1.symm
    · simp at h; exact Or.inr h.1.symm
    · simp at h
    · simp at h
  · simp at h

theorem example_single_segment (flag : Nat) (obmat : M4 R) (nr : Int) (dw : List (MDeformWeight R)) :
    ∀ e ∈ dw, ∀ pchan idx, resolve_entry (exampleSetup R flag obmat nr) e = some (pchan, idx) →
      ∃ bone, pchan.bone = some bone ∧ bone.segments ≤ 1 ∧
        has_flag bone.flag BONE_MULT_VG_ENV = false := by
  intro e _ pchan idx h
  rcases example_resolve_cases flag obmat nr e pchan idx h with h1 | h1
  · subst h1
    refine ⟨exampleBoneA R, rfl, le_refl _, ?_⟩
    simp [exampleBoneA, has_flag, BONE_MULT_VG_ENV]
  · subst h1
    refine ⟨exampleBoneB R, rfl, le_refl _, ?_⟩
    simp [exampleBoneB, has_flag, BONE_MULT_VG_ENV, BONE_CONNECTED]
    decide

theorem example_dvert (flag : Nat) (obmat : M4 R) (nr : Int) (i : Nat) (hi : i < 3) :
    vertex_dvert (exampleSetup R flag obmat nr) i = DVertPtr.valid (exampleWeights R i) := by
  simp [vertex_dvert, exampleSetup, hi]

theorem example_resolved_0 (flag : Nat) (obmat : M4 R) (nr : Int) :
    resolved_weights (exampleSetup R flag obmat nr) (exampleWeights R 0).dw
      = [(1, (exampleChanB R).chan_mat)] := by
  simp [resolved_weights, exampleWeights, resolve_entry, exampleSetup]

theorem example_resolved_1 (flag : Nat) (obmat : M4 R) (nr : Int) :
    resolved_weights (exampleSetup R flag obmat nr) (exampleWeights R 1).dw
      = [(1 / 2, (exampleChanA R).chan_mat), (1 / 2, (exampleChanB R).chan_mat)] := by
  simp [resolved_weights, exampleWeights, resolve_entry, exampleSetup]

theorem example_mask_weight_0 (flag : Nat) (obmat : M4 R) (has_prevCos : Bool) :
    vertex_weights (exampleSetup R flag obmat 2) false has_prevCos
      (vertex_dvert (exampleSetup R flag obmat 2) 0)
      = some (if has_prevCos then (1, 0) else (0, 1)) := by
  rw [example_dvert flag obmat 2 0 (by norm_num)]
  cases has_prevCos <;>
    simp [vertex_weights, exampleSetup, defvert_find_weight, exampleWeights]

theorem example_mask_weight_1 (flag : Nat) (obmat : M4 R) :
    vertex_weights (exampleSetup R flag obmat 2) false false
      (vertex_dvert (exampleSetup R flag obmat 2) 1) = some (1 / 4, 1) := by
  rw [example_dvert flag obmat 2 1 (by norm_num)]
  simp [vertex_weights, exampleSetup, defvert_find_weight, exampleWeights]

theorem example_mask_weight_2 (flag : Nat) (obmat : M4 R) (has_prevCos : Bool) :
    vertex_weights (exampleSetup R flag obmat 2) false has_prevCos
      (vertex_dvert (exampleSetup R flag obmat 2) 2)
      = some (if has_prevCos then (1, 0) else (0, 1)) := by
  rw [example_dvert flag obmat 2 2 (by norm_num)]
  cases has_prevCos <;>
    simp [vertex_weights, exampleSetup, defvert_find_weight, exampleWeights]

theorem example_no_group_weight (flag : Nat) (obmat : M4 R) (invert_vgroup has_prevCos : Bool)
    (dvert : DVertPtr R) :
    vertex_weights (exampleSetup R flag obmat (-1)) invert_vgroup has_prevCos dvert
      = some (1, 1) := by
  simp [vertex_weights, exampleSetup]

theorem example_mask_index :
    defgroup_name_index (exampleTarget R) (some "Mask") = 2 := by
  simp [defgroup_name_index, exampleTarget, List.findIdx?]

end DeformExamplesVertices

/-! ### Claims C12 to C14 -/

section LinearClaims

variable {R : Type} [LinearOrderedField R]

theorem linear_blend_scale (postmat : M4 R) (a k : R) (ws : List (R × M4 R)) (p : V3 R)
    (hk : k ≠ 0) :
    linear_blend_spec postmat a (ws.map (fun e => (k * e.1, e.2))) p
      = linear_blend_spec postmat a ws p := by
  have h1 : total_weight (ws.map (fun e => (k * e.1, e.2))) = k * total_weight ws := by
    simp only [total_weight, List.map_map]
    rw [← List.sum_map_mul_left]
    rfl
  have h2 : ∀ j, ((ws.map (fun e => (k * e.1, e.2))).map
      (fun e => e.1 * (mul_v3_m4v3 e.2 p j - p j))).sum
      = k * (ws.map (fun e => e.1 * (mul_v3_m4v3 e.2 p j - p j))).sum := by
    intro j
    simp only [List.map_map]
    rw [← List.sum_map_mul_left]
    congr 1
    apply List.map_congr_left
    intro e _
    simp only [Function.comp]
    ring
  have h3 : ∀ S : R, a / (k * total_weight ws) * (k * S) = a / total_weight ws * S := by
    intro S
    by_cases hW : total_weight ws = 0
    · simp [hW]
    · field_simp
      ring
  simp only [linear_blend_spec, h1, h2, h3]

/-- C13 (amended): in linear mode without `prevCos`, for a mesh or lattice vertex with
weight data whose entries that resolve fall on single-segment deforming bones without
envelope multiplication, with armature weight `a` and total `W > 0.0001`, the call
returns; when `a ≠ 0` the output position is `postmat·(p + (a/W)·Σ w_i·(M_i·p − p))`
with `p = premat·input`, and when `a = 0` the vertex is skipped and the output
position is the input position; and the value of that expression does not change
when all `w_i` are multiplied by one positive factor. -/
theorem C13_linear_blend (fm : FloatMath R) (to_int : R → Int) (armOb : Object R)
    (target : TargetObject R) (mesh : Option (Mesh R)) (arrays : DeformArrays R)
    (numVerts : Nat) (deformflag : Nat) (defgrp_name : Option String)
    (gps : Option (bGPDstroke R)) (arm : bArmature R) (pose : bPose R)
    (cache : ObjectBBoneDeform R) (pdef : Nat → bPoseChanDeform R) (cx : DeformSetup R)
    (i : Nat) (dv : MDeformVert R) (a pw : R)
    (harm : armOb.data = some arm) (hedbo : arm.edbo = false) (hpose : armOb.pose = some pose)
    (hcache : armOb.cached_bbone_deformation = some cache)
    (hpdef : cache.pdef_info_array = some pdef)
    (hsetup : deform_setup pose
      (invert_m4_m4 (mul_m4_m4m4 (invert_m4_m4 target.obmat) armOb.obmat))
      (mul_m4_m4m4 (invert_m4_m4 target.obmat) armOb.obmat) pdef target mesh deformflag
      defgrp_name gps = some cx)
    (hq : has_flag deformflag ARM_DEF_QUATERNION = false) (hprev : arrays.prevCos = none)
    (htype : target.ob_type = OB_MESH ∨ target.ob_type = OB_LATTICE)
    (hud : cx.use_dverts = true) (hi : i < numVerts)
    (hdv : vertex_dvert cx i = DVertPtr.valid dv)
    (hres : ∀ e ∈ dv.dw, ∀ pchan idx, resolve_entry cx e = some (pchan, idx) →
      ∃ bone, pchan.bone = some bone ∧ bone.segments ≤ 1 ∧
        has_flag bone.flag BONE_MULT_VG_ENV = false)
    (ha : vertex_weights cx (has_flag deformflag ARM_DEF_INVERT_VGROUP) false (DVertPtr.valid dv)
      = some (a, pw))
    (hW : total_weight (resolved_weights cx dv.dw) > 1 / 10000)
    (hrest : ∀ j, j < numVerts → j ≠ i →
      (deform_vertex fm to_int cx (has_flag deformflag ARM_DEF_ENVELOPE)
        (has_flag deformflag ARM_DEF_QUATERNION) (has_flag deformflag ARM_DEF_INVERT_VGROUP)
        arrays.defMats.isSome arrays.prevCos.isSome j (get_slot arrays j)).isSome = true) :
    (∃ out, armature_deform_verts fm to_int armOb target mesh arrays numVerts deformflag
        defgrp_name gps = some out ∧
      out.arrays.vertexCos i = (if a = 0 then arrays.vertexCos i
        else linear_blend_spec cx.postmat a (resolved_weights cx dv.dw)
          (mul_v3_m4v3 cx.premat (arrays.vertexCos i)))) ∧
    (∀ (k : R) (ws : List (R × M4 R)) (p : V3 R), 0 < k →
      linear_blend_spec cx.postmat a (ws.map (fun e => (k * e.1, e.2))) p
        = linear_blend_spec cx.postmat a ws p) := by
  refine ⟨?_, fun k ws p hk => linear_blend_scale _ _ _ _ _ (ne_of_gt hk)⟩
  have hf := deform_setup_fields _ _ _ _ _ _ _ _ _ _ hsetup
  have hgp : cx.target_type ≠ OB_GPENCIL := by
    rw [hf.2.2.2.2.2.1]
    rcases htype with h | h <;> rw [h] <;> decide
  obtain ⟨s', hs', hv⟩ := deform_vertex_linear fm to_int cx (has_flag deformflag ARM_DEF_ENVELOPE)
    (has_flag deformflag ARM_DEF_INVERT_VGROUP) arrays.defMats.isSome i (get_slot arrays i)
    dv a pw hgp hud hdv hres ha hW
  have hp : arrays.prevCos.isSome = false := by rw [hprev]; rfl
  rw [hq, hp] at hrest
  obtain ⟨out, ho, hw, _⟩ := deform_verts_at fm to_int armOb target mesh arrays numVerts
    deformflag defgrp_name gps arm pose cache pdef cx harm hedbo hpose hcache hpdef hsetup i hi
    s' (by rw [hq, hp]; exact hs') (by rw [hq, hp]; exact hrest)
  refine ⟨out, ho, ?_⟩
  rw [hw.1, hv]
  by_cases h0 : a = 0
  · simp only [if_pos h0, get_slot]
  · simp only [if_neg h0, get_slot]

end LinearClaims

section LinearClaimsExamples

theorem example_blend_value :
    linear_blend_spec (exampleSetup ℚ 0 1 2).postmat (1 / 4)
        (resolved_weights (exampleSetup ℚ 0 1 2) (exampleWeights ℚ 1).dw)
        (mul_v3_m4v3 (exampleSetup ℚ 0 1 2).premat ((exampleArrays ℚ ![0, 4, 0]).vertexCos 1))
      = ![0, 15 / 4, 1 / 4] := by
  have hpost : (exampleSetup ℚ 0 1 2).postmat = 1 := (@example_mats_one ℚ _).1
  have hpre : (exampleSetup ℚ 0 1 2).premat = 1 := (@example_mats_one ℚ _).2
  rw [example_resolved_1, hpost, hpre]
  simp only [linear_blend_spec, mul_v3_m4v3_one, total_weight, exampleArrays, exampleChanA,
    exampleChanB, mul_v3_m4v3_eq]
  ext k
  fin_cases k <;> simp [Matrix.vecHead, Matrix.vecTail] <;> norm_num

theorem example_rest_skip (fm : FloatMath ℚ) (obmat : M4 ℚ) (v : V3 ℚ) (ue uq hd : Bool) (j : Nat)
    (hj : j = 0 ∨ j = 2) :
    deform_vertex fm (fun _ => 0) (exampleSetup ℚ 0 obmat 2) ue uq false hd false j
      (get_slot (exampleArrays ℚ v) j) = some (get_slot (exampleArrays ℚ v) j) := by
  rcases hj with h | h <;> subst h
  · exact deform_vertex_skip _ _ _ _ _ _ _ _ _ _ 1 (example_mask_weight_0 0 obmat false)
  · exact deform_vertex_skip _ _ _ _ _ _ _ _ _ _ 1 (example_mask_weight_2 0 obmat false)

theorem example_rest_defined (fm : FloatMath ℚ) (obmat : M4 ℚ) (v : V3 ℚ) (ue uq hd : Bool)
    (j : Nat) (hj : j = 0 ∨ j = 2) :
    (deform_vertex fm (fun _ => 0) (exampleSetup ℚ 0 obmat 2) ue uq false hd false j
      (get_slot (exampleArrays ℚ v) j)).isSome = true := by
  rw [example_rest_skip fm obmat v ue uq hd j hj]; rfl

theorem example_flat_x (nr : Int) (q : V3 ℚ) :
    mul_v3_m4v3 (exampleSetup ℚ 0 !![0, 0, 0, 0; 0, 1, 0, 0; 0, 0, 1, 0; 0, 0, 0, 1] nr).postmat
      q 0 = 0 := by
  have hpost : (exampleSetup ℚ 0 !![0, 0, 0, 0; 0, 1, 0, 0; 0, 0, 1, 0; 0, 0, 0, 1] nr).postmat
      = !![0, 0, 0, 0; 0, 1, 0, 0; 0, 0, 1, 0; 0, 0, 0, 1] := by
    simp [exampleSetup, mul_m4_m4m4, exampleTarget, invert_m4_m4_one]
  rw [hpost, mul_v3_m4v3_eq]
  simp [Matrix.vecHead, Matrix.vecTail]

/-- C13, witness: vertex 1 of the example mesh, half on A (at rest) and half on B
(rotated), with weight 1/4 in the armature group "Mask", moves from (0,4,0) to
(0, 15/4, 1/4). -/
theorem C13_linear_blend_witness :
    ∃ out, armature_deform_verts ratMath (fun _ => 0) (exampleArmatureObject ℚ 0 1)
        (exampleTarget ℚ) none (exampleArrays ℚ ![0, 4, 0]) 3 ARM_DEF_VGROUP (some "Mask") none
        = some out ∧
      out.arrays.vertexCos 1 = ![0, 15 / 4, 1 / 4] := by
  obtain ⟨⟨out, ho, hv⟩, _⟩ := C13_linear_blend ratMath (fun _ => 0) (exampleArmatureObject ℚ 0 1)
    (exampleTarget ℚ) none (exampleArrays ℚ ![0, 4, 0]) 3 ARM_DEF_VGROUP (some "Mask") none
    ⟨[Bone.mk (exampleBoneA ℚ) [Bone.mk (exampleBoneB ℚ) []]], 0, false⟩ (examplePose ℚ 0)
    ⟨some (examplePdef ℚ), 2⟩ (examplePdef ℚ) (exampleSetup ℚ 0 1 2) 1 (exampleWeights ℚ 1)
    (1 / 4) 1 rfl rfl rfl rfl rfl
    (example_setup 0 1 ARM_DEF_VGROUP (some "Mask") 2 (by decide) example_mask_index)
    (by decide) rfl (Or.inl rfl) rfl (by decide) (example_dvert 0 1 2 1 (by norm_num))
    (example_single_segment 0 1 2 _)
    (by
      have h := @example_mask_weight_1 ℚ _ 0 1
      rw [example_dvert 0 1 2 1 (by norm_num)] at h
      exact h)
    (by rw [example_resolved_1]; simp [total_weight]; norm_num)
    (by
      intro j hj hne
      have h : j = 0 ∨ j = 2 := by omega
      exact example_rest_defined ratMath 1 ![0, 4, 0] _ _ _ j h)
  refine ⟨out, ho, ?_⟩
  rw [hv, if_neg (by norm_num)]
  exact example_blend_value

/-- C13, counterexample: the armature object is flattened along X (object matrix
with a zero first axis); vertex 0 at (1,4,0) is bound to B with weight 1 (`W = 1`) and
has no entry in the armature group "Mask" (`a = 0`).  The call leaves it at (1,4,0),
while `postmat·(p + (a/W)·Σ w_i·(M_i·p − p))` has first coordinate 0. -/
theorem C13_linear_blend_counterexample :
    ∃ out, armature_deform_verts ratMath (fun _ => 0)
        (exampleArmatureObject ℚ 0 !![0, 0, 0, 0; 0, 1, 0, 0; 0, 0, 1, 0; 0, 0, 0, 1])
        (exampleTarget ℚ) none (exampleArrays ℚ ![1, 4, 0]) 3 ARM_DEF_VGROUP (some "Mask") none
        = some out ∧
      total_weight (resolved_weights
        (exampleSetup ℚ 0 !![0, 0, 0, 0; 0, 1, 0, 0; 0, 0, 1, 0; 0, 0, 0, 1] 2)
        (exampleWeights ℚ 0).dw) = 1 ∧
      vertex_weights (exampleSetup ℚ 0 !![0, 0, 0, 0; 0, 1, 0, 0; 0, 0, 1, 0; 0, 0, 0, 1] 2)
        false false (DVertPtr.valid (exampleWeights ℚ 0)) = some (0, 1) ∧
      out.arrays.vertexCos 0 = ![1, 4, 0] ∧
      out.arrays.vertexCos 0 ≠
        linear_blend_spec
          (exampleSetup ℚ 0 !![0, 0, 0, 0; 0, 1, 0, 0; 0, 0, 1, 0; 0, 0, 0, 1] 2).postmat 0
          (resolved_weights (exampleSetup ℚ 0 !![0, 0, 0, 0; 0, 1, 0, 0; 0, 0, 1, 0; 0, 0, 0, 1] 2)
            (exampleWeights ℚ 0).dw)
          (mul_v3_m4v3
            (exampleSetup ℚ 0 !![0, 0, 0, 0; 0, 1, 0, 0; 0, 0, 1, 0; 0, 0, 0, 1] 2).premat
            ![1, 4, 0]) := by
  have hv1 : (deform_vertex ratMath (fun _ => 0)
      (exampleSetup ℚ 0 !![0, 0, 0, 0; 0, 1, 0, 0; 0, 0, 1, 0; 0, 0, 0, 1] 2)
      false false false false false 1 (get_slot (exampleArrays ℚ ![1, 4, 0]) 1)).isSome = true := by
    obtain ⟨s', hs', _⟩ := deform_vertex_linear ratMath (fun _ => 0)
      (exampleSetup ℚ 0 !![0, 0, 0, 0; 0, 1, 0, 0; 0, 0, 1, 0; 0, 0, 0, 1] 2) false false false 1
      (get_slot (exampleArrays ℚ ![1, 4, 0]) 1) (exampleWeights ℚ 1) (1 / 4) 1
      (by decide) rfl (example_dvert 0 _ 2 1 (by norm_num)) (example_single_segment 0 _ 2 _)
      (by
        have h := @example_mask_weight_1 ℚ _ 0
          !![0, 0, 0, 0; 0, 1, 0, 0; 0, 0, 1, 0; 0, 0, 0, 1]
        rw [example_dvert 0 _ 2 1 (by norm_num)] at h
        exact h)
      (by rw [example_resolved_1]; simp [total_weight]; norm_num)
    rw [hs']; rfl
  obtain ⟨out, ho, hw, _⟩ := deform_verts_at ratMath (fun _ => 0)
    (exampleArmatureObject ℚ 0 !![0, 0, 0, 0; 0, 1, 0, 0; 0, 0, 1, 0; 0, 0, 0, 1])
    (exampleTarget ℚ) none (exampleArrays ℚ ![1, 4, 0]) 3 ARM_DEF_VGROUP (some "Mask") none
    ⟨[Bone.mk (exampleBoneA ℚ) [Bone.mk (exampleBoneB ℚ) []]], 0, false⟩ (examplePose ℚ 0)
    ⟨some (examplePdef ℚ), 2⟩ (examplePdef ℚ)
    (exampleSetup ℚ 0 !![0, 0, 0, 0; 0, 1, 0, 0; 0, 0, 1, 0; 0, 0, 0, 1] 2) rfl rfl rfl rfl rfl
    (example_setup 0 _ ARM_DEF_VGROUP (some "Mask") 2 (by decide) example_mask_index)
    0 (by norm_num) (get_slot (exampleArrays ℚ ![1, 4, 0]) 0)
    (example_rest_skip ratMath _ _ _ _ _ 0 (Or.inl rfl))
    (by
      intro j hj hne
      have h : j = 1 ∨ j = 2 := by omega
      rcases h with h | h <;> subst h
      · exact hv1
      · exact example_rest_defined ratMath _ ![1, 4, 0] _ _ _ 2 (Or.inr rfl))
  have hout : out.arrays.vertexCos 0 = ![1, 4, 0] := hw.1
  refine ⟨out, ho, ?_, ?_, hout, ?_⟩
  · rw [example_resolved_0]; simp [total_weight]
  · have h := @example_mask_weight_0 ℚ _ 0
      !![0, 0, 0, 0; 0, 1, 0, 0; 0, 0, 1, 0; 0, 0, 0, 1] false
    rw [example_dvert 0 _ 2 0 (by norm_num)] at h
    exact h
  · rw [hout]
    intro h
    have h0 := congrFun h 0
    rw [linear_blend_spec, example_flat_x] at h0
    simp at h0

end LinearClaimsExamples

section SmallContribution

variable {R : Type} [LinearOrderedField R]

/-- Applying an affine invertible matrix after its inverse gives the point back. -/
theorem mul_v3_m4v3_invert_cancel (m : M4 R) (ha : IsAffine m) (hd : m.det ≠ 0) (v : V3 R) :
    mul_v3_m4v3 m (mul_v3_m4v3 (invert_m4_m4 m) v) = v := by
  obtain ⟨h1, h2⟩ := invert_m4_mul_cancel m hd
  obtain ⟨a0, a1, a2, a3⟩ := isAffine_of_mul_eq_one m (invert_m4_m4 m) ha h2
  have key : ∀ i j, (invert_m4_m4 m * m) i j = (1 : M4 R) i j := by
    intro i j; rw [h2]
  simp only [m4_mul_apply] at key
  rw [mul_v3_m4v3_eq, mul_v3_m4v3_eq]
  ext k
  fin_cases k
  · have k0 := key 0 0; have k1 := key 1 0; have k2 := key 2 0; have k3 := key 3 0
    simp only [a0, a1, a2, a3] at k0 k1 k2 k3
    simp at k0 k1 k2 k3 ⊢
    linear_combination v 0 * k0 + v 1 * k1 + v 2 * k2 + k3
  · have k0 := key 0 1; have k1 := key 1 1; have k2 := key 2 1; have k3 := key 3 1
    simp only [a0, a1, a2, a3] at k0 k1 k2 k3
    simp at k0 k1 k2 k3 ⊢
    linear_combination v 0 * k0 + v 1 * k1 + v 2 * k2 + k3
  · have k0 := key 0 2; have k1 := key 1 2; have k2 := key 2 2; have k3 := key 3 2
    simp only [a0, a1, a2, a3] at k0 k1 k2 k3
    simp at k0 k1 k2 k3 ⊢
    linear_combination v 0 * k0 + v 1 * k1 + v 2 * k2 + k3

/-- C14 (amended): a vertex that the loop does not skip (armature weight not 0) and
whose accumulated contribution is at most 0.0001 gets no bone deformation: the call
returns, the working position (`prevCos[i]` when `prevCos` is supplied, else
`vertexCos[i]`) ends as `postmat·premat·input`, with `prevCos` the output
`vertexCos[i]` is the blend of its input with that position, and `defMats[i]` is
unchanged; `postmat·premat·v = v` when `postmat` is affine and invertible.  A vertex
with armature weight 0 is skipped: its three array elements are unchanged. -/
theorem C14_small_contribution (fm : FloatMath R) (to_int : R → Int) (armOb : Object R)
    (target : TargetObject R) (mesh : Option (Mesh R)) (arrays : DeformArrays R)
    (numVerts : Nat) (deformflag : Nat) (defgrp_name : Option String)
    (gps : Option (bGPDstroke R)) (arm : bArmature R) (pose : bPose R)
    (cache : ObjectBBoneDeform R) (pdef : Nat → bPoseChanDeform R) (cx : DeformSetup R)
    (i : Nat) (aw pw contrib : R) (sums : DeformSums R)
    (harm : armOb.data = some arm) (hedbo : arm.edbo = false) (hpose : armOb.pose = some pose)
    (hcache : armOb.cached_bbone_deformation = some cache)
    (hpdef : cache.pdef_info_array = some pdef)
    (hsetup : deform_setup pose
      (invert_m4_m4 (mul_m4_m4m4 (invert_m4_m4 target.obmat) armOb.obmat))
      (mul_m4_m4m4 (invert_m4_m4 target.obmat) armOb.obmat) pdef target mesh deformflag
      defgrp_name gps = some cx)
    (hi : i < numVerts)
    (hw : vertex_weights cx (has_flag deformflag ARM_DEF_INVERT_VGROUP) arrays.prevCos.isSome
      (vertex_dvert cx i) = some (aw, pw))
    (hacc : aw ≠ 0 →
      vertex_accumulate fm to_int cx (has_flag deformflag ARM_DEF_ENVELOPE)
        (!has_flag deformflag ARM_DEF_QUATERNION)
        (!has_flag deformflag ARM_DEF_QUATERNION && arrays.defMats.isSome) (vertex_dvert cx i)
        (mul_v3_m4v3 cx.premat
          (if arrays.prevCos.isSome then (get_slot arrays i).prevCo else arrays.vertexCos i))
        = some (sums, contrib) ∧ contrib ≤ 1 / 10000)
    (hrest : ∀ j, j < numVerts → j ≠ i →
      (deform_vertex fm to_int cx (has_flag deformflag ARM_DEF_ENVELOPE)
        (has_flag deformflag ARM_DEF_QUATERNION) (has_flag deformflag ARM_DEF_INVERT_VGROUP)
        arrays.defMats.isSome arrays.prevCos.isSome j (get_slot arrays j)).isSome = true) :
    ∃ out, armature_deform_verts fm to_int armOb target mesh arrays numVerts deformflag
        defgrp_name gps = some out ∧
      (∀ f g, out.arrays.defMats = some f → arrays.defMats = some g → f i = g i) ∧
      (aw ≠ 0 → arrays.prevCos = none →
        out.arrays.vertexCos i
          = mul_v3_m4v3 cx.postmat (mul_v3_m4v3 cx.premat (arrays.vertexCos i))) ∧
      (aw ≠ 0 → ∀ g, arrays.prevCos = some g → ∃ f, out.arrays.prevCos = some f ∧
        f i = mul_v3_m4v3 cx.postmat (mul_v3_m4v3 cx.premat (g i)) ∧
        out.arrays.vertexCos i = fun k => pw * arrays.vertexCos i k + (1 - pw) * f i k) ∧
      (aw = 0 → out.arrays.vertexCos i = arrays.vertexCos i ∧
        ∀ f g, out.arrays.prevCos = some f → arrays.prevCos = some g → f i = g i) ∧
      (IsAffine cx.postmat → cx.postmat.det ≠ 0 →
        ∀ v, mul_v3_m4v3 cx.postmat (mul_v3_m4v3 cx.premat v) = v) := by
  have hf := deform_setup_fields _ _ _ _ _ _ _ _ _ _ hsetup
  have hinv : cx.premat = invert_m4_m4 cx.postmat := by rw [hf.2.1, hf.2.2.1]
  by_cases h0 : aw = 0
  · subst h0
    obtain ⟨out, ho, hsw, _⟩ := deform_verts_at fm to_int armOb target mesh arrays numVerts
      deformflag defgrp_name gps arm pose cache pdef cx harm hedbo hpose hcache hpdef hsetup i hi
      (get_slot arrays i) (deform_vertex_skip _ _ _ _ _ _ _ _ _ _ pw hw) hrest
    obtain ⟨w1, w2, w3, _, _⟩ := hsw
    refine ⟨out, ho, ?_, fun h => absurd rfl h, fun h => absurd rfl h, fun _ => ⟨w1, ?_⟩, ?_⟩
    · intro f g hf' hg; rw [w2 f hf']; simp [get_slot, hg]
    · intro f g hf' hg; rw [w3 f hf']; simp [get_slot, hg]
    · intro ha hd v; rw [hinv]; exact mul_v3_m4v3_invert_cancel _ ha hd v
  · obtain ⟨hacc1, hc⟩ := hacc h0
    have e := deform_vertex_eq fm to_int cx (has_flag deformflag ARM_DEF_ENVELOPE)
      (has_flag deformflag ARM_DEF_QUATERNION) (has_flag deformflag ARM_DEF_INVERT_VGROUP)
      arrays.defMats.isSome arrays.prevCos.isSome i (get_slot arrays i) aw pw contrib sums hw h0
      hacc1
    simp only [vertex_apply_small _ _ _ _ _ _ _ _ hc] at e
    obtain ⟨out, ho, hsw, _⟩ := deform_verts_at fm to_int armOb target mesh arrays numVerts
      deformflag defgrp_name gps arm pose cache pdef cx harm hedbo hpose hcache hpdef hsetup i hi
      _ e hrest
    obtain ⟨w1, w2, w3, _, w5⟩ := hsw
    refine ⟨out, ho, ?_, ?_, ?_, fun h => absurd h h0, ?_⟩
    · intro f g hf' hg
      rw [w2 f hf']
      split <;> simp [get_slot, hg]
    · intro _ hp
      rw [w1]
      simp [hp, get_slot]
    · intro _ g hp
      have hsome : out.arrays.prevCos.isSome = true := by rw [w5, hp]; rfl
      obtain ⟨f, hf'⟩ := Option.isSome_iff_exists.mp hsome
      refine ⟨f, hf', ?_, ?_⟩
      · rw [w3 f hf']; simp [hp, get_slot]
      · rw [w1, w3 f hf']; simp [hp, get_slot]
    · intro ha hd v; rw [hinv]; exact mul_v3_m4v3_invert_cancel _ ha hd v

end SmallContribution

section SmallContributionExamples

theorem example_accumulate_2 (fm : FloatMath ℚ) (obmat : M4 ℚ) (nr : Int) (hv hm : Bool)
    (co : V3 ℚ) :
    vertex_accumulate fm (fun _ => 0) (exampleSetup ℚ 0 obmat nr) false hv hm
      (vertex_dvert (exampleSetup ℚ 0 obmat nr) 2) co = some (⟨fun _ => 0, zero_dq, 0⟩, 0) := by
  rw [example_dvert 0 obmat nr 2 (by norm_num)]
  simp [vertex_accumulate, exampleSetup, exampleWeights]

theorem example_defined_01 (fm : FloatMath ℚ) (obmat : M4 ℚ) (v : V3 ℚ) (ue hd : Bool) (j : Nat)
    (hj : j = 0 ∨ j = 1) :
    (deform_vertex fm (fun _ => 0) (exampleSetup ℚ 0 obmat (-1)) ue false false hd false j
      (get_slot (exampleArrays ℚ v) j)).isSome = true := by
  have key : ∀ j, j < 3 → total_weight (resolved_weights (exampleSetup ℚ 0 obmat (-1))
      (exampleWeights ℚ j).dw) > 1 / 10000 →
      (deform_vertex fm (fun _ => 0) (exampleSetup ℚ 0 obmat (-1)) ue false false hd false j
        (get_slot (exampleArrays ℚ v) j)).isSome = true := by
    intro j hj3 hW
    obtain ⟨s', hs', _⟩ := deform_vertex_linear fm (fun _ => 0) (exampleSetup ℚ 0 obmat (-1))
      ue false hd j (get_slot (exampleArrays ℚ v) j) (exampleWeights ℚ j) 1 1
      (by simp [exampleSetup, OB_MESH, OB_GPENCIL]) rfl (example_dvert 0 _ _ j hj3) (example_single_segment 0 _ _ _)
      (example_no_group_weight 0 obmat false false _) hW
    rw [hs']; rfl
  rcases hj with h | h <;> subst h
  · exact key 0 (by norm_num) (by rw [example_resolved_0]; simp [total_weight]; norm_num)
  · exact key 1 (by norm_num) (by rw [example_resolved_1]; simp [total_weight]; norm_num)

/-- C14, witness: vertex 2 of the example mesh has no weights, so that its
contribution is 0; with identity object matrices it stays at (0,4,0). -/
theorem C14_small_contribution_witness :
    ∃ out, armature_deform_verts ratMath (fun _ => 0) (exampleArmatureObject ℚ 0 1)
        (exampleTarget ℚ) none (exampleArrays ℚ ![0, 4, 0]) 3 ARM_DEF_VGROUP none none
        = some out ∧
      out.arrays.vertexCos 2 = ![0, 4, 0] := by
  obtain ⟨out, ho, _, h2, _⟩ := C14_small_contribution ratMath (fun _ => 0)
    (exampleArmatureObject ℚ 0 1) (exampleTarget ℚ) none (exampleArrays ℚ ![0, 4, 0]) 3
    ARM_DEF_VGROUP none none
    ⟨[Bone.mk (exampleBoneA ℚ) [Bone.mk (exampleBoneB ℚ) []]], 0, false⟩ (examplePose ℚ 0)
    ⟨some (examplePdef ℚ), 2⟩ (examplePdef ℚ) (exampleSetup ℚ 0 1 (-1)) 2 1 1 0
    ⟨fun _ => 0, zero_dq, 0⟩ rfl rfl rfl rfl rfl
    (example_setup 0 1 ARM_DEF_VGROUP none (-1) (by decide) rfl) (by decide)
    (example_no_group_weight 0 1 _ _ _)
    (fun _ => ⟨example_accumulate_2 ratMath 1 (-1) _ _ _, by norm_num⟩)
    (by
      intro j hj hne
      have h : j = 0 ∨ j = 1 := by omega
      exact example_defined_01 ratMath 1 ![0, 4, 0] _ _ j h)
  refine ⟨out, ho, ?_⟩
  rw [h2 (by norm_num) rfl]
  have hpost : (exampleSetup ℚ 0 1 (-1)).postmat = 1 := (@example_mats_one ℚ _).1
  have hpre : (exampleSetup ℚ 0 1 (-1)).premat = 1 := (@example_mats_one ℚ _).2
  rw [hpost, hpre, mul_v3_m4v3_one, mul_v3_m4v3_one]
  rfl

/-- C14, counterexample: the armature object is flattened along X; vertex 2 at
(1,4,0) has no weights (accumulated contribution 0) and no entry in the armature
group "Mask" (armature weight 0).  The call leaves it at (1,4,0), while
`postmat·premat·input` has first coordinate 0. -/
theorem C14_small_contribution_counterexample :
    ∃ out, armature_deform_verts ratMath (fun _ => 0)
        (exampleArmatureObject ℚ 0 !![0, 0, 0, 0; 0, 1, 0, 0; 0, 0, 1, 0; 0, 0, 0, 1])
        (exampleTarget ℚ) none (exampleArrays ℚ ![1, 4, 0]) 3 ARM_DEF_VGROUP (some "Mask") none
        = some out ∧
      vertex_accumulate ratMath (fun _ => 0)
        (exampleSetup ℚ 0 !![0, 0, 0, 0; 0, 1, 0, 0; 0, 0, 1, 0; 0, 0, 0, 1] 2) false true false
        (vertex_dvert (exampleSetup ℚ 0 !![0, 0, 0, 0; 0, 1, 0, 0; 0, 0, 1, 0; 0, 0, 0, 1] 2) 2)
        (mul_v3_m4v3
          (exampleSetup ℚ 0 !![0, 0, 0, 0; 0, 1, 0, 0; 0, 0, 1, 0; 0, 0, 0, 1] 2).premat
          ![1, 4, 0]) = some (⟨fun _ => 0, zero_dq, 0⟩, 0) ∧
      out.arrays.vertexCos 2 = ![1, 4, 0] ∧
      out.arrays.vertexCos 2 ≠
        mul_v3_m4v3
          (exampleSetup ℚ 0 !![0, 0, 0, 0; 0, 1, 0, 0; 0, 0, 1, 0; 0, 0, 0, 1] 2).postmat
          (mul_v3_m4v3
            (exampleSetup ℚ 0 !![0, 0, 0, 0; 0, 1, 0, 0; 0, 0, 1, 0; 0, 0, 0, 1] 2).premat
            ![1, 4, 0]) := by
  have hv1 : (deform_vertex ratMath (fun _ => 0)
      (exampleSetup ℚ 0 !![0, 0, 0, 0; 0, 1, 0, 0; 0, 0, 1, 0; 0, 0, 0, 1] 2)
      false false false false false 1 (get_slot (exampleArrays ℚ ![1, 4, 0]) 1)).isSome = true := by
    obtain ⟨s', hs', _⟩ := deform_vertex_linear ratMath (fun _ => 0)
      (exampleSetup ℚ 0 !![0, 0, 0, 0; 0, 1, 0, 0; 0, 0, 1, 0; 0, 0, 0, 1] 2) false false false 1
      (get_slot (exampleArrays ℚ ![1, 4, 0]) 1) (exampleWeights ℚ 1) (1 / 4) 1
      (by decide) rfl (example_dvert 0 _ 2 1 (by norm_num)) (example_single_segment 0 _ 2 _)
      (by
        have h := @example_mask_weight_1 ℚ _ 0
          !![0, 0, 0, 0; 0, 1, 0, 0; 0, 0, 1, 0; 0, 0, 0, 1]
        rw [example_dvert 0 _ 2 1 (by norm_num)] at h
        exact h)
      (by rw [example_resolved_1]; simp [total_weight]; norm_num)
    rw [hs']; rfl
  obtain ⟨out, ho, hw, _⟩ := deform_verts_at ratMath (fun _ => 0)
    (exampleArmatureObject ℚ 0 !![0, 0, 0, 0; 0, 1, 0, 0; 0, 0, 1, 0; 0, 0, 0, 1])
    (exampleTarget ℚ) none (exampleArrays ℚ ![1, 4, 0]) 3 ARM_DEF_VGROUP (some "Mask") none
    ⟨[Bone.mk (exampleBoneA ℚ) [Bone.mk (exampleBoneB ℚ) []]], 0, false⟩ (examplePose ℚ 0)
    ⟨some (examplePdef ℚ), 2⟩ (examplePdef ℚ)
    (exampleSetup ℚ 0 !![0, 0, 0, 0; 0, 1, 0, 0; 0, 0, 1, 0; 0, 0, 0, 1] 2) rfl rfl rfl rfl rfl
    (example_setup 0 _ ARM_DEF_VGROUP (some "Mask") 2 (by decide) example_mask_index)
    2 (by norm_num) (get_slot (exampleArrays ℚ ![1, 4, 0]) 2)
    (example_rest_skip ratMath _ _ _ _ _ 2 (Or.inr rfl))
    (by
      intro j hj hne
      have h : j = 0 ∨ j = 1 := by omega
      rcases h with h | h <;> subst h
      · exact example_rest_defined ratMath _ ![1, 4, 0] _ _ _ 0 (Or.inl rfl)
      · exact hv1)
  have hout : out.arrays.vertexCos 2 = ![1, 4, 0] := hw.1
  refine ⟨out, ho, example_accumulate_2 ratMath _ 2 _ _ _, hout, ?_⟩
  rw [hout]
  intro h
  have h0 := congrFun h 0
  rw [example_flat_x] at h0
  simp at h0

end SmallContributionExamples

/-! ### Claims C16 and C17 -/

section NoOpClaims

variable {R : Type} [LinearOrderedField R]

theorem defnrToPC_table_flag {R : Type} (pose : bPose R) (flag : Nat) (names : List String) :
    defnrToPC_table { pose with flag := flag } names = defnrToPC_table pose names := by
  induction names with
  | nil => rfl
  | cons n rest ih =>
    have e : defnrToPC_entry { pose with flag := flag } n = defnrToPC_entry pose n := rfl
    simp only [defnrToPC_table, e, ih]

theorem deform_setup_flag {R : Type} (pose : bPose R) (flag : Nat) (premat postmat : M4 R)
    (pdef : Nat → bPoseChanDeform R) (target : TargetObject R) (mesh : Option (Mesh R))
    (deformflag : Nat) (defgrp_name : Option String) (gps : Option (bGPDstroke R)) :
    deform_setup { pose with flag := flag } premat postmat pdef target mesh deformflag
        defgrp_name gps
      = deform_setup pose premat postmat pdef target mesh deformflag defgrp_name gps := by
  simp only [deform_setup, defnrToPC_table_flag]

/-- C16: when the armature object has no deformation cache (`cached_bbone_deformation`
is NULL, or its `pdef_info_array` is NULL), `armature_deform_verts` returns and leaves
`vertexCos`, `prevCos` and `defMats` as they were; when the call gets as far as the
cache test (not in edit mode, with a pose), it logs the missing cache. -/
theorem C16_no_cache (fm : FloatMath R) (to_int : R → Int) (armOb : Object R)
    (target : TargetObject R) (mesh : Option (Mesh R)) (arrays : DeformArrays R)
    (numVerts : Nat) (deformflag : Nat) (defgrp_name : Option String)
    (gps : Option (bGPDstroke R)) (arm : bArmature R)
    (harm : armOb.data = some arm)
    (hcache : armOb.cached_bbone_deformation = none ∨
      ∃ c, armOb.cached_bbone_deformation = some c ∧ c.pdef_info_array = none) :
    ∃ out, armature_deform_verts fm to_int armOb target mesh arrays numVerts deformflag
        defgrp_name gps = some out ∧
      out.arrays = arrays ∧
      (arm.edbo = false → armOb.pose ≠ none → DeformError.no_bbone_cache ∈ out.errors) := by
  have hc : armOb.cached_bbone_deformation.bind (fun c => c.pdef_info_array) = none := by
    rcases hcache with h | ⟨c, h1, h2⟩
    · rw [h]; rfl
    · rw [h1]; exact h2
  cases hed : arm.edbo
  · cases hp : armOb.pose with
    | none =>
      exact ⟨⟨arrays, []⟩, by simp [armature_deform_verts, harm, hed, hp], rfl,
        fun _ h => absurd rfl h⟩
    | some pose =>
      refine ⟨⟨arrays, (if has_flag pose.flag POSE_RECALC then [DeformError.pose_recalc] else [])
        ++ [DeformError.no_bbone_cache]⟩, ?_, rfl, fun _ _ => by simp⟩
      simp only [armature_deform_verts, harm, hed, hp, hc, Bool.false_eq_true, if_false]
  · exact ⟨⟨arrays, []⟩, by simp [armature_deform_verts, harm, hed], rfl,
      fun h => by simp at h⟩

/-- C16, witness: the example armature without its cache. -/
theorem C16_no_cache_witness :
    ∃ out, armature_deform_verts ratMath (fun _ => 0)
        { exampleArmatureObject ℚ 0 1 with cached_bbone_deformation := none }
        (exampleTarget ℚ) none (exampleArrays ℚ ![0, 4, 0]) 3 ARM_DEF_VGROUP none none = some out ∧
      out.arrays = exampleArrays ℚ ![0, 4, 0] ∧
      ((⟨[Bone.mk (exampleBoneA ℚ) [Bone.mk (exampleBoneB ℚ) []]], 0, false⟩ : bArmature ℚ).edbo
          = false →
        ({ exampleArmatureObject ℚ 0 1 with cached_bbone_deformation := none } : Object ℚ).pose
          ≠ none →
        DeformError.no_bbone_cache ∈ out.errors) :=
  C16_no_cache ratMath (fun _ => 0)
    { exampleArmatureObject ℚ 0 1 with cached_bbone_deformation := none }
    (exampleTarget ℚ) none (exampleArrays ℚ ![0, 4, 0]) 3 ARM_DEF_VGROUP none none
    ⟨[Bone.mk (exampleBoneA ℚ) [Bone.mk (exampleBoneB ℚ) []]], 0, false⟩ rfl (Or.inl rfl)

/-- C17 (amended): a pending `POSE_RECALC` flag does not make the call a no-op: the
error is logged and the call goes on, so that the arrays it leaves are those of the
same call with any other value of the pose flags, in particular with the flag
clear; outside edit mode the error is logged. -/
theorem C17_pose_recalc (fm : FloatMath R) (to_int : R → Int) (armOb : Object R)
    (target : TargetObject R) (mesh : Option (Mesh R)) (arrays : DeformArrays R)
    (numVerts : Nat) (deformflag : Nat) (defgrp_name : Option String)
    (gps : Option (bGPDstroke R)) (pose : bPose R) (flag : Nat)
    (hpose : armOb.pose = some pose) :
    (armature_deform_verts fm to_int armOb target mesh arrays numVerts deformflag
        defgrp_name gps).map (fun out => out.arrays)
      = (armature_deform_verts fm to_int { armOb with pose := some { pose with flag := flag } }
          target mesh arrays numVerts deformflag defgrp_name gps).map (fun out => out.arrays) ∧
    (has_flag pose.flag POSE_RECALC = true → ∀ arm, armOb.data = some arm → arm.edbo = false →
      ∀ out, armature_deform_verts fm to_int armOb target mesh arrays numVerts deformflag
        defgrp_name gps = some out → DeformError.pose_recalc ∈ out.errors) := by
  constructor
  · simp only [armature_deform_verts, hpose, deform_setup_flag]
    cases armOb.data with
    | none => rfl
    | some arm =>
      simp only
      cases arm.edbo
      · simp only [Bool.false_eq_true, if_false]
        cases armOb.cached_bbone_deformation.bind (fun c => c.pdef_info_array) with
        | none => rfl
        | some pdef =>
          simp only
          cases deform_setup pose
            (invert_m4_m4 (mul_m4_m4m4 (invert_m4_m4 target.obmat) armOb.obmat))
            (mul_m4_m4m4 (invert_m4_m4 target.obmat) armOb.obmat) pdef target mesh deformflag
            defgrp_name gps with
          | none => rfl
          | some cx =>
            simp only [Option.map_map]
            rfl
      · rfl
  · intro hf arm hd he out ho
    simp only [armature_deform_verts, hpose, hf, if_true, hd, he, Bool.false_eq_true,
      if_false] at ho
    cases hc : armOb.cached_bbone_deformation.bind (fun c => c.pdef_info_array) with
    | none =>
      rw [hc] at ho
      simp only [Option.some.injEq] at ho
      subst ho
      simp
    | some pdef =>
      rw [hc] at ho
      simp only at ho
      cases hs : deform_setup pose
        (invert_m4_m4 (mul_m4_m4m4 (invert_m4_m4 target.obmat) armOb.obmat))
        (mul_m4_m4m4 (invert_m4_m4 target.obmat) armOb.obmat) pdef target mesh deformflag
        defgrp_name gps with
      | none => rw [hs] at ho; simp at ho
      | some cx =>
        rw [hs] at ho
        simp only [Option.map_eq_some'] at ho
        obtain ⟨a, _, ha⟩ := ho
        subst ha
        simp

end NoOpClaims

section VGroupSingle

variable {R : Type} [LinearOrderedField R]

/-- Entries that do not resolve, or that resolve to a bone on which the weight is 0,
leave the sums and `contrib` as they are. -/
theorem vgroup_loop_null_start (fm : FloatMath R) (to_int : R → Int) (cx : DeformSetup R)
    (has_vec has_mat : Bool) (co : V3 R) (rest : List (MDeformWeight R)) :
    ∀ (pre : List (MDeformWeight R)) (st : VGroupState R),
      (∀ e ∈ pre, ∀ pchan idx, resolve_entry cx e = some (pchan, idx) →
        vgroup_weight fm pchan e.weight co = 0) →
      st.acum_weight < 1 →
      ∃ d, vgroup_loop fm to_int cx has_vec has_mat co (pre ++ rest) st
          = vgroup_loop fm to_int cx has_vec has_mat co rest
              ⟨st.sums, st.contrib, d, st.acum_weight⟩ ∧
        (st.deformed = true → d = true) := by
  intro pre
  induction pre with
  | nil =>
    intro st _ _
    exact ⟨st.deformed, rfl, fun h => h⟩
  | cons e pre ih =>
    intro st hnull hac
    have hnull2 : ∀ x ∈ pre, ∀ pchan idx, resolve_entry cx x = some (pchan, idx) →
        vgroup_weight fm pchan x.weight co = 0 :=
      fun x hx => hnull x (List.mem_cons_of_mem _ hx)
    cases hr : resolve_entry cx e with
    | none =>
      obtain ⟨d, h1, h2⟩ := ih st hnull2 hac
      refine ⟨d, ?_, h2⟩
      simp only [List.cons_append, vgroup_loop, hr]
      exact h1
    | some p =>
      obtain ⟨pchan, idx⟩ := p
      have hw := hnull e (List.mem_cons_self _ _) pchan idx hr
      have hnot : ¬ st.acum_weight ≥ 1 := not_le.mpr hac
      obtain ⟨d, h1, h3⟩ := ih ⟨st.sums, st.contrib, true, st.acum_weight⟩ hnull2 hac
      refine ⟨d, ?_, fun _ => h3 rfl⟩
      simp only [List.cons_append, vgroup_loop, hr, hw, add_zero, hnot, and_false, if_false,
        ite_self, pchan_bone_deform, if_true]
      exact h1

/-- The loop over the weights of a vertex on which one entry alone carries weight:
the sums and `contrib` are those of the one call of `pchan_bone_deform`. -/
theorem vgroup_loop_single (fm : FloatMath R) (to_int : R → Int) (cx : DeformSetup R)
    (has_vec has_mat : Bool) (co : V3 R) (pre post : List (MDeformWeight R))
    (e : MDeformWeight R) (pchan : bPoseChannel R) (idx : Nat) (sums0 sums1 : DeformSums R)
    (c1 : R)
    (hpre : ∀ x ∈ pre, ∀ p k, resolve_entry cx x = some (p, k) →
      vgroup_weight fm p x.weight co = 0)
    (hpost : ∀ x ∈ post, ∀ p k, resolve_entry cx x = some (p, k) →
      vgroup_weight fm p x.weight co = 0)
    (hres : resolve_entry cx e = some (pchan, idx))
    (hstep : pchan_bone_deform to_int pchan (cx.pdef_info_array idx)
      (if cx.target_type = OB_GPENCIL ∧ vgroup_weight fm pchan e.weight co ≥ 1 then 1
        else vgroup_weight fm pchan e.weight co) has_vec has_mat sums0 co 0 = some (sums1, c1)) :
    ∃ st, vgroup_loop fm to_int cx has_vec has_mat co (pre ++ e :: post) ⟨sums0, 0, false, 0⟩
        = some st ∧ st.sums = sums1 ∧ st.contrib = c1 ∧ st.deformed = true := by
  obtain ⟨d, h1, _⟩ := vgroup_loop_null_start fm to_int cx has_vec has_mat co (e :: post) pre
    ⟨sums0, 0, false, 0⟩ hpre (by simp)
  rw [h1]
  simp only [vgroup_loop, hres, zero_add, sub_zero, hstep]
  generalize hA : (if cx.target_type = OB_GPENCIL then
      (if cx.target_type = OB_GPENCIL ∧ vgroup_weight fm pchan e.weight co ≥ 1 then (1 : R)
        else vgroup_weight fm pchan e.weight co)
      else 0) = A
  by_cases hb : cx.target_type = OB_GPENCIL ∧ A ≥ 1
  · rw [if_pos hb]
    exact ⟨_, rfl, rfl, rfl, rfl⟩
  · rw [if_neg hb]
    have hlt : A < 1 := by
      by_cases hg : cx.target_type = OB_GPENCIL
      · exact not_le.mp (fun h => hb ⟨hg, h⟩)
      · rw [if_neg hg] at hA
        rw [← hA]
        exact zero_lt_one
    obtain ⟨d2, h2, h3⟩ := vgroup_loop_null_start fm to_int cx has_vec has_mat co [] post
      ⟨sums1, c1, true, A⟩ hpost hlt
    simp only [List.append_nil, vgroup_loop] at h2
    rw [h2]
    exact ⟨_, rfl, rfl, rfl, h3 rfl⟩

/-- When the loop over the weights has met an entry that resolves, `deformed` is set. -/
theorem vgroup_loop_deformed (fm : FloatMath R) (to_int : R → Int) (cx : DeformSetup R)
    (has_vec has_mat : Bool) (co : V3 R) :
    ∀ (dw : List (MDeformWeight R)) (st st' : VGroupState R),
      vgroup_loop fm to_int cx has_vec has_mat co dw st = some st' →
      (st.deformed = true ∨ ∃ e ∈ dw, (resolve_entry cx e).isSome = true) →
      st'.deformed = true := by
  intro dw
  induction dw with
  | nil =>
    intro st st' h hd
    simp only [vgroup_loop, Option.some.injEq] at h
    subst h
    rcases hd with h | ⟨e, he, _⟩
    · exact h
    · simp at he
  | cons e rest ih =>
    intro st st' h hd
    cases hr : resolve_entry cx e with
    | none =>
      simp only [vgroup_loop, hr] at h
      apply ih st st' h
      rcases hd with h1 | ⟨x, hx, hxr⟩
      · exact Or.inl h1
      · rcases List.mem_cons.mp hx with hxe | hxr2
        · subst hxe; rw [hr] at hxr; simp at hxr
        · exact Or.inr ⟨x, hxr2, hxr⟩
    | some p =>
      obtain ⟨pchan, idx⟩ := p
      simp only [vgroup_loop, hr] at h
      generalize hA : (if cx.target_type = OB_GPENCIL then
          st.acum_weight +
            (if cx.target_type = OB_GPENCIL ∧
                st.acum_weight + vgroup_weight fm pchan e.weight co ≥ 1 then 1 - st.acum_weight
              else vgroup_weight fm pchan e.weight co)
          else st.acum_weight) = A at h
      cases hp : pchan_bone_deform to_int pchan (cx.pdef_info_array idx)
          (if cx.target_type = OB_GPENCIL ∧
              st.acum_weight + vgroup_weight fm pchan e.weight co ≥ 1 then 1 - st.acum_weight
            else vgroup_weight fm pchan e.weight co) has_vec has_mat st.sums co st.contrib with
      | none => rw [hp] at h; simp at h
      | some q =>
        obtain ⟨sums, contrib⟩ := q
        rw [hp] at h
        simp only at h
        by_cases hb : cx.target_type = OB_GPENCIL ∧ A ≥ 1
        · rw [if_pos hb] at h
          simp only [Option.some.injEq] at h
          subst h
          rfl
        · rw [if_neg hb] at h
          exact ih _ st' h (Or.inl rfl)

end VGroupSingle

section SingleBone

variable {R : Type} [LinearOrderedField R]

/-- The accumulation of a vertex on which one entry alone carries weight. -/
theorem vertex_accumulate_single (fm : FloatMath R) (to_int : R → Int) (cx : DeformSetup R)
    (use_envelope has_vec has_mat : Bool) (co : V3 R) (dv : MDeformVert R)
    (pre post : List (MDeformWeight R))
    (e : MDeformWeight R) (pchan : bPoseChannel R) (idx : Nat) (sums1 : DeformSums R) (c1 : R)
    (hud : cx.use_dverts = true) (hdw : dv.dw = pre ++ e :: post)
    (hpre : ∀ x ∈ pre, ∀ p k, resolve_entry cx x = some (p, k) →
      vgroup_weight fm p x.weight co = 0)
    (hpost : ∀ x ∈ post, ∀ p k, resolve_entry cx x = some (p, k) →
      vgroup_weight fm p x.weight co = 0)
    (hres : resolve_entry cx e = some (pchan, idx))
    (hstep : pchan_bone_deform to_int pchan (cx.pdef_info_array idx)
      (if cx.target_type = OB_GPENCIL ∧ vgroup_weight fm pchan e.weight co ≥ 1 then 1
        else vgroup_weight fm pchan e.weight co) has_vec has_mat ⟨fun _ => 0, zero_dq, 0⟩ co 0
      = some (sums1, c1)) :
    vertex_accumulate fm to_int cx use_envelope has_vec has_mat (DVertPtr.valid dv) co
      = some (sums1, c1) := by
  obtain ⟨st, h1, h2, h3, h4⟩ := vgroup_loop_single fm to_int cx has_vec has_mat co pre post e
    pchan idx _ sums1 c1 hpre hpost hres hstep
  have hlen : (pre ++ e :: post).length ≠ 0 := by simp
  simp only [vertex_accumulate, hud, if_true, hdw, h1, h4,
    Bool.true_eq_false, false_and, if_false, h2, h3]
  rw [if_pos hlen]

/-- Two point transforms in a row are the transform by the product when the first
matrix is affine. -/
theorem mul_v3_m4v3_comp (a b : M4 R) (ha : IsAffine a) (v : V3 R) :
    mul_v3_m4v3 b (mul_v3_m4v3 a v) = mul_v3_m4v3 (a * b) v := by
  obtain ⟨a0, a1, a2, a3⟩ := ha
  rw [mul_v3_m4v3_eq, mul_v3_m4v3_eq, mul_v3_m4v3_eq]
  simp only [m4_mul_apply, a0, a1, a2, a3]
  ext k
  fin_cases k <;> simp <;> ring

/-- The rest tail of a bone, deformed by `pose_mat · inverse(arm_mat)`, is the pose
tail. -/
theorem deform_rest_tail (pchan : bPoseChannel R) (bone : BoneData R)
    (hchan : pchan.chan_mat = mul_m4_m4m4 pchan.pose_mat (invert_m4_m4 bone.arm_mat))
    (haff : IsAffine bone.arm_mat) (hdet : bone.arm_mat.det ≠ 0)
    (hhead : pchan.pose_head = m4_axis pchan.pose_mat 3)
    (htail : pchan.pose_tail
      = add_v3_v3v3 pchan.pose_head (mul_v3_fl (m4_axis pchan.pose_mat 1) bone.length)) :
    mul_v3_m4v3 pchan.chan_mat (mul_v3_m4v3 bone.arm_mat ![0, bone.length, 0])
      = pchan.pose_tail := by
  rw [mul_v3_m4v3_comp _ _ haff, hchan, mul_m4_m4m4, ← Matrix.mul_assoc,
    (invert_m4_mul_cancel bone.arm_mat hdet).1, Matrix.one_mul, htail, hhead, mul_v3_m4v3_eq]
  ext k
  fin_cases k <;> simp [add_v3_v3v3, mul_v3_fl, m4_axis] <;> ring

/-- C12: for a single-segment deforming bone B and a vertex bound only to B (every
other entry of the vertex does not resolve or has weight 0 on its bone) with a weight
above 0.0001 (the weight after the envelope multiplication if B asks for it), with
armature weight 1, identity object matrices, linear blending and no `prevCos`, the
call returns and moves the vertex `v` to `chan_mat·v`; this is
`pose_mat · inverse(arm_mat) · v` when `chan_mat` is that product (as
`BKE_pose_where_is` leaves it), and then a vertex at the rest tail
`arm_mat·(0, length, 0)` of B is moved to the `pose_tail` of B (for an affine
invertible `arm_mat`, with `pose_head` and `pose_tail` as `BKE_pose_where_is_bone`
leaves them). -/
theorem C12_single_bone (fm : FloatMath R) (to_int : R → Int) (armOb : Object R)
    (target : TargetObject R) (mesh : Option (Mesh R)) (arrays : DeformArrays R)
    (numVerts : Nat) (deformflag : Nat) (defgrp_name : Option String)
    (gps : Option (bGPDstroke R)) (arm : bArmature R) (pose : bPose R)
    (cache : ObjectBBoneDeform R) (pdef : Nat → bPoseChanDeform R) (cx : DeformSetup R)
    (i : Nat) (dv : MDeformVert R) (pre post : List (MDeformWeight R)) (e : MDeformWeight R)
    (pchan : bPoseChannel R) (idx : Nat) (bone : BoneData R) (pw : R)
    (harm : armOb.data = some arm) (hedbo : arm.edbo = false) (hpose : armOb.pose = some pose)
    (hcache : armOb.cached_bbone_deformation = some cache)
    (hpdef : cache.pdef_info_array = some pdef)
    (hsetup : deform_setup pose
      (invert_m4_m4 (mul_m4_m4m4 (invert_m4_m4 target.obmat) armOb.obmat))
      (mul_m4_m4m4 (invert_m4_m4 target.obmat) armOb.obmat) pdef target mesh deformflag
      defgrp_name gps = some cx)
    (htmat : target.obmat = 1) (hamat : armOb.obmat = 1)
    (hq : has_flag deformflag ARM_DEF_QUATERNION = false) (hprev : arrays.prevCos = none)
    (hud : cx.use_dverts = true) (hi : i < numVerts)
    (hdv : vertex_dvert cx i = DVertPtr.valid dv) (hdw : dv.dw = pre ++ e :: post)
    (hpre : ∀ x ∈ pre, ∀ p k, resolve_entry cx x = some (p, k) →
      vgroup_weight fm p x.weight (arrays.vertexCos i) = 0)
    (hpost : ∀ x ∈ post, ∀ p k, resolve_entry cx x = some (p, k) →
      vgroup_weight fm p x.weight (arrays.vertexCos i) = 0)
    (hres : resolve_entry cx e = some (pchan, idx))
    (hbone : pchan.bone = some bone) (hseg : bone.segments ≤ 1)
    (hweight : vgroup_weight fm pchan e.weight (arrays.vertexCos i) > 1 / 10000)
    (ha : vertex_weights cx (has_flag deformflag ARM_DEF_INVERT_VGROUP) false (DVertPtr.valid dv)
      = some (1, pw))
    (hrest : ∀ j, j < numVerts → j ≠ i →
      (deform_vertex fm to_int cx (has_flag deformflag ARM_DEF_ENVELOPE)
        (has_flag deformflag ARM_DEF_QUATERNION) (has_flag deformflag ARM_DEF_INVERT_VGROUP)
        arrays.defMats.isSome arrays.prevCos.isSome j (get_slot arrays j)).isSome = true) :
    ∃ out, armature_deform_verts fm to_int armOb target mesh arrays numVerts deformflag
        defgrp_name gps = some out ∧
      out.arrays.vertexCos i = mul_v3_m4v3 pchan.chan_mat (arrays.vertexCos i) ∧
      (pchan.chan_mat = mul_m4_m4m4 pchan.pose_mat (invert_m4_m4 bone.arm_mat) →
        out.arrays.vertexCos i
          = mul_v3_m4v3 (mul_m4_m4m4 pchan.pose_mat (invert_m4_m4 bone.arm_mat))
              (arrays.vertexCos i) ∧
        (IsAffine bone.arm_mat → bone.arm_mat.det ≠ 0 →
          pchan.pose_head = m4_axis pchan.pose_mat 3 →
          pchan.pose_tail
            = add_v3_v3v3 pchan.pose_head (mul_v3_fl (m4_axis pchan.pose_mat 1) bone.length) →
          arrays.vertexCos i = mul_v3_m4v3 bone.arm_mat ![0, bone.length, 0] →
          out.arrays.vertexCos i = pchan.pose_tail)) := by
  have hf := deform_setup_fields _ _ _ _ _ _ _ _ _ _ hsetup
  have hpre1 : cx.premat = 1 := by
    rw [hf.2.1, htmat, hamat]; simp [invert_m4_m4_one, mul_m4_m4m4]
  have hpost1 : cx.postmat = 1 := by
    rw [hf.2.2.1, htmat, hamat]; simp [invert_m4_m4_one, mul_m4_m4m4]
  have hp : arrays.prevCos.isSome = false := by rw [hprev]; rfl
  -- the one call of `pchan_bone_deform`
  let w : R := if cx.target_type = OB_GPENCIL ∧
      vgroup_weight fm pchan e.weight (arrays.vertexCos i) ≥ 1 then 1
    else vgroup_weight fm pchan e.weight (arrays.vertexCos i)
  have hwpos : w > 1 / 10000 := by
    show (if _ then _ else _) > _
    split
    · norm_num
    · exact hweight
  obtain ⟨sums1, hs1, hv1, _⟩ := pchan_bone_deform_linear to_int pchan (cx.pdef_info_array idx) w
    (!false && arrays.defMats.isSome) ⟨fun _ => 0, zero_dq, 0⟩ (arrays.vertexCos i) 0 bone hbone
    hseg
  have hacc := vertex_accumulate_single fm to_int cx (has_flag deformflag ARM_DEF_ENVELOPE)
    (!false) (!false && arrays.defMats.isSome) (arrays.vertexCos i) dv pre post e pchan idx
    sums1 (0 + w) hud hdw hpre hpost hres hs1
  have e1 := deform_vertex_eq fm to_int cx (has_flag deformflag ARM_DEF_ENVELOPE) false
    (has_flag deformflag ARM_DEF_INVERT_VGROUP) arrays.defMats.isSome false i (get_slot arrays i)
    1 pw (0 + w) sums1 (by rw [hdv]; exact ha) one_ne_zero
    (by
      rw [hdv, hpre1, mul_v3_m4v3_one]
      exact hacc)
  obtain ⟨out, ho, hw, _⟩ := deform_verts_at fm to_int armOb target mesh arrays numVerts
    deformflag defgrp_name gps arm pose cache pdef cx harm hedbo hpose hcache hpdef hsetup i hi
    _ (by rw [hq, hp]; exact e1) hrest
  have hval : out.arrays.vertexCos i = mul_v3_m4v3 pchan.chan_mat (arrays.vertexCos i) := by
    rw [hw.1]
    simp only [Bool.false_eq_true, if_false, hpost1, hpre1, mul_v3_m4v3_one]
    rw [vertex_apply_linear cx _ _ _ _ _ _ (by rw [zero_add]; exact hwpos)]
    ext k
    have hw0 : w ≠ 0 := by
      intro h; rw [h] at hwpos; norm_num at hwpos
    simp only [get_slot, hv1 k, zero_add]
    field_simp
  refine ⟨out, ho, hval, fun hchan => ⟨by rw [hval, hchan], ?_⟩⟩
  intro haff hdet hhead htail hv
  rw [hval, hv]
  exact deform_rest_tail pchan bone hchan haff hdet hhead htail

end SingleBone

section SingleBoneExamples

theorem example_arm_mat_B_det : (exampleBoneB ℚ).arm_mat.det ≠ 0 := by
  have h : (exampleBoneB ℚ).arm_mat.det = 1 := by
    simp [exampleBoneB, Matrix.det_succ_row_zero, Fin.sum_univ_succ, Matrix.submatrix,
      Fin.succAbove]
  rw [h]; norm_num

theorem example_chan_mat_B :
    (exampleChanB ℚ).chan_mat
      = mul_m4_m4m4 (exampleChanB ℚ).pose_mat (invert_m4_m4 (exampleBoneB ℚ).arm_mat) := by
  have h1 : (exampleBoneB ℚ).arm_mat * (exampleChanB ℚ).chan_mat = (exampleChanB ℚ).pose_mat := by
    ext i j
    fin_cases i <;> fin_cases j <;>
      simp [exampleBoneB, exampleChanB, Matrix.mul_apply, Fin.sum_univ_four, Matrix.vecHead,
        Matrix.vecTail]
  rw [mul_m4_m4m4, ← h1, ← Matrix.mul_assoc, (invert_m4_mul_cancel _ example_arm_mat_B_det).2,
    Matrix.one_mul]

theorem example_defined (fm : FloatMath ℚ) (flag : Nat) (obmat : M4 ℚ) (v : V3 ℚ) (hd : Bool)
    (j : Nat) (hj : j < 3) :
    (deform_vertex fm (fun _ => 0) (exampleSetup ℚ flag obmat (-1)) false false false hd false j
      (get_slot (exampleArrays ℚ v) j)).isSome = true := by
  have h : j = 0 ∨ j = 1 ∨ j = 2 := by omega
  rcases h with h | h | h
  · exact example_defined_01 fm obmat v false hd j (Or.inl h)
  · exact example_defined_01 fm obmat v false hd j (Or.inr h)
  · subst h
    rw [deform_vertex_eq fm (fun _ => 0) (exampleSetup ℚ flag obmat (-1)) false false false hd
      false 2 (get_slot (exampleArrays ℚ v) 2) 1 1 0 ⟨fun _ => 0, zero_dq, 0⟩
      (example_no_group_weight flag obmat _ _ _) one_ne_zero
      (example_accumulate_2 fm obmat (-1) _ _ _)]
    rfl

/-- C12, witness: A is the root from (0,0,0) to (0,2,0), B its child from (0,2,0) to
(0,4,0), rotated by 90 degrees about X at its head; the vertex (0,4,0), bound to B
alone with weight 1, is moved to (0,2,2), the pose tail of B. -/
theorem C12_single_bone_witness :
    ∃ out, armature_deform_verts ratMath (fun _ => 0) (exampleArmatureObject ℚ 0 1)
        (exampleTarget ℚ) none (exampleArrays ℚ ![0, 4, 0]) 3 ARM_DEF_VGROUP none none
        = some out ∧
      out.arrays.vertexCos 0 = ![0, 2, 2] ∧ (exampleChanB ℚ).pose_tail = ![0, 2, 2] := by
  obtain ⟨out, ho, _, h3⟩ := C12_single_bone ratMath (fun _ => 0) (exampleArmatureObject ℚ 0 1)
    (exampleTarget ℚ) none (exampleArrays ℚ ![0, 4, 0]) 3 ARM_DEF_VGROUP none none
    ⟨[Bone.mk (exampleBoneA ℚ) [Bone.mk (exampleBoneB ℚ) []]], 0, false⟩ (examplePose ℚ 0)
    ⟨some (examplePdef ℚ), 2⟩ (examplePdef ℚ) (exampleSetup ℚ 0 1 (-1)) 0 (exampleWeights ℚ 0)
    [] [] ⟨1, 1⟩ (exampleChanB ℚ) 1 (exampleBoneB ℚ) 1 rfl rfl rfl rfl rfl
    (example_setup 0 1 ARM_DEF_VGROUP none (-1) (by decide) rfl) rfl rfl (by decide) rfl rfl
    (by decide) (example_dvert 0 1 (-1) 0 (by norm_num)) rfl (by simp) (by simp)
    (by simp [resolve_entry, exampleSetup]) rfl (le_refl _)
    (by
      have hm : has_flag (exampleBoneB ℚ).flag BONE_MULT_VG_ENV = false := by
        simp [exampleBoneB, has_flag, BONE_MULT_VG_ENV, BONE_CONNECTED]
        decide
      have hb : (exampleChanB ℚ).bone = some (exampleBoneB ℚ) := rfl
      simp only [vgroup_weight, hb, hm]
      norm_num)
    (example_no_group_weight 0 1 _ _ _)
    (fun j hj _ => example_defined ratMath 0 1 ![0, 4, 0] _ j hj)
  refine ⟨out, ho, ?_, rfl⟩
  have h4 := (h3 example_chan_mat_B).2
    (by simp [IsAffine, exampleBoneB]) example_arm_mat_B_det rfl
    (by
      ext k
      fin_cases k <;> simp [exampleChanB, exampleBoneB, add_v3_v3v3, mul_v3_fl, m4_axis])
    (by
      rw [mul_v3_m4v3_eq]
      ext k
      fin_cases k <;> simp [exampleArrays, exampleBoneB, Matrix.vecHead, Matrix.vecTail]
      norm_num)
  rw [h4]
  rfl

end SingleBoneExamples

section PoseRecalcExamples

theorem example_blend_value_0 (flag : Nat) :
    linear_blend_spec (exampleSetup ℚ flag 1 (-1)).postmat 1
        (resolved_weights (exampleSetup ℚ flag 1 (-1)) (exampleWeights ℚ 0).dw)
        (mul_v3_m4v3 (exampleSetup ℚ flag 1 (-1)).premat ((exampleArrays ℚ ![0, 4, 0]).vertexCos 0))
      = ![0, 2, 2] := by
  have hpost : (exampleSetup ℚ flag 1 (-1)).postmat = 1 := (@example_mats_one ℚ _).1
  have hpre : (exampleSetup ℚ flag 1 (-1)).premat = 1 := (@example_mats_one ℚ _).2
  rw [example_resolved_0, hpost, hpre]
  simp only [linear_blend_spec, mul_v3_m4v3_one, total_weight, exampleArrays,
    exampleChanB, mul_v3_m4v3_eq]
  ext k
  fin_cases k <;> simp [Matrix.vecHead, Matrix.vecTail]
  norm_num

/-- C17, witness: the example armature with `POSE_RECALC` set in its pose. -/
theorem C17_pose_recalc_witness :
    (armature_deform_verts ratMath (fun _ => 0) (exampleArmatureObject ℚ POSE_RECALC 1)
        (exampleTarget ℚ) none (exampleArrays ℚ ![0, 4, 0]) 3 ARM_DEF_VGROUP none none).map
        (fun out => out.arrays)
      = (armature_deform_verts ratMath (fun _ => 0)
          { exampleArmatureObject ℚ POSE_RECALC 1 with
            pose := some { examplePose ℚ POSE_RECALC with flag := 0 } }
          (exampleTarget ℚ) none (exampleArrays ℚ ![0, 4, 0]) 3 ARM_DEF_VGROUP none none).map
          (fun out => out.arrays) ∧
    (has_flag (examplePose ℚ POSE_RECALC).flag POSE_RECALC = true →
      ∀ arm, (exampleArmatureObject ℚ POSE_RECALC 1).data = some arm → arm.edbo = false →
      ∀ out, armature_deform_verts ratMath (fun _ => 0) (exampleArmatureObject ℚ POSE_RECALC 1)
        (exampleTarget ℚ) none (exampleArrays ℚ ![0, 4, 0]) 3 ARM_DEF_VGROUP none none
        = some out → DeformError.pose_recalc ∈ out.errors) :=
  C17_pose_recalc ratMath (fun _ => 0) (exampleArmatureObject ℚ POSE_RECALC 1)
    (exampleTarget ℚ) none (exampleArrays ℚ ![0, 4, 0]) 3 ARM_DEF_VGROUP none none
    (examplePose ℚ POSE_RECALC) 0 rfl

/-- C17, counterexample: the example armature with `POSE_RECALC` set in its pose; the
call logs the error and moves vertex 0 from (0,4,0) to (0,2,2). -/
theorem C17_pose_recalc_counterexample :
    ∃ out, armature_deform_verts ratMath (fun _ => 0) (exampleArmatureObject ℚ POSE_RECALC 1)
        (exampleTarget ℚ) none (exampleArrays ℚ ![0, 4, 0]) 3 ARM_DEF_VGROUP none none
        = some out ∧
      has_flag (examplePose ℚ POSE_RECALC).flag POSE_RECALC = true ∧
      out.errors = [DeformError.pose_recalc] ∧
      out.arrays.vertexCos 0 = ![0, 2, 2] ∧
      out.arrays.vertexCos 0 ≠ (exampleArrays ℚ ![0, 4, 0]).vertexCos 0 := by
  obtain ⟨s', hs', hv⟩ := deform_vertex_linear ratMath (fun _ => 0)
    (exampleSetup ℚ POSE_RECALC 1 (-1)) false false false 0
    (get_slot (exampleArrays ℚ ![0, 4, 0]) 0) (exampleWeights ℚ 0) 1 1
    (by simp [exampleSetup, OB_MESH, OB_GPENCIL]) rfl (example_dvert _ _ _ 0 (by norm_num))
    (example_single_segment _ _ _ _) (example_no_group_weight _ _ _ _ _)
    (by rw [example_resolved_0]; simp [total_weight]; norm_num)
  obtain ⟨out, ho, hw, herr⟩ := deform_verts_at ratMath (fun _ => 0)
    (exampleArmatureObject ℚ POSE_RECALC 1) (exampleTarget ℚ) none (exampleArrays ℚ ![0, 4, 0]) 3
    ARM_DEF_VGROUP none none
    ⟨[Bone.mk (exampleBoneA ℚ) [Bone.mk (exampleBoneB ℚ) []]], 0, false⟩
    (examplePose ℚ POSE_RECALC) ⟨some (examplePdef ℚ), 2⟩ (examplePdef ℚ)
    (exampleSetup ℚ POSE_RECALC 1 (-1)) rfl rfl rfl rfl rfl
    (example_setup POSE_RECALC 1 ARM_DEF_VGROUP none (-1) (by decide) rfl)
    0 (by norm_num) s' hs'
    (fun j hj _ => example_defined ratMath POSE_RECALC 1 ![0, 4, 0] _ j hj)
  have hval : out.arrays.vertexCos 0 = ![0, 2, 2] := by
    rw [hw.1, hv, if_neg one_ne_zero]
    exact example_blend_value_0 POSE_RECALC
  refine ⟨out, ho, by decide, herr, hval, ?_⟩
  rw [hval]
  intro h
  have h2 := congrFun h 2
  simp [exampleArrays] at h2

end PoseRecalcExamples

/-! ### Claim C18 -/

section EnvelopeFallback

variable {R : Type} [LinearOrderedField R]

theorem deform_loop_defined (body : Nat → VertexSlot R → Option (VertexSlot R)) :
    ∀ (l : List Nat) (arrays out : DeformArrays R), l.Nodup →
      deform_loop body l arrays = some out →
      ∀ j ∈ l, (body j (get_slot arrays j)).isSome = true := by
  intro l
  induction l with
  | nil => intro _ _ _ _ j hj; simp at hj
  | cons i rest ih =>
    intro arrays out hnd h j hj
    have hnd2 := List.nodup_cons.mp hnd
    simp only [deform_loop] at h
    cases hb : body i (get_slot arrays i) with
    | none => rw [hb] at h; simp at h
    | some s =>
      rw [hb] at h
      simp only at h
      rcases List.mem_cons.mp hj with hji | hjr
      · subst hji; rw [hb]; rfl
      · have hne : j ≠ i := fun e => hnd2.1 (e ▸ hjr)
        have := ih _ _ hnd2.2 h j hjr
        rw [get_set_slot_ne _ _ _ _ hne] at this
        exact this

/-- A call of `armature_deform_verts` that reaches the vertex loop and returns: what
it leaves at index `i` is what iteration `i` computes from the input arrays. -/
theorem deform_verts_run_at (fm : FloatMath R) (to_int : R → Int) (armOb : Object R)
    (target : TargetObject R) (mesh : Option (Mesh R)) (arrays : DeformArrays R)
    (numVerts : Nat) (deformflag : Nat) (defgrp_name : Option String)
    (gps : Option (bGPDstroke R)) (arm : bArmature R) (pose : bPose R)
    (cache : ObjectBBoneDeform R) (pdef : Nat → bPoseChanDeform R) (cx : DeformSetup R)
    (out : DeformResult R)
    (harm : armOb.data = some arm) (hedbo : arm.edbo = false) (hpose : armOb.pose = some pose)
    (hcache : armOb.cached_bbone_deformation = some cache)
    (hpdef : cache.pdef_info_array = some pdef)
    (hsetup : deform_setup pose
      (invert_m4_m4 (mul_m4_m4m4 (invert_m4_m4 target.obmat) armOb.obmat))
      (mul_m4_m4m4 (invert_m4_m4 target.obmat) armOb.obmat) pdef target mesh deformflag
      defgrp_name gps = some cx)
    (hrun : armature_deform_verts fm to_int armOb target mesh arrays numVerts deformflag
      defgrp_name gps = some out)
    (i : Nat) (hi : i < numVerts) :
    ∃ s, deform_vertex fm to_int cx (has_flag deformflag ARM_DEF_ENVELOPE)
        (has_flag deformflag ARM_DEF_QUATERNION) (has_flag deformflag ARM_DEF_INVERT_VGROUP)
        arrays.defMats.isSome arrays.prevCos.isSome i (get_slot arrays i) = some s ∧
      SlotWritten arrays out.arrays i s := by
  have h := hrun
  simp only [armature_deform_verts, harm, hedbo, hpose, hcache, hpdef, Option.some_bind, hsetup,
    Bool.false_eq_true, if_false, Option.map_eq_some'] at h
  obtain ⟨a, ha, hout⟩ := h
  have hall := deform_loop_defined _ (List.range numVerts) arrays a (List.nodup_range numVerts) ha
  obtain ⟨s, hs⟩ := Option.isSome_iff_exists.mp (hall i (List.mem_range.mpr hi))
  obtain ⟨out2, ho2, hw, _⟩ := deform_verts_at fm to_int armOb target mesh arrays numVerts
    deformflag defgrp_name gps arm pose cache pdef cx harm hedbo hpose hcache hpdef hsetup i hi s hs
    (fun j hj _ => hall j (List.mem_range.mpr hj))
  rw [hrun] at ho2
  have e : out = out2 := Option.some.inj ho2
  subst e
  exact ⟨s, hs, hw⟩

/-- The locals of the call without `ARM_DEF_VGROUP`: no weights are used and the table
is not built. -/
theorem deform_setup_no_vgroup {R : Type} (pose : bPose R) (premat postmat : M4 R)
    (pdef : Nat → bPoseChanDeform R) (target : TargetObject R) (mesh : Option (Mesh R))
    (deformflag deformflag2 : Nat) (defgrp_name : Option String) (gps : Option (bGPDstroke R))
    (cx : DeformSetup R)
    (h : deform_setup pose premat postmat pdef target mesh deformflag defgrp_name gps = some cx)
    (h2 : has_flag deformflag2 ARM_DEF_VGROUP = false) :
    deform_setup pose premat postmat pdef target mesh deformflag2 defgrp_name gps
      = some { cx with use_dverts := false, defnrToPC := [] } := by
  simp only [deform_setup] at h ⊢
  cases ht : target_dverts target gps with
  | none => rw [ht] at h; simp at h
  | some p =>
    obtain ⟨dverts, totvert⟩ := p
    rw [ht] at h
    simp only at h ⊢
    simp only [h2, Bool.false_eq_true, false_and, if_false]
    split at h
    · simp at h
    · simp only [Option.some.injEq] at h
      subst h
      rfl

/-- When an entry of the vertex resolves, the envelope flag does not change the
iteration. -/
theorem deform_vertex_group_only (fm : FloatMath R) (to_int : R → Int) (cx : DeformSetup R)
    (use_envelope use_quaternion invert_vgroup has_defMats has_prevCos : Bool) (i : Nat)
    (s : VertexSlot R) (dv : MDeformVert R) (hud : cx.use_dverts = true)
    (hdv : vertex_dvert cx i = DVertPtr.valid dv)
    (hres : ∃ e ∈ dv.dw, (resolve_entry cx e).isSome = true) :
    deform_vertex fm to_int cx use_envelope use_quaternion invert_vgroup has_defMats has_prevCos
        i s
      = deform_vertex fm to_int cx false use_quaternion invert_vgroup has_defMats has_prevCos
        i s := by
  have hacc : ∀ co hv hm, vertex_accumulate fm to_int cx use_envelope hv hm (DVertPtr.valid dv) co
      = vertex_accumulate fm to_int cx false hv hm (DVertPtr.valid dv) co := by
    intro co hv hm
    have hlen : dv.dw.length ≠ 0 := by
      obtain ⟨e, he, _⟩ := hres
      intro h0
      rw [List.length_eq_zero.mp h0] at he
      simp at he
    simp only [vertex_accumulate, hud, if_true, if_pos hlen]
    cases hl : vgroup_loop fm to_int cx hv hm co dv.dw
        ⟨⟨fun _ => 0, zero_dq, 0⟩, 0, false, 0⟩ with
    | none => rfl
    | some st =>
      have hd := vgroup_loop_deformed fm to_int cx hv hm co dv.dw _ st hl (Or.inr hres)
      simp only [hd, Bool.true_eq_false, false_and, if_false]
  simp only [deform_vertex, hdv, hacc]

/-- When no entry of the vertex resolves, the iteration is that of the call without
vertex groups. -/
theorem deform_vertex_envelope_only (fm : FloatMath R) (to_int : R → Int) (cx : DeformSetup R)
    (use_quaternion invert_vgroup has_defMats has_prevCos : Bool) (i : Nat)
    (s : VertexSlot R) (hinv : vertex_dvert cx i ≠ DVertPtr.invalid)
    (hres : ∀ dv, vertex_dvert cx i = DVertPtr.valid dv →
      ∀ e ∈ dv.dw, resolve_entry cx e = none) :
    deform_vertex fm to_int cx true use_quaternion invert_vgroup has_defMats has_prevCos i s
      = deform_vertex fm to_int { cx with use_dverts := false, defnrToPC := [] } true
          use_quaternion invert_vgroup has_defMats has_prevCos i s := by
  have hacc1 : ∀ co hv hm, vertex_accumulate fm to_int cx true hv hm (vertex_dvert cx i) co
      = envelope_loop fm to_int cx.pdef_info_array hv hm co cx.chanbase 0
          ⟨fun _ => 0, zero_dq, 0⟩ 0 := by
    intro co hv hm
    cases hud : cx.use_dverts
    · simp [vertex_accumulate, hud]
    · cases hdv : vertex_dvert cx i with
      | null => simp [vertex_accumulate, hud]
      | invalid => exact absurd hdv hinv
      | valid dv =>
        by_cases hlen : dv.dw.length ≠ 0
        · have hl := vgroup_loop_unresolved fm to_int cx hv hm co dv.dw
            ⟨⟨fun _ => 0, zero_dq, 0⟩, 0, false, 0⟩ (hres dv hdv)
          simp only [vertex_accumulate, hud, if_true, if_pos hlen, hl, and_self]
        · simp only [vertex_accumulate, hud, if_true, if_neg hlen]
  have hacc2 : ∀ co hv hm d, vertex_accumulate fm to_int
      { cx with use_dverts := false, defnrToPC := [] } true hv hm d co
      = envelope_loop fm to_int cx.pdef_info_array hv hm co cx.chanbase 0
          ⟨fun _ => 0, zero_dq, 0⟩ 0 := by
    intro co hv hm d
    simp [vertex_accumulate]
  have hw : vertex_weights { cx with use_dverts := false, defnrToPC := [] } invert_vgroup
      has_prevCos (vertex_dvert { cx with use_dverts := false, defnrToPC := [] } i)
      = vertex_weights cx invert_vgroup has_prevCos (vertex_dvert cx i) := by
    by_cases hnr : cx.armature_def_nr = -1
    · simp [vertex_weights, hnr]
    · simp [vertex_weights, vertex_dvert, hnr]
  simp only [deform_vertex, hacc1, hacc2, hw]
  rfl

/-- C18 (amended): with vertex groups and envelopes both enabled, a vertex that has
an entry resolving to a deforming bone (whatever its weight, 0 included) gets what
the iteration without the envelope flag computes, so that only group weights
contribute; a vertex none of whose entries resolves to a deforming bone (no weight
data, no entries, or entries of other groups only) gets what the iteration of the
call without vertex groups computes, the envelope falloff of all deforming bones. -/
theorem C18_envelope_fallback (fm : FloatMath R) (to_int : R → Int) (armOb : Object R)
    (target : TargetObject R) (mesh : Option (Mesh R)) (arrays : DeformArrays R)
    (numVerts : Nat) (deformflag deformflag_e : Nat) (defgrp_name : Option String)
    (gps : Option (bGPDstroke R)) (arm : bArmature R) (pose : bPose R)
    (cache : ObjectBBoneDeform R) (pdef : Nat → bPoseChanDeform R) (cx : DeformSetup R)
    (out : DeformResult R) (i : Nat)
    (harm : armOb.data = some arm) (hedbo : arm.edbo = false) (hpose : armOb.pose = some pose)
    (hcache : armOb.cached_bbone_deformation = some cache)
    (hpdef : cache.pdef_info_array = some pdef)
    (hsetup : deform_setup pose
      (invert_m4_m4 (mul_m4_m4m4 (invert_m4_m4 target.obmat) armOb.obmat))
      (mul_m4_m4m4 (invert_m4_m4 target.obmat) armOb.obmat) pdef target mesh deformflag
      defgrp_name gps = some cx)
    (henv : has_flag deformflag ARM_DEF_ENVELOPE = true)
    (hvg_e : has_flag deformflag_e ARM_DEF_VGROUP = false)
    (hrun : armature_deform_verts fm to_int armOb target mesh arrays numVerts deformflag
      defgrp_name gps = some out)
    (hi : i < numVerts) :
    ∃ s, SlotWritten arrays out.arrays i s ∧
      (cx.use_dverts = true → ∀ dv, vertex_dvert cx i = DVertPtr.valid dv →
        (∃ e ∈ dv.dw, (resolve_entry cx e).isSome = true) →
        deform_vertex fm to_int cx false (has_flag deformflag ARM_DEF_QUATERNION)
          (has_flag deformflag ARM_DEF_INVERT_VGROUP) arrays.defMats.isSome
          arrays.prevCos.isSome i (get_slot arrays i) = some s) ∧
      ((∀ dv, vertex_dvert cx i = DVertPtr.valid dv → ∀ e ∈ dv.dw, resolve_entry cx e = none) →
        deform_setup pose
          (invert_m4_m4 (mul_m4_m4m4 (invert_m4_m4 target.obmat) armOb.obmat))
          (mul_m4_m4m4 (invert_m4_m4 target.obmat) armOb.obmat) pdef target mesh deformflag_e
          defgrp_name gps = some { cx with use_dverts := false, defnrToPC := [] } ∧
        deform_vertex fm to_int { cx with use_dverts := false, defnrToPC := [] } true
          (has_flag deformflag ARM_DEF_QUATERNION) (has_flag deformflag ARM_DEF_INVERT_VGROUP)
          arrays.defMats.isSome arrays.prevCos.isSome i (get_slot arrays i) = some s) := by
  obtain ⟨s, hs, hw⟩ := deform_verts_run_at fm to_int armOb target mesh arrays numVerts
    deformflag defgrp_name gps arm pose cache pdef cx out harm hedbo hpose hcache hpdef hsetup
    hrun i hi
  rw [henv] at hs
  refine ⟨s, hw, ?_, ?_⟩
  · intro hud dv hdv hres
    rw [← deform_vertex_group_only fm to_int cx true _ _ _ _ i _ dv hud hdv hres]
    exact hs
  · intro hres
    refine ⟨deform_setup_no_vgroup _ _ _ _ _ _ _ _ _ _ _ hsetup hvg_e, ?_⟩
    have hinv : vertex_dvert cx i ≠ DVertPtr.invalid := by
      intro hinv
      by_cases hnr : cx.armature_def_nr = -1
      · cases hud : cx.use_dverts
        · simp [vertex_dvert, hud, hnr] at hinv
        · simp [deform_vertex, hinv, vertex_weights, hnr, vertex_accumulate, hud] at hs
      · simp [deform_vertex, hinv, vertex_weights, hnr] at hs
    rw [← deform_vertex_envelope_only fm to_int cx _ _ _ _ i _ hinv hres]
    exact hs

end EnvelopeFallback

section EnvelopeFallbackExamples

/-- Without `defMats` the block `if (contrib > 0.0001f)` leaves the matrix alone. -/
theorem vertex_apply_no_defMats {R : Type} [LinearOrderedField R] (cx : DeformSetup R)
    (use_quaternion : Bool) (aw contrib : R) (sums : DeformSums R) (co : V3 R) (defMat : M3 R) :
    (vertex_apply cx use_quaternion false aw contrib sums co defMat).2 = defMat := by
  simp only [vertex_apply, Bool.false_eq_true, if_false]
  split <;> rfl

theorem example_setup_E (deformflag : Nat) :
    deform_setup ⟨[exampleChanE ℚ], 0, ![0, 0, 0]⟩
      (invert_m4_m4 (mul_m4_m4m4 (invert_m4_m4 (exampleTargetE ℚ).obmat) 1))
      (mul_m4_m4m4 (invert_m4_m4 (exampleTargetE ℚ).obmat) 1)
      (fun _ => ⟨none, some (exampleDualQuatE ℚ), none⟩) (exampleTargetE ℚ) none deformflag
      none none = some (exampleSetupE ℚ (has_flag deformflag ARM_DEF_VGROUP)) := by
  have h1 : target_dverts (exampleTargetE ℚ) none = some ((exampleTargetE ℚ).me.dvert, 2) := rfl
  have h2 : (exampleTargetE ℚ).ob_type = OB_MESH := rfl
  have h3 : (exampleTargetE ℚ).defbase = ["E"] := rfl
  have h4 : (exampleTargetE ℚ).me.dvert.isSome = true := rfl
  have e1 : defnrToPC_entry (⟨[exampleChanE ℚ], 0, ![0, 0, 0]⟩ : bPose ℚ) "E"
      = some (some (exampleChanE ℚ, 0)) := by
    have g1 : BKE_pose_channel_find_name (⟨[exampleChanE ℚ], 0, ![0, 0, 0]⟩ : bPose ℚ) "E"
        = some (exampleChanE ℚ) := rfl
    have g2 : (exampleChanE ℚ).bone = some (exampleBoneE ℚ) := rfl
    have g3 : has_flag (exampleBoneE ℚ).flag BONE_NO_DEFORM = false := by
      simp [exampleBoneE, has_flag, BONE_NO_DEFORM]
    simp only [defnrToPC_entry, g1, g2, g3]
    rfl
  cases hb : has_flag deformflag ARM_DEF_VGROUP
  · simp only [deform_setup, h1, hb, h2, h3]
    rfl
  · simp only [deform_setup, h1, hb, h2, h3, h4, true_or, and_self, if_true, defnrToPC_table, e1,
      Option.map_some']
    rfl

theorem example_mats_E (b : Bool) :
    (exampleSetupE ℚ b).premat = 1 ∧ (exampleSetupE ℚ b).postmat = 1 := by
  have h := @example_mats_one ℚ _
  exact ⟨h.2, h.1⟩

theorem example_dvert_E (i : Nat) (hi : i < 2) :
    vertex_dvert (exampleSetupE ℚ true) i
      = DVertPtr.valid (if i = 0 then ⟨[⟨0, 0⟩]⟩ else ⟨[⟨0, 1 / 2⟩]⟩) := by
  simp [vertex_dvert, exampleSetupE, exampleTargetE, hi]

theorem example_weights_E (b iv pc : Bool) (d : DVertPtr ℚ) :
    vertex_weights (exampleSetupE ℚ b) iv pc d = some (1, 1) := by
  simp [vertex_weights, exampleSetupE]

theorem example_envelope_E :
    envelope_loop ratMath (fun _ => 0) (exampleSetupE ℚ false).pdef_info_array true false
      ![0, 1 / 2, 0] (exampleSetupE ℚ false).chanbase 0 ⟨fun _ => 0, zero_dq, 0⟩ 0
      = some (⟨![1, 0, 0], zero_dq, 0⟩, 1) := by
  have hb : (exampleChanE ℚ).bone = some (exampleBoneE ℚ) := rfl
  have hf : has_flag (exampleBoneE ℚ).flag BONE_NO_DEFORM = false := by
    simp [exampleBoneE, has_flag, BONE_NO_DEFORM]
  have hd : distfactor_to_bone ratMath ![0, 1 / 2, 0] (exampleBoneE ℚ).arm_head
      (exampleBoneE ℚ).arm_tail (exampleBoneE ℚ).rad_head (exampleBoneE ℚ).rad_tail
      (exampleBoneE ℚ).dist = 1 := by
    have q1 : Rat.sqrt 1 = 1 := by simp [Rat.sqrt]
    simp [distfactor_to_bone, len_v3, normalize_v3_v3, dot_v3v3, sub_v3_v3v3, ratMath, q1,
      len_squared_v3v3, exampleBoneE]
    norm_num
  have hw : (exampleBoneE ℚ).weight = 1 := rfl
  have hs : (exampleBoneE ℚ).segments = 1 := rfl
  have hc : mul_v3_m4v3 (exampleChanE ℚ).chan_mat ![0, 1 / 2, 0] = ![1, 1 / 2, 0] := by
    rw [mul_v3_m4v3_eq]
    ext k
    fin_cases k <;> simp [exampleChanE, Matrix.vecHead, Matrix.vecTail]
  simp only [exampleSetupE, envelope_loop, hb, hf, dist_bone_deform, hd, hw, hs, hc,
    deform_add_vec]
  simp
  ext k
  fin_cases k <;> simp

theorem example_group_E (ue : Bool) (w : ℚ) (co : V3 ℚ) :
    vertex_accumulate ratMath (fun _ => 0) (exampleSetupE ℚ true) ue true false
      (DVertPtr.valid ⟨[⟨0, w⟩]⟩) co
      = some (⟨fun k => if w = 0 then 0
          else (mul_v3_m4v3 (exampleChanE ℚ).chan_mat co k - co k) * w, zero_dq, 0⟩, w) := by
  have hr : resolve_entry (exampleSetupE ℚ true) ⟨0, w⟩ = some (exampleChanE ℚ, 0) := by
    simp [resolve_entry, exampleSetupE]
  have hb : (exampleChanE ℚ).bone = some (exampleBoneE ℚ) := rfl
  have hm : has_flag (exampleBoneE ℚ).flag BONE_MULT_VG_ENV = false := by
    simp [exampleBoneE, has_flag, BONE_MULT_VG_ENV]
  have hs : (exampleBoneE ℚ).segments = 1 := rfl
  have ht : (exampleSetupE ℚ true).target_type = OB_MESH := rfl
  have hu : (exampleSetupE ℚ true).use_dverts = true := rfl
  by_cases h0 : w = 0
  · subst h0
    simp [vertex_accumulate, vgroup_loop, hr, vgroup_weight, hb, hm, hu, ht, OB_MESH, OB_GPENCIL,
      pchan_bone_deform]
  · simp [vertex_accumulate, vgroup_loop, hr, vgroup_weight, hb, hm, hu, ht, OB_MESH, OB_GPENCIL,
      pchan_bone_deform, h0, pchan_deform_point, hs, deform_add_vec]

/-- Fixture E, vertex 0 (an entry of weight 0 in the group of E) with vertex groups
and envelopes: the vertex stays where it is. -/
theorem example_vertex_E_group_zero (ue : Bool) (v : V3 ℚ) :
    deform_vertex ratMath (fun _ => 0) (exampleSetupE ℚ true) ue false false false false 0
      (get_slot (exampleArrays ℚ v) 0) = some ⟨v, 0, 0⟩ := by
  have hacc := example_group_E ue 0 v
  rw [deform_vertex_eq ratMath (fun _ => 0) (exampleSetupE ℚ true) ue false false false false 0
    (get_slot (exampleArrays ℚ v) 0) 1 1 0 _ (example_weights_E _ _ _ _) one_ne_zero
    (by
      rw [example_dvert_E 0 (by norm_num), (example_mats_E true).1, mul_v3_m4v3_one]
      exact hacc)]
  simp only [Bool.false_eq_true, if_false, (example_mats_E true).1, (example_mats_E true).2,
    mul_v3_m4v3_one]
  rw [vertex_apply_small _ _ _ _ _ _ _ _ (by norm_num)]
  rfl

/-- Fixture E, vertex 1 (weight 1/2 in the group of E) with vertex groups: the
vertex moves with the channel, by (1,0,0). -/
theorem example_vertex_E_group_half (ue : Bool) (v : V3 ℚ) :
    deform_vertex ratMath (fun _ => 0) (exampleSetupE ℚ true) ue false false false false 1
      (get_slot (exampleArrays ℚ v) 1) = some ⟨![v 0 + 1, v 1, v 2], 0, 0⟩ := by
  have hacc := example_group_E ue (1 / 2) v
  rw [deform_vertex_eq ratMath (fun _ => 0) (exampleSetupE ℚ true) ue false false false false 1
    (get_slot (exampleArrays ℚ v) 1) 1 1 (1 / 2) _ (example_weights_E _ _ _ _) one_ne_zero
    (by
      rw [example_dvert_E 1 (by norm_num), (example_mats_E true).1, mul_v3_m4v3_one]
      exact hacc)]
  simp only [Bool.false_eq_true, if_false, (example_mats_E true).1, (example_mats_E true).2,
    mul_v3_m4v3_one]
  rw [vertex_apply_linear _ _ _ _ _ _ _ (by norm_num)]
  have hv : (get_slot (exampleArrays ℚ v) 1).vertexCo = v := rfl
  rw [vertex_apply_no_defMats, hv, mul_v3_m4v3_eq]
  congr 2
  funext k
  fin_cases k <;> simp [exampleChanE, Matrix.vecHead, Matrix.vecTail]

/-- Fixture E, the vertex (0,1/2,0) with envelopes alone: it lies inside the envelope
of E and moves with the channel, to (1,1/2,0). -/
theorem example_vertex_E_envelope (i : Nat) :
    deform_vertex ratMath (fun _ => 0) (exampleSetupE ℚ false) true false false false false i
      (get_slot (exampleArrays ℚ ![0, 1 / 2, 0]) i) = some ⟨![1, 1 / 2, 0], 0, 0⟩ := by
  have hacc : vertex_accumulate ratMath (fun _ => 0) (exampleSetupE ℚ false) true true false
      (vertex_dvert (exampleSetupE ℚ false) i) ![0, 1 / 2, 0]
      = some (⟨![1, 0, 0], zero_dq, 0⟩, 1) := by
    have hu : (exampleSetupE ℚ false).use_dverts = false := rfl
    simp only [vertex_accumulate, hu, Bool.false_eq_true, if_false, if_true]
    exact example_envelope_E
  rw [deform_vertex_eq ratMath (fun _ => 0) (exampleSetupE ℚ false) true false false false false i
    (get_slot (exampleArrays ℚ ![0, 1 / 2, 0]) i) 1 1 1 _ (example_weights_E _ _ _ _) one_ne_zero
    (by
      rw [(example_mats_E false).1, mul_v3_m4v3_one]
      exact hacc)]
  simp only [Bool.false_eq_true, if_false, (example_mats_E false).1, (example_mats_E false).2,
    mul_v3_m4v3_one]
  rw [vertex_apply_linear _ _ _ _ _ _ _ (by norm_num)]
  have hv : (get_slot (exampleArrays ℚ ![0, 1 / 2, 0]) i).vertexCo = ![0, 1 / 2, 0] := rfl
  rw [vertex_apply_no_defMats, hv]
  congr 2
  funext k
  fin_cases k <;> simp

theorem example_run_E (deformflag numVerts : Nat) (v : V3 ℚ) (i : Nat) (hi : i < numVerts)
    (s : VertexSlot ℚ)
    (hs : deform_vertex ratMath (fun _ => 0)
      (exampleSetupE ℚ (has_flag deformflag ARM_DEF_VGROUP))
      (has_flag deformflag ARM_DEF_ENVELOPE) (has_flag deformflag ARM_DEF_QUATERNION)
      (has_flag deformflag ARM_DEF_INVERT_VGROUP) false false i
      (get_slot (exampleArrays ℚ v) i) = some s)
    (hrest : ∀ j, j < numVerts → j ≠ i →
      (deform_vertex ratMath (fun _ => 0)
        (exampleSetupE ℚ (has_flag deformflag ARM_DEF_VGROUP))
        (has_flag deformflag ARM_DEF_ENVELOPE) (has_flag deformflag ARM_DEF_QUATERNION)
        (has_flag deformflag ARM_DEF_INVERT_VGROUP) false false j
        (get_slot (exampleArrays ℚ v) j)).isSome = true) :
    ∃ out, armature_deform_verts ratMath (fun _ => 0) (exampleArmatureE ℚ) (exampleTargetE ℚ)
        none (exampleArrays ℚ v) numVerts deformflag none none = some out ∧
      out.arrays.vertexCos i = s.vertexCo := by
  obtain ⟨out, ho, hw, _⟩ := deform_verts_at ratMath (fun _ => 0) (exampleArmatureE ℚ)
    (exampleTargetE ℚ) none (exampleArrays ℚ v) numVerts deformflag none none
    ⟨[Bone.mk (exampleBoneE ℚ) []], 0, false⟩ ⟨[exampleChanE ℚ], 0, ![0, 0, 0]⟩
    ⟨some (fun _ => ⟨none, some (exampleDualQuatE ℚ), none⟩), 1⟩
    (fun _ => ⟨none, some (exampleDualQuatE ℚ), none⟩)
    (exampleSetupE ℚ (has_flag deformflag ARM_DEF_VGROUP)) rfl rfl rfl rfl rfl
    (example_setup_E deformflag) i hi s hs hrest
  exact ⟨out, ho, hw.1⟩

/-- C18, witness: fixture E with vertex groups and envelopes, two vertices at
(0,1/2,0); vertex 1 has weight 1/2 in the group of E and gets what the iteration
without envelopes computes, (1,1/2,0). -/
theorem C18_envelope_fallback_witness :
    ∃ out, armature_deform_verts ratMath (fun _ => 0) (exampleArmatureE ℚ) (exampleTargetE ℚ)
        none (exampleArrays ℚ ![0, 1 / 2, 0]) 2 (ARM_DEF_VGROUP + ARM_DEF_ENVELOPE) none none
        = some out ∧
      out.arrays.vertexCos 1 = ![1, 1 / 2, 0] ∧
      deform_vertex ratMath (fun _ => 0) (exampleSetupE ℚ true) false false false false false 1
        (get_slot (exampleArrays ℚ ![0, 1 / 2, 0]) 1) = some ⟨![1, 1 / 2, 0], 0, 0⟩ := by
  have hv : deform_vertex ratMath (fun _ => 0) (exampleSetupE ℚ true) false false false false
      false 1 (get_slot (exampleArrays ℚ ![0, 1 / 2, 0]) 1) = some ⟨![1, 1 / 2, 0], 0, 0⟩ := by
    rw [example_vertex_E_group_half false ![0, 1 / 2, 0]]
    congr 2
    funext k
    fin_cases k <;> simp
  obtain ⟨out, ho, _⟩ := example_run_E (ARM_DEF_VGROUP + ARM_DEF_ENVELOPE) 2 ![0, 1 / 2, 0] 1
    (by norm_num) _ (example_vertex_E_group_half true ![0, 1 / 2, 0])
    (by
      intro j hj hne
      have h : j = 0 := by omega
      subst h
      exact (congrArg Option.isSome (example_vertex_E_group_zero true ![0, 1 / 2, 0])).trans rfl)
  obtain ⟨s, hw, ha, _⟩ := C18_envelope_fallback ratMath (fun _ => 0) (exampleArmatureE ℚ)
    (exampleTargetE ℚ) none (exampleArrays ℚ ![0, 1 / 2, 0]) 2
    (ARM_DEF_VGROUP + ARM_DEF_ENVELOPE) ARM_DEF_ENVELOPE none none
    ⟨[Bone.mk (exampleBoneE ℚ) []], 0, false⟩ ⟨[exampleChanE ℚ], 0, ![0, 0, 0]⟩
    ⟨some (fun _ => ⟨none, some (exampleDualQuatE ℚ), none⟩), 1⟩
    (fun _ => ⟨none, some (exampleDualQuatE ℚ), none⟩) (exampleSetupE ℚ true) out 1
    rfl rfl rfl rfl rfl (example_setup_E (ARM_DEF_VGROUP + ARM_DEF_ENVELOPE)) (by decide)
    (by decide) ho (by norm_num)
  have hs := ha rfl _ (example_dvert_E 1 (by norm_num))
    ⟨⟨0, 1 / 2⟩, by simp, by simp [resolve_entry, exampleSetupE]⟩
  have hf : has_flag (ARM_DEF_VGROUP + ARM_DEF_ENVELOPE) ARM_DEF_QUATERNION = false := by decide
  have hg : has_flag (ARM_DEF_VGROUP + ARM_DEF_ENVELOPE) ARM_DEF_INVERT_VGROUP = false := by
    decide
  rw [hf, hg] at hs
  have hd : (exampleArrays ℚ ![0, 1 / 2, 0]).defMats.isSome = false := rfl
  have hp : (exampleArrays ℚ ![0, 1 / 2, 0]).prevCos.isSome = false := rfl
  rw [hd, hp, hv] at hs
  refine ⟨out, ho, ?_, hv⟩
  rw [hw.1, ← Option.some.inj hs]

/-- C18, counterexample: fixture E, one vertex at (0,1/2,0), inside the envelope of E,
whose only entry names the group of E with weight 0.  With vertex groups and
envelopes the vertex stays at (0,1/2,0); with envelopes alone it moves to
(1,1/2,0), which is where the envelope falloff of E puts it. -/
theorem C18_envelope_fallback_counterexample :
    ∃ out out_e, armature_deform_verts ratMath (fun _ => 0) (exampleArmatureE ℚ)
        (exampleTargetE ℚ) none (exampleArrays ℚ ![0, 1 / 2, 0]) 1
        (ARM_DEF_VGROUP + ARM_DEF_ENVELOPE) none none = some out ∧
      armature_deform_verts ratMath (fun _ => 0) (exampleArmatureE ℚ)
        (exampleTargetE ℚ) none (exampleArrays ℚ ![0, 1 / 2, 0]) 1 ARM_DEF_ENVELOPE none none
        = some out_e ∧
      vertex_dvert (exampleSetupE ℚ true) 0 = DVertPtr.valid ⟨[⟨0, 0⟩]⟩ ∧
      out.arrays.vertexCos 0 = ![0, 1 / 2, 0] ∧ out_e.arrays.vertexCos 0 = ![1, 1 / 2, 0] ∧
      out.arrays.vertexCos 0 ≠ out_e.arrays.vertexCos 0 := by
  obtain ⟨out, ho, hv⟩ := example_run_E (ARM_DEF_VGROUP + ARM_DEF_ENVELOPE) 1 ![0, 1 / 2, 0] 0
    (by norm_num) _ (example_vertex_E_group_zero true ![0, 1 / 2, 0])
    (fun j hj hne => absurd (Nat.lt_one_iff.mp hj) hne)
  obtain ⟨out_e, hoe, hve⟩ := example_run_E ARM_DEF_ENVELOPE 1 ![0, 1 / 2, 0] 0
    (by norm_num) _ (example_vertex_E_envelope 0)
    (fun j hj hne => absurd (Nat.lt_one_iff.mp hj) hne)
  refine ⟨out, out_e, ho, hoe, example_dvert_E 0 (by norm_num), hv, hve, ?_⟩
  rw [hv, hve]
  intro h
  have h0 := congrFun h 0
  simp at h0

end EnvelopeFallbackExamples

/-! ### Claim C15 -/

section QuaternionSingle

variable {R : Type} [LinearOrderedField R]

end QuaternionSingle

/-! ### Claim C19 -/

section PrevCosBlend

variable {R : Type} [LinearOrderedField R]

theorem deform_loop_none (body : Nat → VertexSlot R → Option (VertexSlot R)) (j : Nat)
    (hj : ∀ s, body j s = none) :
    ∀ (l : List Nat) (arrays : DeformArrays R), j ∈ l → deform_loop body l arrays = none := by
  intro l
  induction l with
  | nil => intro _ h; simp at h
  | cons i rest ih =>
    intro arrays h
    simp only [deform_loop]
    cases hb : body i (get_slot arrays i) with
    | none => rfl
    | some s =>
      rcases List.mem_cons.mp h with hji | hjr
      · subst hji
        rw [hj] at hb
        exact absurd hb (by simp)
      · exact ih _ hjr

/-- With `prevCos` the weight of the designated group is the factor of the blend: the
iteration writes `w * vertexCos[i] + (1 - w) * co` to `vertexCos[i]`, with `co` the
deformed previous position, which it leaves in `prevCos[i]`; the deformation itself
runs at armature weight 1. -/
theorem deform_vertex_prevCos (fm : FloatMath R) (to_int : R → Int) (cx : DeformSetup R)
    (use_envelope use_quaternion invert_vgroup has_defMats : Bool) (i : Nat)
    (s out : VertexSlot R)
    (hs : deform_vertex fm to_int cx use_envelope use_quaternion invert_vgroup has_defMats true
      i s = some out) :
    ∃ w, vertex_weights cx invert_vgroup true (vertex_dvert cx i) = some (1, w) ∧
      (w = if cx.armature_def_nr ≠ -1 then
          match vertex_dvert cx i with
          | DVertPtr.valid dv =>
            if invert_vgroup then 1 - defvert_find_weight dv cx.armature_def_nr
            else defvert_find_weight dv cx.armature_def_nr
          | _ => 1
        else 1) ∧
      out.vertexCo = (fun k => w * s.vertexCo k + (1 - w) * out.prevCo k) ∧
      ∃ sums contrib, vertex_accumulate fm to_int cx use_envelope (!use_quaternion)
          (!use_quaternion && has_defMats) (vertex_dvert cx i) (mul_v3_m4v3 cx.premat s.prevCo)
          = some (sums, contrib) ∧
        out.prevCo = mul_v3_m4v3 cx.postmat
          (vertex_apply cx use_quaternion has_defMats 1 contrib sums
            (mul_v3_m4v3 cx.premat s.prevCo) s.defMat).1 := by
  have hw : ∃ w, vertex_weights cx invert_vgroup true (vertex_dvert cx i) = some (1, w) ∧
      (w = if cx.armature_def_nr ≠ -1 then
          match vertex_dvert cx i with
          | DVertPtr.valid dv =>
            if invert_vgroup then 1 - defvert_find_weight dv cx.armature_def_nr
            else defvert_find_weight dv cx.armature_def_nr
          | _ => 1
        else 1) := by
    by_cases hnr : cx.armature_def_nr = -1
    · exact ⟨1, by simp [vertex_weights, hnr], by simp [hnr]⟩
    · cases hd : vertex_dvert cx i with
      | null => exact ⟨1, by simp [vertex_weights, hnr], by simp [hnr]⟩
      | invalid => simp [deform_vertex, vertex_weights, hnr, hd] at hs
      | valid dv =>
        refine ⟨if invert_vgroup then 1 - defvert_find_weight dv cx.armature_def_nr
          else defvert_find_weight dv cx.armature_def_nr, ?_, by simp [hnr]⟩
        simp only [vertex_weights, hnr, ne_eq, not_false_eq_true, if_true]
  obtain ⟨w, hw1, hw2⟩ := hw
  refine ⟨w, hw1, hw2, ?_⟩
  simp only [deform_vertex, hw1, one_ne_zero, if_false, if_true] at hs
  cases hacc : vertex_accumulate fm to_int cx use_envelope (!use_quaternion)
      (!use_quaternion && has_defMats) (vertex_dvert cx i) (mul_v3_m4v3 cx.premat s.prevCo) with
  | none => rw [hacc] at hs; simp at hs
  | some p =>
    obtain ⟨sums, contrib⟩ := p
    rw [hacc] at hs
    simp only [Option.some.injEq] at hs
    subst hs
    exact ⟨rfl, sums, contrib, rfl, rfl⟩

/-- C19 (failing input): a call in pose mode that is given the evaluated mesh, where
the mesh has no weight array (`mesh->dvert` is NULL) while `defgrp_name` names a
group of the target, and that has two vertices or more.  For the second vertex the
code forms `mesh->dvert + 1` from the NULL array, a pointer that is not NULL and
points nowhere, and reads the weight through it: the call has no result, where the
claim promises the factor 1. -/
theorem C19_prevcos_null_dvert (fm : FloatMath R) (to_int : R → Int) (armOb : Object R)
    (target : TargetObject R) (mesh : Mesh R) (arrays : DeformArrays R)
    (numVerts : Nat) (deformflag : Nat) (defgrp_name : Option String)
    (gps : Option (bGPDstroke R)) (arm : bArmature R) (pose : bPose R)
    (cache : ObjectBBoneDeform R) (pdef : Nat → bPoseChanDeform R)
    (harm : armOb.data = some arm) (hedbo : arm.edbo = false) (hpose : armOb.pose = some pose)
    (hcache : armOb.cached_bbone_deformation = some cache)
    (hpdef : cache.pdef_info_array = some pdef)
    (hmesh : mesh.dvert = none)
    (hgroup : defgroup_name_index target defgrp_name ≠ -1)
    (hn : 2 ≤ numVerts) :
    armature_deform_verts fm to_int armOb target (some mesh) arrays numVerts deformflag
      defgrp_name gps = none := by
  simp only [armature_deform_verts, harm, hedbo, hpose, hcache, hpdef, Option.some_bind,
    Bool.false_eq_true, if_false]
  cases hsetup : deform_setup pose
      (invert_m4_m4 (mul_m4_m4m4 (invert_m4_m4 target.obmat) armOb.obmat))
      (mul_m4_m4m4 (invert_m4_m4 target.obmat) armOb.obmat) pdef target (some mesh) deformflag
      defgrp_name gps with
  | none => rfl
  | some cx =>
    obtain ⟨_, _, _, _, hnr, _, hm⟩ := deform_setup_fields _ _ _ _ _ _ _ _ _ _ hsetup
    have hd : vertex_dvert cx 1 = DVertPtr.invalid := by
      simp [vertex_dvert, hm, hmesh, hnr, hgroup]
    simp only [Option.map_eq_none']
    apply deform_loop_none _ 1 _ _ _ (List.mem_range.mpr hn)
    intro s
    simp [deform_vertex, hd, vertex_weights, hnr, hgroup]

end PrevCosBlend

section PrevCosBlendExamples

/-- C19, witness: the example armature and target, the armature group "Mask", three
vertices with `prevCos`, and an evaluated mesh without weights. -/
theorem C19_prevcos_null_dvert_witness :
    armature_deform_verts ratMath (fun _ => 0) (exampleArmatureObject ℚ 0 1) (exampleTarget ℚ)
      (some ⟨none, 3⟩) ⟨fun _ => ![0, 4, 0], none, some (fun _ => ![0, 4, 0])⟩ 3 ARM_DEF_VGROUP
      (some "Mask") none = none :=
  C19_prevcos_null_dvert ratMath (fun _ => 0) (exampleArmatureObject ℚ 0 1) (exampleTarget ℚ)
    ⟨none, 3⟩ ⟨fun _ => ![0, 4, 0], none, some (fun _ => ![0, 4, 0])⟩ 3 ARM_DEF_VGROUP
    (some "Mask") none ⟨[Bone.mk (exampleBoneA ℚ) [Bone.mk (exampleBoneB ℚ) []]], 0, false⟩
    (examplePose ℚ 0) ⟨some (examplePdef ℚ), 2⟩ (examplePdef ℚ) rfl rfl rfl rfl rfl rfl
    (by rw [example_mask_index]; decide) (by norm_num)

end PrevCosBlendExamples

/-! ### Claims C27 and C28 -/

section BaseMatrixBranches

variable {R : Type} [LinearOrderedField R]

/-- C27 (amended): the base matrix of `vec_roll_to_mat3_normalized` for a direction
`d` with `θ = 1 + d.y` is the closed-form general matrix when `θ > 1e-5`, the
renormalised limit matrix when `1e-9 < θ <= 1e-5` and `d.x` or `d.z` is non-zero,
and the fixed matrix diag(-1,-1,1) whenever `θ <= 1e-9` (and in the remaining case
`1e-9 < θ <= 1e-5` with `d.x = d.z = 0`); for `d = (0,-1,0)` and roll 0 the result
is diag(-1,-1,1). -/
theorem C27_base_matrix_branches (nor : V3 R) :
    (THETA_THRESHOLD_NEGY_CLOSE < 1 + nor 1 →
      vec_roll_bMatrix nor =
        !![1 - nor 0 * nor 0 / (1 + nor 1), -nor 0, -nor 0 * nor 2 / (1 + nor 1);
           nor 0, nor 1, nor 2;
           -nor 0 * nor 2 / (1 + nor 1), -nor 2, 1 - nor 2 * nor 2 / (1 + nor 1)]) ∧
    (THETA_THRESHOLD_NEGY < 1 + nor 1 → 1 + nor 1 ≤ THETA_THRESHOLD_NEGY_CLOSE →
      (nor 0 ≠ 0 ∨ nor 2 ≠ 0) →
      vec_roll_bMatrix nor =
        !![(nor 0 + nor 2) * (nor 0 - nor 2) / -(nor 0 * nor 0 + nor 2 * nor 2), -nor 0,
             2 * nor 0 * nor 2 / (nor 0 * nor 0 + nor 2 * nor 2);
           nor 0, nor 1, nor 2;
           2 * nor 0 * nor 2 / (nor 0 * nor 0 + nor 2 * nor 2), -nor 2,
             -((nor 0 + nor 2) * (nor 0 - nor 2) / -(nor 0 * nor 0 + nor 2 * nor 2))]) ∧
    (1 + nor 1 ≤ THETA_THRESHOLD_NEGY →
      vec_roll_bMatrix nor = !![-1, 0, 0; 0, -1, 0; 0, 0, 1]) ∧
    (1 + nor 1 ≤ THETA_THRESHOLD_NEGY_CLOSE → nor 0 = 0 → nor 2 = 0 →
      vec_roll_bMatrix nor = !![-1, 0, 0; 0, -1, 0; 0, 0, 1]) ∧
    (∀ fm : FloatMath R, fm.sinf 0 = 0 → fm.cosf 0 = 1 →
      vec_roll_to_mat3_normalized fm ![0, -1, 0] 0 = !![-1, 0, 0; 0, -1, 0; 0, 0, 1]) := by
  refine ⟨bMatrix_general nor, ?_, bMatrix_negY nor, ?_, ?_⟩
  · intro h1 h2 h3
    exact bMatrix_near nor (not_lt.mpr h2) ⟨h3, h1⟩
  · intro h1 h2 h3
    simp only [vec_roll_bMatrix, gt_iff_lt]
    rw [if_neg]
    rintro (h | ⟨h, _⟩)
    · exact absurd (lt_of_lt_of_le h h1) (lt_irrefl _)
    · rcases h with h | h
      · exact h h2
      · exact h h3
  · intro fm hs hc
    have hb : vec_roll_bMatrix (![0, -1, 0] : V3 R) = !![-1, 0, 0; 0, -1, 0; 0, 0, 1] := by
      apply bMatrix_negY
      simp [THETA_THRESHOLD_NEGY]
    simp only [vec_roll_to_mat3_normalized, hb, axis_angle_zero fm _ 0 hs hc, mul_m3_m3m3,
      mul_one]

/-- C27, counterexample: a unit direction other than (0,-1,0), with
`1 + y = 2/10000000001 <= 1e-9`, whose base matrix is the fixed matrix
diag(-1,-1,1). -/
theorem C27_base_matrix_counterexample :
    dot_v3v3 (![200000 / 10000000001, -9999999999 / 10000000001, 0] : V3 ℚ)
        ![200000 / 10000000001, -9999999999 / 10000000001, 0] = 1 ∧
      (![200000 / 10000000001, -9999999999 / 10000000001, 0] : V3 ℚ) ≠ ![0, -1, 0] ∧
      vec_roll_bMatrix (![200000 / 10000000001, -9999999999 / 10000000001, 0] : V3 ℚ)
        = !![-1, 0, 0; 0, -1, 0; 0, 0, 1] := by
  refine ⟨by simp [dot_v3v3]; norm_num, ?_, ?_⟩
  · intro h
    have h0 := congrFun h 0
    simp at h0
  · apply bMatrix_negY
    simp [THETA_THRESHOLD_NEGY]
    norm_num

/-- C28: in the near -Y branch the two diagonal corners of the base matrix are those
of the documented limit matrix, `(z² - x²) / (x² + z²)` and `(x² - z²) / (x² + z²)`;
the two other corners are `+2xz / (x² + z²)`, the opposite of the documented
`-2xz / (x² + z²)` whenever `x` and `z` are both non-zero. -/
theorem C28_near_corners (nor : V3 R) (h1 : THETA_THRESHOLD_NEGY < 1 + nor 1)
    (h2 : 1 + nor 1 ≤ THETA_THRESHOLD_NEGY_CLOSE) (h3 : nor 0 ≠ 0 ∨ nor 2 ≠ 0) :
    vec_roll_bMatrix nor 0 0
      = (nor 2 * nor 2 - nor 0 * nor 0) / (nor 0 * nor 0 + nor 2 * nor 2) ∧
    vec_roll_bMatrix nor 2 2
      = (nor 0 * nor 0 - nor 2 * nor 2) / (nor 0 * nor 0 + nor 2 * nor 2) ∧
    vec_roll_bMatrix nor 0 2 = 2 * nor 0 * nor 2 / (nor 0 * nor 0 + nor 2 * nor 2) ∧
    vec_roll_bMatrix nor 2 0 = 2 * nor 0 * nor 2 / (nor 0 * nor 0 + nor 2 * nor 2) ∧
    (nor 0 ≠ 0 → nor 2 ≠ 0 →
      vec_roll_bMatrix nor 0 2 ≠ -(2 * nor 0 * nor 2) / (nor 0 * nor 0 + nor 2 * nor 2) ∧
      vec_roll_bMatrix nor 2 0 ≠ -(2 * nor 0 * nor 2) / (nor 0 * nor 0 + nor 2 * nor 2)) := by
  have hpos : 0 < nor 0 * nor 0 + nor 2 * nor 2 := by
    rcases h3 with h | h
    · have := mul_self_pos.mpr h
      have := mul_self_nonneg (nor 2)
      linarith
    · have := mul_self_pos.mpr h
      have := mul_self_nonneg (nor 0)
      linarith
  have hne : nor 0 * nor 0 + nor 2 * nor 2 ≠ 0 := ne_of_gt hpos
  rw [bMatrix_near nor (not_lt.mpr h2) ⟨h3, h1⟩]
  have e1 : (nor 0 + nor 2) * (nor 0 - nor 2) / -(nor 0 * nor 0 + nor 2 * nor 2)
      = (nor 2 * nor 2 - nor 0 * nor 0) / (nor 0 * nor 0 + nor 2 * nor 2) := by
    rw [div_neg, ← neg_div]
    congr 1
    ring
  have e2 : -((nor 0 + nor 2) * (nor 0 - nor 2) / -(nor 0 * nor 0 + nor 2 * nor 2))
      = (nor 0 * nor 0 - nor 2 * nor 2) / (nor 0 * nor 0 + nor 2 * nor 2) := by
    rw [div_neg, neg_neg]
    congr 1
    ring
  refine ⟨e1, e2, rfl, rfl, ?_⟩
  · intro hx hz
    have hxz : 2 * nor 0 * nor 2 ≠ 0 := mul_ne_zero (mul_ne_zero two_ne_zero hx) hz
    have key : 2 * nor 0 * nor 2 / (nor 0 * nor 0 + nor 2 * nor 2)
        ≠ -(2 * nor 0 * nor 2) / (nor 0 * nor 0 + nor 2 * nor 2) := by
      intro h
      rw [div_left_inj' hne] at h
      have : 2 * (2 * nor 0 * nor 2) = 0 := by linarith
      exact hxz (by linarith)
    exact ⟨key, key⟩

/-- C28, witness: the unit direction (1000, -499999, 1000) / 500001, with
`1 + y = 2/500001`; the corners on the diagonal are 0 and the two others are 1, where
the documented limit matrix has -1. -/
theorem C28_near_corners_witness :
    dot_v3v3 (![1000 / 500001, -499999 / 500001, 1000 / 500001] : V3 ℚ)
        ![1000 / 500001, -499999 / 500001, 1000 / 500001] = 1 ∧
      vec_roll_bMatrix (![1000 / 500001, -499999 / 500001, 1000 / 500001] : V3 ℚ) 0 2 = 1 ∧
      -(2 * (1000 / 500001 : ℚ) * (1000 / 500001))
        / (1000 / 500001 * (1000 / 500001) + 1000 / 500001 * (1000 / 500001)) = -1 := by
  have h := C28_near_corners (![1000 / 500001, -499999 / 500001, 1000 / 500001] : V3 ℚ)
    (by simp [THETA_THRESHOLD_NEGY]; norm_num) (by simp [THETA_THRESHOLD_NEGY_CLOSE]; norm_num)
    (Or.inl (by simp))
  refine ⟨by simp [dot_v3v3]; norm_num, ?_, by norm_num⟩
  rw [h.2.2.1]
  simp
  norm_num

end BaseMatrixBranches

/-! ### Claims C29 and C30 -/

section ParentFlags

theorem or_eq_zero_both (x y : Nat) (h : x ||| y = 0) : x = 0 ∧ y = 0 := by
  constructor
  · apply Nat.eq_of_testBit_eq
    intro i
    have := congrArg (fun n => Nat.testBit n i) h
    simp only [Nat.testBit_or, Nat.zero_testBit, Bool.or_eq_false_iff] at this
    simp [this.1]
  · apply Nat.eq_of_testBit_eq
    intro i
    have := congrArg (fun n => Nat.testBit n i) h
    simp only [Nat.testBit_or, Nat.zero_testBit, Bool.or_eq_false_iff] at this
    simp [this.2]

/-- The test of a mask made of two flags fails only when the test of each fails. -/
theorem has_flag_or_false (f a b : Nat) (h : has_flag f (a ||| b) = false) :
    has_flag f a = false ∧ has_flag f b = false := by
  simp only [has_flag, bne_eq_false_iff_eq, Nat.and_or_distrib_left] at h ⊢
  exact or_eq_zero_both _ _ h

variable {R : Type} [LinearOrderedField R]

/-- C30: for a bone with a parent and without `BONE_NO_LOCAL_LOCATION`, the location
matrix is `parent_pose_mat · offs_bone`, whatever the `BONE_HINGE` and
`BONE_NO_SCALE` flags are. -/
theorem C30_loc_mat (fm : FloatMath R) (bone_flag : Nat) (offs_bone parent_arm_mat
    parent_pose_mat : M4 R) (h : has_flag bone_flag BONE_NO_LOCAL_LOCATION = false) :
    (BKE_bone_parent_transform_calc_from_matrices fm bone_flag offs_bone
      (some (parent_arm_mat, parent_pose_mat))).loc_mat
      = mul_m4_m4m4 parent_pose_mat offs_bone := by
  simp only [BKE_bone_parent_transform_calc_from_matrices, h, Bool.false_eq_true, if_false]
  cases hhs : has_flag bone_flag (BONE_HINGE ||| BONE_NO_SCALE)
  · obtain ⟨hh, hs⟩ := has_flag_or_false _ _ _ hhs
    simp only [hh, hs, Bool.and_self, Bool.false_eq_true, if_false]
  · simp only [if_true]

/-- C30, witness: a hinge bone. -/
theorem C30_loc_mat_witness :
    (BKE_bone_parent_transform_calc_from_matrices ratMath BONE_HINGE
      !![1, 0, 0, 0; 0, 1, 0, 0; 0, 0, 1, 0; 0, 1, 0, 1]
      (some (1, !![0, 1, 0, 0; -1, 0, 0, 0; 0, 0, 1, 0; 0, 0, 0, 1]))).loc_mat
      = mul_m4_m4m4 !![0, 1, 0, 0; -1, 0, 0, 0; 0, 0, 1, 0; 0, 0, 0, 1]
          !![1, 0, 0, 0; 0, 1, 0, 0; 0, 0, 1, 0; 0, 1, 0, 1] :=
  C30_loc_mat ratMath BONE_HINGE _ 1 _ (by decide)

end ParentFlags

section HingeNoninterference

theorem exact_len_scaled (fm : FloatMath ℝ) (hfm : fm.Exact) (k : ℝ) (hk : 0 < k) (a b : V3 ℝ)
    (h : ∀ j, b j = k * a j) : len_v3 fm b = k * len_v3 fm a := by
  have e : dot_v3v3 b b = k ^ 2 * dot_v3v3 a a := by
    simp only [dot_v3v3, h]
    ring
  simp only [len_v3, e, hfm.1]
  rw [Real.sqrt_mul (sq_nonneg k), Real.sqrt_sq (le_of_lt hk)]

/-- The matrix `normalize_m4` makes does not change when the three axes of an
affine matrix are multiplied by positive factors. -/
theorem exact_normalize_m4_scaled (fm : FloatMath ℝ) (hfm : fm.Exact) (p q : M4 ℝ)
    (k : Fin 3 → ℝ) (hk : ∀ i, 0 < k i)
    (hq : ∀ (i : Fin 3) (j : Fin 4), q (Fin.castSucc i) j = k i * p (Fin.castSucc i) j)
    (hq3 : ∀ j, q 3 j = p 3 j) (hp : ∀ i : Fin 3, p (Fin.castSucc i) 3 = 0) :
    normalize_m4 fm q = normalize_m4 fm p := by
  have hrow : ∀ (i : Fin 3) (j : Fin 4),
      normalize_m4 fm q (Fin.castSucc i) j = normalize_m4 fm p (Fin.castSucc i) j := by
    intro i j
    have hne : (Fin.castSucc i : Fin 4) ≠ 3 := by
      fin_cases i <;> decide
    have hl : len_v3 fm (m4_axis q (Fin.castSucc i))
        = k i * len_v3 fm (m4_axis p (Fin.castSucc i)) := by
      apply exact_len_scaled fm hfm (k i) (hk i)
      intro j
      fin_cases j <;> simp [m4_axis, hq]
    simp only [normalize_m4, hne, if_false, hl]
    by_cases hj : j = 3
    · subst hj
      simp [hq, hp]
    · simp only [hj, if_false, hq]
      rw [mul_div_mul_left _ _ (ne_of_gt (hk i))]
  ext i j
  refine Fin.lastCases ?_ (fun i' => hrow i' j) i
  have e : (Fin.last 3 : Fin 4) = 3 := rfl
  simp only [e, normalize_m4, if_true, hq3]

/-- C29: for a bone with a parent and `BONE_HINGE`, the matrix `rotscale_mat` is
`parent_arm_mat · offs_bone` when `BONE_NO_SCALE` is set too, whatever the parent
pose matrix is, and is the same for two parent pose matrices whose axes have the
same lengths; with `BONE_NO_SCALE` alone it does not change when the three axes of
an affine parent pose matrix are multiplied by positive factors. -/
theorem C29_hinge_noninterference (fm : FloatMath ℝ) (hfm : fm.Exact) (bone_flag : Nat)
    (offs_bone parent_arm_mat p q : M4 ℝ) :
    (has_flag bone_flag BONE_HINGE = true → has_flag bone_flag BONE_NO_SCALE = true →
      (BKE_bone_parent_transform_calc_from_matrices fm bone_flag offs_bone
        (some (parent_arm_mat, p))).rotscale_mat = mul_m4_m4m4 parent_arm_mat offs_bone) ∧
    (has_flag bone_flag BONE_HINGE = true → mat4_to_size fm p = mat4_to_size fm q →
      (BKE_bone_parent_transform_calc_from_matrices fm bone_flag offs_bone
        (some (parent_arm_mat, p))).rotscale_mat
      = (BKE_bone_parent_transform_calc_from_matrices fm bone_flag offs_bone
        (some (parent_arm_mat, q))).rotscale_mat) ∧
    (has_flag bone_flag BONE_HINGE = false → has_flag bone_flag BONE_NO_SCALE = true →
      ∀ k : Fin 3 → ℝ, (∀ i, 0 < k i) →
      (∀ (i : Fin 3) (j : Fin 4), q (Fin.castSucc i) j = k i * p (Fin.castSucc i) j) →
      (∀ j, q 3 j = p 3 j) → (∀ i : Fin 3, p (Fin.castSucc i) 3 = 0) →
      (BKE_bone_parent_transform_calc_from_matrices fm bone_flag offs_bone
        (some (parent_arm_mat, q))).rotscale_mat
      = (BKE_bone_parent_transform_calc_from_matrices fm bone_flag offs_bone
        (some (parent_arm_mat, p))).rotscale_mat) := by
  refine ⟨?_, ?_, ?_⟩
  · intro hh hs
    simp only [BKE_bone_parent_transform_calc_from_matrices, hh, hs, Bool.and_self, if_true]
  · intro hh hsize
    cases hs : has_flag bone_flag BONE_NO_SCALE <;>
      simp only [BKE_bone_parent_transform_calc_from_matrices, hh, hs, hsize, Bool.and_self,
        Bool.and_false, Bool.false_eq_true, if_false, if_true]
  · intro hh hs k hk hq hq3 hp
    simp only [BKE_bone_parent_transform_calc_from_matrices, hh, hs, Bool.false_and,
      Bool.false_eq_true, if_false, if_true,
      exact_normalize_m4_scaled fm hfm p q k hk hq hq3 hp]

/-- C29, witness: a hinge bone whose parent is posed at the identity or rotated by a
quarter turn about Z. -/
theorem C29_hinge_noninterference_witness :
    (BKE_bone_parent_transform_calc_from_matrices
      (FloatMath.mk Real.sqrt Real.sin Real.cos (fun y x => Complex.arg ⟨x, y⟩)) BONE_HINGE
      (1 : M4 ℝ) (some (1, 1))).rotscale_mat
    = (BKE_bone_parent_transform_calc_from_matrices
      (FloatMath.mk Real.sqrt Real.sin Real.cos (fun y x => Complex.arg ⟨x, y⟩)) BONE_HINGE
      (1 : M4 ℝ)
      (some (1, !![0, 1, 0, 0; -1, 0, 0, 0; 0, 0, 1, 0; 0, 0, 0, 1]))).rotscale_mat :=
  (C29_hinge_noninterference _ exact_mk BONE_HINGE 1 1 1
    !![0, 1, 0, 0; -1, 0, 0, 0; 0, 0, 1, 0; 0, 0, 0, 1]).2.1 (by decide)
    (by
      have h2 : (Fin.castSucc (2 : Fin 3) : Fin 4) = 2 := rfl
      ext i
      fin_cases i <;>
        simp [mat4_to_size, len_v3, dot_v3v3, m4_axis, h2, Matrix.one_apply, Matrix.vecHead,
          Matrix.vecTail])

end HingeNoninterference

/-! ### Claims C23 to C25 -/

section ChannelMatrix

variable {R : Type} [LinearOrderedField R]

/-- C23: the matrix `BKE_pchan_to_mat4` returns has the 3x3 part rotation · scale,
with the rotation of the representation that `rotmode` selects and the scale
diag(size), a fourth column (0,0,0,1), and the translation `loc` when the channel has
no bone or a bone without `BONE_CONNECTED`, (0,0,0) when the bone is connected. -/
theorem C23_pchan_to_mat4 (ext : PoseExternals R) (pchan : bPoseChannel R) :
    copy_m3_m4 (BKE_pchan_to_mat4 ext pchan)
      = mul_m3_m3m3
          (if pchan.rotmode > 0 then ext.eulO_to_mat3 pchan.eul pchan.rotmode
            else if pchan.rotmode = ROT_MODE_AXISANGLE then
              ext.axis_angle_to_mat3 pchan.rotAxis pchan.rotAngle
            else ext.quat_to_mat3 (ext.normalize_qt_qt pchan.quat))
          !![pchan.size 0, 0, 0; 0, pchan.size 1, 0; 0, 0, pchan.size 2] ∧
    (∀ i : Fin 3, BKE_pchan_to_mat4 ext pchan (Fin.castSucc i) 3 = 0) ∧
    BKE_pchan_to_mat4 ext pchan 3 3 = 1 ∧
    m4_axis (BKE_pchan_to_mat4 ext pchan) 3
      = (match pchan.bone with
        | none => pchan.loc
        | some bone => if has_flag bone.flag BONE_CONNECTED then ![0, 0, 0] else pchan.loc) := by
  have hset : ∀ (m : M3 R) (v : V3 R),
      copy_m3_m4 (m4_set_loc (copy_m4_m3 m) v) = m ∧
      (∀ i : Fin 3, m4_set_loc (copy_m4_m3 m) v (Fin.castSucc i) 3 = 0) ∧
      m4_set_loc (copy_m4_m3 m) v 3 3 = 1 ∧ m4_axis (m4_set_loc (copy_m4_m3 m) v) 3 = v := by
    intro m v
    refine ⟨?_, ?_, rfl, m4_set_loc_axis _ _⟩
    · ext i j
      fin_cases i <;> fin_cases j <;> rfl
    · intro i
      fin_cases i <;> rfl
  have hcopy : ∀ (m : M3 R),
      copy_m3_m4 (copy_m4_m3 m) = m ∧ (∀ i : Fin 3, copy_m4_m3 m (Fin.castSucc i) 3 = 0) ∧
      copy_m4_m3 m 3 3 = 1 ∧ m4_axis (copy_m4_m3 m) 3 = ![0, 0, 0] := by
    intro m
    refine ⟨?_, ?_, rfl, ?_⟩
    · ext i j
      fin_cases i <;> fin_cases j <;> rfl
    · intro i
      fin_cases i <;> rfl
    · ext j
      fin_cases j <;> rfl
  simp only [BKE_pchan_to_mat4, size_to_mat3]
  cases hb : pchan.bone with
  | none => exact hset _ _
  | some bone =>
    rcases Bool.eq_false_or_eq_true (has_flag bone.flag BONE_CONNECTED) with hc | hc
    · simp only [hc, Bool.not_true, Bool.false_eq_true, if_false, if_true]
      exact hcopy _
    · simp only [hc, Bool.not_false, if_true, Bool.false_eq_true, if_false]
      exact hset _ _

end ChannelMatrix

section CyclicOffset

variable {R : Type} [LinearOrderedField R]

/-- The function `BKE_pose_where_is_bone` as the chain of its steps, once the pose,
the bone and the composed matrix are there. -/
theorem pose_where_is_bone_steps (fm : FloatMath R) (ext : PoseExternals R) (ob : Object R)
    (pchan : bPoseChannel R) (ctime : R) (do_extra : Bool) (pose : bPose R) (bone : BoneData R)
    (pm : M4 R) (hpose : ob.pose = some pose) (hbone : pchan.bone = some bone)
    (hpm : BKE_armature_mat_bone_to_pose fm pose (pose_where_is_bone_chan_mat ext pchan do_extra)
      (pose_where_is_bone_chan_mat ext pchan do_extra).chan_mat = some pm)
    (x : bPoseChannel R)
    (hx : x = if do_extra then
        pose_where_is_bone_constraints ext ob bone ctime
          (pose_where_is_bone_cyclic_offset pose bone
            { pose_where_is_bone_chan_mat ext pchan do_extra with pose_mat := pm })
      else pose_where_is_bone_cyclic_offset pose bone
        { pose_where_is_bone_chan_mat ext pchan do_extra with pose_mat := pm }) :
    ∃ r, BKE_pose_where_is_bone fm ext ob pchan ctime do_extra = some r ∧
      r.pose_mat = x.pose_mat ∧ r.pose_head = m4_axis x.pose_mat 3 := by
  have hb2 : (pose_where_is_bone_chan_mat ext pchan do_extra).bone = some bone := by
    rw [(chan_mat_step_links ext pchan do_extra).1, hbone]
  have hxb : x.bone = some bone := by
    rw [hx]
    cases do_extra
    · simp only [Bool.false_eq_true, if_false, cyclic_offset_step_links]
      exact hb2
    · simp only [if_true, constraints_step_links, cyclic_offset_step_links]
      exact hb2
  have hrun : BKE_pose_where_is_bone fm ext ob pchan ctime do_extra
      = BKE_pose_where_is_bone_tail { x with pose_head := m4_axis x.pose_mat 3 } := by
    rw [hx]
    simp only [BKE_pose_where_is_bone, hpose, hbone, hpm]
  rw [hrun]
  cases ht : BKE_pose_where_is_bone_tail { x with pose_head := m4_axis x.pose_mat 3 } with
  | none =>
    simp only [BKE_pose_where_is_bone_tail, hxb] at ht
    exact absurd ht (by simp)
  | some r =>
    obtain ⟨h1, h2, _, _⟩ := where_is_bone_tail_spec _ _ ht
    exact ⟨r, rfl, h2, h1⟩

/-- C24: in `BKE_pose_where_is_bone`, before the constraints (here: without the extra
steps, or for a channel without constraints), the pose matrix is the one the
parent-transform composition gives, with the cyclic offset of the pose added to its
translation exactly when the channel has no parent and its bone lacks
`BONE_NO_CYCLICOFFSET`. -/
theorem C24_cyclic_offset (fm : FloatMath R) (ext : PoseExternals R) (ob : Object R)
    (pchan : bPoseChannel R) (ctime : R) (do_extra : Bool) (pose : bPose R) (bone : BoneData R)
    (pm : M4 R) (hpose : ob.pose = some pose) (hbone : pchan.bone = some bone)
    (hcons : do_extra = false ∨ pchan.has_constraints = false)
    (hpm : BKE_armature_mat_bone_to_pose fm pose (pose_where_is_bone_chan_mat ext pchan do_extra)
      (pose_where_is_bone_chan_mat ext pchan do_extra).chan_mat = some pm) :
    ∃ r, BKE_pose_where_is_bone fm ext ob pchan ctime do_extra = some r ∧
      r.pose_mat =
        (if pchan.parent = none ∧ has_flag bone.flag BONE_NO_CYCLICOFFSET = false then
          m4_set_loc pm (add_v3_v3v3 (m4_axis pm 3) pose.cyclic_offset)
        else pm) ∧
      r.pose_head = m4_axis r.pose_mat 3 := by
  have hpar : (pose_where_is_bone_chan_mat ext pchan do_extra).parent = pchan.parent :=
    (chan_mat_step_links ext pchan do_extra).2.1
  have hhc : (pose_where_is_bone_chan_mat ext pchan do_extra).has_constraints
      = pchan.has_constraints := by
    cases do_extra <;> simp [pose_where_is_bone_chan_mat, BKE_pchan_calc_mat]
  have hcyc : ∀ q : bPoseChannel R, q.parent = pchan.parent →
      (pose_where_is_bone_cyclic_offset pose bone q).pose_mat =
        (if pchan.parent = none ∧ has_flag bone.flag BONE_NO_CYCLICOFFSET = false then
          m4_set_loc q.pose_mat (add_v3_v3v3 (m4_axis q.pose_mat 3) pose.cyclic_offset)
        else q.pose_mat) ∧
      (pose_where_is_bone_cyclic_offset pose bone q).has_constraints = q.has_constraints := by
    intro q hq
    simp only [pose_where_is_bone_cyclic_offset, hq]
    cases hp : pchan.parent with
    | none =>
      rcases Bool.eq_false_or_eq_true (has_flag bone.flag BONE_NO_CYCLICOFFSET) with hf | hf <;>
        simp [hf]
    | some n => simp
  obtain ⟨c1, c3⟩ := hcyc
    { pose_where_is_bone_chan_mat ext pchan do_extra with pose_mat := pm } hpar
  have hnocons : ∀ q : bPoseChannel R, q.has_constraints = false →
      pose_where_is_bone_constraints ext ob bone ctime q = q := by
    intro q hq
    simp only [pose_where_is_bone_constraints, hq, Bool.false_eq_true, if_false]
  obtain ⟨r, hr, hm, hh⟩ := pose_where_is_bone_steps fm ext ob pchan ctime do_extra pose bone pm
    hpose hbone hpm _ rfl
  have hx : (if do_extra then
        pose_where_is_bone_constraints ext ob bone ctime
          (pose_where_is_bone_cyclic_offset pose bone
            { pose_where_is_bone_chan_mat ext pchan do_extra with pose_mat := pm })
      else pose_where_is_bone_cyclic_offset pose bone
        { pose_where_is_bone_chan_mat ext pchan do_extra with pose_mat := pm })
      = pose_where_is_bone_cyclic_offset pose bone
        { pose_where_is_bone_chan_mat ext pchan do_extra with pose_mat := pm } := by
    rcases hcons with hd | hc
    · simp only [hd, Bool.false_eq_true, if_false]
    · cases do_extra
      · simp only [Bool.false_eq_true, if_false]
      · rw [hhc, hc] at c3
        simp only [if_true, hnocons _ c3]
  rw [hx] at hm hh
  refine ⟨r, hr, ?_, ?_⟩
  · rw [hm, c1]
  · rw [hh, hm]

/-- C25: for a channel with constraints, solved with the extra steps: when its bone has
`BONE_CONNECTED` the translation of `pose_mat`, and `pose_head`, are the translation
computed before the constraint solver ran, and the other rows are those of the
solver; when the bone is not connected `pose_mat` is what the solver produced,
translation included. -/
theorem C25_connected_translation (fm : FloatMath R) (ext : PoseExternals R) (ob : Object R)
    (pchan : bPoseChannel R) (ctime : R) (pose : bPose R) (bone : BoneData R) (pm : M4 R)
    (hpose : ob.pose = some pose) (hbone : pchan.bone = some bone)
    (hcons : pchan.has_constraints = true)
    (hpm : BKE_armature_mat_bone_to_pose fm pose (pose_where_is_bone_chan_mat ext pchan true)
      (pose_where_is_bone_chan_mat ext pchan true).chan_mat = some pm) :
    ∃ r, BKE_pose_where_is_bone fm ext ob pchan ctime true = some r ∧
      r.pose_head = m4_axis r.pose_mat 3 ∧
      (has_flag bone.flag BONE_CONNECTED = true →
        m4_axis r.pose_mat 3
          = m4_axis (pose_where_is_bone_cyclic_offset pose bone
              { pose_where_is_bone_chan_mat ext pchan true with pose_mat := pm }).pose_mat 3 ∧
        ∀ (i : Fin 3) (j : Fin 4), r.pose_mat (Fin.castSucc i) j
          = ext.constraints_solve ob (pose_where_is_bone_cyclic_offset pose bone
              { pose_where_is_bone_chan_mat ext pchan true with pose_mat := pm }) ctime
              (Fin.castSucc i) j) ∧
      (has_flag bone.flag BONE_CONNECTED = false →
        r.pose_mat = ext.constraints_solve ob (pose_where_is_bone_cyclic_offset pose bone
          { pose_where_is_bone_chan_mat ext pchan true with pose_mat := pm }) ctime) := by
  have hhc : (pose_where_is_bone_chan_mat ext pchan true).has_constraints = true := by
    simp [pose_where_is_bone_chan_mat, BKE_pchan_calc_mat, hcons]
  have hc3 : (pose_where_is_bone_cyclic_offset pose bone
      { pose_where_is_bone_chan_mat ext pchan true with pose_mat := pm }).has_constraints
      = true := by
    simp only [pose_where_is_bone_cyclic_offset]
    split_ifs <;> exact hhc
  obtain ⟨r, hr, hm, hh⟩ := pose_where_is_bone_steps fm ext ob pchan ctime true pose bone pm
    hpose hbone hpm _ rfl
  simp only [if_true] at hm hh
  refine ⟨r, hr, by rw [hh, hm], ?_, ?_⟩
  · intro hconn
    rw [hm]
    simp only [pose_where_is_bone_constraints, hc3, if_true, hconn]
    refine ⟨m4_set_loc_axis _ _, ?_⟩
    intro i j
    have hne : (Fin.castSucc i : Fin 4) ≠ 3 := by
      fin_cases i <;> decide
    exact m4_set_loc_row _ _ _ _ hne
  · intro hconn
    rw [hm]
    simp only [pose_where_is_bone_constraints, hc3, if_true, hconn, Bool.false_eq_true,
      if_false]

end CyclicOffset

section CyclicOffsetExamples

/-- C24, witness: the example root channel in a pose with the cyclic offset (5,0,0). -/
theorem C24_cyclic_offset_witness :
    ∃ pm r,
      BKE_armature_mat_bone_to_pose ratMath ⟨[exampleChannel], 0, ![5, 0, 0]⟩
        (pose_where_is_bone_chan_mat (noExternals ℚ) exampleChannel false)
        (pose_where_is_bone_chan_mat (noExternals ℚ) exampleChannel false).chan_mat = some pm ∧
      BKE_pose_where_is_bone ratMath (noExternals ℚ)
        ⟨OB_ARMATURE, none, some ⟨[exampleChannel], 0, ![5, 0, 0]⟩, 1, 1, none⟩
        exampleChannel 1 false = some r ∧
      r.pose_mat =
        (if exampleChannel.parent = none ∧
            has_flag exampleBone.flag BONE_NO_CYCLICOFFSET = false then
          m4_set_loc pm (add_v3_v3v3 (m4_axis pm 3) ![5, 0, 0])
        else pm) ∧
      r.pose_head = m4_axis r.pose_mat 3 := by
  obtain ⟨pm, hpm⟩ := Option.isSome_iff_exists.mp
    (show (BKE_armature_mat_bone_to_pose ratMath ⟨[exampleChannel], 0, ![5, 0, 0]⟩
      (pose_where_is_bone_chan_mat (noExternals ℚ) exampleChannel false)
      (pose_where_is_bone_chan_mat (noExternals ℚ) exampleChannel false).chan_mat).isSome = true
      from rfl)
  obtain ⟨r, hr, hm, hh⟩ := C24_cyclic_offset ratMath (noExternals ℚ)
    ⟨OB_ARMATURE, none, some ⟨[exampleChannel], 0, ![5, 0, 0]⟩, 1, 1, none⟩ exampleChannel 1
    false ⟨[exampleChannel], 0, ![5, 0, 0]⟩ exampleBone pm rfl rfl (Or.inl rfl) hpm
  exact ⟨pm, r, hpm, hr, hm, hh⟩

/-- C25, witness: the example root channel, with constraints, its bone connected or
not; the solver of `noExternals` returns the matrix it is given. -/
theorem C25_connected_translation_witness :
    ∃ pm r,
      BKE_armature_mat_bone_to_pose ratMath ⟨[exampleChannel], 0, ![5, 0, 0]⟩
        (pose_where_is_bone_chan_mat (noExternals ℚ)
          { exampleChannel with has_constraints := true } true)
        (pose_where_is_bone_chan_mat (noExternals ℚ)
          { exampleChannel with has_constraints := true } true).chan_mat = some pm ∧
      BKE_pose_where_is_bone ratMath (noExternals ℚ)
        ⟨OB_ARMATURE, none, some ⟨[exampleChannel], 0, ![5, 0, 0]⟩, 1, 1, none⟩
        { exampleChannel with has_constraints := true } 1 true = some r ∧
      r.pose_head = m4_axis r.pose_mat 3 := by
  obtain ⟨pm, hpm⟩ := Option.isSome_iff_exists.mp
    (show (BKE_armature_mat_bone_to_pose ratMath ⟨[exampleChannel], 0, ![5, 0, 0]⟩
      (pose_where_is_bone_chan_mat (noExternals ℚ)
        { exampleChannel with has_constraints := true } true)
      (pose_where_is_bone_chan_mat (noExternals ℚ)
        { exampleChannel with has_constraints := true } true).chan_mat).isSome = true
      from rfl)
  obtain ⟨r, hr, hh, _⟩ := C25_connected_translation ratMath (noExternals ℚ)
    ⟨OB_ARMATURE, none, some ⟨[exampleChannel], 0, ![5, 0, 0]⟩, 1, 1, none⟩
    { exampleChannel with has_constraints := true } 1 ⟨[exampleChannel], 0, ![5, 0, 0]⟩
    exampleBone pm rfl rfl rfl hpm
  exact ⟨pm, r, hpm, hr, hh⟩

end CyclicOffsetExamples

/-! ## Theorems: range of the envelope weight -/

section EnvelopeRange

theorem falloff_spec_range (d rad rdist : ℝ) (hd : 0 ≤ rdist) :
    0 ≤ envelope_falloff_spec d rad rdist ∧ envelope_falloff_spec d rad rdist ≤ 1 := by
  simp only [envelope_falloff_spec]
  by_cases c1 : d < rad
  · simp [c1]
  · simp only [c1, if_false]
    by_cases c2 : rdist = 0 ∨ d ≥ rad + rdist
    · simp [c2]
    · simp only [c2, if_false]
      push_neg at c1 c2
      have hpos : 0 < rdist := lt_of_le_of_ne hd (Ne.symm c2.1)
      have hq : (d - rad) ^ 2 / rdist ^ 2 ≤ 1 := by
        rw [div_le_one (by positivity)]
        nlinarith [c2.2]
      have hq0 : 0 ≤ (d - rad) ^ 2 / rdist ^ 2 := by positivity
      constructor <;> linarith

theorem exact_normalize_sq_le_one (fm : FloatMath ℝ) (hfm : fm.Exact) (d : V3 ℝ) :
    dot_v3v3 (normalize_v3_v3 fm d) (normalize_v3_v3 fm d) ≤ 1 := by
  by_cases h : d = 0
  · subst h
    simp [normalize_v3_v3, dot_v3v3]
  · exact le_of_eq (exact_normalize_unit fm hfm d h)

theorem perp_sq_nonneg (u p : V3 ℝ) (hu : dot_v3v3 u u ≤ 1) :
    0 ≤ dot_v3v3 p p - dot_v3v3 u p * dot_v3v3 u p := by
  have hcs : dot_v3v3 u p * dot_v3v3 u p ≤ dot_v3v3 u u * dot_v3v3 p p := by
    simp only [dot_v3v3]
    nlinarith [sq_nonneg (u 0 * p 1 - u 1 * p 0), sq_nonneg (u 0 * p 2 - u 2 * p 0),
      sq_nonneg (u 1 * p 2 - u 2 * p 1)]
  have hp := dot_self_nonneg p
  nlinarith

/-! ### Claim C39 -/

/-- C39 (amended): with the float operations read as exact real arithmetic and `sqrtf`
as the exact square root, for all points and all non-negative radii and falloff
distance, `distfactor_to_bone` lies in `[0, 1]`; the squared perpendicular distance
`|p|² - (p·u)²` it computes is non-negative, as are the two squared end distances, so
the square root is only taken of non-negative values; and for `b1 = b2` the result is
the spherical falloff around `b1` with radius `rad1`. -/
theorem C39_distfactor_range (fm : FloatMath ℝ) (hfm : fm.Exact) (vec b1 b2 : V3 ℝ)
    (rad1 rad2 rdist : ℝ) (h1 : 0 ≤ rad1) (h2 : 0 ≤ rad2) (hd : 0 ≤ rdist) :
    0 ≤ distfactor_to_bone fm vec b1 b2 rad1 rad2 rdist ∧
    distfactor_to_bone fm vec b1 b2 rad1 rad2 rdist ≤ 1 ∧
    0 ≤ dot_v3v3 (sub_v3_v3v3 vec b1) (sub_v3_v3v3 vec b1)
        - dot_v3v3 (normalize_v3_v3 fm (sub_v3_v3v3 b2 b1)) (sub_v3_v3v3 vec b1)
          * dot_v3v3 (normalize_v3_v3 fm (sub_v3_v3v3 b2 b1)) (sub_v3_v3v3 vec b1) ∧
    0 ≤ len_squared_v3v3 b1 vec ∧ 0 ≤ len_squared_v3v3 b2 vec ∧
    (b1 = b2 → distfactor_to_bone fm vec b1 b2 rad1 rad2 rdist
      = envelope_falloff_spec (len_v3 fm (sub_v3_v3v3 vec b1)) rad1 rdist) := by
  have hperp := perp_sq_nonneg (normalize_v3_v3 fm (sub_v3_v3v3 b2 b1)) (sub_v3_v3v3 vec b1)
    (exact_normalize_sq_le_one fm hfm _)
  have hl0 : 0 ≤ len_v3 fm (sub_v3_v3v3 b2 b1) := by
    simp only [len_v3, hfm.1]
    exact Real.sqrt_nonneg _
  have hrange : 0 ≤ distfactor_to_bone fm vec b1 b2 rad1 rad2 rdist ∧
      distfactor_to_bone fm vec b1 b2 rad1 rad2 rdist ≤ 1 := by
    simp only [distfactor_to_bone, hfm.1]
    generalize len_v3 fm (sub_v3_v3v3 b2 b1) = l at hl0 ⊢
    generalize dot_v3v3 (normalize_v3_v3 fm (sub_v3_v3v3 b2 b1)) (sub_v3_v3v3 vec b1) = t
      at hperp ⊢
    by_cases c1 : t < 0
    · simp only [c1, if_true]
      rw [falloff_code_eq_spec (len_squared_v3v3 b1 vec) _ _ (dot_self_nonneg _) h1 hd]
      exact falloff_spec_range _ _ _ hd
    · simp only [c1, if_false]
      by_cases c2 : t > l
      · simp only [c2, if_true]
        rw [falloff_code_eq_spec (len_squared_v3v3 b2 vec) _ _ (dot_self_nonneg _) h2 hd]
        exact falloff_spec_range _ _ _ hd
      · simp only [c2, if_false]
        by_cases c3 : l ≠ 0
        · rw [if_pos c3]
          have hl : 0 < l := lt_of_le_of_ne hl0 (Ne.symm c3)
          have ht0 : 0 ≤ t / l := div_nonneg (not_lt.mp c1) hl.le
          have ht1 : t / l ≤ 1 := (div_le_one hl).mpr (not_lt.mp c2)
          have hrad0 : 0 ≤ t / l * rad2 + (1 - t / l) * rad1 := by
            have := mul_nonneg ht0 h2
            have := mul_nonneg (sub_nonneg.mpr ht1) h1
            linarith
          rw [falloff_code_eq_spec _ _ _ hperp hrad0 hd]
          exact falloff_spec_range _ _ _ hd
        · rw [if_neg c3]
          rw [falloff_code_eq_spec _ _ _ hperp h1 hd]
          exact falloff_spec_range _ _ _ hd
  refine ⟨hrange.1, hrange.2, hperp, dot_self_nonneg _, dot_self_nonneg _, ?_⟩
  intro hb
  subst hb
  have hz : sub_v3_v3v3 b1 b1 = 0 := by
    ext k; simp [sub_v3_v3v3]
  have hn : normalize_v3_v3 fm (0 : V3 ℝ) = 0 := by
    ext k; simp [normalize_v3_v3]
  have hd0 : ∀ p : V3 ℝ, dot_v3v3 (0 : V3 ℝ) p = 0 := by
    intro p; simp [dot_v3v3]
  have hs0 : fm.sqrtf 0 = 0 := by rw [hfm.1]; exact Real.sqrt_zero
  simp only [distfactor_to_bone, hz, hn, hd0, len_v3, hs0, lt_irrefl, if_false, gt_iff_lt,
    ne_eq, not_true_eq_false, mul_zero, sub_zero]
  rw [hfm.1, falloff_code_eq_spec _ _ _ (dot_self_nonneg _) h1 hd]

/-- C39, witness: the point (1, 1/2, 0) and the zero-length bone at the origin, radii
1/2, falloff distance 1. -/
theorem C39_distfactor_range_witness :
    0 ≤ distfactor_to_bone
        (FloatMath.mk Real.sqrt Real.sin Real.cos (fun y x => Complex.arg ⟨x, y⟩))
        ![1, 1 / 2, 0] ![0, 0, 0] ![0, 0, 0] (1 / 2) (1 / 2) 1 ∧
    distfactor_to_bone
        (FloatMath.mk Real.sqrt Real.sin Real.cos (fun y x => Complex.arg ⟨x, y⟩))
        ![1, 1 / 2, 0] ![0, 0, 0] ![0, 0, 0] (1 / 2) (1 / 2) 1 ≤ 1 :=
  ⟨(C39_distfactor_range _ (exact_mk) _ _ _ _ _ _ (by norm_num) (by norm_num)
      (by norm_num)).1,
   (C39_distfactor_range _ (exact_mk) _ _ _ _ _ _ (by norm_num) (by norm_num)
      (by norm_num)).2.1⟩

end EnvelopeRange

/-! ## Theorems: B-Bone segment selection -/

section SegmentIndex

variable {R : Type} [LinearOrderedField R]

/-! ### Claim C37 -/

/-- C37: for a bone with `segments ≥ 1`, the segment index of `b_bone_deform` is
`clamp(to_int (y / (length / segments)), 0, segments - 1)` with `y` the Y coordinate
of `b_bone_mats[0]` applied to `co`; so `0 ≤ a < segments` and `1 ≤ a + 1 ≤ segments`,
and the two variants of the function read only `b_bone_mats[0]` and `b_bone_mats[a+1]`,
respectively `b_bone_dual_quats[a]`. -/
theorem C37_segment_index (to_int : R → Int) (b_bone : Nat → M4 R) (bone : BoneData R)
    (co : V3 R) (hs : 1 ≤ bone.segments) :
    ((b_bone_deform_segment to_int b_bone bone co : Nat) : Int)
      = max 0 (min (to_int ((b_bone 0 0 1 * co 0 + b_bone 0 1 1 * co 1 + b_bone 0 2 1 * co 2
            + b_bone 0 3 1) / (bone.length / (bone.segments : R))))
          ((bone.segments : Int) - 1)) ∧
    b_bone_deform_segment to_int b_bone bone co < bone.segments ∧
    1 ≤ b_bone_deform_segment to_int b_bone bone co + 1 ∧
    b_bone_deform_segment to_int b_bone bone co + 1 ≤ bone.segments ∧
    (∀ dq dqs, b_bone_deform_mat to_int ⟨some b_bone, dq, dqs⟩ bone co
      = some (mul_v3_m4v3 (b_bone (b_bone_deform_segment to_int b_bone bone co + 1)) co,
          copy_m3_m4 (b_bone (b_bone_deform_segment to_int b_bone bone co + 1)))) ∧
    (∀ dq dqs, b_bone_deform_dq to_int ⟨some b_bone, dq, some dqs⟩ bone co
      = some (dqs (b_bone_deform_segment to_int b_bone bone co))) ∧
    (∀ b_bone2 : Nat → M4 R, b_bone2 0 = b_bone 0 →
      b_bone_deform_segment to_int b_bone2 bone co
        = b_bone_deform_segment to_int b_bone bone co) := by
  have hs1 : (1 : Int) ≤ (bone.segments : Int) := by exact_mod_cast hs
  have key : ((b_bone_deform_segment to_int b_bone bone co : Nat) : Int)
      = max 0 (min (to_int ((b_bone 0 0 1 * co 0 + b_bone 0 1 1 * co 1 + b_bone 0 2 1 * co 2
            + b_bone 0 3 1) / (bone.length / (bone.segments : R))))
          ((bone.segments : Int) - 1)) := by
    simp only [b_bone_deform_segment]
    generalize to_int _ = a
    split_ifs with h1 h2
    · simp only [Int.toNat_zero, Nat.cast_zero]
      omega
    · rw [Int.toNat_of_nonneg (by omega)]
      omega
    · rw [Int.toNat_of_nonneg (by omega)]
      omega
  have hlt : b_bone_deform_segment to_int b_bone bone co < bone.segments := by
    have h := key
    generalize to_int _ = a at h
    omega
  refine ⟨key, hlt, by omega, by omega, ?_, ?_, ?_⟩
  · intro dq dqs
    rfl
  · intro dq dqs
    rfl
  · intro b_bone2 h0
    simp only [b_bone_deform_segment, h0]

/-- C37, witness: a bone of length 2 with 4 segments. -/
theorem C37_segment_index_witness :
    b_bone_deform_segment (fun q : ℚ => Int.floor q) (fun _ => (1 : M4 ℚ))
        ⟨"Bone", 0, ![0, 0, 0], ![0, 2, 0], 0, 2, 0, 0, 4, 1, 1, ![0, 0, 0], ![0, 2, 0],
          0, 0, 0, 0⟩ ![0, 5, 0] < 4 :=
  (C37_segment_index (fun q : ℚ => Int.floor q) (fun _ => (1 : M4 ℚ))
    ⟨"Bone", 0, ![0, 0, 0], ![0, 2, 0], 0, 2, 0, 0, 4, 1, 1, ![0, 0, 0], ![0, 2, 0],
      0, 0, 0, 0⟩ ![0, 5, 0] (by decide)).2.1

end SegmentIndex

/-! ## Theorems: IK chain root -/

section IKRootTheorems

variable {α : Type}

theorem ik_solver_find_root_loop_spec (parent : α → Option α) (rootbone : Int) (top : α)
    (htop : parent top = none) :
    ∀ (D fuel : Nat) (x : α) (segcount : Int), ancestor_spec parent D x = some top → D < fuel →
      ik_solver_find_root_loop parent rootbone fuel x segcount
        = ancestor_spec parent
            (if 0 ≤ rootbone - segcount - 1 ∧ rootbone - segcount - 1 < (D : Int)
              then (rootbone - segcount - 1).toNat else D) x := by
  intro D
  induction D with
  | zero =>
    intro fuel x segcount hx hf
    obtain ⟨f, rfl⟩ : ∃ f, fuel = f + 1 := ⟨fuel - 1, by omega⟩
    simp only [ancestor_spec, Option.some.injEq] at hx
    subst hx
    have hc : ¬ (0 ≤ rootbone - segcount - 1 ∧ rootbone - segcount - 1 < ((0 : Nat) : Int)) := by
      simp only [Nat.cast_zero]
      omega
    simp only [ik_solver_find_root_loop, htop, if_neg hc, ancestor_spec]
  | succ D ih =>
    intro fuel x segcount hx hf
    obtain ⟨f, rfl⟩ : ∃ f, fuel = f + 1 := ⟨fuel - 1, by omega⟩
    simp only [ancestor_spec] at hx
    cases hp : parent x with
    | none => simp [hp] at hx
    | some p =>
      simp only [hp, Option.some_bind] at hx
      simp only [ik_solver_find_root_loop, hp]
      by_cases hb : segcount + 1 = rootbone
      · have hc : 0 ≤ rootbone - segcount - 1 ∧ rootbone - segcount - 1 < ((D + 1 : Nat) : Int) := by
          push_cast
          omega
        have hk : (rootbone - segcount - 1).toNat = 0 := by omega
        simp only [hb, if_true, if_pos hc, hk, ancestor_spec]
      · simp only [hb, if_false]
        rw [ih f p (segcount + 1) hx (by omega)]
        by_cases hc : 0 ≤ rootbone - segcount - 1 ∧ rootbone - segcount - 1 < ((D + 1 : Nat) : Int)
        · have hc2 : 0 ≤ rootbone - (segcount + 1) - 1 ∧ rootbone - (segcount + 1) - 1 < (D : Int) := by
            push_cast at hc
            omega
          have hk : (rootbone - segcount - 1).toNat = (rootbone - (segcount + 1) - 1).toNat + 1 := by
            omega
          simp only [if_pos hc, if_pos hc2, hk, ancestor_spec, hp, Option.some_bind]
        · have hc2 : ¬ (0 ≤ rootbone - (segcount + 1) - 1 ∧ rootbone - (segcount + 1) - 1 < (D : Int)) := by
            push_cast at hc
            omega
          simp only [if_neg hc, if_neg hc2, ancestor_spec, hp, Option.some_bind]

theorem ancestor_spec_le (parent : α → Option α) (top : α) :
    ∀ (D : Nat) (x : α), ancestor_spec parent D x = some top →
      ∀ k, k ≤ D → ∃ r, ancestor_spec parent k x = some r := by
  intro D
  induction D with
  | zero =>
    intro x _ k hk
    obtain rfl : k = 0 := by omega
    exact ⟨x, rfl⟩
  | succ D ih =>
    intro x hx k hk
    cases k with
    | zero => exact ⟨x, rfl⟩
    | succ k =>
      simp only [ancestor_spec] at hx ⊢
      cases hp : parent x with
      | none => simp [hp] at hx
      | some p =>
        simp only [hp, Option.some_bind] at hx ⊢
        exact ih p hx k (by omega)

/-! ### Claim C40 -/

/-- C40: on a parent chain that ends after `D` levels at `top` (an acyclic chain),
`BKE_armature_ik_solver_find_root` ends within `D + 1` iterations and returns, with
`start` the channel itself when `CONSTRAINT_IK_TIP` is set and its parent otherwise,
the ancestor of `start` exactly `min (rootbone - 1) D` levels above it when
`rootbone ≥ 1` and the top of the hierarchy when `rootbone ≤ 0`; when the tip is
excluded and has no parent the result is NULL. -/
theorem C40_ik_find_root (parent : α → Option α) (pchan start top : α) (ik_tip : Bool)
    (rootbone : Int) (D fuel : Nat)
    (hstart : (if ik_tip then some pchan else parent pchan) = some start)
    (hD : ancestor_spec parent D start = some top) (htop : parent top = none)
    (hf : D < fuel) :
    (∃ r, ancestor_spec parent (if 1 ≤ rootbone then min (rootbone - 1).toNat D else D) start
        = some r ∧
      BKE_armature_ik_solver_find_root parent fuel pchan ik_tip rootbone = some (some r)) ∧
    (∀ q : α, parent q = none →
      BKE_armature_ik_solver_find_root parent fuel q false rootbone = some none) := by
  constructor
  · have hidx : (if 0 ≤ rootbone - 0 - 1 ∧ rootbone - 0 - 1 < (D : Int)
          then (rootbone - 0 - 1).toNat else D)
        = (if 1 ≤ rootbone then min (rootbone - 1).toNat D else D) := by
      split_ifs <;> omega
    obtain ⟨r, hr⟩ := ancestor_spec_le parent top D start hD
      (if 1 ≤ rootbone then min (rootbone - 1).toNat D else D) (by split_ifs <;> omega)
    refine ⟨r, hr, ?_⟩
    have hs : (if !ik_tip then parent pchan else some pchan) = some start := by
      cases ik_tip <;> simpa using hstart
    simp only [BKE_armature_ik_solver_find_root, hs,
      ik_solver_find_root_loop_spec parent rootbone top htop D fuel start 0 hD hf, hidx, hr,
      Option.map_some']
  · intro q hq
    simp [BKE_armature_ik_solver_find_root, hq]

/-- C40, witness: the chain 3 → 2 → 1 → 0 of natural numbers with the tip excluded
and `rootbone = 2`: the root of the IK chain is the channel 1. -/
theorem C40_ik_find_root_witness :
    BKE_armature_ik_solver_find_root (fun n : Nat => if n = 0 then none else some (n - 1)) 3 3
      false 2 = some (some 1) := by
  obtain ⟨⟨r, hr, h⟩, _⟩ := C40_ik_find_root
    (fun n : Nat => if n = 0 then none else some (n - 1)) 3 2 0 false 2 2 3 rfl rfl rfl
    (by decide)
  have h1 : r = 1 := by
    have : some (1 : Nat) = some r := hr
    exact (Option.some.inj this).symm
  rw [h, h1]

end IKRootTheorems

/-! ## Theorems: world space to pose space -/

section SpaceConversionTheorems

variable {R : Type} [LinearOrderedField R]

theorem invert_m4_m4_eq_of_mul_eq_one (m n : M4 R) (h : n * m = 1) : invert_m4_m4 m = n := by
  have hd : m.det ≠ 0 := by
    intro h0
    have := congrArg Matrix.det h
    rw [Matrix.det_mul, h0, mul_zero, Matrix.det_one] at this
    exact zero_ne_one this
  have h1 := (invert_m4_mul_cancel m hd).1
  calc invert_m4_m4 m = (n * m) * invert_m4_m4 m := by rw [h, one_mul]
    _ = n := by rw [mul_assoc, h1, mul_one]

/-- The quarter turn about Z used as object matrix in the example of C26. -/
theorem example_quarter_turn_inverse :
    invert_m4_m4 (!![0, 1, 0, 0; -1, 0, 0, 0; 0, 0, 1, 0; 0, 0, 0, 1] : M4 ℚ)
      = !![0, -1, 0, 0; 1, 0, 0, 0; 0, 0, 1, 0; 0, 0, 0, 1] := by
  apply invert_m4_m4_eq_of_mul_eq_one
  ext i j
  fin_cases i <;> fin_cases j <;>
    simp [Matrix.mul_apply, Fin.sum_univ_four, Matrix.vecHead, Matrix.vecTail]

/-! ### Claim C26 -/

/-- C26: `BKE_armature_loc_world_to_pose` returns, for a non-NULL object, the row
`inverse(obmat)[3] + inverse(obmat)[3][3] * inloc`, which is `inloc` moved by the
translation of the inverse object matrix and not `inverse(obmat)` applied to `inloc`
as a point.  For the object matrix that is a quarter turn about Z and
`inloc = (1, 0, 0)` the result is `(1, 0, 0)`, while `inverse(obmat)` applied to
`inloc` is `(0, -1, 0)` and `obmat` applied to the result is `(0, 1, 0)`. -/
theorem C26_loc_world_to_pose :
    (∀ (o : Object R) (inloc : V3 R) (nLocMat : M4 R),
      BKE_armature_loc_world_to_pose (some o) inloc nLocMat
        = fun j => invert_m4_m4 o.obmat 3 (Fin.castSucc j)
            + invert_m4_m4 o.obmat 3 3 * inloc j) ∧
    BKE_armature_loc_world_to_pose
        (some (⟨OB_ARMATURE, none, none,
          !![0, 1, 0, 0; -1, 0, 0, 0; 0, 0, 1, 0; 0, 0, 0, 1], 1, none⟩ : Object ℚ))
        ![1, 0, 0] 1 = ![1, 0, 0] ∧
    mul_v3_m4v3 (invert_m4_m4 (!![0, 1, 0, 0; -1, 0, 0, 0; 0, 0, 1, 0; 0, 0, 0, 1] : M4 ℚ))
        ![1, 0, 0] = ![0, -1, 0] ∧
    mul_v3_m4v3 (!![0, 1, 0, 0; -1, 0, 0, 0; 0, 0, 1, 0; 0, 0, 0, 1] : M4 ℚ) ![1, 0, 0]
      = ![0, 1, 0] := by
  have gen : ∀ (S : Type) [LinearOrderedField S] (o : Object S) (inloc : V3 S) (nLocMat : M4 S),
      BKE_armature_loc_world_to_pose (some o) inloc nLocMat
        = fun j => invert_m4_m4 o.obmat 3 (Fin.castSucc j)
            + invert_m4_m4 o.obmat 3 3 * inloc j := by
    intro S _ o inloc nLocMat
    simp only [BKE_armature_loc_world_to_pose, BKE_armature_mat_world_to_pose, mul_m4_m4m4,
      m4_axis, unit_m4]
    generalize invert_m4_m4 o.obmat = b
    have h2 : (Fin.castSucc (2 : Fin 3) : Fin 4) = 2 := rfl
    ext j
    fin_cases j <;>
      simp [m4_mul_apply, m4_set_loc, Matrix.one_apply, Matrix.vecHead, Matrix.vecTail, h2]
  have h2 : (Fin.castSucc (2 : Fin 3) : Fin 4) = 2 := rfl
  refine ⟨gen R, ?_, ?_, ?_⟩
  · rw [gen ℚ]
    simp only [example_quarter_turn_inverse]
    ext j
    fin_cases j <;> simp [Matrix.vecHead, Matrix.vecTail, h2]
  · rw [example_quarter_turn_inverse, mul_v3_m4v3_eq]
    ext j
    fin_cases j <;> simp [Matrix.vecHead, Matrix.vecTail]
  · rw [mul_v3_m4v3_eq]
    ext j
    fin_cases j <;> simp [Matrix.vecHead, Matrix.vecTail]

end SpaceConversionTheorems

/-! ## Theorems: the main loop of the pose solver -/

section ListFacts

variable {α : Type}

theorem list_get?_append_length (s c : List α) (x : α) :
    (s ++ x :: c).get? s.length = some x := by
  induction s with
  | nil => rfl
  | cons a s ih => simpa using ih

theorem list_set_append_length (s c : List α) (x r : α) :
    (s ++ x :: c).set s.length r = s ++ r :: c := by
  induction s with
  | nil => rfl
  | cons a s ih => simp [List.set, ih]

theorem list_drop_get? : ∀ (l : List α) (i : Nat) (x : α), l.get? i = some x →
    l.drop i = x :: l.drop (i + 1) := by
  intro l
  induction l with
  | nil => intro i x h; simp at h
  | cons a l ih =>
    intro i x h
    cases i with
    | zero =>
      simp only [List.get?, Option.some.injEq] at h
      subst h
      rfl
    | succ i =>
      simp only [List.get?] at h
      simpa using ih i x h

theorem list_find?_first (p : α → Bool) : ∀ (l : List α) (j : Nat) (x : α),
    l.get? j = some x → p x = true →
    (∀ j2 y, j2 < j → l.get? j2 = some y → p y = false) → l.find? p = some x := by
  intro l
  induction l with
  | nil => intro j x h; simp at h
  | cons a l ih =>
    intro j x h hp hfirst
    cases j with
    | zero =>
      simp only [List.get?, Option.some.injEq] at h
      subst h
      simp [List.find?, hp]
    | succ j =>
      simp only [List.get?] at h
      have ha : p a = false := hfirst 0 a (Nat.succ_pos j) rfl
      simp only [List.find?, ha]
      exact ih j x h hp (fun j2 y hj hy => hfirst (j2 + 1) y (Nat.succ_lt_succ hj) hy)

theorem list_get?_append_lt (s c : List α) (j : Nat) (h : j < s.length) :
    (s ++ c).get? j = s.get? j := by
  simp only [List.get?_eq_getElem?]
  exact List.getElem?_append_left h

end ListFacts

section PoseLoop

variable {R : Type} [LinearOrderedField R]

/-- The main loop of `BKE_pose_where_is` over the first `k` channels, for channels
without the flags `POSE_IKTREE`, `POSE_IKSPLINE` and `POSE_DONE`: the channels before
`k` are solved ones that satisfy `Q`, the others are untouched, provided each call of
`BKE_pose_where_is_bone` on such a state returns a channel that satisfies `Q`. -/
theorem pose_loop_invariant (fm : FloatMath R) (ext : PoseExternals R) (scene : Scene R)
    (ctime : R) (ob : Object R) (pose : bPose R) (Q : Nat → bPoseChannel R → Prop)
    (hflags : ∀ i c, pose.chanbase.get? i = some c →
      has_flag c.flag POSE_IKTREE = false ∧ has_flag c.flag POSE_IKSPLINE = false ∧
      has_flag c.flag POSE_DONE = false)
    (hstep : ∀ i c (s : List (bPoseChannel R)), pose.chanbase.get? i = some c → s.length = i →
      (∀ j r, s.get? j = some r → Q j r) →
      ∃ r, BKE_pose_where_is_bone fm ext
          { ob with pose := some { pose with chanbase := s ++ pose.chanbase.drop i } } c ctime true
            = some r ∧ Q i r) :
    ∀ k, k ≤ pose.chanbase.length → ∃ s : List (bPoseChannel R), s.length = k ∧
      (∀ j r, s.get? j = some r → Q j r) ∧
      (List.range k).foldlM (pose_where_is_step fm ext scene ctime)
          { ob with pose := some pose }
        = some { ob with pose := some { pose with chanbase := s ++ pose.chanbase.drop k } } := by
  intro k
  induction k with
  | zero =>
    intro _
    refine ⟨[], rfl, ?_, ?_⟩
    · intro j r h
      simp at h
    · rfl
  | succ k ih =>
    intro hk
    obtain ⟨s, hlen, hQ, hrun⟩ := ih (by omega)
    obtain ⟨c, hc⟩ : ∃ c, pose.chanbase.get? k = some c := by
      rw [List.get?_eq_getElem?]
      exact ⟨_, List.getElem?_eq_getElem (by omega)⟩
    obtain ⟨f1, f2, f3⟩ := hflags k c hc
    obtain ⟨r, hr, hQr⟩ := hstep k c s hc hlen hQ
    have hdrop := list_drop_get? pose.chanbase k c hc
    have hget : (s ++ pose.chanbase.drop k).get? k = some c := by
      rw [hdrop, ← hlen]
      exact list_get?_append_length s _ c
    have hset : (s ++ pose.chanbase.drop k).set k r
        = (s ++ [r]) ++ pose.chanbase.drop (k + 1) := by
      rw [hdrop, ← hlen, list_set_append_length]
      simp
    refine ⟨s ++ [r], by simp [hlen], ?_, ?_⟩
    · intro j q hj
      by_cases hjk : j < k
      · rw [list_get?_append_lt s [r] j (by omega)] at hj
        exact hQ j q hj
      · have hjk2 : j = s.length := by
          by_contra hne
          have : (s ++ [r]).length ≤ j := by
            simp only [List.length_append, List.length_singleton]
            omega
          rw [List.get?_eq_getElem?, List.getElem?_eq_none this] at hj
          simp at hj
        subst hjk2
        rw [list_get?_append_length s [] r] at hj
        have hq : r = q := Option.some.inj hj
        rw [← hq, hlen]
        exact hQr
    · rw [List.range_succ, List.foldlM_append, hrun]
      simp only [List.foldlM, Option.bind_eq_bind, Option.some_bind, pose_where_is_step, hget,
        f1, f2, f3, Bool.false_eq_true, if_false, Bool.not_false, if_true, hr, set_chan, hset]
      rfl

end PoseLoop

/-! ## Theorems: the pose solver on channels without constraints -/

section FlagBits

theorem testBit_clear_flag : ∀ (k f m : Nat),
    (clear_flag f m).testBit k = (f.testBit k && !m.testBit k) := by
  intro k
  induction k with
  | zero =>
    intro f m
    have h1 : (f &&& m) % 2 = 1 ↔ f % 2 = 1 ∧ m % 2 = 1 := Nat.and_mod_two_eq_one
    have h2 : f &&& m ≤ f := Nat.and_le_left
    simp only [clear_flag, Nat.testBit_zero]
    by_cases hf : f % 2 = 1 <;> by_cases hm : m % 2 = 1 <;> simp [hf, hm] <;> omega
  | succ k ih =>
    intro f m
    have h1 : (f &&& m) % 2 = 1 ↔ f % 2 = 1 ∧ m % 2 = 1 := Nat.and_mod_two_eq_one
    have h2 : f &&& m ≤ f := Nat.and_le_left
    have h3 : (f &&& m) / 2 = f / 2 &&& m / 2 := Nat.and_div_two
    have h4 : (f - (f &&& m)) / 2 = f / 2 - (f / 2 &&& m / 2) := by
      rw [← h3]
      omega
    simp only [Nat.testBit_succ]
    rw [← ih (f / 2) (m / 2)]
    simp only [clear_flag, h4]

/-- After `flag &= ~mask` the test of a bit of the mask fails. -/
theorem has_flag_clear_flag (f m k : Nat) (h : m.testBit k = true) :
    has_flag (clear_flag f m) (2 ^ k) = false := by
  have h1 : (clear_flag f m).testBit k = false := by
    rw [testBit_clear_flag, h]
    simp
  simp only [has_flag, Nat.and_two_pow, h1]
  simp

end FlagBits

section PoseSolve

variable {R : Type} [LinearOrderedField R]

theorem mat_bone_to_pose_calc_mat (fm : FloatMath R) (ext : PoseExternals R) (pose : bPose R)
    (c : bPoseChannel R) (m : M4 R) :
    BKE_armature_mat_bone_to_pose fm pose (pose_where_is_bone_chan_mat ext c true) m
      = BKE_armature_mat_bone_to_pose fm pose c m := by
  simp only [BKE_armature_mat_bone_to_pose, BKE_bone_parent_transform_calc_from_pchan,
    pose_where_is_bone_chan_mat, BKE_pchan_calc_mat, if_true]

/-- The function `BKE_pose_where_is_bone` on a channel without constraints: the
channel it returns, field by field. -/
theorem pose_where_is_bone_plain (fm : FloatMath R) (ext : PoseExternals R) (ob : Object R)
    (c : bPoseChannel R) (ctime : R) (pose : bPose R) (bone : BoneData R) (pm : M4 R)
    (hpose : ob.pose = some pose) (hbone : c.bone = some bone)
    (hcons : c.has_constraints = false)
    (hpm : BKE_armature_mat_bone_to_pose fm pose c (BKE_pchan_to_mat4 ext c) = some pm) :
    ∃ r, BKE_pose_where_is_bone fm ext ob c ctime true = some r ∧
      r.name = c.name ∧ r.bone = c.bone ∧
      r.pose_mat = (if c.parent.isNone ∧ has_flag bone.flag BONE_NO_CYCLICOFFSET = false
        then m4_set_loc pm (add_v3_v3v3 (m4_axis pm 3) pose.cyclic_offset) else pm) ∧
      r.pose_head = m4_axis r.pose_mat 3 ∧
      r.pose_tail = add_v3_v3v3 r.pose_head (mul_v3_fl (m4_axis r.pose_mat 1) bone.length) := by
  have hpm2 : BKE_armature_mat_bone_to_pose fm pose (pose_where_is_bone_chan_mat ext c true)
      (pose_where_is_bone_chan_mat ext c true).chan_mat = some pm := by
    rw [mat_bone_to_pose_calc_mat]
    exact hpm
  have hrun : BKE_pose_where_is_bone fm ext ob c ctime true
      = BKE_pose_where_is_bone_tail
          { pose_where_is_bone_constraints ext ob bone ctime
              (pose_where_is_bone_cyclic_offset pose bone
                { pose_where_is_bone_chan_mat ext c true with pose_mat := pm }) with
            pose_head := m4_axis (pose_where_is_bone_constraints ext ob bone ctime
              (pose_where_is_bone_cyclic_offset pose bone
                { pose_where_is_bone_chan_mat ext c true with pose_mat := pm })).pose_mat 3 } := by
    simp only [BKE_pose_where_is_bone, hpose, hbone, hpm2, if_true]
  rw [hrun]
  by_cases hc : c.parent.isNone ∧ has_flag bone.flag BONE_NO_CYCLICOFFSET = false
  · obtain ⟨hc1, hc2⟩ := hc
    simp only [pose_where_is_bone_constraints, pose_where_is_bone_cyclic_offset,
      pose_where_is_bone_chan_mat, BKE_pchan_calc_mat, if_true, hcons, hc1, hc2,
      Bool.false_eq_true, if_false, Bool.not_false, BKE_pose_where_is_bone_tail, hbone,
      and_self]
    exact ⟨_, rfl, rfl, rfl, rfl, rfl, rfl⟩
  · rw [if_neg hc]
    rcases Bool.eq_false_or_eq_true c.parent.isNone with hp | hp
    · rcases Bool.eq_false_or_eq_true (has_flag bone.flag BONE_NO_CYCLICOFFSET) with hf | hf
      · simp only [pose_where_is_bone_constraints, pose_where_is_bone_cyclic_offset,
          pose_where_is_bone_chan_mat, BKE_pchan_calc_mat, if_true, hcons, hp, hf,
          Bool.false_eq_true, if_false, Bool.not_true, BKE_pose_where_is_bone_tail, hbone]
        exact ⟨_, rfl, rfl, rfl, rfl, rfl, rfl⟩
      · exact absurd ⟨hp, hf⟩ hc
    · simp only [pose_where_is_bone_constraints, pose_where_is_bone_cyclic_offset,
        pose_where_is_bone_chan_mat, BKE_pchan_calc_mat, if_true, hcons, hp,
        Bool.false_eq_true, if_false, BKE_pose_where_is_bone_tail, hbone]
      exact ⟨_, rfl, rfl, rfl, rfl, rfl, rfl⟩

end PoseSolve

section PoseSolveLoop

variable {R : Type} [LinearOrderedField R]

/-- The branch of `BKE_pose_where_is` that solves the pose, when the IK hooks leave the
object as it is: every channel is solved by `BKE_pose_where_is_bone`, in the order of
the list, after the flags of the solver have been cleared. -/
theorem pose_where_is_solve_invariant (fm : FloatMath R) (ext : PoseExternals R)
    (scene : Scene R) (ctime : R)
    (hik : ∀ o, ext.BIK_initialize_tree scene o ctime = o)
    (hsp : ∀ o, ext.BKE_pose_splineik_init_tree scene o ctime = o)
    (hrel : ∀ o, ext.BIK_release_tree scene o ctime = o)
    (ob : Object R) (pose : bPose R) (hpose : ob.pose = some pose)
    (Q : Nat → bPoseChannel R → Prop)
    (hstep : ∀ i c (s : List (bPoseChannel R)), pose.chanbase.get? i = some c → s.length = i →
      (∀ j r, s.get? j = some r → Q j r) →
      ∃ r, BKE_pose_where_is_bone fm ext
          { ob with
            imat := invert_m4_m4 ob.obmat,
            pose := some { pose with chanbase := s ++ (pose.chanbase.map (fun p =>
              { p with flag := clear_flag p.flag (POSE_DONE ||| POSE_CHAIN ||| POSE_IKTREE ||| POSE_IKSPLINE) })).drop i } }
          { c with flag := clear_flag c.flag (POSE_DONE ||| POSE_CHAIN ||| POSE_IKTREE ||| POSE_IKSPLINE) } ctime true
            = some r ∧ Q i r) :
    ∃ s : List (bPoseChannel R), s.length = pose.chanbase.length ∧
      (∀ j r, s.get? j = some r → Q j r) ∧
      pose_where_is_solve fm ext scene ctime ob
        = some { ob with
            imat := invert_m4_m4 ob.obmat,
            pose := some { pose with chanbase := s } } := by
  have hmask : POSE_DONE ||| POSE_CHAIN ||| POSE_IKTREE ||| POSE_IKSPLINE = 42496 := by decide
  have hloop := pose_loop_invariant fm ext scene ctime
    { ob with imat := invert_m4_m4 ob.obmat }
    { pose with chanbase := pose.chanbase.map (fun p =>
        { p with flag := clear_flag p.flag (POSE_DONE ||| POSE_CHAIN ||| POSE_IKTREE ||| POSE_IKSPLINE) }) } Q
    (by
      intro i c0 h0
      simp only [List.get?_eq_getElem?, List.getElem?_map, Option.map_eq_some'] at h0
      obtain ⟨c, _, rfl⟩ := h0
      simp only [hmask]
      exact ⟨has_flag_clear_flag c.flag 42496 13 (by decide),
        has_flag_clear_flag c.flag 42496 15 (by decide),
        has_flag_clear_flag c.flag 42496 10 (by decide)⟩)
    (by
      intro i c0 s h0 hs hQ
      simp only [List.get?_eq_getElem?, List.getElem?_map, Option.map_eq_some'] at h0
      obtain ⟨c, hc, rfl⟩ := h0
      rw [← List.get?_eq_getElem?] at hc
      exact hstep i c s hc hs hQ)
    pose.chanbase.length (by simp)
  obtain ⟨s, hlen, hQ, hrun⟩ := hloop
  refine ⟨s, hlen, hQ, ?_⟩
  have hd : (List.map (fun p : bPoseChannel R =>
      { p with flag := clear_flag p.flag (POSE_DONE ||| POSE_CHAIN ||| POSE_IKTREE ||| POSE_IKSPLINE) }) pose.chanbase).drop
        pose.chanbase.length = [] := by
    apply List.drop_eq_nil_of_le
    simp
  simp only [hd, List.append_nil] at hrun
  simp only [pose_where_is_solve, hpose, hik, hsp, hrel, List.length_map]
  rw [hrun]

/-- The function `BKE_pose_where_is` on an armature object with a pose that needs no
rebuild, outside edit mode and rest position, when the IK hooks leave the object as
it is: the channels solved in the order of the list, with their deform matrices. -/
theorem pose_where_is_invariant (fm : FloatMath R) (ext : PoseExternals R)
    (scene : Scene R)
    (hik : ∀ o t, ext.BIK_initialize_tree scene o t = o)
    (hsp : ∀ o t, ext.BKE_pose_splineik_init_tree scene o t = o)
    (hrel : ∀ o t, ext.BIK_release_tree scene o t = o)
    (ob : Object R) (arm : bArmature R) (pose : bPose R)
    (htype : ob.ob_type = OB_ARMATURE) (hdata : ob.data = some arm)
    (hpose : ob.pose = some pose) (hrecalc : has_flag pose.flag POSE_RECALC = false)
    (hrest : (arm.edbo || has_flag arm.flag ARM_RESTPOS) = false)
    (Q : Nat → bPoseChannel R → Prop)
    (hstep : ∀ i c (s : List (bPoseChannel R)), pose.chanbase.get? i = some c → s.length = i →
      (∀ j r, s.get? j = some r → Q j r) →
      ∃ r, BKE_pose_where_is_bone fm ext
          { ob with
            imat := invert_m4_m4 ob.obmat,
            pose := some { pose with chanbase := s ++ (pose.chanbase.map (fun p =>
              { p with flag := clear_flag p.flag (POSE_DONE ||| POSE_CHAIN ||| POSE_IKTREE ||| POSE_IKSPLINE) })).drop i } }
          { c with flag := clear_flag c.flag (POSE_DONE ||| POSE_CHAIN ||| POSE_IKTREE ||| POSE_IKSPLINE) }
          (ext.BKE_scene_frame_get scene) true
            = some r ∧ Q i r) :
    ∃ s : List (bPoseChannel R), s.length = pose.chanbase.length ∧
      (∀ j r, s.get? j = some r → Q j r) ∧
      BKE_pose_where_is fm ext (some scene) ob
        = some { ob with
            imat := invert_m4_m4 ob.obmat,
            pose := some { pose with chanbase := s.map (fun pchan =>
              match pchan.bone with
              | some bone =>
                { pchan with chan_mat := mul_m4_m4m4 pchan.pose_mat (invert_m4_m4 bone.arm_mat) }
              | none => pchan) } } := by
  obtain ⟨s, hlen, hQ, hrun⟩ := pose_where_is_solve_invariant fm ext scene
    (ext.BKE_scene_frame_get scene) (fun o => hik o _) (fun o => hsp o _) (fun o => hrel o _)
    ob pose hpose Q hstep
  refine ⟨s, hlen, hQ, ?_⟩
  simp only [BKE_pose_where_is, htype, ne_eq, not_true_eq_false, if_false, hdata, hpose,
    hrecalc, Bool.false_eq_true, hrest, hrun, pose_where_is_deform_mats]
  try rfl

end PoseSolveLoop

/-! ## Theorems: the pose of identity channels -/

section IdentityPose

variable {R : Type} [LinearOrderedField R]

theorem m4_set_loc_eq_self (a : M4 R) (v : V3 R) (h : v = m4_axis a 3) : m4_set_loc a v = a := by
  subst h
  ext i j
  fin_cases i <;> fin_cases j <;> rfl

theorem mul_v3_m4v3_origin (m : M4 R) : mul_v3_m4v3 m (m4_axis (1 : M4 R) 3) = m4_axis m 3 := by
  have h2 : (Fin.castSucc (2 : Fin 3) : Fin 4) = 2 := rfl
  ext j
  fin_cases j <;> simp [mul_v3_m4v3, m4_axis, h2]

theorem size_to_mat4_one : size_to_mat4 (fun _ => (1 : R)) = 1 := by
  ext i j
  fin_cases i <;> fin_cases j <;> rfl

theorem mat4_to_size_unit (fm : FloatMath R) (h1 : fm.sqrtf 1 = 1) (p : M4 R)
    (hp : ∀ a : Fin 3, dot_v3v3 (m4_axis p (Fin.castSucc a)) (m4_axis p (Fin.castSucc a)) = 1) :
    mat4_to_size fm p = fun _ => 1 := by
  ext a
  simp only [mat4_to_size, len_v3, hp a, h1]

theorem normalize_m4_unit (fm : FloatMath R) (h1 : fm.sqrtf 1 = 1) (p : M4 R)
    (hp : ∀ a : Fin 3, dot_v3v3 (m4_axis p (Fin.castSucc a)) (m4_axis p (Fin.castSucc a)) = 1) :
    normalize_m4 fm p = p := by
  have h0 := hp 0
  have h1a := hp 1
  have h2 := hp 2
  have e0 : (Fin.castSucc (0 : Fin 3) : Fin 4) = 0 := rfl
  have e1 : (Fin.castSucc (1 : Fin 3) : Fin 4) = 1 := rfl
  have e2 : (Fin.castSucc (2 : Fin 3) : Fin 4) = 2 := rfl
  rw [e0] at h0
  rw [e1] at h1a
  rw [e2] at h2
  ext i j
  fin_cases i <;> fin_cases j <;>
    simp [normalize_m4, len_v3, h0, h1a, h2, h1]

/-- The parent transform of a root bone applied to the identity channel matrix gives
the rest matrix, with or without `BONE_NO_LOCAL_LOCATION`. -/
theorem parent_transform_identity_root (fm : FloatMath R) (flag : Nat) (a : M4 R) :
    BKE_bone_parent_transform_apply
      (BKE_bone_parent_transform_calc_from_matrices fm flag a none) 1 = a := by
  simp only [BKE_bone_parent_transform_apply, BKE_bone_parent_transform_calc_from_matrices,
    mul_m4_m4m4, one_mul, mul_v3_m4v3_origin]
  apply m4_set_loc_eq_self
  split_ifs
  · rw [m4_set_loc_axis]
  · rfl

/-- The parent transform of a bone whose parent poses at its rest matrix, with axes of
unit length, applied to the identity channel matrix gives `parent_arm_mat · offs_bone`
under every combination of the flags. -/
theorem parent_transform_identity_child (fm : FloatMath R) (h1 : fm.sqrtf 1 = 1) (flag : Nat)
    (offs p : M4 R) (ho : offs 3 3 = 1)
    (hp : ∀ a : Fin 3, dot_v3v3 (m4_axis p (Fin.castSucc a)) (m4_axis p (Fin.castSucc a)) = 1) :
    BKE_bone_parent_transform_apply
      (BKE_bone_parent_transform_calc_from_matrices fm flag offs (some (p, p))) 1
      = mul_m4_m4m4 p offs := by
  have hrs : (BKE_bone_parent_transform_calc_from_matrices fm flag offs (some (p, p))).rotscale_mat
      = mul_m4_m4m4 p offs := by
    simp only [BKE_bone_parent_transform_calc_from_matrices, mat4_to_size_unit fm h1 p hp,
      size_to_mat4_one, normalize_m4_unit fm h1 p hp, mul_m4_m4m4, mul_one, ite_self]
  have hloc : m4_axis (BKE_bone_parent_transform_calc_from_matrices fm flag offs
      (some (p, p))).loc_mat 3 = m4_axis (mul_m4_m4m4 p offs) 3 := by
    rcases Bool.eq_false_or_eq_true (has_flag flag BONE_NO_LOCAL_LOCATION) with hn | hn
    · have e : (BKE_bone_parent_transform_calc_from_matrices fm flag offs (some (p, p))).loc_mat
          = mul_m4_m4m4 (m4_set_loc unit_m4 (mul_v3_m4v3 p (m4_axis offs 3)))
              (copy_m4_m3 (mul_m3_m3m3 (copy_m3_m4 p) unit_m3)) := by
        simp only [BKE_bone_parent_transform_calc_from_matrices, hn, if_true]
      rw [e]
      have h2 : (Fin.castSucc (2 : Fin 3) : Fin 4) = 2 := rfl
      ext j
      fin_cases j <;>
        simp [m4_axis, mul_m4_m4m4, m4_mul_apply, copy_m4_m3, m4_set_loc, mul_v3_m4v3, ho, h2,
          unit_m4]
    · have e : (BKE_bone_parent_transform_calc_from_matrices fm flag offs (some (p, p))).loc_mat
          = mul_m4_m4m4 p offs := by
        simp only [BKE_bone_parent_transform_calc_from_matrices, hn, Bool.false_eq_true,
          if_false, mat4_to_size_unit fm h1 p hp, size_to_mat4_one,
          normalize_m4_unit fm h1 p hp, mul_m4_m4m4, mul_one, ite_self]
      rw [e]
  simp only [BKE_bone_parent_transform_apply, hrs, mul_v3_m4v3_origin, hloc]
  rw [show mul_m4_m4m4 (mul_m4_m4m4 p offs) 1 = mul_m4_m4m4 p offs by
    simp only [mul_m4_m4m4, one_mul]]
  exact m4_set_loc_eq_self _ _ rfl

theorem offset_matrix_33 (b pb : BoneData R) : BKE_bone_offset_matrix_get b pb 3 3 = 1 := by
  simp [BKE_bone_offset_matrix_get, m4_set_loc, copy_m4_m3]

end IdentityPose

section IdentityPoseSolve

variable {R : Type} [LinearOrderedField R]

/-- The function `BKE_pose_where_is_bone` on an identity channel without constraints,
in a pose without cyclic offset where the channel of the parent (if any) poses at its
rest matrix: the channel poses at its own rest matrix. -/
theorem pose_where_is_bone_identity (fm : FloatMath R) (h1 : fm.sqrtf 1 = 1)
    (ext : PoseExternals R) (ob : Object R) (c : bPoseChannel R) (ctime : R) (pose : bPose R)
    (b : BoneData R) (hpose : ob.pose = some pose) (hbone : c.bone = some b)
    (hcons : c.has_constraints = false) (hid : BKE_pchan_to_mat4 ext c = 1)
    (hcyc : ∀ k, pose.cyclic_offset k = 0)
    (hpar : c.parent = none ∨ ∃ n pc pb, c.parent = some n ∧
      BKE_pose_channel_find_name pose n = some pc ∧ c.bone_parent = some pb ∧
      pc.pose_mat = pb.arm_mat ∧
      (∀ a : Fin 3, dot_v3v3 (m4_axis pb.arm_mat (Fin.castSucc a))
        (m4_axis pb.arm_mat (Fin.castSucc a)) = 1) ∧
      b.arm_mat = mul_m4_m4m4 pb.arm_mat (BKE_bone_offset_matrix_get b pb)) :
    ∃ r, BKE_pose_where_is_bone fm ext ob c ctime true = some r ∧
      r.name = c.name ∧ r.bone = c.bone ∧ r.pose_mat = b.arm_mat ∧
      r.pose_head = m4_axis b.arm_mat 3 ∧
      r.pose_tail = add_v3_v3v3 (m4_axis b.arm_mat 3)
        (mul_v3_fl (m4_axis b.arm_mat 1) b.length) := by
  have hpm : BKE_armature_mat_bone_to_pose fm pose c (BKE_pchan_to_mat4 ext c)
      = some b.arm_mat := by
    rw [hid]
    rcases hpar with hp | ⟨n, pc, pb, hp, hf, hbp, hpc, hunit, harm⟩
    · simp only [BKE_armature_mat_bone_to_pose, BKE_bone_parent_transform_calc_from_pchan,
        hbone, hp, parent_transform_identity_root]
    · simp only [BKE_armature_mat_bone_to_pose, BKE_bone_parent_transform_calc_from_pchan,
        hbone, hp, hf, hbp, hpc,
        parent_transform_identity_child fm h1 b.flag _ pb.arm_mat (offset_matrix_33 b pb) hunit,
        harm]
  obtain ⟨r, hr, hn, hb, hm, hh, ht⟩ :=
    pose_where_is_bone_plain fm ext ob c ctime pose b b.arm_mat hpose hbone hcons hpm
  have hz : add_v3_v3v3 (m4_axis b.arm_mat 3) pose.cyclic_offset = m4_axis b.arm_mat 3 := by
    ext k
    simp only [add_v3_v3v3, hcyc k, add_zero]
  have hm2 : r.pose_mat = b.arm_mat := by
    rw [hm, hz, m4_set_loc_eq_self _ _ rfl, ite_self]
  refine ⟨r, hr, hn, hb, hm2, ?_, ?_⟩
  · rw [hh, hm2]
  · rw [ht, hh, hm2]

/-- The function `BKE_pose_where_is` on a pose of identity channels without
constraints, IK and cyclic offset, whose channels follow their parents in the list:
every channel poses at the rest matrix of its bone. -/
theorem pose_where_is_identity (fm : FloatMath R) (h1 : fm.sqrtf 1 = 1)
    (ext : PoseExternals R) (scene : Scene R)
    (hik : ∀ o t, ext.BIK_initialize_tree scene o t = o)
    (hsp : ∀ o t, ext.BKE_pose_splineik_init_tree scene o t = o)
    (hrel : ∀ o t, ext.BIK_release_tree scene o t = o)
    (ob : Object R) (arm : bArmature R) (pose : bPose R)
    (htype : ob.ob_type = OB_ARMATURE) (hdata : ob.data = some arm)
    (hpose : ob.pose = some pose) (hrecalc : has_flag pose.flag POSE_RECALC = false)
    (hrest : (arm.edbo || has_flag arm.flag ARM_RESTPOS) = false)
    (hcyc : ∀ k, pose.cyclic_offset k = 0)
    (hchan : ∀ i c, pose.chanbase.get? i = some c →
      c.has_constraints = false ∧ BKE_pchan_to_mat4 ext c = 1 ∧
      ∃ b, c.bone = some b ∧
        (c.parent = none ∨ ∃ n pb j pc, c.parent = some n ∧ c.bone_parent = some pb ∧ j < i ∧
          pose.chanbase.get? j = some pc ∧ pc.name = n ∧ pc.bone = some pb ∧
          (∀ j2 q, j2 < j → pose.chanbase.get? j2 = some q → q.name ≠ n) ∧
          (∀ a : Fin 3, dot_v3v3 (m4_axis pb.arm_mat (Fin.castSucc a))
            (m4_axis pb.arm_mat (Fin.castSucc a)) = 1) ∧
          b.arm_mat = mul_m4_m4m4 pb.arm_mat (BKE_bone_offset_matrix_get b pb))) :
    ∃ ob2 pose2, BKE_pose_where_is fm ext (some scene) ob = some ob2 ∧
      ob2.pose = some pose2 ∧ pose2.chanbase.length = pose.chanbase.length ∧
      ∀ i c, pose.chanbase.get? i = some c →
        ∃ r b, pose2.chanbase.get? i = some r ∧ c.bone = some b ∧ r.bone = some b ∧
          r.name = c.name ∧ r.pose_mat = b.arm_mat ∧ r.pose_head = m4_axis b.arm_mat 3 ∧
          r.pose_tail = add_v3_v3v3 (m4_axis b.arm_mat 3)
            (mul_v3_fl (m4_axis b.arm_mat 1) b.length) ∧
          r.chan_mat = mul_m4_m4m4 b.arm_mat (invert_m4_m4 b.arm_mat) := by
  obtain ⟨s, hlen, hQ, hrun⟩ := pose_where_is_invariant fm ext scene hik hsp hrel ob arm pose
    htype hdata hpose hrecalc hrest
    (fun i r => ∃ c b, pose.chanbase.get? i = some c ∧ c.bone = some b ∧ r.bone = some b ∧
      r.name = c.name ∧ r.pose_mat = b.arm_mat ∧ r.pose_head = m4_axis b.arm_mat 3 ∧
      r.pose_tail = add_v3_v3v3 (m4_axis b.arm_mat 3)
        (mul_v3_fl (m4_axis b.arm_mat 1) b.length))
    (by
      intro i c s hc hs hQ
      obtain ⟨hcons, hid, b, hb, hpar⟩ := hchan i c hc
      have hstep := pose_where_is_bone_identity fm h1 ext
        { ob with
          imat := invert_m4_m4 ob.obmat,
          pose := some { pose with chanbase := s ++ (pose.chanbase.map (fun p =>
            { p with flag := clear_flag p.flag (POSE_DONE ||| POSE_CHAIN ||| POSE_IKTREE ||| POSE_IKSPLINE) })).drop i } }
        { c with flag := clear_flag c.flag (POSE_DONE ||| POSE_CHAIN ||| POSE_IKTREE ||| POSE_IKSPLINE) }
        (ext.BKE_scene_frame_get scene)
        { pose with chanbase := s ++ (pose.chanbase.map (fun p =>
            { p with flag := clear_flag p.flag (POSE_DONE ||| POSE_CHAIN ||| POSE_IKTREE ||| POSE_IKSPLINE) })).drop i }
        b rfl hb hcons hid hcyc
        (by
          rcases hpar with hp | ⟨n, pb, j, pc, hp, hbp, hj, hpc, hname, hpcb, hfirst, hunit, harm⟩
          · exact Or.inl hp
          · right
            obtain ⟨r, hr⟩ : ∃ r, s.get? j = some r := by
              rw [List.get?_eq_getElem?]
              exact ⟨_, List.getElem?_eq_getElem (by omega)⟩
            obtain ⟨c2, b2, hc2, hb2, hrb, hrn, hrm, _, _⟩ := hQ j r hr
            have e1 : c2 = pc := Option.some.inj (hc2.symm.trans hpc)
            subst e1
            have e2 : b2 = pb := Option.some.inj (hb2.symm.trans hpcb)
            subst e2
            refine ⟨n, r, b2, hp, ?_, hbp, hrm, hunit, harm⟩
            apply list_find?_first _ _ j r
            · rw [list_get?_append_lt s _ j (by omega)]
              exact hr
            · simp only [hrn, hname, beq_self_eq_true]
            · intro j2 y hj2 hy
              rw [list_get?_append_lt s _ j2 (by omega)] at hy
              obtain ⟨c3, _, hc3, _, _, hyn, _⟩ := hQ j2 y hy
              have := hfirst j2 c3 hj2 hc3
              simp only [hyn, beq_eq_false_iff_ne, ne_eq]
              exact this)
      obtain ⟨r, hr, hn, hrb, hm, hh, ht⟩ := hstep
      exact ⟨r, hr, c, b, hc, hb, hrb.trans hb, hn, hm, hh, ht⟩)
  refine ⟨_, _, hrun, rfl, by simp [hlen], ?_⟩
  intro i c hc
  obtain ⟨r, hr⟩ : ∃ r, s.get? i = some r := by
    rw [List.get?_eq_getElem?]
    have hi : i < pose.chanbase.length := by
      by_contra hcon
      rw [List.get?_eq_getElem?, List.getElem?_eq_none (by omega)] at hc
      simp at hc
    exact ⟨_, List.getElem?_eq_getElem (by omega)⟩
  obtain ⟨c2, b, hc2, hb, hrb, hrn, hrm, hrh, hrt⟩ := hQ i r hr
  have e1 : c2 = c := Option.some.inj (hc2.symm.trans hc)
  subst e1
  refine ⟨{ r with chan_mat := mul_m4_m4m4 r.pose_mat (invert_m4_m4 b.arm_mat) }, b, ?_, hb, hrb,
    hrn, hrm, hrh, hrt, ?_⟩
  · simp only [List.get?_eq_getElem?, List.getElem?_map]
    rw [← List.get?_eq_getElem?, hr]
    simp only [Option.map_some', hrb]
  · simp only [hrm]

end IdentityPoseSolve

section IdentityPoseClaim

variable {R : Type} [LinearOrderedField R]

/-- A channel with zero location, unit scale and a quaternion that converts to the
identity has the identity as channel matrix. -/
theorem pchan_to_mat4_identity (ext : PoseExternals R) (c : bPoseChannel R)
    (hloc : c.loc = ![0, 0, 0]) (hsize : c.size = ![1, 1, 1]) (hrot : c.rotmode = 0)
    (hq : ext.quat_to_mat3 (ext.normalize_qt_qt c.quat) = 1) : BKE_pchan_to_mat4 ext c = 1 := by
  have hs : size_to_mat3 (![1, 1, 1] : V3 R) = 1 := by
    ext i j
    fin_cases i <;> fin_cases j <;> rfl
  have hc : copy_m4_m3 (1 : M3 R) = 1 := by
    ext i j
    fin_cases i <;> fin_cases j <;> rfl
  have hl : m4_set_loc (1 : M4 R) ![0, 0, 0] = 1 := by
    ext i j
    fin_cases i <;> fin_cases j <;> rfl
  have hne : ¬ ((0 : Int) = -1) := by decide
  simp only [BKE_pchan_to_mat4, hrot, lt_irrefl, if_false, ROT_MODE_AXISANGLE, if_neg hne, hq,
    hsize, hs, mul_m3_m3m3, one_mul, hc, hloc, hl]
  split
  · rfl
  · split_ifs <;> rfl

/-! ### Claim C31 -/

/-- C31: for an armature object whose pose needs no rebuild, with every channel at the
identity (`BKE_pchan_to_mat4` gives the identity) and without constraints, no IK (the
IK hooks leave the object as it is), zero cyclic offset, every channel listed after the
channel of its parent, and rest matrices that are invertible, have axes of unit length
and satisfy `arm_mat = parent arm_mat · offs_bone`, `BKE_pose_where_is` returns a pose
in which every channel has `pose_mat = arm_mat` and `chan_mat` the identity, whatever
the flags of the bones are. -/
theorem C31_identity_pose (fm : FloatMath R) (h1 : fm.sqrtf 1 = 1)
    (ext : PoseExternals R) (scene : Scene R)
    (hik : ∀ o t, ext.BIK_initialize_tree scene o t = o)
    (hsp : ∀ o t, ext.BKE_pose_splineik_init_tree scene o t = o)
    (hrel : ∀ o t, ext.BIK_release_tree scene o t = o)
    (ob : Object R) (arm : bArmature R) (pose : bPose R)
    (htype : ob.ob_type = OB_ARMATURE) (hdata : ob.data = some arm)
    (hpose : ob.pose = some pose) (hrecalc : has_flag pose.flag POSE_RECALC = false)
    (hcyc : ∀ k, pose.cyclic_offset k = 0)
    (hchan : ∀ i c, pose.chanbase.get? i = some c →
      c.has_constraints = false ∧ BKE_pchan_to_mat4 ext c = 1 ∧
      ∃ b, c.bone = some b ∧ b.arm_mat.det ≠ 0 ∧
        (c.parent = none ∨ ∃ n pb j pc, c.parent = some n ∧ c.bone_parent = some pb ∧ j < i ∧
          pose.chanbase.get? j = some pc ∧ pc.name = n ∧ pc.bone = some pb ∧
          (∀ j2 q, j2 < j → pose.chanbase.get? j2 = some q → q.name ≠ n) ∧
          (∀ a : Fin 3, dot_v3v3 (m4_axis pb.arm_mat (Fin.castSucc a))
            (m4_axis pb.arm_mat (Fin.castSucc a)) = 1) ∧
          b.arm_mat = mul_m4_m4m4 pb.arm_mat (BKE_bone_offset_matrix_get b pb))) :
    ∃ ob2 pose2, BKE_pose_where_is fm ext (some scene) ob = some ob2 ∧
      ob2.pose = some pose2 ∧ pose2.chanbase.length = pose.chanbase.length ∧
      ∀ i c, pose.chanbase.get? i = some c →
        ∃ r b, pose2.chanbase.get? i = some r ∧ c.bone = some b ∧ r.bone = some b ∧
          r.pose_mat = b.arm_mat ∧ r.chan_mat = 1 := by
  rcases Bool.eq_false_or_eq_true (arm.edbo || has_flag arm.flag ARM_RESTPOS) with hrest | hrest
  · -- edit mode or rest position: the pose is read from the bones
    have hrun : BKE_pose_where_is fm ext (some scene) ob
        = some { ob with pose := some { pose with chanbase := pose.chanbase.map (fun pchan =>
            match pchan.bone with
            | some bone =>
              { pchan with
                pose_mat := bone.arm_mat, pose_head := bone.arm_head, pose_tail := bone.arm_tail,
                chan_mat := mul_m4_m4m4 bone.arm_mat (invert_m4_m4 bone.arm_mat) }
            | none => pchan) } } := by
      simp only [BKE_pose_where_is, htype, ne_eq, not_true_eq_false, if_false, hdata, hpose,
        hrecalc, Bool.false_eq_true, hrest, if_true, pose_where_is_restpos,
        pose_where_is_deform_mats, List.map_map]
      congr 4
      apply List.map_congr_left
      intro c _
      cases hb : c.bone <;> simp only [Function.comp, hb]
    refine ⟨_, _, hrun, rfl, by simp, ?_⟩
    intro i c hc
    obtain ⟨_, _, b, hb, hdet, _⟩ := hchan i c hc
    refine ⟨{ c with
        pose_mat := b.arm_mat, pose_head := b.arm_head, pose_tail := b.arm_tail,
        chan_mat := mul_m4_m4m4 b.arm_mat (invert_m4_m4 b.arm_mat) }, b, ?_, hb, hb, rfl, ?_⟩
    · simp only [List.get?_eq_getElem?, List.getElem?_map]
      rw [← List.get?_eq_getElem?, hc]
      simp only [Option.map_some', hb]
    · exact (invert_m4_mul_cancel b.arm_mat hdet).2
  · obtain ⟨ob2, pose2, hrun, hp2, hlen, hall⟩ := pose_where_is_identity fm h1 ext scene hik hsp
      hrel ob arm pose htype hdata hpose hrecalc hrest hcyc
      (by
        intro i c hc
        obtain ⟨hcons, hid, b, hb, _, hpar⟩ := hchan i c hc
        exact ⟨hcons, hid, b, hb, hpar⟩)
    refine ⟨ob2, pose2, hrun, hp2, hlen, ?_⟩
    intro i c hc
    obtain ⟨r, b, hr, hb, hrb, _, hrm, _, _, hrc⟩ := hall i c hc
    obtain ⟨_, _, b2, hb2, hdet, _⟩ := hchan i c hc
    have e : b2 = b := Option.some.inj (hb2.symm.trans hb)
    subst e
    exact ⟨r, b2, hr, hb, hrb, hrm, hrc.trans (invert_m4_mul_cancel b2.arm_mat hdet).2⟩

end IdentityPoseClaim

section IdentityPoseExamples

theorem example_arm_mat_A_det : (exampleBoneA ℚ).arm_mat.det ≠ 0 := by
  simp [exampleBoneA]

theorem example_pchan_identity (c : bPoseChannel ℚ)
    (h : c = exampleChanA ℚ ∨ c = exampleChanB ℚ) :
    c.has_constraints = false ∧ BKE_pchan_to_mat4 (noExternals ℚ) c = 1 := by
  rcases h with h | h <;> subst h
  · exact ⟨rfl, pchan_to_mat4_identity _ _ rfl rfl rfl rfl⟩
  · exact ⟨rfl, pchan_to_mat4_identity _ _ rfl rfl rfl rfl⟩

theorem example_chain_links (i : Nat) (c : bPoseChannel ℚ)
    (hc : (examplePose ℚ 0).chanbase.get? i = some c) :
    (i = 0 ∧ c = exampleChanA ℚ) ∨ (i = 1 ∧ c = exampleChanB ℚ) := by
  match i, hc with
  | 0, hc => exact Or.inl ⟨rfl, (Option.some.inj hc).symm⟩
  | 1, hc => exact Or.inr ⟨rfl, (Option.some.inj hc).symm⟩
  | i + 2, hc => simp [examplePose] at hc

theorem example_offset_B :
    (exampleBoneB ℚ).arm_mat
      = mul_m4_m4m4 (exampleBoneA ℚ).arm_mat
          (BKE_bone_offset_matrix_get (exampleBoneB ℚ) (exampleBoneA ℚ)) := by
  have h : BKE_bone_offset_matrix_get (exampleBoneB ℚ) (exampleBoneA ℚ)
      = !![1, 0, 0, 0; 0, 1, 0, 0; 0, 0, 1, 0; 0, 2, 0, 1] := by
    simp [BKE_bone_offset_matrix_get, m4_set_loc, copy_m4_m3, exampleBoneA, exampleBoneB,
      Matrix.vecHead, Matrix.vecTail, Matrix.one_apply]
  rw [h]
  simp only [mul_m4_m4m4, exampleBoneA, exampleBoneB, mul_one]

theorem example_unit_axes_A (a : Fin 3) :
    dot_v3v3 (m4_axis (exampleBoneA ℚ).arm_mat (Fin.castSucc a))
      (m4_axis (exampleBoneA ℚ).arm_mat (Fin.castSucc a)) = 1 := by
  have h2 : (Fin.castSucc (2 : Fin 3) : Fin 4) = 2 := rfl
  fin_cases a <;> simp [exampleBoneA, dot_v3v3, m4_axis, h2]

/-- C31, witness: the two-bone chain A, B (B connected to the tail of A) with both
channels at the identity. -/
theorem C31_identity_pose_witness :
    ∃ ob2 pose2, BKE_pose_where_is ratMath (noExternals ℚ) (some ⟨1⟩)
        (exampleArmatureObject ℚ 0 1) = some ob2 ∧
      ob2.pose = some pose2 ∧ pose2.chanbase.length = (examplePose ℚ 0).chanbase.length ∧
      ∀ i c, (examplePose ℚ 0).chanbase.get? i = some c →
        ∃ r b, pose2.chanbase.get? i = some r ∧ c.bone = some b ∧ r.bone = some b ∧
          r.pose_mat = b.arm_mat ∧ r.chan_mat = 1 :=
  C31_identity_pose ratMath (by simp [ratMath, Rat.sqrt]) (noExternals ℚ) ⟨1⟩
    (fun _ _ => rfl) (fun _ _ => rfl) (fun _ _ => rfl) (exampleArmatureObject ℚ 0 1)
    ⟨[Bone.mk (exampleBoneA ℚ) [Bone.mk (exampleBoneB ℚ) []]], 0, false⟩ (examplePose ℚ 0)
    rfl rfl rfl (by decide)
    (by intro k; fin_cases k <;> rfl)
    (by
      intro i c hc
      rcases example_chain_links i c hc with ⟨rfl, rfl⟩ | ⟨rfl, rfl⟩
      · exact ⟨rfl, (example_pchan_identity _ (Or.inl rfl)).2, exampleBoneA ℚ, rfl,
          example_arm_mat_A_det, Or.inl rfl⟩
      · exact ⟨rfl, (example_pchan_identity _ (Or.inr rfl)).2, exampleBoneB ℚ, rfl,
          example_arm_mat_B_det, Or.inr ⟨"A", exampleBoneA ℚ, 0, exampleChanA ℚ, rfl, rfl,
            by decide, rfl, rfl, rfl, fun j2 q hj => absurd hj (by omega),
            example_unit_axes_A, example_offset_B⟩⟩)

end IdentityPoseExamples

/-! ## Theorems: pose matrix, rest matrix and deform matrix -/

section PoseProduct

variable {R : Type} [LinearOrderedField R]

/-! ### Claim C32 -/

/-- C32: after `BKE_pose_where_is` every channel with a bone whose rest matrix is
invertible satisfies `pose_mat = chan_mat · arm_mat` (deform matrix times rest matrix,
`mul_m4_m4m4(pose_mat, chan_mat, arm_mat)`); the product in the other order,
`arm_mat · chan_mat`, equals `pose_mat` exactly when `arm_mat` and `pose_mat`
commute. -/
theorem C32_pose_mat_product (fm : FloatMath R) (ext : PoseExternals R) (scene : Scene R)
    (ob : Object R) (arm : bArmature R)
    (htype : ob.ob_type = OB_ARMATURE) (harm : ob.data = some arm)
    (h : (BKE_pose_where_is fm ext (some scene) ob).isSome = true) :
    ∃ ob2 pose2, BKE_pose_where_is fm ext (some scene) ob = some ob2 ∧
      ob2.pose = some pose2 ∧
      ∀ pchan ∈ pose2.chanbase, ∀ bone, pchan.bone = some bone → bone.arm_mat.det ≠ 0 →
        pchan.pose_mat = mul_m4_m4m4 pchan.chan_mat bone.arm_mat ∧
        (pchan.pose_mat = mul_m4_m4m4 bone.arm_mat pchan.chan_mat ↔
          mul_m4_m4m4 bone.arm_mat pchan.pose_mat = mul_m4_m4m4 pchan.pose_mat bone.arm_mat) := by
  obtain ⟨ob2, hob⟩ := Option.isSome_iff_exists.mp h
  have h2 := hob
  simp only [BKE_pose_where_is, htype, ne_eq, not_true_eq_false, if_false, harm] at h2
  split at h2
  · simp at h2
  · obtain ⟨pose2, hp, hall⟩ := deform_mats_spec _ _ h2
    refine ⟨ob2, pose2, hob, hp, ?_⟩
    intro pchan hmem bone hb hdet
    have hc := hall pchan hmem bone hb
    obtain ⟨c1, c2⟩ := invert_m4_mul_cancel bone.arm_mat hdet
    rw [hc]
    simp only [mul_m4_m4m4]
    constructor
    · rw [← mul_assoc, c1, one_mul]
    · constructor
      · intro e
        calc pchan.pose_mat * bone.arm_mat
            = bone.arm_mat * (invert_m4_m4 bone.arm_mat * pchan.pose_mat * bone.arm_mat) := by
              rw [← mul_assoc, ← mul_assoc, c1, one_mul]
          _ = bone.arm_mat * pchan.pose_mat := by rw [← e]
      · intro e
        rw [mul_assoc, e, ← mul_assoc, c2, one_mul]

end PoseProduct

section PoseProductExamples

/-- C32, witness: the example object (one root bone, channel at rest). -/
theorem C32_pose_mat_product_witness :
    ∃ ob2 pose2, BKE_pose_where_is ratMath (noExternals ℚ) (some (Scene.mk 1)) exampleObject
        = some ob2 ∧
      ob2.pose = some pose2 ∧
      ∀ pchan ∈ pose2.chanbase, ∀ bone, pchan.bone = some bone → bone.arm_mat.det ≠ 0 →
        pchan.pose_mat = mul_m4_m4m4 pchan.chan_mat bone.arm_mat ∧
        (pchan.pose_mat = mul_m4_m4m4 bone.arm_mat pchan.chan_mat ↔
          mul_m4_m4m4 bone.arm_mat pchan.pose_mat = mul_m4_m4m4 pchan.pose_mat bone.arm_mat) :=
  C32_pose_mat_product ratMath (noExternals ℚ) (Scene.mk 1) exampleObject
    (bArmature.mk [Bone.mk exampleBone []] 0 false) rfl rfl rfl

theorem example_arm_mat_inverse :
    invert_m4_m4 exampleBone.arm_mat
      = !![1, 0, 0, 0; 0, 1, 0, 0; 0, 0, 1, 0; -1, -2, -3, 1] := by
  apply invert_m4_m4_eq_of_mul_eq_one
  ext i j
  fin_cases i <;> fin_cases j <;>
    simp [exampleBone, Matrix.mul_apply, Fin.sum_univ_four, Matrix.vecHead, Matrix.vecTail]

/-- The channel matrix of the example channel scaled by 2 along X. -/
theorem example_scaled_chan_mat (f : Nat) :
    BKE_pchan_to_mat4 (noExternals ℚ) { exampleScaledChannel with flag := f }
      = !![2, 0, 0, 0; 0, 1, 0, 0; 0, 0, 1, 0; 0, 0, 0, 1] := by
  have hc : has_flag exampleBone.flag BONE_CONNECTED = false := by decide
  have hne : ¬ ((0 : Int) = -1) := by decide
  have hs : copy_m4_m3 (size_to_mat3 (![2, 1, 1] : V3 ℚ))
      = !![2, 0, 0, 0; 0, 1, 0, 0; 0, 0, 1, 0; 0, 0, 0, 1] := by
    simp [copy_m4_m3, size_to_mat3, Matrix.vecHead, Matrix.vecTail]
  have hl : m4_set_loc (!![2, 0, 0, 0; 0, 1, 0, 0; 0, 0, 1, 0; 0, 0, 0, 1] : M4 ℚ) ![0, 0, 0]
      = !![2, 0, 0, 0; 0, 1, 0, 0; 0, 0, 1, 0; 0, 0, 0, 1] := by
    simp [m4_set_loc, Matrix.vecHead, Matrix.vecTail]
  simp only [BKE_pchan_to_mat4, exampleScaledChannel, exampleChannel, hc, lt_irrefl, if_false,
    ROT_MODE_AXISANGLE, if_neg hne, noExternals, mul_m3_m3m3, mul_one, Bool.not_false, if_true,
    hs, hl]

theorem example_scaled_product :
    (!![2, 0, 0, 0; 0, 1, 0, 0; 0, 0, 1, 0; 0, 0, 0, 1] : M4 ℚ)
        * !![1, 0, 0, 0; 0, 1, 0, 0; 0, 0, 1, 0; 1, 2, 3, 1]
      = !![2, 0, 0, 0; 0, 1, 0, 0; 0, 0, 1, 0; 1, 2, 3, 1] := by
  ext i j
  fin_cases i <;> fin_cases j <;>
    simp [Matrix.mul_apply, Fin.sum_univ_four, Matrix.vecHead, Matrix.vecTail]

/-- The composed pose matrix of the example channel scaled by 2 along X. -/
theorem example_scaled_pose_mat (pose : bPose ℚ) (f : Nat) :
    BKE_armature_mat_bone_to_pose ratMath pose { exampleScaledChannel with flag := f }
        (BKE_pchan_to_mat4 (noExternals ℚ) { exampleScaledChannel with flag := f })
      = some !![2, 0, 0, 0; 0, 1, 0, 0; 0, 0, 1, 0; 1, 2, 3, 1] := by
  have hn : has_flag exampleBone.flag BONE_NO_LOCAL_LOCATION = true := by decide
  have ha : exampleBone.arm_mat = !![1, 0, 0, 0; 0, 1, 0, 0; 0, 0, 1, 0; 1, 2, 3, 1] := rfl
  have h2 : (Fin.castSucc (2 : Fin 3) : Fin 4) = 2 := rfl
  have hv : mul_v3_m4v3 (m4_set_loc (unit_m4 : M4 ℚ)
        (m4_axis !![1, 0, 0, 0; 0, 1, 0, 0; 0, 0, 1, 0; 1, 2, 3, 1] 3))
      (m4_axis !![2, 0, 0, 0; 0, 1, 0, 0; 0, 0, 1, 0; 0, 0, 0, 1] 3) = ![1, 2, 3] := by
    ext k
    fin_cases k <;>
      simp [mul_v3_m4v3, m4_set_loc, m4_axis, unit_m4, Matrix.vecHead, Matrix.vecTail, h2]
  have hl : m4_set_loc (!![2, 0, 0, 0; 0, 1, 0, 0; 0, 0, 1, 0; 1, 2, 3, 1] : M4 ℚ) ![1, 2, 3]
      = !![2, 0, 0, 0; 0, 1, 0, 0; 0, 0, 1, 0; 1, 2, 3, 1] := by
    simp [m4_set_loc, Matrix.vecHead, Matrix.vecTail]
  rw [example_scaled_chan_mat]
  simp only [BKE_armature_mat_bone_to_pose, BKE_bone_parent_transform_calc_from_pchan,
    exampleScaledChannel, exampleChannel, BKE_bone_parent_transform_calc_from_matrices, hn,
    if_true, BKE_bone_parent_transform_apply, mul_m4_m4m4, ha, example_scaled_product, hv, hl]

theorem example_scaled_step (ob : Object ℚ) (pose : bPose ℚ) (hpose : ob.pose = some pose)
    (hcyc : pose.cyclic_offset = ![0, 0, 0]) (f : Nat) (ctime : ℚ) :
    ∃ r, BKE_pose_where_is_bone ratMath (noExternals ℚ) ob
        { exampleScaledChannel with flag := f } ctime true = some r ∧
      r.bone = some exampleBone ∧
      r.pose_mat = !![2, 0, 0, 0; 0, 1, 0, 0; 0, 0, 1, 0; 1, 2, 3, 1] := by
  obtain ⟨r, hr, _, hb, hm, _, _⟩ := pose_where_is_bone_plain ratMath (noExternals ℚ) ob
    { exampleScaledChannel with flag := f } ctime pose exampleBone
    !![2, 0, 0, 0; 0, 1, 0, 0; 0, 0, 1, 0; 1, 2, 3, 1] hpose rfl rfl
    (example_scaled_pose_mat pose f)
  refine ⟨r, hr, hb, ?_⟩
  have hz : add_v3_v3v3 (m4_axis !![2, 0, 0, 0; 0, 1, 0, 0; 0, 0, 1, 0; 1, 2, 3, 1] 3)
      (![0, 0, 0] : V3 ℚ) = m4_axis !![2, 0, 0, 0; 0, 1, 0, 0; 0, 0, 1, 0; 1, 2, 3, 1] 3 := by
    ext k
    fin_cases k <;> simp [add_v3_v3v3]
  rw [hm, hcyc, hz, m4_set_loc_eq_self _ _ rfl, ite_self]

theorem example_scaled_differs :
    (!![2, 0, 0, 0; 0, 1, 0, 0; 0, 0, 1, 0; 1, 2, 3, 1] : M4 ℚ)
      ≠ mul_m4_m4m4 exampleBone.arm_mat
          (mul_m4_m4m4 !![2, 0, 0, 0; 0, 1, 0, 0; 0, 0, 1, 0; 1, 2, 3, 1]
            (invert_m4_m4 exampleBone.arm_mat)) := by
  have ha : exampleBone.arm_mat = !![1, 0, 0, 0; 0, 1, 0, 0; 0, 0, 1, 0; 1, 2, 3, 1] := rfl
  rw [example_arm_mat_inverse, ha]
  intro e
  have e30 := congrFun (congrFun e 3) 0
  simp [mul_m4_m4m4, Matrix.mul_apply, Fin.sum_univ_four, Matrix.vecHead, Matrix.vecTail] at e30
  norm_num at e30

/-- C32, counterexample: the root bone at (1,2,3) with its channel scaled by 2 along X.
The solver gives a pose matrix with translation (1,2,3) and X axis (2,0,0), which is
not `arm_mat · chan_mat`: that product has the translation (0,2,3). -/
theorem C32_pose_mat_product_counterexample :
    ∃ ob2 pose2 r b, BKE_pose_where_is ratMath (noExternals ℚ) (some (Scene.mk 1))
        exampleScaledObject = some ob2 ∧
      ob2.pose = some pose2 ∧ pose2.chanbase = [r] ∧ r.bone = some b ∧ b.arm_mat.det ≠ 0 ∧
      r.pose_mat ≠ mul_m4_m4m4 b.arm_mat r.chan_mat := by
  obtain ⟨s, hlen, hQ, hrun⟩ := pose_where_is_invariant ratMath (noExternals ℚ) (Scene.mk 1)
    (fun _ _ => rfl) (fun _ _ => rfl) (fun _ _ => rfl) exampleScaledObject
    (bArmature.mk [Bone.mk exampleBone []] 0 false) exampleScaledPose rfl rfl rfl (by decide)
    (by decide)
    (fun _ r => r.bone = some exampleBone ∧
      r.pose_mat = !![2, 0, 0, 0; 0, 1, 0, 0; 0, 0, 1, 0; 1, 2, 3, 1])
    (by
      intro i c s hc hs _
      match i, hc with
      | 0, hc =>
        have hc2 : c = exampleScaledChannel := (Option.some.inj hc).symm
        subst hc2
        exact example_scaled_step _ _ rfl rfl _ _
      | i + 1, hc => simp [exampleScaledPose] at hc)
  obtain ⟨r0, rfl⟩ : ∃ r0, s = [r0] := List.length_eq_one.mp hlen
  obtain ⟨hb, hm⟩ := hQ 0 r0 rfl
  refine ⟨_, _, { r0 with chan_mat := mul_m4_m4m4 r0.pose_mat (invert_m4_m4 exampleBone.arm_mat) },
    exampleBone, hrun, rfl, ?_, hb, example_arm_mat_det, ?_⟩
  · simp only [List.map, hb]
  · simp only [hm]
    exact example_scaled_differs

end PoseProductExamples

/-! ## Theorems: the two-bone chain -/

section TwoBoneChain

variable {R : Type} [LinearOrderedField R]

theorem one_m4_eq : (1 : M4 R) = !![1, 0, 0, 0; 0, 1, 0, 0; 0, 0, 1, 0; 0, 0, 0, 1] := by
  ext i j
  fin_cases i <;> fin_cases j <;> rfl

theorem one_m3_eq : (1 : M3 R) = !![1, 0, 0; 0, 1, 0; 0, 0, 1] := by
  ext i j
  fin_cases i <;> fin_cases j <;> rfl

theorem vec_roll_to_mat3_posY (fm : FloatMath R) (hsqrt : ∀ x, 0 ≤ x → fm.sqrtf (x * x) = x)
    (hsin : fm.sinf 0 = 0) (hcos : fm.cosf 0 = 1) (L : R) (hL : 0 < L) :
    vec_roll_to_mat3 fm ![0, L, 0] 0 = 1 ∧ len_v3 fm ![0, L, 0] = L := by
  have hd : dot_v3v3 ![0, L, 0] ![0, L, 0] = L * L := by
    simp [dot_v3v3]
  have hn : normalize_v3_v3 fm ![0, L, 0] = ![0, 1, 0] := by
    ext k
    simp only [normalize_v3_v3, hd, hsqrt L (le_of_lt hL)]
    fin_cases k <;> simp [ne_of_gt hL]
  have hb : vec_roll_bMatrix (![0, 1, 0] : V3 R) = 1 := by
    rw [bMatrix_general _ (by simp [THETA_THRESHOLD_NEGY_CLOSE]; norm_num), one_m3_eq]
    simp [Matrix.vecHead, Matrix.vecTail]
  refine ⟨?_, by simp only [len_v3, hd, hsqrt L (le_of_lt hL)]⟩
  simp only [vec_roll_to_mat3, vec_roll_to_mat3_normalized, hn, hb,
    axis_angle_zero fm _ 0 hsin hcos, mul_m3_m3m3, mul_one]

/-- The offset matrix of a bone without rotation at the tail of its parent: the
translation by `(0, L, 0)`, with `L` the length of the parent. -/
theorem offset_posY (bone parent : BoneData R) (hm : bone.bone_mat = 1)
    (hh : bone.head = ![0, 0, 0]) :
    BKE_bone_offset_matrix_get bone parent
      = !![1, 0, 0, 0; 0, 1, 0, 0; 0, 0, 1, 0; 0, parent.length, 0, 1] := by
  simp [BKE_bone_offset_matrix_get, m4_set_loc, copy_m4_m3, hm, hh, Matrix.vecHead,
    Matrix.vecTail, Matrix.one_apply]

theorem chain_rest_data (fm : FloatMath R) (hsqrt : ∀ x, 0 ≤ x → fm.sqrtf (x * x) = x)
    (hsin : fm.sinf 0 = 0) (hcos : fm.cosf 0 = 1) (d : BoneData R) (L : R) (hL : 0 < L)
    (prev : Option (BoneData R)) (hh : d.head = ![0, 0, 0]) (ht : d.tail = ![0, L, 0])
    (hr : d.roll = 0) :
    (where_is_bone_data fm d prev).length = L ∧ (where_is_bone_data fm d prev).bone_mat = 1 ∧
    (where_is_bone_data fm d prev).head = ![0, 0, 0] ∧
    (prev = none → (where_is_bone_data fm d prev).arm_mat = 1) := by
  have hv : sub_v3_v3v3 d.tail d.head = ![0, L, 0] := by
    rw [hh, ht]
    ext k
    fin_cases k <;> simp [sub_v3_v3v3]
  obtain ⟨h1, h2⟩ := vec_roll_to_mat3_posY fm hsqrt hsin hcos L hL
  have hbm : (where_is_bone_data fm d prev).bone_mat = 1 := by
    rw [where_is_bone_data_bone_mat, hv, hr, h1]
  have hhd : (where_is_bone_data fm d prev).head = ![0, 0, 0] := by
    rw [(where_is_bone_data_geometry fm d prev).2.2.1, hh]
  refine ⟨by rw [where_is_bone_data_length, hv, h2], hbm, hhd, ?_⟩
  intro hp
  subst hp
  rw [where_is_bone_data_arm_mat_root, hbm, hhd, one_m4_eq]
  simp [rootMatrix, Matrix.vecHead, Matrix.vecTail, Matrix.one_apply]

/-! ### Claim C11 -/

/-- C11: a root bone from the origin to `(0, L1, 0)` and a child from the tail of the
root to `(0, L2, 0)` further, both with zero roll: after `BKE_armature_where_is` (rest
propagation) and `BKE_pose_where_is` on the pose of the two bones, with identity
channels, no constraints, no IK and zero cyclic offset, the channel of the child has
`pose_head = (0, L1, 0)` and `pose_tail = (0, L1 + L2, 0)`. -/
theorem C11_two_bone_chain (fm : FloatMath R) (hsqrt : ∀ x, 0 ≤ x → fm.sqrtf (x * x) = x)
    (hsin : fm.sinf 0 = 0) (hcos : fm.cosf 0 = 1)
    (ext : PoseExternals R) (scene : Scene R)
    (hik : ∀ o t, ext.BIK_initialize_tree scene o t = o)
    (hsp : ∀ o t, ext.BKE_pose_splineik_init_tree scene o t = o)
    (hrel : ∀ o t, ext.BIK_release_tree scene o t = o)
    (d1 d2 : BoneData R) (L1 L2 : R) (hL1 : 0 < L1) (hL2 : 0 < L2)
    (h1h : d1.head = ![0, 0, 0]) (h1t : d1.tail = ![0, L1, 0]) (h1r : d1.roll = 0)
    (h2h : d2.head = ![0, 0, 0]) (h2t : d2.tail = ![0, L2, 0]) (h2r : d2.roll = 0)
    (arm : bArmature R) (harm : arm.bonebase = [Bone.mk d1 [Bone.mk d2 []]])
    (hrest : (arm.edbo || has_flag arm.flag ARM_RESTPOS) = false)
    (ob : Object R) (pose : bPose R) (c1 c2 : bPoseChannel R)
    (htype : ob.ob_type = OB_ARMATURE) (hdata : ob.data = some (BKE_armature_where_is fm arm))
    (hpose : ob.pose = some pose) (hchan : pose.chanbase = [c1, c2])
    (hrecalc : has_flag pose.flag POSE_RECALC = false) (hcyc : ∀ k, pose.cyclic_offset k = 0)
    (hb1 : c1.bone = some (where_is_bone_data fm d1 none)) (hp1 : c1.parent = none)
    (hb2 : c2.bone = some (where_is_bone_data fm d2 (some (where_is_bone_data fm d1 none))))
    (hp2 : c2.parent = some c1.name)
    (hbp2 : c2.bone_parent = some (where_is_bone_data fm d1 none))
    (hid1 : BKE_pchan_to_mat4 ext c1 = 1) (hid2 : BKE_pchan_to_mat4 ext c2 = 1)
    (hcons1 : c1.has_constraints = false) (hcons2 : c2.has_constraints = false) :
    (BKE_armature_where_is fm arm).bonebase
      = [Bone.mk (where_is_bone_data fm d1 none)
          [Bone.mk (where_is_bone_data fm d2 (some (where_is_bone_data fm d1 none))) []]] ∧
    ∃ ob2 pose2 q1 q2, BKE_pose_where_is fm ext (some scene) ob = some ob2 ∧
      ob2.pose = some pose2 ∧ pose2.chanbase = [q1, q2] ∧
      q2.pose_head = ![0, L1, 0] ∧ q2.pose_tail = ![0, L1 + L2, 0] := by
  have hs1 : fm.sqrtf 1 = 1 := by
    have := hsqrt 1 zero_le_one
    rwa [mul_one] at this
  obtain ⟨r1len, _, _, r1arm⟩ := chain_rest_data fm hsqrt hsin hcos d1 L1 hL1 none h1h h1t h1r
  obtain ⟨r2len, r2mat, r2head, _⟩ := chain_rest_data fm hsqrt hsin hcos d2 L2 hL2
    (some (where_is_bone_data fm d1 none)) h2h h2t h2r
  have r1arm := r1arm rfl
  have hoffs : BKE_bone_offset_matrix_get
      (where_is_bone_data fm d2 (some (where_is_bone_data fm d1 none)))
      (where_is_bone_data fm d1 none)
      = !![1, 0, 0, 0; 0, 1, 0, 0; 0, 0, 1, 0; 0, L1, 0, 1] := by
    rw [offset_posY _ _ r2mat r2head, r1len]
  have r2arm : (where_is_bone_data fm d2 (some (where_is_bone_data fm d1 none))).arm_mat
      = !![1, 0, 0, 0; 0, 1, 0, 0; 0, 0, 1, 0; 0, L1, 0, 1] := by
    rw [where_is_bone_data_arm_mat_child, ← offset_matrix_eq, hoffs, r1arm]
    simp only [mul_m4_m4m4, mul_one]
  have hbones : (BKE_armature_where_is fm arm).bonebase
      = [Bone.mk (where_is_bone_data fm d1 none)
          [Bone.mk (where_is_bone_data fm d2 (some (where_is_bone_data fm d1 none))) []]] := by
    simp only [BKE_armature_where_is, harm, List.map, BKE_armature_where_is_bone, if_true,
      where_is_bone_children]
  refine ⟨hbones, ?_⟩
  obtain ⟨ob2, pose2, hrun, hp, hlen, hall⟩ := pose_where_is_identity fm hs1 ext scene hik hsp
    hrel ob (BKE_armature_where_is fm arm) pose htype hdata hpose hrecalc hrest hcyc
    (by
      intro i c hc
      rw [hchan] at hc
      match i, hc with
      | 0, hc =>
        obtain rfl : c1 = c := Option.some.inj hc
        exact ⟨hcons1, hid1, _, hb1, Or.inl hp1⟩
      | 1, hc =>
        obtain rfl : c2 = c := Option.some.inj hc
        refine ⟨hcons2, hid2, _, hb2, Or.inr ⟨c1.name, _, 0, c1, hp2, hbp2, by omega, ?_, rfl,
          hb1, fun j2 q hj => absurd hj (by omega), ?_, ?_⟩⟩
        · rw [hchan]
          rfl
        · intro a
          have h2 : (Fin.castSucc (2 : Fin 3) : Fin 4) = 2 := rfl
          rw [r1arm, one_m4_eq]
          fin_cases a <;> simp [dot_v3v3, m4_axis, h2, Matrix.vecHead, Matrix.vecTail]
        · rw [hoffs, r2arm, r1arm]
          simp only [mul_m4_m4m4, mul_one]
      | i + 2, hc => simp at hc)
  rw [hchan] at hlen hall
  obtain ⟨q1, _, hq1, _⟩ := hall 0 c1 rfl
  obtain ⟨q2, b2, hq2, hcb, _, _, _, hhead, htail, _⟩ := hall 1 c2 rfl
  obtain rfl : where_is_bone_data fm d2 (some (where_is_bone_data fm d1 none)) = b2 :=
    Option.some.inj (hb2.symm.trans hcb)
  have hlist : pose2.chanbase = [q1, q2] := by
    match hl : pose2.chanbase, hlen with
    | [x, y], _ =>
      rw [hl] at hq1 hq2
      have e1 : x = q1 := Option.some.inj hq1
      have e2 : y = q2 := Option.some.inj hq2
      rw [e1, e2]
  refine ⟨ob2, pose2, q1, q2, hrun, hp, hlist, ?_, ?_⟩
  · rw [hhead, r2arm]
    ext k
    fin_cases k <;> simp [m4_axis, Matrix.vecHead, Matrix.vecTail]
  · rw [htail, r2arm, r2len]
    ext k
    fin_cases k <;> simp [m4_axis, add_v3_v3v3, mul_v3_fl, Matrix.vecHead, Matrix.vecTail]

end TwoBoneChain

section TwoBoneChainExamples

/-- C11, witness: the chain with `L1 = L2 = 1`: the child has head (0,1,0) and tail
(0,2,0). -/
theorem C11_two_bone_chain_witness :
    ∃ ob2 pose2 q1 q2, BKE_pose_where_is ratMath (noExternals ℚ) (some (Scene.mk 1))
        exampleChainObject = some ob2 ∧
      ob2.pose = some pose2 ∧ pose2.chanbase = [q1, q2] ∧
      q2.pose_head = ![0, 1, 0] ∧ q2.pose_tail = ![0, 2, 0] := by
  obtain ⟨_, ob2, pose2, q1, q2, hrun, hp, hl, hh, ht⟩ := C11_two_bone_chain ratMath
    (fun x hx => by
      show Rat.sqrt (x * x) = x
      rw [Rat.sqrt_eq, abs_of_nonneg hx])
    rfl rfl (noExternals ℚ) (Scene.mk 1) (fun _ _ => rfl) (fun _ _ => rfl) (fun _ _ => rfl)
    exampleChainRoot exampleChainChild 1 1 one_pos one_pos rfl rfl rfl rfl rfl rfl
    exampleChainArmature rfl (by decide) exampleChainObject _ _ _ rfl rfl rfl rfl (by decide)
    (by intro k; fin_cases k <;> rfl) rfl rfl rfl rfl rfl
    (pchan_to_mat4_identity _ _ rfl rfl rfl rfl) (pchan_to_mat4_identity _ _ rfl rfl rfl rfl)
    rfl rfl
  refine ⟨ob2, pose2, q1, q2, hrun, hp, hl, hh, ?_⟩
  rw [ht]
  norm_num

end TwoBoneChainExamples

/-! ## Theorems: B-Bone spline parameters -/

section SplineParams

variable {R : Type} [LinearOrderedField R]

theorem spline_params_prev_segments (bone : BBoneBone R) (pchan : BBoneChannel R) (rest : Bool)
    (imat : M4 R) (prev : BBoneHandleChannel R) (param p2 : BBoneSplineParameters R)
    (h : spline_params_prev bone pchan rest imat prev param = some p2) :
    p2.segments = param.segments := by
  have hh : ∀ q h1, spline_params_prev_handle bone pchan rest prev param = some (q, h1) →
      q.segments = param.segments := by
    intro q h1 e
    simp only [spline_params_prev_handle] at e
    split_ifs at e <;> (try split at e) <;>
      simp only [Option.some.injEq, Prod.mk.injEq, reduceCtorEq] at e <;>
      (obtain ⟨rfl, _⟩ := e; rfl)
  have hf : ∀ q h1 q2, spline_params_prev_finish rest imat prev q h1 = some q2 →
      q2.segments = q.segments := by
    intro q h1 q2 e
    simp only [spline_params_prev_finish] at e
    cases h1 <;> split_ifs at e <;> (try split at e) <;>
      simp only [Option.some.injEq, reduceCtorEq] at e <;> (subst e; rfl)
  simp only [spline_params_prev] at h
  split at h
  · exact absurd h (by simp)
  · rename_i q h1 e
    rw [hf q h1 p2 h, hh q h1 e]

theorem spline_params_next_segments (bone : BBoneBone R) (pchan : BBoneChannel R) (rest : Bool)
    (imat : M4 R) (next : BBoneHandleChannel R) (param p2 : BBoneSplineParameters R)
    (h : spline_params_next bone pchan rest imat next param = some p2) :
    p2.segments = param.segments := by
  have hh : ∀ q h2, spline_params_next_handle bone pchan rest next param = some (q, h2) →
      q.segments = param.segments := by
    intro q h2 e
    simp only [spline_params_next_handle] at e
    split_ifs at e <;> (try split at e) <;>
      simp only [Option.some.injEq, Prod.mk.injEq, reduceCtorEq] at e <;>
      (obtain ⟨rfl, _⟩ := e; rfl)
  have hf : ∀ q h2 q2, spline_params_next_finish rest imat next q h2 = some q2 →
      q2.segments = q.segments := by
    intro q h2 q2 e
    simp only [spline_params_next_finish] at e
    cases h2 <;> split_ifs at e <;> (try split at e) <;>
      simp only [Option.some.injEq, reduceCtorEq] at e <;> (subst e; rfl)
  simp only [spline_params_next] at h
  split at h
  · exact absurd h (by simp)
  · rename_i q h2 e
    rw [hf q h2 p2 h, hh q h2 e]

/-- The record filled by `BKE_pchan_bbone_spline_params_get` holds the segment count
of the bone as it is stored. -/
theorem spline_params_get_segments (fm : FloatMath R) (pchan : BBoneChannel R) (rest : Bool)
    (param : BBoneSplineParameters R)
    (h : BKE_pchan_bbone_spline_params_get fm pchan rest = some param) :
    ∃ bone, pchan.bone = some bone ∧ param.segments = bone.bone.segments := by
  simp only [BKE_pchan_bbone_spline_params_get] at h
  split at h
  · exact absurd h (by simp)
  · rename_i bone hb
    refine ⟨bone, hb, ?_⟩
    have hq0 : (spline_params_init fm bone pchan rest).segments = bone.bone.segments := by
      simp only [spline_params_init]
      split_ifs <;> rfl
    generalize spline_params_init fm bone pchan rest = q0 at h hq0
    generalize spline_params_imat fm bone pchan rest q0 = imat at h
    simp only [Option.map_eq_some'] at h
    obtain ⟨p3, hp3, rfl⟩ := h
    have hoff : ∀ prev q, (spline_params_offsets bone pchan rest prev q).segments = q.segments :=
      fun _ _ => rfl
    rw [hoff, ← hq0]
    have h1 : ∀ p1, (match (BKE_pchan_bbone_handles_get pchan bone).1 with
        | some prev => spline_params_prev bone pchan rest imat prev q0
        | none => some q0) = some p1 → p1.segments = q0.segments := by
      intro p1 e
      split at e
      · exact spline_params_prev_segments _ _ _ _ _ _ _ e
      · rw [← Option.some.inj e]
    split at hp3
    · exact absurd hp3 (by simp)
    · rename_i p1 e1
      split at hp3
      · rw [spline_params_next_segments _ _ _ _ _ _ _ hp3, h1 p1 e1]
      · rw [← Option.some.inj hp3, h1 p1 e1]

/-! ### Claim C22 -/

/-- C22: the record filled by `BKE_pchan_bbone_spline_params_get` holds the segment
count of the bone unchanged; it is `BKE_pchan_bbone_spline_compute` that clamps the
field to `MAX_BBONE_SUBDIV`, in the record and in its return value. -/
theorem C22_segments_clamp (fm : FloatMath R) (circle : V3 R → V3 R → R)
    (pchan : BBoneChannel R) (rest : Bool) (param : BBoneSplineParameters R)
    (result_array : Nat → M4 R)
    (h : BKE_pchan_bbone_spline_params_get fm pchan rest = some param) :
    (∃ bone, pchan.bone = some bone ∧ param.segments = bone.bone.segments) ∧
    (BKE_pchan_bbone_spline_compute fm circle param result_array).1.segments
      = min param.segments MAX_BBONE_SUBDIV ∧
    (BKE_pchan_bbone_spline_compute fm circle param result_array).1.segments
      ≤ MAX_BBONE_SUBDIV ∧
    (BKE_pchan_bbone_spline_compute fm circle param result_array).2.2
      = min param.segments MAX_BBONE_SUBDIV :=
  ⟨spline_params_get_segments fm pchan rest param h, rfl, Nat.min_le_right _ _, rfl⟩

end SplineParams

section SplineParamsExamples

/-- C22, witness: a bone with 4 segments and no neighbours. -/
theorem C22_segments_clamp_witness :
    ∃ param, BKE_pchan_bbone_spline_params_get ratMath (exampleBBoneChannel 4) false = some param ∧
      param.segments = 4 ∧
      (BKE_pchan_bbone_spline_compute ratMath (fun _ _ => 0) param (fun _ => 1)).1.segments
        ≤ MAX_BBONE_SUBDIV := by
  obtain ⟨param, hp⟩ := Option.isSome_iff_exists.mp
    (show (BKE_pchan_bbone_spline_params_get ratMath (exampleBBoneChannel 4) false).isSome = true
      from rfl)
  obtain ⟨⟨bone, hb, hs⟩, _, hle, _⟩ :=
    C22_segments_clamp ratMath (fun _ _ => 0) (exampleBBoneChannel 4) false param (fun _ => 1) hp
  refine ⟨param, hp, ?_, hle⟩
  have e : exampleBBoneBone 4 = bone := Option.some.inj hb
  rw [hs, ← e]
  rfl

/-- C22, counterexample: a bone that stores 33 segments: the record filled by
`BKE_pchan_bbone_spline_params_get` holds 33, above `MAX_BBONE_SUBDIV`. -/
theorem C22_segments_clamp_counterexample :
    ∃ param, BKE_pchan_bbone_spline_params_get ratMath (exampleBBoneChannel 33) false
        = some param ∧ ¬ (param.segments ≤ MAX_BBONE_SUBDIV) := by
  obtain ⟨param, hp⟩ := Option.isSome_iff_exists.mp
    (show (BKE_pchan_bbone_spline_params_get ratMath (exampleBBoneChannel 33) false).isSome = true
      from rfl)
  obtain ⟨bone, hb, hs⟩ := spline_params_get_segments ratMath (exampleBBoneChannel 33) false param hp
  refine ⟨param, hp, ?_⟩
  have e : exampleBBoneBone 33 = bone := Option.some.inj hb
  rw [hs, ← e]
  decide

end SplineParamsExamples

/-! ## Theorems: B-Bone segment scale -/

section SegmentScale

variable {R : Type} [LinearOrderedField R]

theorem size_to_mat4_scalefac_one : size_to_mat4 (![1, 1, 1] : V3 R) = 1 := by
  ext i j
  fin_cases i <;> fin_cases j <;> rfl

/-! ### Claim C36 -/

/-- C36: the X/Z scale factor that `BKE_pchan_bbone_spline_compute` applies to the
segment `a` of `n` is the product
`(1 + (scaleIn - 1) (n - a) / n) · (1 + (scaleOut - 1) (a + 1) / n)` of two factors that
are affine in `a`; the matrix of the segment is the unscaled one with its X and Z axes
multiplied by that factor and its Y axis and translation unchanged; the factor is 1
when `scaleIn = scaleOut = 1`. -/
theorem C36_scale_factor (fm : FloatMath R) (circle : V3 R → V3 R → R)
    (param : BBoneSplineParameters R) (result_array : Nat → M4 R) (a : Nat) :
    bbone_scalefac param a
      = (1 + (param.scaleIn - 1) * (((param.segments : R) - (a : R)) / (param.segments : R)))
        * (1 + (param.scaleOut - 1) * (((a : R) + 1) / (param.segments : R))) ∧
    (∀ (scalemat iscalemat : M4 R) (data : Nat → Fin 4 → R) (i j : Fin 4),
      bbone_segment_mat fm param scalemat iscalemat data a i j
        = (if i = 0 ∨ i = 2 then bbone_scalefac param a else 1)
          * bbone_segment_mat fm { param with scaleIn := 1, scaleOut := 1 } scalemat iscalemat
              data a i j) ∧
    (param.scaleIn = 1 → param.scaleOut = 1 → bbone_scalefac param a = 1) ∧
    (a < min param.segments MAX_BBONE_SUBDIV →
      ∃ data scalemat iscalemat,
        (BKE_pchan_bbone_spline_compute fm circle param result_array).2.1 a
          = bbone_segment_mat fm (BKE_pchan_bbone_spline_compute fm circle param result_array).1
              scalemat iscalemat data a) := by
  have hfac : bbone_scalefac param a
      = (1 + (param.scaleIn - 1) * (((param.segments : R) - (a : R)) / (param.segments : R)))
        * (1 + (param.scaleOut - 1) * (((a : R) + 1) / (param.segments : R))) := by
    simp only [bbone_scalefac]
    push_cast
    rfl
  have hone : ∀ p : BBoneSplineParameters R, p.scaleIn = 1 → p.scaleOut = 1 →
      bbone_scalefac p a = 1 := by
    intro p h1 h2
    simp only [bbone_scalefac, h1, h2, sub_self, zero_mul, add_zero, mul_one]
  refine ⟨hfac, ?_, hone param, ?_⟩
  · intro scalemat iscalemat data i j
    have h1 : bbone_scalefac { param with scaleIn := 1, scaleOut := 1 } a = 1 := hone _ rfl rfl
    simp only [bbone_segment_mat, h1, size_to_mat4_scalefac_one, mul_m4_m4m4, one_mul]
    generalize bbone_scalefac param a = f
    generalize (if param.do_scale = true then _ else _ : M4 R) = m
    fin_cases i <;> fin_cases j <;>
      simp [m4_mul_apply, size_to_mat4, Matrix.vecHead, Matrix.vecTail]
  · intro ha
    simp only [BKE_pchan_bbone_spline_compute, ha, if_true]
    exact ⟨_, _, _, rfl⟩

end SegmentScale

section SegmentScaleExamples

/-- C36, counterexample: two segments with `scaleIn = scaleOut = 2`: the factor of the
segment 0 is 3, outside the interval between `scaleIn` and `scaleOut`. -/
theorem C36_scale_factor_counterexample :
    bbone_scalefac (exampleSplineParams 2 2 2) 0 = 3 ∧
    bbone_scalefac (exampleSplineParams 2 2 2) 1 = 3 ∧
    ¬ (bbone_scalefac (exampleSplineParams 2 2 2) 0 ≤ max (exampleSplineParams 2 2 2).scaleIn
        (exampleSplineParams 2 2 2).scaleOut) := by
  have h0 : bbone_scalefac (exampleSplineParams 2 2 2) 0 = 3 := by
    simp only [bbone_scalefac, exampleSplineParams]
    norm_num
  have h1 : bbone_scalefac (exampleSplineParams 2 2 2) 1 = 3 := by
    simp only [bbone_scalefac, exampleSplineParams]
    norm_num
  refine ⟨h0, h1, ?_⟩
  rw [h0]
  simp only [exampleSplineParams]
  norm_num

end SegmentScaleExamples

/-! ## Theorems: B-Bone handle rolls -/

section HandleRoll

variable {R : Type} [LinearOrderedField R]

/-! ### Claim C34 -/

/-- C34: in `BKE_pchan_bbone_handles_compute` without the user offsets, the roll of
the previous handle is 0 when that handle is not in use or when `prev_bbone` is set,
and `mat3_vec_to_roll` of `prev_mat` and the handle direction (the negated normalized
`prev_h`) when the handle is in use and `prev_bbone` is not set; the roll of the next
handle is 0 when that handle is not in use and, when in use, is `mat3_vec_to_roll` of
`next_mat` and the handle direction, whether `next_bbone` is set or not (only the
direction depends on `next_bbone`: the bone length is subtracted from the handle point
before it is normalized when `next_bbone` is not set). -/
theorem C34_handle_roll (fm : FloatMath R) (circle : V3 R → V3 R → R)
    (param : BBoneSplineParameters R) (ease : Bool) :
    (param.use_prev = true → param.prev_bbone = true →
      (BKE_pchan_bbone_handles_compute fm circle param ease false).roll1 = 0) ∧
    (param.use_prev = false →
      (BKE_pchan_bbone_handles_compute fm circle param ease false).roll1 = 0) ∧
    (param.use_prev = true → param.prev_bbone = false →
      (BKE_pchan_bbone_handles_compute fm circle param ease false).roll1
        = mat3_vec_to_roll fm (copy_m3_m4 param.prev_mat)
            (fun k => -(normalize_v3_v3 fm param.prev_h k))) ∧
    (param.use_next = false →
      (BKE_pchan_bbone_handles_compute fm circle param ease false).roll2 = 0) ∧
    (param.use_next = true →
      (BKE_pchan_bbone_handles_compute fm circle param ease false).roll2
        = mat3_vec_to_roll fm (copy_m3_m4 param.next_mat)
            (normalize_v3_v3 fm
              (if param.next_bbone then param.next_h
                else ![param.next_h 0,
                  param.next_h 1 - (if param.do_scale then param.length * param.scale 1
                    else param.length), param.next_h 2]))) := by
  refine ⟨?_, ?_, ?_, ?_, ?_⟩
  · intro h1 h2
    simp only [BKE_pchan_bbone_handles_compute, h1, h2, if_true, Bool.not_true,
      Bool.false_eq_true, if_false]
  · intro h1
    simp only [BKE_pchan_bbone_handles_compute, h1, Bool.false_eq_true, if_false]
  · intro h1 h2
    simp only [BKE_pchan_bbone_handles_compute, h1, h2, if_true, Bool.not_false,
      Bool.false_eq_true, if_false]
  · intro h1
    simp only [BKE_pchan_bbone_handles_compute, h1, Bool.false_eq_true, if_false]
  · intro h1
    simp only [BKE_pchan_bbone_handles_compute, h1, if_true, Bool.false_eq_true, if_false]

end HandleRoll

section HandleRollExamples

/-- C34, counterexample (floats as reals): the next handle in use with `next_bbone`
set and a neighbour turned by a quarter about Y: the roll of the next handle is π/2. -/
theorem C34_handle_roll_counterexample :
    (exampleNextParams ℝ).use_next = true ∧ (exampleNextParams ℝ).next_bbone = true ∧
    (BKE_pchan_bbone_handles_compute
      (FloatMath.mk Real.sqrt Real.sin Real.cos (fun y x => Complex.arg ⟨x, y⟩))
      (fun _ _ => 0) (exampleNextParams ℝ) false false).roll2 = Real.pi / 2 ∧
    (BKE_pchan_bbone_handles_compute
      (FloatMath.mk Real.sqrt Real.sin Real.cos (fun y x => Complex.arg ⟨x, y⟩))
      (fun _ _ => 0) (exampleNextParams ℝ) false false).roll2 ≠ 0 := by
  have hroll : (BKE_pchan_bbone_handles_compute
      (FloatMath.mk Real.sqrt Real.sin Real.cos (fun y x => Complex.arg ⟨x, y⟩))
      (fun _ _ => 0) (exampleNextParams ℝ) false false).roll2 = Real.pi / 2 := by
    have hn : normalize_v3_v3
        (FloatMath.mk Real.sqrt Real.sin Real.cos (fun y x => Complex.arg ⟨x, y⟩))
        (![0, 1, 0] : V3 ℝ) = ![0, 1, 0] := by
      ext k
      fin_cases k <;> simp [normalize_v3_v3, dot_v3v3]
    have hv := (vec_roll_to_mat3_posY
      (FloatMath.mk Real.sqrt Real.sin Real.cos (fun y x => Complex.arg ⟨x, y⟩))
      (fun x hx => Real.sqrt_mul_self hx) Real.sin_zero Real.cos_zero 1 one_pos).1
    have hi : invert_m3_m3 (1 : M3 ℝ) = 1 := by
      simp [invert_m3_m3]
    have harg : Complex.arg ⟨0, 1⟩ = Real.pi / 2 := Complex.arg_I
    simp only [BKE_pchan_bbone_handles_compute, exampleNextParams, if_true, Bool.false_eq_true,
      if_false, hn, mat3_vec_to_roll, hv, hi, mul_m3_m3m3, mul_one]
    simp [copy_m3_m4, Matrix.vecHead, Matrix.vecTail, harg]
  refine ⟨rfl, rfl, hroll, ?_⟩
  rw [hroll]
  exact ne_of_gt (by positivity)

end HandleRollExamples

/-! ## Theorems: equalizing the B-Bone samples -/

section EqualizeSearch

variable {R : Type} [LinearOrderedField R]

/-- The `while` loop of `equalize_bbone_bezier`: `nr` only grows, stays within
`MAX_BBONE_SUBDIV`, the loop condition fails at the end, and the entry before the
final `nr` has been passed if the loop has moved. -/
theorem equalize_search_spec (pdist : Nat → R) (dist : R) :
    ∀ n nr, MAX_BBONE_SUBDIV - nr = n →
      nr ≤ equalize_search pdist dist nr ∧
      (nr ≤ MAX_BBONE_SUBDIV → equalize_search pdist dist nr ≤ MAX_BBONE_SUBDIV) ∧
      ¬ (equalize_search pdist dist nr < MAX_BBONE_SUBDIV ∧
          dist ≥ pdist (equalize_search pdist dist nr)) ∧
      (nr < equalize_search pdist dist nr → dist ≥ pdist (equalize_search pdist dist nr - 1)) := by
  intro n
  induction n with
  | zero =>
    intro nr hn
    have hc : ¬ (nr < MAX_BBONE_SUBDIV ∧ dist ≥ pdist nr) := by
      intro h
      omega
    rw [equalize_search, dif_neg hc]
    exact ⟨le_refl _, fun h => h, hc, fun h => absurd h (lt_irrefl _)⟩
  | succ n ih =>
    intro nr hn
    by_cases hc : nr < MAX_BBONE_SUBDIV ∧ dist ≥ pdist nr
    · rw [equalize_search, dif_pos hc]
      obtain ⟨h1, h2, h3, h4⟩ := ih (nr + 1) (by omega)
      refine ⟨by omega, fun _ => h2 (by omega), h3, ?_⟩
      intro _
      rcases Nat.lt_or_ge (nr + 1) (equalize_search pdist dist (nr + 1)) with h | h
      · exact h4 h
      · have e : equalize_search pdist dist (nr + 1) = nr + 1 := by omega
        rw [e, Nat.add_sub_cancel]
        exact hc.2
    · rw [equalize_search, dif_neg hc]
      exact ⟨le_refl _, fun h => h, hc, fun h => absurd h (lt_irrefl _)⟩

theorem equalize_search_all (pdist : Nat → R) (dist : R) (h : ∀ k, dist ≥ pdist k) :
    ∀ n nr, MAX_BBONE_SUBDIV - nr = n → nr ≤ MAX_BBONE_SUBDIV →
      equalize_search pdist dist nr = MAX_BBONE_SUBDIV := by
  intro n nr hn hle
  obtain ⟨_, h2, h3, _⟩ := equalize_search_spec pdist dist n nr hn
  have := h2 hle
  by_contra hne
  exact h3 ⟨by omega, h _⟩

end EqualizeSearch

section EqualizeLoop

variable {R : Type} [LinearOrderedField R]

theorem equalize_loop_succ (pdist : Nat → R) (temp : Nat → Fin 4 → R) (ddist : R)
    (data : Nat → Fin 4 → R) (n : Nat) :
    (equalize_loop pdist temp ddist data (n + 1)).1
      = equalize_search pdist (((n + 1 : Nat) : R) * ddist)
          (equalize_loop pdist temp ddist data n).1 ∧
    (equalize_loop pdist temp ddist data (n + 1)).2
      = Function.update (equalize_loop pdist temp ddist data n).2 (n + 1)
          (fun k =>
            (pdist (equalize_loop pdist temp ddist data (n + 1)).1
                - ((n + 1 : Nat) : R) * ddist)
              / (pdist (equalize_loop pdist temp ddist data (n + 1)).1
                - pdist ((equalize_loop pdist temp ddist data (n + 1)).1 - 1))
              * temp ((equalize_loop pdist temp ddist data (n + 1)).1 - 1) k
            + (1 - (pdist (equalize_loop pdist temp ddist data (n + 1)).1
                - ((n + 1 : Nat) : R) * ddist)
              / (pdist (equalize_loop pdist temp ddist data (n + 1)).1
                - pdist ((equalize_loop pdist temp ddist data (n + 1)).1 - 1)))
              * temp (equalize_loop pdist temp ddist data (n + 1)).1 k) :=
  ⟨rfl, rfl⟩

/-- The counter `nr` of `equalize_bbone_bezier` stays between 1 and
`MAX_BBONE_SUBDIV`. -/
theorem equalize_loop_nr (pdist : Nat → R) (temp : Nat → Fin 4 → R) (ddist : R)
    (data : Nat → Fin 4 → R) :
    ∀ n, 1 ≤ (equalize_loop pdist temp ddist data n).1 ∧
      (equalize_loop pdist temp ddist data n).1 ≤ MAX_BBONE_SUBDIV := by
  intro n
  induction n with
  | zero => exact ⟨le_refl _, show 1 ≤ MAX_BBONE_SUBDIV by decide⟩
  | succ n ih =>
    rw [(equalize_loop_succ pdist temp ddist data n).1]
    obtain ⟨h1, h2, _, _⟩ := equalize_search_spec pdist (((n + 1 : Nat) : R) * ddist) _
      (equalize_loop pdist temp ddist data n).1 rfl
    exact ⟨le_trans ih.1 h1, h2 ih.2⟩

/-- The loop of `equalize_bbone_bezier` writes the point `n + 1` in its iteration
`n + 1` and leaves the points after it as they are. -/
theorem equalize_loop_data_gt (pdist : Nat → R) (temp : Nat → Fin 4 → R) (ddist : R)
    (data : Nat → Fin 4 → R) :
    ∀ n k, n < k → (equalize_loop pdist temp ddist data n).2 k = data k := by
  intro n
  induction n with
  | zero => intro k _; rfl
  | succ n ih =>
    intro k hk
    rw [(equalize_loop_succ pdist temp ddist data n).2,
      Function.update_noteq (by omega : k ≠ n + 1)]
    exact ih k (by omega)

theorem equalize_loop_data_zero (pdist : Nat → R) (temp : Nat → Fin 4 → R) (ddist : R)
    (data : Nat → Fin 4 → R) :
    ∀ n, (equalize_loop pdist temp ddist data n).2 0 = data 0 := by
  intro n
  induction n with
  | zero => rfl
  | succ n ih =>
    rw [(equalize_loop_succ pdist temp ddist data n).2,
      Function.update_noteq (by omega : 0 ≠ n + 1)]
    exact ih

theorem equalize_loop_data_le (pdist : Nat → R) (temp : Nat → Fin 4 → R) (ddist : R)
    (data : Nat → Fin 4 → R) (k : Nat) :
    ∀ n, k ≤ n → (equalize_loop pdist temp ddist data n).2 k
      = (equalize_loop pdist temp ddist data k).2 k := by
  intro n
  induction n with
  | zero =>
    intro hk
    obtain rfl : k = 0 := by omega
    rfl
  | succ n ih =>
    intro hk
    by_cases e : k = n + 1
    · subst e
      rfl
    · rw [(equalize_loop_succ pdist temp ddist data n).2, Function.update_noteq e]
      exact ih (by omega)

/-- The points of `equalize_bbone_bezier` after the call: point 0 is kept, the point
`a` with `0 < a < desired` is the interpolation written in iteration `a`, and the
point `max desired 1` is the last sample. -/
theorem equalize_bbone_bezier_points (fm : FloatMath R) (data : Nat → Fin 4 → R)
    (desired : Nat) :
    equalize_bbone_bezier fm data desired 0 = data 0 ∧
    equalize_bbone_bezier fm data desired (max desired 1) = data MAX_BBONE_SUBDIV ∧
    ∀ a, 0 < a → a < desired →
      equalize_bbone_bezier fm data desired a
        = (equalize_loop (equalize_pdist fm data) data
            (equalize_pdist fm data MAX_BBONE_SUBDIV / (desired : R)) data a).2 a := by
  refine ⟨?_, ?_, ?_⟩
  · simp only [equalize_bbone_bezier]
    rw [Function.update_noteq (by omega : 0 ≠ max desired 1)]
    exact equalize_loop_data_zero _ _ _ _ _
  · simp only [equalize_bbone_bezier, Function.update_same]
  · intro a h0 h1
    simp only [equalize_bbone_bezier]
    rw [Function.update_noteq (by omega : a ≠ max desired 1)]
    exact equalize_loop_data_le _ _ _ _ a _ (by omega)

end EqualizeLoop

/-! ## Theorems: zero-length B-Bones -/

section ZeroLength

variable {R : Type} [LinearOrderedField R]

theorem equalize_pdist_zero (fm : FloatMath R) (hs0 : fm.sqrtf 0 = 0) (data : Nat → Fin 4 → R)
    (h : ∀ k, qt_xyz (data (k + 1)) = qt_xyz (data k)) : ∀ k, equalize_pdist fm data k = 0 := by
  intro k
  induction k with
  | zero => rfl
  | succ k ih =>
    have hz : dot_v3v3 (sub_v3_v3v3 (qt_xyz (data k)) (qt_xyz (data k)))
        (sub_v3_v3v3 (qt_xyz (data k)) (qt_xyz (data k))) = 0 := by
      simp [dot_v3v3, sub_v3_v3v3]
    simp only [equalize_pdist, ih, len_v3v3, len_v3, h k, hz, hs0, add_zero]

/-! ### Claim C38 -/

/-- C38: for samples that all coincide (a bone of length 0) every iteration `a ≥ 1` of
the loop of `equalize_bbone_bezier` ends its search at `nr = MAX_BBONE_SUBDIV`, where
the span `pdist[nr] - pdist[nr - 1]` it divides by is 0: the factor it computes is
`0 / 0`; and `b_bone_deform` on a bone of length 0 divides `y` by the segment length
`length / segments = 0`. -/
theorem C38_zero_length_division (fm : FloatMath R) (hs0 : fm.sqrtf 0 = 0)
    (data : Nat → Fin 4 → R) (hdata : ∀ k, qt_xyz (data (k + 1)) = qt_xyz (data k))
    (desired n : Nat) (to_int : R → Int) (b_bone : Nat → M4 R) (bone : BoneData R) (co : V3 R)
    (hlen : bone.length = 0) :
    (equalize_loop (equalize_pdist fm data) data
      (equalize_pdist fm data MAX_BBONE_SUBDIV / (desired : R)) data (n + 1)).1
        = MAX_BBONE_SUBDIV ∧
    equalize_pdist fm data MAX_BBONE_SUBDIV - equalize_pdist fm data (MAX_BBONE_SUBDIV - 1) = 0 ∧
    (equalize_loop (equalize_pdist fm data) data
      (equalize_pdist fm data MAX_BBONE_SUBDIV / (desired : R)) data (n + 1)).2 (n + 1)
        = (fun k => (0 : R) / 0 * data (MAX_BBONE_SUBDIV - 1) k
            + (1 - (0 : R) / 0) * data MAX_BBONE_SUBDIV k) ∧
    bone.length / (bone.segments : R) = 0 ∧
    b_bone_deform_segment to_int b_bone bone co
      = Int.toNat (max 0 (min (to_int ((b_bone 0 0 1 * co 0 + b_bone 0 1 1 * co 1
          + b_bone 0 2 1 * co 2 + b_bone 0 3 1) / 0)) ((bone.segments : Int) - 1))) := by
  have hp := equalize_pdist_zero fm hs0 data hdata
  have hnr : (equalize_loop (equalize_pdist fm data) data
      (equalize_pdist fm data MAX_BBONE_SUBDIV / (desired : R)) data (n + 1)).1
        = MAX_BBONE_SUBDIV := by
    rw [(equalize_loop_succ _ _ _ _ n).1]
    apply equalize_search_all _ _ _ _ _ rfl
      (equalize_loop_nr (equalize_pdist fm data) data _ data n).2
    intro k
    rw [hp k, hp MAX_BBONE_SUBDIV, zero_div, mul_zero]
  refine ⟨hnr, by rw [hp, hp, sub_zero], ?_, by rw [hlen, zero_div], ?_⟩
  · rw [(equalize_loop_succ _ _ _ _ n).2, Function.update_same, hnr]
    simp only [hp, zero_div, mul_zero, sub_zero]
  · simp only [b_bone_deform_segment, hlen, zero_div]
    generalize to_int _ = t
    split_ifs with h1 h2 <;> omega

/-- C38, witness: 33 samples at the origin, two segments, and the example bone with
its length set to 0. -/
theorem C38_zero_length_division_witness :
    (equalize_loop (equalize_pdist ratMath (fun _ _ => 0)) (fun _ _ => 0)
      (equalize_pdist ratMath (fun _ _ => 0) MAX_BBONE_SUBDIV / ((2 : Nat) : ℚ))
      (fun _ _ => 0) (0 + 1)).1 = MAX_BBONE_SUBDIV ∧
    equalize_pdist ratMath (fun _ _ => 0) MAX_BBONE_SUBDIV
      - equalize_pdist ratMath (fun _ _ => 0) (MAX_BBONE_SUBDIV - 1) = 0 ∧
    ({ exampleBone with length := 0, segments := 2 } : BoneData ℚ).length
      / ((({ exampleBone with length := 0, segments := 2 } : BoneData ℚ).segments : Nat) : ℚ)
      = 0 := by
  obtain ⟨h1, h2, _, h4, _⟩ := C38_zero_length_division ratMath (by simp [ratMath, Rat.sqrt])
    (fun _ _ => 0) (fun _ => rfl) 2 0 (fun q => Int.floor q) (fun _ => 1)
    { exampleBone with length := 0, segments := 2 } ![0, 0, 0] rfl
  exact ⟨h1, h2, h4⟩

end ZeroLength

/-! ## Theorems: resampling by arc length -/

section Resample

theorem equalize_pdist_step_pos (fm : FloatMath ℝ) (hfm : fm.Exact) (data : Nat → Fin 4 → ℝ)
    (k : Nat) (h : qt_xyz (data k) ≠ qt_xyz (data (k + 1))) :
    equalize_pdist fm data k < equalize_pdist fm data (k + 1) := by
  have hne : sub_v3_v3v3 (qt_xyz (data (k + 1))) (qt_xyz (data k)) ≠ 0 := by
    intro e
    apply h
    ext j
    have := congrFun e j
    simp only [sub_v3_v3v3, Pi.zero_apply] at this
    linarith
  have hpos : 0 < dot_v3v3 (sub_v3_v3v3 (qt_xyz (data (k + 1))) (qt_xyz (data k)))
      (sub_v3_v3v3 (qt_xyz (data (k + 1))) (qt_xyz (data k))) :=
    lt_of_le_of_ne (dot_self_nonneg _) (Ne.symm (dot_self_ne_zero _ hne))
  simp only [equalize_pdist, len_v3v3, len_v3, hfm.1]
  linarith [Real.sqrt_pos.mpr hpos]

theorem equalize_pdist_mono (fm : FloatMath ℝ) (hfm : fm.Exact) (data : Nat → Fin 4 → ℝ)
    (hdist : ∀ k, k < MAX_BBONE_SUBDIV → qt_xyz (data k) ≠ qt_xyz (data (k + 1))) :
    ∀ k, k ≤ MAX_BBONE_SUBDIV → ∀ j, j < k → equalize_pdist fm data j < equalize_pdist fm data k := by
  intro k
  induction k with
  | zero => intro _ j hj; omega
  | succ k ih =>
    intro hk j hj
    have hs := equalize_pdist_step_pos fm hfm data k (hdist k (by omega))
    rcases Nat.lt_or_ge j k with h | h
    · exact lt_trans (ih (by omega) j h) hs
    · obtain rfl : j = k := by omega
      exact hs

/-- The search of `equalize_bbone_bezier` brackets the arc length of every iteration:
`pdist[nr - 1] <= a * ddist`, for a non-negative `ddist`. -/
theorem equalize_loop_lower (pdist : Nat → ℝ) (temp : Nat → Fin 4 → ℝ) (ddist : ℝ)
    (data : Nat → Fin 4 → ℝ) (h0 : pdist 0 = 0) (hd : 0 ≤ ddist) :
    ∀ n, pdist ((equalize_loop pdist temp ddist data n).1 - 1) ≤ (n : ℝ) * ddist := by
  intro n
  induction n with
  | zero =>
    show pdist 0 ≤ ((0 : Nat) : ℝ) * ddist
    rw [h0]
    simp
  | succ n ih =>
    rw [(equalize_loop_succ pdist temp ddist data n).1]
    obtain ⟨h1, _, _, h4⟩ := equalize_search_spec pdist (((n + 1 : Nat) : ℝ) * ddist) _
      (equalize_loop pdist temp ddist data n).1 rfl
    rcases Nat.lt_or_ge (equalize_loop pdist temp ddist data n).1
      (equalize_search pdist (((n + 1 : Nat) : ℝ) * ddist)
        (equalize_loop pdist temp ddist data n).1) with h | h
    · exact h4 h
    · have e : equalize_search pdist (((n + 1 : Nat) : ℝ) * ddist)
          (equalize_loop pdist temp ddist data n).1 = (equalize_loop pdist temp ddist data n).1 := by
        omega
      rw [e]
      have : (n : ℝ) * ddist ≤ ((n + 1 : Nat) : ℝ) * ddist := by
        push_cast
        nlinarith
      linarith

/-! ### Claim C35 -/

/-- C35: for `1 ≤ desired ≤ MAX_BBONE_SUBDIV` and samples whose consecutive xyz
positions are distinct, `equalize_bbone_bezier` keeps the point 0, sets the point
`desired` to the last sample, and sets every point `a` with `0 < a < desired` to the
linear interpolation, in all four components, of the two samples `nr - 1` and `nr`
that bracket the arc length `a · T / desired` (`T` the total length of the polyline,
`pdist` its running length), at that arc length (floats modelled as reals). -/
theorem C35_equalize_resample (fm : FloatMath ℝ) (hfm : fm.Exact) (data : Nat → Fin 4 → ℝ)
    (desired : Nat) (hd1 : 1 ≤ desired) (hd2 : desired ≤ MAX_BBONE_SUBDIV)
    (hdist : ∀ k, k < MAX_BBONE_SUBDIV → qt_xyz (data k) ≠ qt_xyz (data (k + 1))) :
    equalize_bbone_bezier fm data desired 0 = data 0 ∧
    equalize_bbone_bezier fm data desired desired = data MAX_BBONE_SUBDIV ∧
    equalize_pdist fm data 0 = 0 ∧
    (∀ k, equalize_pdist fm data (k + 1) = equalize_pdist fm data k
      + Real.sqrt (dot_v3v3 (sub_v3_v3v3 (qt_xyz (data (k + 1))) (qt_xyz (data k)))
          (sub_v3_v3v3 (qt_xyz (data (k + 1))) (qt_xyz (data k))))) ∧
    ∀ a, 0 < a → a < desired →
      ∃ nr, 1 ≤ nr ∧ nr ≤ MAX_BBONE_SUBDIV ∧
        equalize_pdist fm data (nr - 1)
          ≤ (a : ℝ) * equalize_pdist fm data MAX_BBONE_SUBDIV / (desired : ℝ) ∧
        (a : ℝ) * equalize_pdist fm data MAX_BBONE_SUBDIV / (desired : ℝ)
          < equalize_pdist fm data nr ∧
        equalize_bbone_bezier fm data desired a
          = fun k => data (nr - 1) k
            + ((a : ℝ) * equalize_pdist fm data MAX_BBONE_SUBDIV / (desired : ℝ)
                - equalize_pdist fm data (nr - 1))
              / (equalize_pdist fm data nr - equalize_pdist fm data (nr - 1))
              * (data nr k - data (nr - 1) k) := by
  obtain ⟨p0, pl, pa⟩ := equalize_bbone_bezier_points fm data desired
  have hmax : max desired 1 = desired := by omega
  rw [hmax] at pl
  refine ⟨p0, pl, rfl, ?_, ?_⟩
  · intro k
    simp only [equalize_pdist, len_v3v3, len_v3, hfm.1]
  intro a ha0 ha1
  obtain ⟨n, rfl⟩ : ∃ n, a = n + 1 := ⟨a - 1, by omega⟩
  have hmono := equalize_pdist_mono fm hfm data hdist
  have hT : 0 < equalize_pdist fm data MAX_BBONE_SUBDIV :=
    hmono MAX_BBONE_SUBDIV (le_refl _) 0 (by decide)
  have hdes : (0 : ℝ) < (desired : ℝ) := by exact_mod_cast hd1
  have hdd : 0 < equalize_pdist fm data MAX_BBONE_SUBDIV / (desired : ℝ) := div_pos hT hdes
  have hcalc : ((n + 1 : Nat) : ℝ) * equalize_pdist fm data MAX_BBONE_SUBDIV / (desired : ℝ)
      = ((n + 1 : Nat) : ℝ) * (equalize_pdist fm data MAX_BBONE_SUBDIV / (desired : ℝ)) := by
    ring
  rw [hcalc]
  generalize hdd_def : equalize_pdist fm data MAX_BBONE_SUBDIV / (desired : ℝ) = ddist at hdd ⊢
  have hlow := equalize_loop_lower (equalize_pdist fm data) data ddist data rfl hdd.le (n + 1)
  obtain ⟨hnr1, hnr2⟩ := equalize_loop_nr (equalize_pdist fm data) data ddist data (n + 1)
  have hstop : ¬ ((equalize_loop (equalize_pdist fm data) data ddist data (n + 1)).1
        < MAX_BBONE_SUBDIV ∧
      ((n + 1 : Nat) : ℝ) * ddist
        ≥ equalize_pdist fm data (equalize_loop (equalize_pdist fm data) data ddist data (n + 1)).1) := by
    rw [(equalize_loop_succ _ _ _ _ n).1]
    exact (equalize_search_spec _ _ _ _ rfl).2.2.1
  have hup : ((n + 1 : Nat) : ℝ) * ddist
      < equalize_pdist fm data (equalize_loop (equalize_pdist fm data) data ddist data (n + 1)).1 := by
    rcases Nat.lt_or_ge (equalize_loop (equalize_pdist fm data) data ddist data (n + 1)).1
      MAX_BBONE_SUBDIV with h | h
    · by_contra hc
      exact hstop ⟨h, not_lt.mp hc⟩
    · have e : (equalize_loop (equalize_pdist fm data) data ddist data (n + 1)).1
          = MAX_BBONE_SUBDIV := by omega
      rw [e, ← hdd_def]
      have hlt : ((n + 1 : Nat) : ℝ) < (desired : ℝ) := by exact_mod_cast ha1
      rw [← hcalc, div_lt_iff hdes]
      nlinarith
  rw [pa (n + 1) ha0 ha1, hdd_def, (equalize_loop_succ _ _ _ _ n).2, Function.update_same]
  generalize (equalize_loop (equalize_pdist fm data) data ddist data (n + 1)).1 = nr
    at hlow hnr1 hnr2 hup ⊢
  have hspan : equalize_pdist fm data (nr - 1) < equalize_pdist fm data nr :=
    hmono nr hnr2 (nr - 1) (by omega)
  refine ⟨nr, hnr1, hnr2, hlow, hup, ?_⟩
  funext k
  have hne : equalize_pdist fm data nr - equalize_pdist fm data (nr - 1) ≠ 0 := by linarith
  field_simp
  ring

/-- C35, witness: the polyline of the points `(k, 0, 0, 0)`, resampled to 4 points. -/
theorem C35_equalize_resample_witness :
    equalize_bbone_bezier
        (FloatMath.mk Real.sqrt Real.sin Real.cos (fun y x => Complex.arg ⟨x, y⟩))
        (fun k => ![(k : ℝ), 0, 0, 0]) 4 0 = ![((0 : Nat) : ℝ), 0, 0, 0] ∧
    equalize_bbone_bezier
        (FloatMath.mk Real.sqrt Real.sin Real.cos (fun y x => Complex.arg ⟨x, y⟩))
        (fun k => ![(k : ℝ), 0, 0, 0]) 4 4 = ![((MAX_BBONE_SUBDIV : Nat) : ℝ), 0, 0, 0] := by
  obtain ⟨h0, h4, _⟩ := C35_equalize_resample
    (FloatMath.mk Real.sqrt Real.sin Real.cos (fun y x => Complex.arg ⟨x, y⟩)) exact_mk
    (fun k => ![(k : ℝ), 0, 0, 0]) 4 (by decide) (by decide)
    (by
      intro k _ e
      have := congrFun e 0
      simp [qt_xyz] at this)
  exact ⟨h0, h4⟩

end Resample

/-! ## Theorems: the straight B-Bone -/

section ForwardDiff

variable {R : Type} [LinearOrderedField R]

theorem forward_diff_iterate (r0 r1 r2 r3 : R) :
    ∀ a : Nat, forward_diff_step^[a] (r0, r1 + r2 + r3, 2 * r2 + 6 * r3, 6 * r3)
      = (r0 + r1 * a + r2 * a ^ 2 + r3 * a ^ 3,
          r1 + r2 * (2 * a + 1) + r3 * (3 * a ^ 2 + 3 * a + 1),
          2 * r2 + r3 * (6 * a + 6), 6 * r3) := by
  intro a
  induction a with
  | zero =>
    simp only [Function.iterate_zero, id_eq, Nat.cast_zero, Prod.mk.injEq]
    refine ⟨by ring, by ring, by ring, trivial⟩
  | succ a ih =>
    rw [Function.iterate_succ_apply', ih]
    simp only [forward_diff_step, Nat.cast_succ, Prod.mk.injEq]
    refine ⟨by ring, by ring, by ring, trivial⟩

/-- The points of `BKE_curve_forward_diff_bezier` are the values of the cubic with the
forward-difference coefficients `rt0 .. rt3` at `0, 1, 2, ..`. -/
theorem forward_diff_bezier_eq (q0 q1 q2 q3 : R) (it a : Nat) :
    BKE_curve_forward_diff_bezier q0 q1 q2 q3 it a
      = q0 + 3 * (q1 - q0) / (it : R) * a + 3 * (q0 - 2 * q1 + q2) / ((it : R) * (it : R)) * a ^ 2
        + (q3 - q0 + 3 * (q1 - q2)) / ((it : R) * (it : R) * (it : R)) * a ^ 3 := by
  simp only [BKE_curve_forward_diff_bezier, forward_diff_iterate]

theorem forward_diff_bezier_zero (it a : Nat) :
    BKE_curve_forward_diff_bezier (0 : R) 0 0 0 it a = 0 := by
  rw [forward_diff_bezier_eq]
  simp

/-- The Y samples of the straight bone of length `L`. -/
theorem forward_diff_bezier_straight (L : R) (a : Nat) :
    BKE_curve_forward_diff_bezier 0 0 L L MAX_BBONE_SUBDIV a
      = L * (96 * (a : R) ^ 2 - 2 * (a : R) ^ 3) / 32768 := by
  rw [forward_diff_bezier_eq]
  simp only [MAX_BBONE_SUBDIV]
  push_cast
  ring

end ForwardDiff

section StraightHandles

variable {R : Type} [LinearOrderedField R]

/-- Without handle neighbours, ease, roll and curve offsets, both handle vectors and
both rolls of `BKE_pchan_bbone_handles_compute` are zero. -/
theorem handles_compute_straight (fm : FloatMath R) (circle : V3 R → V3 R → R)
    (param : BBoneSplineParameters R) (hds : param.do_scale = false)
    (hup : param.use_prev = false) (hun : param.use_next = false)
    (he1 : param.ease1 = 0) (he2 : param.ease2 = 0) (hr1 : param.roll1 = 0)
    (hr2 : param.roll2 = 0) (hc1 : param.curveInX = 0) (hc2 : param.curveInY = 0)
    (hc3 : param.curveOutX = 0) (hc4 : param.curveOutY = 0) :
    (∀ k, (BKE_pchan_bbone_handles_compute fm circle param true true).h1 k = 0) ∧
    (∀ k, (BKE_pchan_bbone_handles_compute fm circle param true true).h2 k = 0) ∧
    (BKE_pchan_bbone_handles_compute fm circle param true true).roll1 = 0 ∧
    (BKE_pchan_bbone_handles_compute fm circle param true true).roll2 = 0 := by
  simp only [BKE_pchan_bbone_handles_compute, hds, hup, hun, he1, he2, hr1, hr2, hc1, hc2, hc3,
    hc4, Bool.false_eq_true, if_false, if_true, zero_mul, neg_zero, mul_v3_fl, mul_zero,
    add_zero]
  refine ⟨?_, ?_, trivial, trivial⟩ <;> intro k <;> fin_cases k <;> rfl

end StraightHandles

section StraightSamples

variable {R : Type} [LinearOrderedField R]

theorem straight_step (L : R) (hL : 0 < L) (k : Nat) (hk : k < MAX_BBONE_SUBDIV) :
    straight_sample L k < straight_sample L (k + 1) := by
  have h0 : (0 : R) ≤ (k : R) := Nat.cast_nonneg k
  have h1 : (k : R) ≤ 31 := by
    have : k ≤ 31 := by
      simp only [MAX_BBONE_SUBDIV] at hk
      omega
    exact_mod_cast this
  have hd : straight_sample L (k + 1) - straight_sample L k
      = L * (6 * ((k : R) * (31 - (k : R))) + 94) / 32768 := by
    simp only [straight_sample]
    push_cast
    ring
  have hp : 0 < L * (6 * ((k : R) * (31 - (k : R))) + 94) / 32768 := by
    have : 0 ≤ (k : R) * (31 - (k : R)) := mul_nonneg h0 (by linarith)
    positivity
  linarith

theorem straight_first (L : R) : straight_sample L 0 = 0 := by
  simp [straight_sample]

theorem straight_last (L : R) : straight_sample L MAX_BBONE_SUBDIV = L := by
  simp only [straight_sample, MAX_BBONE_SUBDIV]
  push_cast
  ring

/-- The running length of the samples of the straight bone is their Y coordinate. -/
theorem straight_pdist (fm : FloatMath R) (hsqrt : ∀ x, 0 ≤ x → fm.sqrtf (x * x) = x) (L : R)
    (hL : 0 < L) :
    ∀ k, k ≤ MAX_BBONE_SUBDIV →
      equalize_pdist fm (fun a => ![0, straight_sample L a, 0, 0]) k = straight_sample L k := by
  intro k
  induction k with
  | zero =>
    intro _
    rw [straight_first]
    rfl
  | succ k ih =>
    intro hk
    have hs := straight_step L hL k (by omega)
    have hdot : dot_v3v3
        (sub_v3_v3v3 (qt_xyz ![0, straight_sample L (k + 1), 0, 0])
          (qt_xyz ![0, straight_sample L k, 0, 0]))
        (sub_v3_v3v3 (qt_xyz ![0, straight_sample L (k + 1), 0, 0])
          (qt_xyz ![0, straight_sample L k, 0, 0]))
        = (straight_sample L (k + 1) - straight_sample L k)
          * (straight_sample L (k + 1) - straight_sample L k) := by
      simp [dot_v3v3, sub_v3_v3v3, qt_xyz]
    have hq := hsqrt (straight_sample L (k + 1) - straight_sample L k) (by linarith)
    simp only [equalize_pdist, ih (by omega), len_v3v3, len_v3, hdot, hq]
    ring

/-- The point that an iteration of the loop of `equalize_bbone_bezier` writes for the
straight bone, whatever the value of `nr` between 1 and `MAX_BBONE_SUBDIV`. -/
theorem straight_point (L : R) (hL : 0 < L) (dist : R) (j : Nat) (hj : j < MAX_BBONE_SUBDIV) :
    (fun k : Fin 4 =>
      (straight_sample L (j + 1) - dist) / (straight_sample L (j + 1) - straight_sample L j)
        * (![0, straight_sample L j, 0, 0] : Fin 4 → R) k
      + (1 - (straight_sample L (j + 1) - dist)
          / (straight_sample L (j + 1) - straight_sample L j))
        * (![0, straight_sample L (j + 1), 0, 0] : Fin 4 → R) k)
      = ![0, dist, 0, 0] := by
  have hspan := straight_step L hL j hj
  generalize straight_sample L (j + 1) = y1 at hspan ⊢
  generalize straight_sample L j = y0 at hspan ⊢
  have hne : y1 - y0 ≠ 0 := by linarith
  ext k
  fin_cases k
  · simp
  · simp only [Fin.mk_one, Matrix.cons_val_one, Matrix.head_cons]
    field_simp
    ring
  · simp
  · simp

/-- The equalized points of the straight bone of length `L` with `n` segments: the
point `a` is `(0, a L / n, 0)` with roll 0. -/
theorem straight_equalized (fm : FloatMath R) (hsqrt : ∀ x, 0 ≤ x → fm.sqrtf (x * x) = x)
    (L : R) (hL : 0 < L) (n : Nat) (hn : 1 ≤ n) :
    ∀ a, a ≤ n →
      equalize_bbone_bezier fm (fun a => ![0, straight_sample L a, 0, 0]) n a
        = ![0, (a : R) * L / (n : R), 0, 0] := by
  intro a ha
  obtain ⟨p0, pl, pa⟩ := equalize_bbone_bezier_points fm
    (fun a => ![0, straight_sample L a, 0, 0]) n
  have hmax : max n 1 = n := by omega
  have hn0 : (n : R) ≠ 0 := by
    have : (0 : R) < (n : R) := by exact_mod_cast hn
    exact ne_of_gt this
  rw [hmax] at pl
  rcases Nat.eq_zero_or_pos a with h0 | h0
  · subst h0
    rw [p0, straight_first]
    simp
  rcases Nat.lt_or_ge a n with h1 | h1
  · obtain ⟨m, rfl⟩ : ∃ m, a = m + 1 := ⟨a - 1, by omega⟩
    have hpd := straight_pdist fm hsqrt L hL
    obtain ⟨hnr1, hnr2⟩ := equalize_loop_nr
      (equalize_pdist fm (fun a => ![0, straight_sample L a, 0, 0]))
      (fun a => ![0, straight_sample L a, 0, 0])
      (equalize_pdist fm (fun a => ![0, straight_sample L a, 0, 0]) MAX_BBONE_SUBDIV / (n : R))
      (fun a => ![0, straight_sample L a, 0, 0]) (m + 1)
    rw [pa (m + 1) h0 h1, (equalize_loop_succ _ _ _ _ m).2, Function.update_same]
    generalize (equalize_loop
      (equalize_pdist fm (fun a => ![0, straight_sample L a, 0, 0]))
      (fun a => ![0, straight_sample L a, 0, 0])
      (equalize_pdist fm (fun a => ![0, straight_sample L a, 0, 0]) MAX_BBONE_SUBDIV / (n : R))
      (fun a => ![0, straight_sample L a, 0, 0]) (m + 1)).1 = nr at hnr1 hnr2 ⊢
    obtain ⟨j, rfl⟩ : ∃ j, nr = j + 1 := ⟨nr - 1, by omega⟩
    rw [hpd (j + 1) hnr2, Nat.add_sub_cancel, hpd j (by omega), hpd MAX_BBONE_SUBDIV (le_refl _),
      straight_last, straight_point L hL _ j (by omega)]
    rw [mul_div_assoc]
  · obtain rfl : a = n := by omega
    rw [pl, straight_last, mul_div_assoc, mul_div_cancel₀ _ hn0]

end StraightSamples

section StraightBone

variable {R : Type} [LinearOrderedField R]

theorem bbone_scalefac_one (param : BBoneSplineParameters R) (a : Nat)
    (h1 : param.scaleIn = 1) (h2 : param.scaleOut = 1) : bbone_scalefac param a = 1 := by
  simp only [bbone_scalefac, h1, h2, sub_self, zero_mul, add_zero, mul_one]

/-- The matrix of a segment between two equalized points on the Y axis, without roll
and scale: the translation to the first point. -/
theorem bbone_segment_mat_straight (fm : FloatMath R)
    (hsqrt : ∀ x, 0 ≤ x → fm.sqrtf (x * x) = x) (hsin : fm.sinf 0 = 0) (hcos : fm.cosf 0 = 1)
    (param : BBoneSplineParameters R) (scalemat iscalemat : M4 R) (data : Nat → Fin 4 → R)
    (a : Nat) (y d : R) (hd : 0 < d) (hds : param.do_scale = false)
    (hsi : param.scaleIn = 1) (hso : param.scaleOut = 1)
    (h0 : data a = ![0, y, 0, 0]) (h1 : data (a + 1) = ![0, y + d, 0, 0]) :
    bbone_segment_mat fm param scalemat iscalemat data a
      = !![1, 0, 0, 0; 0, 1, 0, 0; 0, 0, 1, 0; 0, y, 0, 1] := by
  have hv : sub_v3_v3v3 (qt_xyz (![0, y + d, 0, 0] : Fin 4 → R)) (qt_xyz ![0, y, 0, 0])
      = ![0, d, 0] := by
    ext k
    fin_cases k <;> simp [sub_v3_v3v3, qt_xyz]
  have hm : vec_roll_to_mat3 fm ![0, d, 0] 0 = 1 :=
    (vec_roll_to_mat3_posY fm hsqrt hsin hcos d hd).1
  have hc : copy_m4_m3 (1 : M3 R) = 1 := by
    ext i j
    fin_cases i <;> fin_cases j <;> rfl
  have hr : (![0, y, 0, 0] : Fin 4 → R) 3 = 0 := rfl
  simp only [bbone_segment_mat, h0, h1, hv, hr, hm, hc, hds, Bool.false_eq_true, if_false,
    bbone_scalefac_one param a hsi hso, size_to_mat4_scalefac_one, mul_m4_m4m4, one_mul]
  rw [one_m4_eq]
  simp [m4_set_loc, qt_xyz, Matrix.vecHead, Matrix.vecTail]

/-! ### Claim C21 -/

/-- C21: for spline parameters of a bone of length `L > 0` with `n` segments
(`1 ≤ n ≤ MAX_BBONE_SUBDIV`), no handle neighbours, ease 0, zero roll and curve
offsets, scale-in/out 1 and no non-uniform pose scale,
`BKE_pchan_bbone_spline_compute` returns `n` and fills the matrices `0 .. n - 1` with
the identity rotation and the translations `(0, a L / n, 0)`. -/
theorem C21_straight_bbone (fm : FloatMath R) (hsqrt : ∀ x, 0 ≤ x → fm.sqrtf (x * x) = x)
    (hsin : fm.sinf 0 = 0) (hcos : fm.cosf 0 = 1) (circle : V3 R → V3 R → R)
    (param : BBoneSplineParameters R) (result_array : Nat → M4 R) (L : R) (hL : 0 < L)
    (hlen : param.length = L) (hn1 : 1 ≤ param.segments)
    (hn2 : param.segments ≤ MAX_BBONE_SUBDIV) (hds : param.do_scale = false)
    (hup : param.use_prev = false) (hun : param.use_next = false)
    (he1 : param.ease1 = 0) (he2 : param.ease2 = 0) (hr1 : param.roll1 = 0)
    (hr2 : param.roll2 = 0) (hc1 : param.curveInX = 0) (hc2 : param.curveInY = 0)
    (hc3 : param.curveOutX = 0) (hc4 : param.curveOutY = 0)
    (hsi : param.scaleIn = 1) (hso : param.scaleOut = 1) :
    (BKE_pchan_bbone_spline_compute fm circle param result_array).2.2 = param.segments ∧
    ∀ a, a < param.segments →
      (BKE_pchan_bbone_spline_compute fm circle param result_array).2.1 a
        = !![1, 0, 0, 0; 0, 1, 0, 0; 0, 0, 1, 0;
             0, (a : R) * L / (param.segments : R), 0, 1] := by
  obtain ⟨hh1, hh2, hro1, hro2⟩ := handles_compute_straight fm circle param hds hup hun he1 he2
    hr1 hr2 hc1 hc2 hc3 hc4
  have hmin : min param.segments MAX_BBONE_SUBDIV = param.segments := Nat.min_eq_left hn2
  have hdata : (fun a : Nat =>
      (![BKE_curve_forward_diff_bezier 0 0 0 0 MAX_BBONE_SUBDIV a,
        BKE_curve_forward_diff_bezier 0 0 L L MAX_BBONE_SUBDIV a,
        BKE_curve_forward_diff_bezier 0 0 0 0 MAX_BBONE_SUBDIV a,
        BKE_curve_forward_diff_bezier 0 0 0 0 MAX_BBONE_SUBDIV a] : Fin 4 → R))
      = fun a => ![0, straight_sample L a, 0, 0] := by
    funext a
    rw [forward_diff_bezier_zero, forward_diff_bezier_straight]
    rfl
  have hn0 : (0 : R) < (param.segments : R) := by exact_mod_cast hn1
  refine ⟨by simp only [BKE_pchan_bbone_spline_compute, hmin], ?_⟩
  intro a ha
  simp only [BKE_pchan_bbone_spline_compute, hmin, ha, if_true, hh1, hh2, hro1, hro2, hds,
    Bool.false_eq_true, if_false, hlen, add_zero, sub_self, mul_zero, hdata]
  have e0 := straight_equalized fm hsqrt L hL param.segments hn1 a (by omega)
  have e1 := straight_equalized fm hsqrt L hL param.segments hn1 (a + 1) (by omega)
  have e1b : ((a + 1 : Nat) : R) * L / (param.segments : R)
      = (a : R) * L / (param.segments : R) + L / (param.segments : R) := by
    push_cast
    ring
  rw [e1b] at e1
  exact bbone_segment_mat_straight fm hsqrt hsin hcos _ _ _ _ a _ _ (div_pos hL hn0) rfl hsi hso
    e0 e1

end StraightBone

section StraightBoneExamples

/-- C21, witness: the bone of length 2 with 4 segments: the segment origins are
(0,0,0), (0,1/2,0), (0,1,0), (0,3/2,0). -/
theorem C21_straight_bbone_witness :
    (BKE_pchan_bbone_spline_compute ratMath (fun _ _ => 0) (exampleSplineParams 4 1 1)
      (fun _ => 0)).2.2 = 4 ∧
    ∀ a, a < 4 →
      (BKE_pchan_bbone_spline_compute ratMath (fun _ _ => 0) (exampleSplineParams 4 1 1)
        (fun _ => 0)).2.1 a
        = !![1, 0, 0, 0; 0, 1, 0, 0; 0, 0, 1, 0; 0, (a : ℚ) * 2 / ((4 : Nat) : ℚ), 0, 1] :=
  C21_straight_bbone ratMath
    (fun x hx => by
      show Rat.sqrt (x * x) = x
      rw [Rat.sqrt_eq, abs_of_nonneg hx])
    rfl rfl (fun _ _ => 0) (exampleSplineParams 4 1 1) (fun _ => 0) 2 (by norm_num) rfl
    (by decide) (by decide) rfl rfl rfl rfl rfl rfl rfl rfl rfl rfl rfl rfl rfl

end StraightBoneExamples

/-! ## Theorems: the order of the channels after a rebuild -/

section PoseRebuildOrder

/-! ### Claim C33 -/

/-- C33: for the bone tree "A" with the child "B": from an empty pose
`BKE_pose_rebuild` makes the channels in the order A, B; from a pose that already
holds the channels in the order B, A it keeps that order, so that the channel of B,
whose parent is the channel "A", comes before the channel of its parent. -/
theorem C33_rebuild_order :
    (BKE_pose_rebuild_chanbase
      (⟨[Bone.mk (exampleBoneA ℚ) [Bone.mk (exampleBoneB ℚ) []]], 0, false⟩ : bArmature ℚ)
      []).map (fun pchan => (pchan.name, pchan.parent)) = [("A", none), ("B", some "A")] ∧
    (BKE_pose_rebuild_chanbase
      (⟨[Bone.mk (exampleBoneA ℚ) [Bone.mk (exampleBoneB ℚ) []]], 0, false⟩ : bArmature ℚ)
      [exampleChanB ℚ, exampleChanA ℚ]).map (fun pchan => (pchan.name, pchan.parent))
        = [("B", some "A"), ("A", none)] := by
  constructor
  · rfl
  · rfl

end PoseRebuildOrder

/-! ## Theorems: the envelope weight in rounded arithmetic -/

section EnvelopeRoundedTheorems

variable {R : Type} [LinearOrderedField R]

/-- With the identity for the rounding, `distfactor_to_bone_rounded` is
`distfactor_to_bone`, for a bone whose squared length is above the threshold of
`normalize_v3` and for a bone of length zero. -/
theorem distfactor_to_bone_rounded_id (fm : FloatMath R) (vec b1 b2 : V3 R)
    (rad1 rad2 rdist : R)
    (h : 1 / 10 ^ 35 < dot_v3v3 (sub_v3_v3v3 b2 b1) (sub_v3_v3v3 b2 b1) ∨
      (b1 = b2 ∧ fm.sqrtf 0 = 0)) :
    distfactor_to_bone_rounded id fm.sqrtf vec b1 b2 rad1 rad2 rdist
      = distfactor_to_bone fm vec b1 b2 rad1 rad2 rdist := by
  have hsub : ∀ a b : V3 R, sub_v3_v3v3_rounded id a b = sub_v3_v3v3 a b := fun _ _ => rfl
  have hdot : ∀ a b : V3 R, dot_v3v3_rounded id a b = dot_v3v3 a b := fun _ _ => rfl
  have hlen : ∀ a b : V3 R, len_squared_v3v3_rounded id a b = len_squared_v3v3 a b :=
    fun _ _ => rfl
  have hn : normalize_v3_rounded id fm.sqrtf (sub_v3_v3v3 b2 b1)
      = (normalize_v3_v3 fm (sub_v3_v3v3 b2 b1), len_v3 fm (sub_v3_v3v3 b2 b1)) := by
    rcases h with h | ⟨h, h0⟩
    · simp only [normalize_v3_rounded, hdot, id, gt_iff_lt, h, if_true, len_v3]
      congr 1
      funext i
      simp only [normalize_v3_v3]
      rw [mul_one_div]
    · subst h
      have hz : sub_v3_v3v3 b1 b1 = 0 := by
        ext k; simp [sub_v3_v3v3]
      have hd : dot_v3v3 (0 : V3 R) 0 = 0 := by simp [dot_v3v3]
      have hlt : ¬ ((0 : R) > 1 / 10 ^ 35) := not_lt.mpr (by positivity)
      simp only [normalize_v3_rounded, hdot, id, hz, hd, if_neg hlt, len_v3, h0]
      congr 1
      funext i
      simp [normalize_v3_v3]
  simp only [distfactor_to_bone_rounded, distfactor_dist_rounded, hsub, hdot, hlen, hn, id,
    distfactor_to_bone]
  split_ifs <;> rfl

end EnvelopeRoundedTheorems

section EnvelopeRoundedExamples

/-- C20, counterexample: the bone from the origin to (0, 1, 0) with radii 3 and
falloff distance `3·2^-24`, and the point (3, 1, 2^-10), all of them floats.  In
binary32 arithmetic `rad + rdist` rounds to `3 + 2^-22` and `sqrtf(dist_sq)` to the
same value, so the function returns `1 - 16/9` rounded, a negative number, while the
falloff profile `F(d, rad)` of the specification is not negative. -/
theorem C20_distfactor_counterexample :
    binary32 (1 / 1024) = 1 / 1024 ∧ binary32 (3 / 16777216) = 3 / 16777216 ∧
    distfactor_to_bone_rounded binary32 sqrtf32 ![3, 1, 1 / 1024] ![0, 0, 0] ![0, 1, 0]
      3 3 (3 / 16777216) = -(6524473 / 8388608) ∧
    0 ≤ envelope_falloff_spec
          (envelope_distance_spec
            (FloatMath.mk Real.sqrt Real.sin Real.cos (fun y x => Complex.arg ⟨x, y⟩))
            ![3, 1, 1 / 1024] ![0, 0, 0] ![0, 1, 0] 3 3).1
          (envelope_distance_spec
            (FloatMath.mk Real.sqrt Real.sin Real.cos (fun y x => Complex.arg ⟨x, y⟩))
            ![3, 1, 1 / 1024] ![0, 0, 0] ![0, 1, 0] 3 3).2 (3 / 16777216) :=
  ⟨by decide!, by decide!, by decide!, (falloff_spec_range _ _ _ (by norm_num)).1⟩

/-- C39, counterexample: in binary32 arithmetic, for the bone of length zero at the
origin with radii 3 and falloff distance `3·2^-24` and the point (3, 0, 2^-10), the
function returns `1 - 16/9` rounded, below 0; and for the bone from the origin to
(0, 1, 4) and the point (0, 1/2, 2) on its axis, the squared perpendicular distance
`hsqr - a * a` is `-2^-20`. -/
theorem C39_distfactor_range_counterexample :
    distfactor_to_bone_rounded binary32 sqrtf32 ![3, 0, 1 / 1024] ![0, 0, 0] ![0, 0, 0]
      3 3 (3 / 16777216) = -(6524473 / 8388608) ∧
    distfactor_to_bone_rounded binary32 sqrtf32 ![3, 0, 1 / 1024] ![0, 0, 0] ![0, 0, 0]
      3 3 (3 / 16777216) < 0 ∧
    (distfactor_dist_rounded binary32 sqrtf32 ![0, 1 / 2, 2] ![0, 0, 0] ![0, 1, 4] 1 1).1
      = -(1 / 1048576) :=
  ⟨by decide!, by decide!, by decide!⟩

end EnvelopeRoundedExamples

/-! ## Theorems: the quaternion of a rotation matrix -/

section RotationRelations

variable {R : Type} [LinearOrderedField R]

end RotationRelations

section QuatPivot

variable {R : Type} [LinearOrderedField R]

end QuatPivot

section QuatOfRotation

end QuatOfRotation

section AffineBlocks

variable {R : Type} [LinearOrderedField R]

end AffineBlocks

section DualQuatApply

variable {R : Type} [LinearOrderedField R]

end DualQuatApply

section DualQuatApplyExact

end DualQuatApplyExact

section DualQuatRigid

variable {R : Type} [LinearOrderedField R]

end DualQuatRigid

section DualQuatRigidExact

end DualQuatRigidExact

section DualQuatScaleAlgebra

variable {R : Type} [LinearOrderedField R]

end DualQuatScaleAlgebra

section DualQuatScaleAffine

variable {R : Type} [LinearOrderedField R]

end DualQuatScaleAffine

section DualQuatScaleExact

end DualQuatScaleExact

section DeformCache

variable {R : Type} [LinearOrderedField R]

end DeformCache

section QuaternionCache

variable {R : Type} [LinearOrderedField R]

end QuaternionCache

section QuaternionClaim

end QuaternionClaim

section QuaternionFixture

variable {R : Type} [LinearOrderedField R]

end QuaternionFixture

section QuaternionClaimExamples

end QuaternionClaimExamples

section QuaternionValues

variable {R : Type} [LinearOrderedField R]

end QuaternionValues

section QuaternionCounterexample

end QuaternionCounterexample

section QuaternionCounterexampleRun

end QuaternionCounterexampleRun

section QuaternionClaimCounterexample

end QuaternionClaimCounterexample

end Armature
